import Mathlib

/-!
Looking Glass: grid model, layout geometry and cell renderer of the multiview.

A shallow embedding of the grid model of `src/ui/grid-editor-widget.cpp`
(cell list, ownership map, selection, merge and reset), of the resize
operation of `src/ui/multiview-edit-dialog.cpp` / `src/ui/template-manage-dialog.cpp`,
of the layout and the grid lines of `src/ui/multiview-window.cpp`, of the fit
computation and the render paths of `src/render/multiview-renderer.cpp` and of
the default template of `src/core/config-manager.cpp`, with the properties of
the layout specification proved or refuted on it.

Conventions of the embedding.
* C++ `int` is `Int`.  Grid dimensions, coordinates and spans are far below
  `2^31` (the ownership map allocates `rows * cols` entries), so no arithmetic
  of the grid model wraps; its only use of `INT_MAX` (the start value of the
  bounding-box minimum) is kept as the constant `INT_MAX`.
* `GetScaleAndCenterPos` receives pixel sizes of any magnitude, so it keeps the
  32-bit range of `int`: the conversion `(int)` of its rounded product is
  `castToInt` and its `int` subtraction is `wrapInt`.  `calculateGridMetrics`
  forms the `int` products `gridCols * 16` and `gridRows * 9` exactly, which is
  the result of the source while both are at most `INT_MAX`.
* `QVector<T>` is `List T`; `QSet<QPoint>` is the list of its elements in the
  order in which the set iterates, without repetition (`List.Nodup`).
* A `for` loop over an integer interval is a fold over `intRange`; a loop that
  leaves the function with `return false` is `List.all`.
* Qt signals (`update`, `selectionChanged`, `cellsChanged`) do not touch the
  model and are left out.
* `float` and `double` values are rationals rounded to 24 and 53 bits; what
  libobs and Qt answer to a function (lookups by name, sizes, localised strings)
  is a parameter of its model.
-/

namespace LookingGlass

/-! ## Data model (`src/core/multiview-config.hpp`) -/

/-- Content types that can be displayed in a multiview cell (`enum class WidgetType`). -/
inductive WidgetType where
  | None
  | Preview
  | Program
  | Canvas
  | Scene
  | Source
  | Placeholder
  deriving DecidableEq, Repr

/-- Per-cell display and label configuration (`struct WidgetConfig`), with the
default member initialisers of the source.  The alignments are the Qt flag
values (`Qt::AlignHCenter = 0x0004`, `Qt::AlignBottom = 0x0040`), the colour is
`(r, g, b, alpha)`. -/
structure WidgetConfig where
  type : WidgetType := WidgetType.None
  sceneName : String := ""
  sourceName : String := ""
  placeholderPath : String := ""
  canvasName : String := ""
  labelVisible : Bool := true
  labelHAlign : Nat := 4
  labelVAlign : Nat := 64
  labelText : String := ""
  labelFont : String := ""
  labelBgColor : Nat × Nat × Nat × Nat := (0, 0, 0, 128)
  deriving DecidableEq, Repr

/-- Position and span of a single cell within the grid (`struct CellConfig`). -/
structure CellConfig where
  row : Int := 0
  col : Int := 0
  rowSpan : Int := 1
  colSpan : Int := 1
  widget : WidgetConfig := {}
  deriving DecidableEq, Repr

/-- A grid position as Qt stores it: `x` is the column, `y` is the row. -/
structure QPoint where
  x : Int
  y : Int
  deriving DecidableEq, Repr

/-- The largest value of a 32-bit `int`. -/
def INT_MAX : Int := 2147483647

/-- The model state of `GridEditorWidget` (`src/ui/grid-editor-widget.hpp`):
`rows_`, `cols_`, `cells_`, `ownership_` (`[row][col]` to index into `cells_`,
`-1` = empty) and `selectedPositions_`. -/
structure GridEditorWidget where
  rows_ : Int := 4
  cols_ : Int := 4
  cells_ : List CellConfig := []
  ownership_ : List (List Int) := []
  selectedPositions_ : List QPoint := []
  deriving DecidableEq, Repr

/-! ## Loops and the ownership map -/

/-- The values taken by `for (int x = lo; x < hi; x++)`. -/
def intRange (lo hi : Int) : List Int :=
  (List.range (hi - lo).toNat).map (fun (k : Nat) => lo + (k : Int))

/-- The assignment `ownership_[r][c] = i`.  The loops of `rebuildOwnership` bound
`r` and `c` from above only; an index below zero is outside the vector and the
assignment is dropped here (a layout with cell origins at or above zero never
produces one). -/
def setOwner (own : List (List Int)) (r c i : Int) : List (List Int) :=
  if 0 ≤ r ∧ 0 ≤ c then own.modify (fun line => line.set c.toNat i) r.toNat else own

/-- The body of the loop over `cells_` in `rebuildOwnership`: the two nested
loops `r < cell.row + cell.rowSpan && r < rows_`, `c < cell.col + cell.colSpan && c < cols_`. -/
def markCell (rows cols : Int) (own : List (List Int)) (i : Int) (cell : CellConfig) :
    List (List Int) :=
  (intRange cell.row (min (cell.row + cell.rowSpan) rows)).foldl
    (fun own1 r =>
      (intRange cell.col (min (cell.col + cell.colSpan) cols)).foldl
        (fun own2 c => setOwner own2 r c i) own1)
    own

/-- The map computed by `rebuildOwnership`: `rows` lines of `cols` entries `-1`,
then every cell, in list order, writes its index over its span. -/
def buildOwnership (rows cols : Int) (cells : List CellConfig) : List (List Int) :=
  cells.enum.foldl (fun own ic => markCell rows cols own (ic.1 : Int) ic.2)
    (List.replicate rows.toNat (List.replicate cols.toNat (-1 : Int)))

/-- `GridEditorWidget::rebuildOwnership`. -/
def rebuildOwnership (w : GridEditorWidget) : GridEditorWidget :=
  { w with ownership_ := buildOwnership w.rows_ w.cols_ w.cells_ }

/-- `GridEditorWidget::ownerAt`. -/
def ownerAt (w : GridEditorWidget) (row col : Int) : Int :=
  if row < 0 ∨ row ≥ w.rows_ ∨ col < 0 ∨ col ≥ w.cols_ then -1
  else (w.ownership_.getD row.toNat []).getD col.toNat (-1)

/-- `GridEditorWidget::setGrid`. -/
def setGrid (w : GridEditorWidget) (rows cols : Int) (cells : List CellConfig) :
    GridEditorWidget :=
  rebuildOwnership
    { w with rows_ := max 1 rows, cols_ := max 1 cols, cells_ := cells, selectedPositions_ := [] }

/-- The widget as its constructor leaves it: the default members, then
`rebuildOwnership`. -/
def GridEditorWidget.init : GridEditorWidget :=
  rebuildOwnership {}

/-! ## Selection queries -/

/-- `GridEditorWidget::selectedCellIndex`: `-1` for the empty selection, else the
owner of the first position of the iteration if every selected position has that
owner, else `-1`. -/
def selectedCellIndex (w : GridEditorWidget) : Int :=
  match w.selectedPositions_ with
  | [] => -1
  | first :: _ =>
    let idx := ownerAt w first.y first.x
    if w.selectedPositions_.all (fun p => decide (ownerAt w p.y p.x = idx)) then idx else -1

/-- The four running values `minR, maxR, minC, maxC` of the bounding-rectangle loop. -/
structure Bounds where
  minR : Int
  maxR : Int
  minC : Int
  maxC : Int
  deriving DecidableEq, Repr

/-- The bounding-rectangle loop shared by `canMergeSelected`, `mergeSelected` and
`canResetSelected`: start from `INT_MAX, 0, INT_MAX, 0` and take `qMin`/`qMax`
with every selected position. -/
def boundingRect (sel : List QPoint) : Bounds :=
  sel.foldl
    (fun b p =>
      { minR := min b.minR p.y, maxR := max b.maxR p.y,
        minC := min b.minC p.x, maxC := max b.maxC p.x })
    { minR := INT_MAX, maxR := 0, minC := INT_MAX, maxC := 0 }

/-- The set `touchedCells` / `toRemove`: the owners `idx >= 0` of the selected
positions, each once. -/
def touchedCells (w : GridEditorWidget) : List Int :=
  ((w.selectedPositions_.map (fun p => ownerAt w p.y p.x)).filter (fun idx => decide (idx ≥ 0))).dedup

/-- The loop "all positions in bounding rect must be selected". -/
def rectSelected (sel : List QPoint) (b : Bounds) : Bool :=
  (intRange b.minR (b.maxR + 1)).all fun r =>
    (intRange b.minC (b.maxC + 1)).all fun c => sel.contains { x := c, y := r }

/-- The loop "any existing merged cell must be fully inside the selection".
`cells_[idx]` is read with a default: every owner stored in the map is an index
of `cells_`. -/
def touchedInside (w : GridEditorWidget) : Bool :=
  (touchedCells w).all fun idx =>
    let cell := w.cells_.getD idx.toNat {}
    (intRange cell.row (cell.row + cell.rowSpan)).all fun r =>
      (intRange cell.col (cell.col + cell.colSpan)).all fun c =>
        w.selectedPositions_.contains { x := c, y := r }

/-- `GridEditorWidget::canMergeSelected`. -/
def canMergeSelected (w : GridEditorWidget) : Bool :=
  if w.selectedPositions_.length < 2 then false
  else
    let b := boundingRect w.selectedPositions_
    let expected := (b.maxR - b.minR + 1) * (b.maxC - b.minC + 1)
    if (w.selectedPositions_.length : Int) ≠ expected then false
    else if !rectSelected w.selectedPositions_ b then false
    else touchedInside w

/-- The removal loop of `mergeSelected` and `resetSelected`: the indices sorted
descending (`std::sort` with `std::greater<int>`), then `cells_.removeAt(idx)`
for each of them in that order. -/
def removeCells (cells : List CellConfig) (toRemove : List Int) : List CellConfig :=
  (toRemove.insertionSort (fun a b => a ≥ b)).foldl (fun cs idx => cs.eraseIdx idx.toNat) cells

/-- `GridEditorWidget::mergeSelected`. -/
def mergeSelected (w : GridEditorWidget) : GridEditorWidget :=
  if !canMergeSelected w then w
  else
    let b := boundingRect w.selectedPositions_
    let merged : CellConfig :=
      { row := b.minR, col := b.minC, rowSpan := b.maxR - b.minR + 1,
        colSpan := b.maxC - b.minC + 1 }
    rebuildOwnership
      { w with cells_ := removeCells w.cells_ (touchedCells w) ++ [merged],
               selectedPositions_ := [] }

/-- `GridEditorWidget::canResetSelected`. -/
def canResetSelected (w : GridEditorWidget) : Bool :=
  if w.selectedPositions_.isEmpty then false
  else if selectedCellIndex w ≥ 0 then true
  else
    let b := boundingRect w.selectedPositions_
    let expected := (b.maxR - b.minR + 1) * (b.maxC - b.minC + 1)
    if (w.selectedPositions_.length : Int) ≠ expected then false
    else if !rectSelected w.selectedPositions_ b then false
    else touchedInside w

/-- `GridEditorWidget::resetSelected`: the fast path on a single `1 x 1` cell
clears the widget in place (and keeps the selection); the mass reset removes the
touched cells and appends one default cell per selected position. -/
def resetSelected (w : GridEditorWidget) : GridEditorWidget :=
  if !canResetSelected w then w
  else
    let singleIdx := selectedCellIndex w
    let cell := w.cells_.getD singleIdx.toNat {}
    if singleIdx ≥ 0 ∧ singleIdx < (w.cells_.length : Int) ∧ cell.rowSpan = 1 ∧ cell.colSpan = 1 then
      rebuildOwnership { w with cells_ := w.cells_.set singleIdx.toNat { cell with widget := {} } }
    else
      rebuildOwnership
        { w with cells_ := removeCells w.cells_ (touchedCells w) ++
                   w.selectedPositions_.map (fun p => { row := p.y, col := p.x }),
                 selectedPositions_ := [] }

/-- `GridEditorWidget::setWidgetForSelected`. -/
def setWidgetForSelected (w : GridEditorWidget) (widget : WidgetConfig) : GridEditorWidget :=
  let idx := selectedCellIndex w
  if idx ≥ 0 ∧ idx < (w.cells_.length : Int) then
    { w with cells_ := w.cells_.set idx.toNat { w.cells_.getD idx.toNat {} with widget := widget } }
  else w

/-- `GridEditorWidget::clearSelection`. -/
def clearSelection (w : GridEditorWidget) : GridEditorWidget :=
  { w with selectedPositions_ := [] }

/-! ## Resize (`MultiviewEditDialog::onGridSizeChanged`) -/

/-- The assignment `occupied[r][col] = true`, with the same treatment of an index
below zero as `setOwner`. -/
def setOccupied (occ : List (List Bool)) (r c : Int) : List (List Bool) :=
  if 0 ≤ r ∧ 0 ≤ c then occ.modify (fun line => line.set c.toNat true) r.toNat else occ

/-- The span clamp of the resize loop: `rowSpan` and `colSpan` are cut to end at
the new bounds. -/
def clampCell (newRows newCols : Int) (cell : CellConfig) : CellConfig :=
  let c1 : CellConfig :=
    if cell.row + cell.rowSpan > newRows then { cell with rowSpan := newRows - cell.row } else cell
  if c1.col + c1.colSpan > newCols then { c1 with colSpan := newCols - c1.col } else c1

/-- One pass of the loop over `oldCells`: a cell with `row < newRows` and
`col < newCols` is clamped, appended to `newCells` and marked in `occupied`;
any other cell is skipped. -/
def keepCell (newRows newCols : Int) (acc : List CellConfig × List (List Bool))
    (cell : CellConfig) : List CellConfig × List (List Bool) :=
  if cell.row < newRows ∧ cell.col < newCols then
    let c := clampCell newRows newCols cell
    (acc.1 ++ [c],
      (intRange c.row (c.row + c.rowSpan)).foldl
        (fun occ1 r =>
          (intRange c.col (c.col + c.colSpan)).foldl (fun occ2 col => setOccupied occ2 r col) occ1)
        acc.2)
  else acc

/-- The last loop of the resize: one default `1 x 1` cell for every position
whose `occupied` entry is false, rows outermost. -/
def fillUnoccupied (newRows newCols : Int) (occ : List (List Bool))
    (newCells : List CellConfig) : List CellConfig :=
  (intRange 0 newRows).foldl
    (fun acc1 r =>
      (intRange 0 newCols).foldl
        (fun acc2 c =>
          if !((occ.getD r.toNat []).getD c.toNat false) then
            acc2 ++ [{ row := r, col := c, rowSpan := 1, colSpan := 1 }]
          else acc2)
        acc1)
    newCells

/-- The cell list `newCells` that the resize builds from `oldCells`. -/
def resizeCells (newRows newCols : Int) (oldCells : List CellConfig) : List CellConfig :=
  let kept := oldCells.foldl (keepCell newRows newCols)
    ([], List.replicate newRows.toNat (List.replicate newCols.toNat false))
  fillUnoccupied newRows newCols kept.2 kept.1

/-- `MultiviewEditDialog::onGridSizeChanged` on the editor state (the lambda of
`ManageTemplatesDialog::onEdit` is the same code): nothing happens when the size
is unchanged, else the rebuilt cell list is handed to `setGrid`. -/
def onGridSizeChanged (w : GridEditorWidget) (newRows newCols : Int) : GridEditorWidget :=
  if newRows = w.rows_ ∧ newCols = w.cols_ then w
  else setGrid w newRows newCols (resizeCells newRows newCols w.cells_)

/-! ## The tiling invariant -/

/-- Position `(r, c)` lies in the span of `cell`. -/
def inSpan (cell : CellConfig) (r c : Int) : Prop :=
  cell.row ≤ r ∧ r < cell.row + cell.rowSpan ∧ cell.col ≤ c ∧ c < cell.col + cell.colSpan

instance (cell : CellConfig) (r c : Int) : Decidable (inSpan cell r c) := by
  unfold inSpan; infer_instance

/-- A valid grid layout: every span is at least `1 x 1` and lies inside
`[0,rows) x [0,cols)`, every position of the grid is covered by a cell, and no
position is covered by two cells. -/
structure ValidLayout (rows cols : Int) (cells : List CellConfig) : Prop where
  spans : ∀ cell ∈ cells, 1 ≤ cell.rowSpan ∧ 1 ≤ cell.colSpan
  inside : ∀ cell ∈ cells,
    0 ≤ cell.row ∧ 0 ≤ cell.col ∧ cell.row + cell.rowSpan ≤ rows ∧ cell.col + cell.colSpan ≤ cols
  covered : ∀ r c : Int, 0 ≤ r → r < rows → 0 ≤ c → c < cols →
    ∃ i, ∃ h : i < cells.length, inSpan (cells.get ⟨i, h⟩) r c
  disjoint : ∀ (i j : Nat) (hi : i < cells.length) (hj : j < cells.length) (r c : Int),
    inSpan (cells.get ⟨i, hi⟩) r c → inSpan (cells.get ⟨j, hj⟩) r c → i = j

/-- An executable test of `ValidLayout`: every cell is at least `1 x 1` and inside
the grid, every grid position is in some span, and the spans of any two cells of
the list are apart in rows or in columns. -/
def validLayoutCheck (rows cols : Int) (cells : List CellConfig) : Bool :=
  cells.all (fun cell =>
    decide (1 ≤ cell.rowSpan ∧ 1 ≤ cell.colSpan ∧ 0 ≤ cell.row ∧ 0 ≤ cell.col ∧
      cell.row + cell.rowSpan ≤ rows ∧ cell.col + cell.colSpan ≤ cols)) &&
  ((intRange 0 rows).all fun r =>
    (intRange 0 cols).all fun c => cells.any (fun cell => decide (inSpan cell r c))) &&
  decide (cells.Pairwise (fun a b =>
    a.row + a.rowSpan ≤ b.row ∨ b.row + b.rowSpan ≤ a.row ∨
    a.col + a.colSpan ≤ b.col ∨ b.col + b.colSpan ≤ a.col))

/-! ## Vocabulary of the selection properties -/

/-- The state of a widget between two operations: the stored map is the one
`rebuildOwnership` computes from the cells, the selection holds no position twice
and only positions of the grid, and the dimensions are values of an `int`. -/
structure Consistent (w : GridEditorWidget) : Prop where
  synced : w.ownership_ = buildOwnership w.rows_ w.cols_ w.cells_
  nodup : w.selectedPositions_.Nodup
  inGrid : ∀ p ∈ w.selectedPositions_, 0 ≤ p.y ∧ p.y < w.rows_ ∧ 0 ≤ p.x ∧ p.x < w.cols_
  intRows : w.rows_ ≤ INT_MAX
  intCols : w.cols_ ≤ INT_MAX

/-- The rectangle `b` is the bounding box of the selection: every selected
position lies in it and each of its four sides is reached by a selected position. -/
def IsBoundingBox (sel : List QPoint) (b : Bounds) : Prop :=
  (∀ p ∈ sel, b.minR ≤ p.y ∧ p.y ≤ b.maxR ∧ b.minC ≤ p.x ∧ p.x ≤ b.maxC) ∧
  (∃ p ∈ sel, p.y = b.minR) ∧ (∃ p ∈ sel, p.y = b.maxR) ∧
  (∃ p ∈ sel, p.x = b.minC) ∧ (∃ p ∈ sel, p.x = b.maxC)

/-- The selection is a filled rectangle: its size equals
`(maxRow - minRow + 1) * (maxCol - minCol + 1)` of its bounding box. -/
def FilledRect (sel : List QPoint) : Prop :=
  ∃ b : Bounds, IsBoundingBox sel b ∧
    (sel.length : Int) = (b.maxR - b.minR + 1) * (b.maxC - b.minC + 1)

/-- Cell `i` is touched by the selection: it owns a selected position. -/
def Touched (w : GridEditorWidget) (i : Nat) : Prop :=
  ∃ p ∈ w.selectedPositions_, ownerAt w p.y p.x = (i : Int)

/-- Every cell touched by the selection has its entire span inside the selection. -/
def TouchedContained (w : GridEditorWidget) : Prop :=
  ∀ (i : Nat) (hi : i < w.cells_.length), Touched w i →
    ∀ r c : Int, inSpan (w.cells_.get ⟨i, hi⟩) r c → ({ x := c, y := r } : QPoint) ∈ w.selectedPositions_

/-- The selection consists of the complete span of one cell. -/
def SingleWholeCell (w : GridEditorWidget) : Prop :=
  ∃ (i : Nat) (hi : i < w.cells_.length), ∀ q : QPoint,
    q ∈ w.selectedPositions_ ↔ inSpan (w.cells_.get ⟨i, hi⟩) q.y q.x

/-- Every selected position is owned by one and the same cell. -/
def SameOwner (w : GridEditorWidget) : Prop :=
  ∃ i : Nat, ∀ p ∈ w.selectedPositions_, ownerAt w p.y p.x = (i : Int)

/-- The cells that own no selected position, in the order of `cells_`. -/
def untouchedCells (w : GridEditorWidget) : List CellConfig :=
  (w.cells_.enum.filter (fun ic =>
    !(w.selectedPositions_.any fun p => decide (ownerAt w p.y p.x = (ic.1 : Int))))).map Prod.snd

/-- The selection lies in one cell and that cell is `1 x 1`. -/
def SelectionIsUnitCell (w : GridEditorWidget) : Prop :=
  ∃ (i : Nat) (hi : i < w.cells_.length),
    (∀ p ∈ w.selectedPositions_, ownerAt w p.y p.x = (i : Int)) ∧
    (w.cells_.get ⟨i, hi⟩).rowSpan = 1 ∧ (w.cells_.get ⟨i, hi⟩).colSpan = 1

/-- The spans of two cells have no position in common. -/
def SpansApart (a b : CellConfig) : Prop :=
  ∀ r c : Int, inSpan a r c → ¬ inSpan b r c

/-- A cell is at least `1 x 1` and lies inside `[0,rows) x [0,cols)`. -/
def CellInGrid (rows cols : Int) (cell : CellConfig) : Prop :=
  1 ≤ cell.rowSpan ∧ 1 ≤ cell.colSpan ∧ 0 ≤ cell.row ∧ 0 ≤ cell.col ∧
    cell.row + cell.rowSpan ≤ rows ∧ cell.col + cell.colSpan ≤ cols

/-- The old cells that the resize retains: those with origin inside the new
bounds, in the old order, with their spans clamped. -/
def keptCells (newRows newCols : Int) (oldCells : List CellConfig) : List CellConfig :=
  (oldCells.filter (fun cell => decide (cell.row < newRows ∧ cell.col < newCols))).map
    (clampCell newRows newCols)

/-- One default `1 x 1` cell for every position of the new grid, rows outermost,
that lies in the span of no cell of `kept`. -/
def freshCells (newRows newCols : Int) (kept : List CellConfig) : List CellConfig :=
  ((List.product (intRange 0 newRows) (intRange 0 newCols)).filter
    (fun rc => !(kept.any fun cell => decide (inSpan cell rc.1 rc.2)))).map
    (fun rc => ({ row := rc.1, col := rc.2, rowSpan := 1, colSpan := 1 } : CellConfig))

/-! ## Example states -/

/-- A `1 x 1` grid with its one default cell, selected. -/
def stateOneCell : GridEditorWidget :=
  rebuildOwnership
    { rows_ := 1, cols_ := 1, cells_ := [{}], selectedPositions_ := [{ x := 0, y := 0 }] }

/-- A `1 x 2` grid of two `1 x 1` cells, both selected. -/
def statePair : GridEditorWidget :=
  rebuildOwnership
    { rows_ := 1, cols_ := 2, cells_ := [{ row := 0, col := 0 }, { row := 0, col := 1 }],
      selectedPositions_ := [{ x := 0, y := 0 }, { x := 1, y := 0 }] }

/-- A `1 x 2` grid holding one merged `1 x 2` cell, of which only the left
position is selected (what a click on the merged cell selects). -/
def stateMergedClick : GridEditorWidget :=
  rebuildOwnership
    { rows_ := 1, cols_ := 2, cells_ := [{ row := 0, col := 0, rowSpan := 1, colSpan := 2 }],
      selectedPositions_ := [{ x := 0, y := 0 }] }

/-- A `2 x 2` grid of four `1 x 1` cells with an L-shaped selection
`(0,0), (1,0), (1,1)` (rows first). -/
def stateEll : GridEditorWidget :=
  rebuildOwnership
    { rows_ := 2, cols_ := 2,
      cells_ := [{ row := 0, col := 0 }, { row := 0, col := 1 },
                 { row := 1, col := 0 }, { row := 1, col := 1 }],
      selectedPositions_ := [{ x := 0, y := 0 }, { x := 0, y := 1 }, { x := 1, y := 1 }] }

/-- The geometry of a cell: `(row, col, rowSpan, colSpan)`. -/
def cellGeometry (cell : CellConfig) : Int × Int × Int × Int :=
  (cell.row, cell.col, cell.rowSpan, cell.colSpan)

/-- The stored ownership map is the one derived from the current rows, cols and
cells. -/
def InStep (w : GridEditorWidget) : Prop :=
  w.ownership_ = buildOwnership w.rows_ w.cols_ w.cells_

/-- The cell with its content replaced by the default `WidgetConfig()`. -/
def clearWidget (cell : CellConfig) : CellConfig :=
  { cell with widget := {} }

/-- The state after the mouse events have made `sel` the selection
(`mousePressEvent` / `mouseMoveEvent` change `selectedPositions_` and the drag
flags only). -/
def withSelection (w : GridEditorWidget) (sel : List QPoint) : GridEditorWidget :=
  { w with selectedPositions_ := sel }

/-! ## Floating-point arithmetic

`float` and `double` are IEEE-754 binary32 and binary64 with round-to-nearest-even,
as on the platforms the plugin is built for. A floating-point value is the
rational number it denotes. Every operation rounds its exact result to the
precision of its type (`toFloat`: 24 significant bits, `toDouble`: 53). The
exponent range is not limited: the quantities met here are quotients and products
of pixel sizes, far inside the normal range of both types, so no result
overflows or is subnormal. Division by zero (infinity or NaN in the source) does
not arise for the positive sizes that the properties below consider; the
embedding gives `0` for it. -/

/-- Round to the nearest integer, ties to the even integer. -/
def roundHalfEven (q : ℚ) : ℤ :=
  if 2 * (q - ⌊q⌋) < 1 then ⌊q⌋
  else if 1 < 2 * (q - ⌊q⌋) then ⌊q⌋ + 1
  else if ⌊q⌋ % 2 = 0 then ⌊q⌋ else ⌊q⌋ + 1

/-- The number with `p` significant bits nearest to `q` (ties to even): with
`2^e <= |q| < 2^(e+1)` the result is the multiple of `2^(e-(p-1))` nearest to `q`. -/
def fpRound (p : ℕ) (q : ℚ) : ℚ :=
  if q = 0 then 0
  else
    (roundHalfEven (q / (2 : ℚ) ^ (Int.log 2 |q| - ((p : ℤ) - 1))) : ℚ) *
      (2 : ℚ) ^ (Int.log 2 |q| - ((p : ℤ) - 1))

/-- Rounding to `float` (binary32). -/
def toFloat (q : ℚ) : ℚ := fpRound 24 q

/-- Rounding to `double` (binary64). -/
def toDouble (q : ℚ) : ℚ := fpRound 53 q

/-- The function `std::round(x)`: nearest integer, halves away from zero. The
result is an integer-valued `double`; it is kept as the integer it denotes. -/
def stdRound (q : ℚ) : ℤ :=
  if 0 ≤ q then ⌊q + 1 / 2⌋ else ⌈q - 1 / 2⌉

/-- The smallest value of a 32-bit `int`. -/
def INT_MIN : Int := -2147483648

/-- The conversion `(int)d` of an integer-valued `double` to a 32-bit `int`. A
value inside the range of `int` converts exactly. For a value outside the range
the C++ standard leaves the conversion undefined; the instruction that the
compilers emit on x86-64 (`cvttsd2si`) answers `INT_MIN` then, which is the
value taken here. -/
def castToInt (z : Int) : Int :=
  if INT_MIN ≤ z ∧ z ≤ INT_MAX then z else INT_MIN

/-- The 32-bit `int` that holds the exact result `z` of an addition or a
subtraction of two `int` values: `z` itself inside the range, and `z` reduced
modulo `2^32` into the range (two's complement wrap-around, as the hardware
computes it) outside. -/
def wrapInt (z : Int) : Int :=
  (z + 2147483648) % 4294967296 - 2147483648

/-- The conversion `(int)x` of a floating-point value: truncation toward zero. -/
def toInt (q : ℚ) : ℤ :=
  if 0 ≤ q then ⌊q⌋ else ⌈q⌉

/-! ## Geometry library -/

/-- The five results of `GetScaleAndCenterPos`. -/
structure ScaleAndCenter where
  x : Int
  y : Int
  scale : ℚ
  scaledCX : Int
  scaledCY : Int
  deriving DecidableEq

/-- `GetScaleAndCenterPos` (`src/render/multiview-renderer.cpp`): the aspects are
compared as `double`, the scale is a `float` quotient, the scaled size is
`(int)std::round((double)base * scale)` clamped to the window, and the remainder
`window - scaled`, an `int` subtraction, is halved with integer division. A
`float` converts to `double` without change. The arguments are `int` values,
so the embedding is meant for arguments between `INT_MIN` and `INT_MAX`. -/
def GetScaleAndCenterPos (baseCX baseCY windowCX windowCY : Int) : ScaleAndCenter :=
  let windowAspect := toDouble (toDouble windowCX / toDouble windowCY)
  let baseAspect := toDouble (toDouble baseCX / toDouble baseCY)
  if windowAspect > baseAspect then
    let scale := toFloat (toFloat windowCY / toFloat baseCY)
    let scaledCY := windowCY
    let rounded := castToInt (stdRound (toDouble (toDouble baseCX * scale)))
    let scaledCX := if rounded > windowCX then windowCX else rounded
    { x := (wrapInt (windowCX - scaledCX)).tdiv 2, y := (wrapInt (windowCY - scaledCY)).tdiv 2,
      scale := scale, scaledCX := scaledCX, scaledCY := scaledCY }
  else
    let scale := toFloat (toFloat windowCX / toFloat baseCX)
    let scaledCX := windowCX
    let rounded := castToInt (stdRound (toDouble (toDouble baseCY * scale)))
    let scaledCY := if rounded > windowCY then windowCY else rounded
    { x := (wrapInt (windowCX - scaledCX)).tdiv 2, y := (wrapInt (windowCY - scaledCY)).tdiv 2,
      scale := scale, scaledCX := scaledCX, scaledCY := scaledCY }

/-- The six results of `calculateGridMetrics`. -/
structure GridMetrics where
  gridW : Int
  gridH : Int
  offsetX : Int
  offsetY : Int
  cellW : ℚ
  cellH : ℚ
  deriving DecidableEq

/-- `MultiviewWindow::calculateGridMetrics` for a configuration of
`gridRows x gridCols` in a window of `totalW x totalH` pixels; all the
floating-point steps are `float` operations. The products `gridCols * 16` and
`gridRows * 9` are `int` products in the source and exact products here: the
two agree while both products are at most `INT_MAX` (`wrapInt` leaves them
unchanged). The spin boxes of the dialogs keep rows and columns in `1 .. 16`. -/
def calculateGridMetrics (gridRows gridCols totalW totalH : Int) : GridMetrics :=
  let availableW := totalW - 2
  let availableH := totalH - 2
  let gridAspect := toFloat (toFloat ((gridCols * 16 : Int) : ℚ) / toFloat ((gridRows * 9 : Int) : ℚ))
  let availableAspect := toFloat (toFloat availableW / toFloat availableH)
  let gridW0 : Int :=
    if availableAspect > gridAspect then toInt (toFloat (toFloat availableH * gridAspect))
    else availableW
  let gridH0 : Int :=
    if availableAspect > gridAspect then availableH
    else toInt (toFloat (toFloat availableW / gridAspect))
  let cellW0 := toFloat (toFloat gridW0 / toFloat gridCols)
  let cellH0 := toFloat (toFloat gridH0 / toFloat gridRows)
  let intCellW := toInt cellW0
  let intCellH := toInt cellH0
  let gridW := intCellW * gridCols
  let gridH := intCellH * gridRows
  { gridW := gridW, gridH := gridH,
    offsetX := (totalW - gridW).tdiv 2, offsetY := (totalH - gridH).tdiv 2,
    cellW := toFloat intCellW, cellH := toFloat intCellH }

/-! ## Pixel geometry of the grid editor (`src/ui/grid-editor-widget.cpp`) -/

/-- The padding of a cell rectangle in the editor (`kPadding`). -/
def kPadding : Int := 2

/-- A rectangle given as Qt constructs it, `QRect(x, y, w, h)`. -/
structure QRect where
  x : Int
  y : Int
  w : Int
  h : Int
  deriving DecidableEq, Repr

/-- The pixels of a rectangle: `[x, x + w) x [y, y + h)`. -/
def QRect.contains (r : QRect) (p : QPoint) : Prop :=
  r.x ≤ p.x ∧ p.x < r.x + r.w ∧ r.y ≤ p.y ∧ p.y < r.y + r.h

instance (r : QRect) (p : QPoint) : Decidable (r.contains p) := by
  unfold QRect.contains; infer_instance

/-- Qt's `qBound(min, val, max)`, that is `qMax(min, qMin(max, val))`. -/
def qBound (lo val hi : Int) : Int := max lo (min hi val)

/-- `GridEditorWidget::gridPosFromPixel` for a widget of `width x height`
pixels; `/` is the truncating division of C++. -/
def gridPosFromPixel (w : GridEditorWidget) (width height : Int) (pixel : QPoint) : QPoint :=
  let cellW := width.tdiv w.cols_
  let cellH := height.tdiv w.rows_
  if cellW ≤ 0 ∨ cellH ≤ 0 then { x := -1, y := -1 }
  else
    { x := qBound 0 (pixel.x.tdiv cellW) (w.cols_ - 1),
      y := qBound 0 (pixel.y.tdiv cellH) (w.rows_ - 1) }

/-- `GridEditorWidget::cellRect`. -/
def cellRect (w : GridEditorWidget) (width height : Int) (row col rowSpan colSpan : Int) :
    QRect :=
  let cellW := width.tdiv w.cols_
  let cellH := height.tdiv w.rows_
  { x := col * cellW + kPadding, y := row * cellH + kPadding,
    w := colSpan * cellW - 2 * kPadding, h := rowSpan * cellH - 2 * kPadding }

/-! ## Label text (`CellRenderer::resolveLabelText`) -/

/-- `CellRenderer::resolveLabelText`; `LG_TEXT` is the lookup of a localised
string by its key. -/
def resolveLabelText (LG_TEXT : String → String) (widget : WidgetConfig) : String :=
  if !widget.labelVisible || widget.type == WidgetType.None then ""
  else if widget.labelText ≠ "" then widget.labelText
  else
    match widget.type with
    | WidgetType.Preview => LG_TEXT "Renderer.Preview"
    | WidgetType.Program => LG_TEXT "Renderer.Program"
    | WidgetType.Canvas =>
      if widget.canvasName = "" then LG_TEXT "Renderer.Canvas" else widget.canvasName
    | WidgetType.Scene => widget.sceneName
    | WidgetType.Source => widget.sourceName
    | WidgetType.Placeholder => LG_TEXT "Renderer.Placeholder"
    | WidgetType.None => ""

/-! ## The default template (`ConfigManager::defaultTemplate`) -/

/-- A saved grid arrangement (`struct TemplateConfig`). -/
structure TemplateConfig where
  name : String := ""
  gridRows : Int := 4
  gridCols : Int := 4
  cells : List CellConfig := []
  preserveSources : Bool := false
  deriving DecidableEq, Repr

/-- The names gathered from `obs_frontend_get_scenes`: a source whose
`obs_source_get_name` is null is skipped. -/
def gatherSceneNames (sceneList : List (Option String)) : List String :=
  sceneList.filterMap id

/-- The body of the two nested loops of `defaultTemplate` for the position
`(r, c)`; the state is `sceneIdx` and the cells appended so far. -/
def appendSceneCell (sceneNames : List String) (st : Nat × List CellConfig) (r c : Int) :
    Nat × List CellConfig :=
  if st.1 < sceneNames.length then
    let widget : WidgetConfig :=
      { labelVisible := true, type := WidgetType.Scene,
        sceneName := sceneNames.getD st.1 "", labelText := sceneNames.getD st.1 "" }
    (st.1 + 1, st.2 ++ [{ row := r, col := c, widget := widget }])
  else
    let widget : WidgetConfig := { labelVisible := true, type := WidgetType.Placeholder }
    (st.1, st.2 ++ [{ row := r, col := c, widget := widget }])

/-- `ConfigManager::defaultTemplate`. `LG_TEXT` is the lookup of a localised
string, `font20` the string form of the default font at 20 points, and
`sceneList` the names of the sources returned by `obs_frontend_get_scenes`. -/
def defaultTemplate (LG_TEXT : String → String) (font20 : String)
    (sceneList : List (Option String)) : TemplateConfig :=
  let previewWidget : WidgetConfig :=
    { type := WidgetType.Preview, labelText := LG_TEXT "DefaultTemplate.Preview",
      labelVisible := true, labelFont := font20 }
  let preview : CellConfig :=
    { row := 0, col := 0, rowSpan := 2, colSpan := 2, widget := previewWidget }
  let programWidget : WidgetConfig :=
    { type := WidgetType.Program, labelText := LG_TEXT "DefaultTemplate.Program",
      labelVisible := true, labelFont := font20 }
  let program : CellConfig :=
    { row := 0, col := 2, rowSpan := 2, colSpan := 2, widget := programWidget }
  let sceneNames := gatherSceneNames sceneList
  let filled := (intRange 2 4).foldl
    (fun st r => (intRange 0 4).foldl (fun st2 c => appendSceneCell sceneNames st2 r c) st)
    (0, [preview, program])
  { name := LG_TEXT "DefaultTemplate.Name", gridRows := 4, gridCols := 4, cells := filled.2 }

/-- The content of the `k`-th small cell of the default template: the `k`-th
scene when there is one, a placeholder otherwise. -/
def defaultSceneWidget (sceneNames : List String) (k : Nat) : WidgetConfig :=
  if k < sceneNames.length then
    { labelVisible := true, type := WidgetType.Scene,
      sceneName := sceneNames.getD k "", labelText := sceneNames.getD k "" }
  else { labelVisible := true, type := WidgetType.Placeholder }

/-! ## The multiview window (`src/ui/multiview-window.cpp`) -/

/-- Configuration of one multiview window (`struct MultiviewConfig`). -/
structure MultiviewConfig where
  name : String := ""
  gridRows : Int := 4
  gridCols : Int := 4
  cells : List CellConfig := []
  geometry : QRect := { x := 100, y := 100, w := 1280, h := 720 }
  monitorId : Int := -1
  fullscreen : Bool := false
  wasOpen : Bool := false
  deriving DecidableEq, Repr

/-- The layout state of `MultiviewWindow`: its configuration, its pixel size
(`width()`, `height()`), the geometry of the cell surfaces and the metrics
cached for `paintEvent`. -/
structure MultiviewWindow where
  config_ : MultiviewConfig := {}
  width : Int := 0
  height : Int := 0
  cellSurfaces_ : List QRect := []
  gridOffsetX_ : Int := 0
  gridOffsetY_ : Int := 0
  gridWidth_ : Int := 0
  gridHeight_ : Int := 0
  cellWidth_ : ℚ := 0
  cellHeight_ : ℚ := 0

/-- The border inside each cell (`kBorder`). -/
def kBorder : Int := 1

/-- The body of the loop of `updateLayout`: the rectangle given to the surface
of `cell` (the same `w`, `h` are passed to the renderer's `resize`). -/
def surfaceGeometry (offsetX offsetY intCellW intCellH : Int) (cell : CellConfig) : QRect :=
  let x := offsetX + cell.col * intCellW + kBorder
  let y := offsetY + cell.row * intCellH + kBorder
  let w := cell.colSpan * intCellW - 2 * kBorder
  let h := cell.rowSpan * intCellH - 2 * kBorder
  { x := x, y := y, w := if w < 1 then 1 else w, h := if h < 1 then 1 else h }

/-- `MultiviewWindow::updateLayout`: the metrics are cached and the surfaces
`i < min(cells.size(), cellSurfaces_.size())` receive their rectangle. -/
def updateLayout (win : MultiviewWindow) : MultiviewWindow :=
  if win.config_.gridRows ≤ 0 ∨ win.config_.gridCols ≤ 0 then win
  else
    let m := calculateGridMetrics win.config_.gridRows win.config_.gridCols win.width win.height
    let intCellW := toInt m.cellW
    let intCellH := toInt m.cellH
    { win with
      gridWidth_ := m.gridW
      gridHeight_ := m.gridH
      gridOffsetX_ := m.offsetX
      gridOffsetY_ := m.offsetY
      cellWidth_ := m.cellW
      cellHeight_ := m.cellH
      cellSurfaces_ :=
        (List.zipWith (fun cell _ => surfaceGeometry m.offsetX m.offsetY intCellW intCellH cell)
          win.config_.cells win.cellSurfaces_) ++ win.cellSurfaces_.drop win.config_.cells.length }

/-- A call `painter.drawLine(x1, y1, x2, y2)`. -/
structure Line where
  x1 : Int
  y1 : Int
  x2 : Int
  y2 : Int
  deriving DecidableEq, Repr

/-- The entry `ownership[r][c]` of the map built in `paintEvent`. -/
def ownerEntry (own : List (List Int)) (r c : Int) : Int :=
  (own.getD r.toNat []).getD c.toNat (-1)

/-- One pass of the inner loop of `paintEvent` at index `k`. The state is
`segmentStart` and the segments emitted so far, each as the pair of its end
coordinates along the line; `pos k` is the pixel coordinate of boundary `k`. -/
def scanStep (need : Int → Bool) (pos : Int → Int) (st : Int × List (Int × Int)) (k : Int) :
    Int × List (Int × Int) :=
  if need k = true ∧ st.1 < 0 then (k, st.2)
  else if need k = false ∧ st.1 ≥ 0 then (-1, st.2 ++ [(pos st.1, pos k)])
  else st

/-- The inner loop of `paintEvent` over `k = 0 .. n-1` followed by "close any
open segment", which ends the segment at the pixel coordinate `last`. -/
def scanSegments (n : Int) (need : Int → Bool) (pos : Int → Int) (last : Int) :
    List (Int × Int) :=
  let st := (intRange 0 n).foldl (scanStep need pos) (-1, [])
  if st.1 ≥ 0 then st.2 ++ [(pos st.1, last)] else st.2

/-- The lines that `paintEvent` draws at the vertical boundary `col`. -/
def verticalLines (win : MultiviewWindow) (ownership : List (List Int)) (col : Int) :
    List Line :=
  let intCellW := toInt win.cellWidth_
  let intCellH := toInt win.cellHeight_
  let x := win.gridOffsetX_ + col * intCellW
  if col = 0 ∨ col = win.config_.gridCols then
    [{ x1 := x, y1 := win.gridOffsetY_, x2 := x, y2 := win.gridOffsetY_ + win.gridHeight_ }]
  else
    (scanSegments win.config_.gridRows
      (fun row => decide (ownerEntry ownership row (col - 1) ≠ ownerEntry ownership row col))
      (fun row => win.gridOffsetY_ + row * intCellH)
      (win.gridOffsetY_ + win.gridHeight_)).map
      (fun s => { x1 := x, y1 := s.1, x2 := x, y2 := s.2 })

/-- The lines that `paintEvent` draws at the horizontal boundary `row`. -/
def horizontalLines (win : MultiviewWindow) (ownership : List (List Int)) (row : Int) :
    List Line :=
  let intCellW := toInt win.cellWidth_
  let intCellH := toInt win.cellHeight_
  let y := win.gridOffsetY_ + row * intCellH
  if row = 0 ∨ row = win.config_.gridRows then
    [{ x1 := win.gridOffsetX_, y1 := y, x2 := win.gridOffsetX_ + win.gridWidth_, y2 := y }]
  else
    (scanSegments win.config_.gridCols
      (fun col => decide (ownerEntry ownership (row - 1) col ≠ ownerEntry ownership row col))
      (fun col => win.gridOffsetX_ + col * intCellW)
      (win.gridOffsetX_ + win.gridWidth_)).map
      (fun s => { x1 := s.1, y1 := y, x2 := s.2, y2 := y })

/-- The grid lines drawn by `MultiviewWindow::paintEvent`, in drawing order:
the ownership map is rebuilt, then the vertical boundaries `0 .. gridCols` and
the horizontal boundaries `0 .. gridRows` are scanned. -/
def paintEvent (win : MultiviewWindow) : List Line :=
  if win.config_.gridRows ≤ 0 ∨ win.config_.gridCols ≤ 0 then []
  else
    let ownership := buildOwnership win.config_.gridRows win.config_.gridCols win.config_.cells
    ((intRange 0 (win.config_.gridCols + 1)).map (verticalLines win ownership)).flatten ++
      ((intRange 0 (win.config_.gridRows + 1)).map (horizontalLines win ownership)).flatten

/-- The slot of a cell: the pixels between its grid lines,
`[offsetX + col*cellW, offsetX + (col+colSpan)*cellW) x
 [offsetY + row*cellH, offsetY + (row+rowSpan)*cellH)`. -/
def cellSlot (offsetX offsetY cellW cellH : Int) (cell : CellConfig) : QRect :=
  { x := offsetX + cell.col * cellW, y := offsetY + cell.row * cellH,
    w := cell.colSpan * cellW, h := cell.rowSpan * cellH }

/-- The indices `[s, e)` of `runs` are the maximal runs of indices `k` in
`[0, n)` with `need k`: every run is a non-empty interval of needed indices that
cannot be extended, the runs come in increasing order with a gap between two of
them, and every needed index lies in a run. -/
def MaximalRuns (n : Int) (need : Int → Bool) (runs : List (Int × Int)) : Prop :=
  (∀ run ∈ runs, 0 ≤ run.1 ∧ run.1 < run.2 ∧ run.2 ≤ n ∧
    (∀ k, run.1 ≤ k → k < run.2 → need k = true) ∧
    (run.1 = 0 ∨ need (run.1 - 1) = false) ∧ (run.2 = n ∨ need run.2 = false)) ∧
  runs.Pairwise (fun a b => a.2 < b.1) ∧
  (∀ k, 0 ≤ k → k < n → need k = true → ∃ run ∈ runs, run.1 ≤ k ∧ k < run.2)

/-- A `2 x 2` window of `1000 x 600` pixels whose single cell spans all four
positions, with one surface. -/
def windowOneCell : MultiviewWindow :=
  { config_ := { gridRows := 2, gridCols := 2,
                 cells := [{ row := 0, col := 0, rowSpan := 2, colSpan := 2 }] },
    width := 1000, height := 600, cellSurfaces_ := [{ x := 0, y := 0, w := 0, h := 0 }] }

/-- Two grid positions lie in the span of one and the same cell of `cells`. -/
def sameCell (cells : List CellConfig) (r1 c1 r2 c2 : Int) : Bool :=
  cells.any (fun cell => decide (inSpan cell r1 c1 ∧ inSpan cell r2 c2))

/-- A `2 x 2` window of `1000 x 600` pixels with three cells and three
surfaces: cell 0 spans the left column, cells 1 and 2 are the upper and the
lower position of the right column. -/
def windowThreeCells : MultiviewWindow :=
  { config_ := { gridRows := 2, gridCols := 2,
                 cells := [{ row := 0, col := 0, rowSpan := 2, colSpan := 1 },
                           { row := 0, col := 1, rowSpan := 1, colSpan := 1 },
                           { row := 1, col := 1, rowSpan := 1, colSpan := 1 }] },
    width := 1000, height := 600,
    cellSurfaces_ := [{ x := 0, y := 0, w := 0, h := 0 }, { x := 0, y := 0, w := 0, h := 0 },
                      { x := 0, y := 0, w := 0, h := 0 }] }

/-! ## The cell renderer (`src/render/multiview-renderer.cpp`)

A render tick is modelled by the list of the calls it makes that draw, in
order, together with the calls of `GetScaleAndCenterPos`. What libobs answers
during the tick (`obs_get_source_by_name`, `obs_get_canvas_by_name`, ...) is the
record `ObsState`. A `uint32_t` is a number below `2^32`. -/

/-- The values of a `uint32_t`. -/
abbrev UInt32Val := Fin 4294967296

/-- The conversion of a `uint32_t` argument to the `int` parameter of
`GetScaleAndCenterPos`, and the cast `(int)cx`. -/
def toInt32 (n : UInt32Val) : Int :=
  if n.val < 2147483648 then (n.val : Int) else (n.val : Int) - 4294967296

/-- The base size reported by `obs_get_video_info` / `obs_canvas_get_video_info`. -/
structure ObsVideoInfo where
  base_width : UInt32Val
  base_height : UInt32Val
  deriving DecidableEq, Repr

/-- A source as the renderer sees it: its name and the size reported by
`obs_source_get_width` / `obs_source_get_height`. -/
structure ObsSource where
  name : String
  width : UInt32Val
  height : UInt32Val
  deriving DecidableEq, Repr

/-- A canvas: its name and the answer of `obs_canvas_get_video_info`. -/
structure ObsCanvas where
  name : String
  videoInfo : Option ObsVideoInfo
  deriving DecidableEq, Repr

/-- The answers of libobs during one render tick. -/
structure ObsState where
  sourceByName : String → Option ObsSource
  canvasByName : String → Option ObsCanvas
  mainCanvas : Option ObsCanvas
  videoInfo : Option ObsVideoInfo
  previewProgramModeActive : Bool
  currentPreviewScene : Option ObsSource

/-- The calls recorded for a render tick. -/
inductive DrawCall where
  /-- `GetScaleAndCenterPos(baseCX, baseCY, windowCX, windowCY, ...)`. -/
  | fit (baseCX baseCY windowCX windowCY : Int)
  /-- `obs_render_main_texture()`. -/
  | mainTexture
  /-- `obs_source_video_render(source)`. -/
  | sourceVideo (source : String)
  /-- `obs_render_canvas_texture(canvas)`. -/
  | canvasTexture (canvas : String)
  /-- `renderPlaceholderIcon(cx, cy)`. -/
  | placeholderIcon (cx cy : UInt32Val)
  /-- `renderLabel(cx, cy)`. -/
  | label (cx cy : UInt32Val)
  deriving DecidableEq, Repr

/-- The calls that draw content: everything but the fit computation and the
label overlay. -/
def DrawCall.isContent : DrawCall → Bool
  | DrawCall.fit _ _ _ _ => false
  | DrawCall.label _ _ => false
  | _ => true

/-- `CellRenderer::renderSource`. -/
def renderSource (source : ObsSource) (cx cy : UInt32Val) : List DrawCall :=
  if source.width = 0 ∨ source.height = 0 then []
  else
    [DrawCall.fit (toInt32 source.width) (toInt32 source.height) (toInt32 cx) (toInt32 cy),
     DrawCall.sourceVideo source.name]

/-- `CellRenderer::renderPreviewProgram`. -/
def renderPreviewProgram (obs : ObsState) (cx cy : UInt32Val) (isProgram : Bool) :
    List DrawCall :=
  match obs.videoInfo with
  | none => []
  | some ovi =>
    if ovi.base_width = 0 ∨ ovi.base_height = 0 then []
    else
      DrawCall.fit (toInt32 ovi.base_width) (toInt32 ovi.base_height) (toInt32 cx)
          (toInt32 cy) ::
        (if isProgram || !obs.previewProgramModeActive then [DrawCall.mainTexture]
         else
          match obs.currentPreviewScene with
          | some previewScene => [DrawCall.sourceVideo previewScene.name]
          | none => [])

/-- `CellRenderer::renderCanvas` for the cell content `widget`. -/
def renderCanvas (obs : ObsState) (widget : WidgetConfig) (cx cy : UInt32Val) :
    List DrawCall :=
  let canvas :=
    if widget.canvasName ≠ "" then obs.canvasByName widget.canvasName else obs.mainCanvas
  match canvas with
  | none =>
    -- Fallback: render main texture if canvas not found
    match obs.videoInfo with
    | none => []
    | some ovi =>
      if ovi.base_width = 0 ∨ ovi.base_height = 0 then []
      else
        [DrawCall.fit (toInt32 ovi.base_width) (toInt32 ovi.base_height) (toInt32 cx)
          (toInt32 cy), DrawCall.mainTexture]
  | some cv =>
    match cv.videoInfo with
    | none => []
    | some ovi =>
      if ovi.base_width = 0 ∨ ovi.base_height = 0 then []
      else
        [DrawCall.fit (toInt32 ovi.base_width) (toInt32 ovi.base_height) (toInt32 cx)
          (toInt32 cy), DrawCall.canvasTexture cv.name]

/-- `CellRenderer::render` for the cell content `widget`. -/
def render (obs : ObsState) (widget : WidgetConfig) (cx cy : UInt32Val) : List DrawCall :=
  if cx = 0 ∨ cy = 0 then []
  else
    match widget.type with
    | WidgetType.Preview => renderPreviewProgram obs cx cy false ++ [DrawCall.label cx cy]
    | WidgetType.Program => renderPreviewProgram obs cx cy true ++ [DrawCall.label cx cy]
    | WidgetType.Canvas => renderCanvas obs widget cx cy ++ [DrawCall.label cx cy]
    | WidgetType.Scene =>
      let source := if widget.sceneName ≠ "" then obs.sourceByName widget.sceneName else none
      (match source with
        | some src => renderSource src cx cy
        | none => []) ++ [DrawCall.label cx cy]
    | WidgetType.Source =>
      let source := if widget.sourceName ≠ "" then obs.sourceByName widget.sourceName else none
      (match source with
        | some src => renderSource src cx cy
        | none => []) ++ [DrawCall.label cx cy]
    | WidgetType.Placeholder => [DrawCall.placeholderIcon cx cy, DrawCall.label cx cy]
    | WidgetType.None => []

/-- An `ObsState` in which nothing is found by name; the main output is
`1920 x 1080`. -/
def obsNothingFound : ObsState :=
  { sourceByName := fun _ => none, canvasByName := fun _ => none, mainCanvas := none,
    videoInfo := some { base_width := 1920, base_height := 1080 },
    previewProgramModeActive := false, currentPreviewScene := none }

/-! ## The placeholder icon (`renderPlaceholderIcon`, `createPlaceholderTexture`) -/

/-- The part of the state of `CellRenderer` used for the placeholder icon:
the size of the surface widget (`none` for a null `surface_`), the path of the
icon, whether `placeholderTexture_` is non-null, and `placeholderTexSize_`. -/
structure CellRenderer where
  surface_ : Option (Int × Int) := none
  placeholderSvgPath_ : String := ""
  placeholderTexture_ : Bool := false
  placeholderTexSize_ : Int := 0
  deriving DecidableEq, Repr

/-- What the icon asset and the graphics layer answer: whether
`QSvgRenderer(path).isValid()` and whether `gs_texture_create` returns a texture. -/
structure IconEnv where
  svgIsValid : Bool
  textureCreated : Bool
  deriving DecidableEq, Repr

/-- The graphics calls of the placeholder icon. -/
inductive IconCall where
  /-- `gs_texture_destroy(placeholderTexture_)`. -/
  | textureDestroy
  /-- `gs_texture_create(iconSize, iconSize, ...)`. -/
  | textureCreate (iconSize : Int)
  /-- `gs_set_viewport(iconX, iconY, iconW, iconH)` and the sprite drawn into it. -/
  | drawSprite (iconX iconY iconW iconH : Int)
  deriving DecidableEq, Repr

/-- `CellRenderer::createPlaceholderTexture`. -/
def createPlaceholderTexture (env : IconEnv) (r : CellRenderer) :
    CellRenderer × List IconCall :=
  let destroyed : CellRenderer × List IconCall :=
    if r.placeholderTexture_ then
      ({ r with placeholderTexture_ := false, placeholderTexSize_ := 0 },
        [IconCall.textureDestroy])
    else (r, [])
  if destroyed.1.placeholderSvgPath_ = "" then destroyed
  else
    let cellW : Int := match destroyed.1.surface_ with
      | some s => s.1
      | none => 0
    let cellH : Int := match destroyed.1.surface_ with
      | some s => s.2
      | none => 0
    let iconSize0 := (min cellW cellH).tdiv 2
    let iconSize := if iconSize0 < 16 then 16 else iconSize0
    if !env.svgIsValid then destroyed
    else
      ({ destroyed.1 with placeholderTexture_ := env.textureCreated,
                          placeholderTexSize_ := iconSize },
        destroyed.2 ++ [IconCall.textureCreate iconSize])

/-- `CellRenderer::renderPlaceholderIcon`. -/
def renderPlaceholderIcon (env : IconEnv) (r : CellRenderer) (cx cy : UInt32Val) :
    CellRenderer × List IconCall :=
  if r.placeholderSvgPath_ = "" then (r, [])
  else
    let desired0 := (min (toInt32 cx) (toInt32 cy)).tdiv 2
    let desiredSize := if desired0 < 16 then 16 else desired0
    let created : CellRenderer × List IconCall :=
      if !r.placeholderTexture_ ∨ r.placeholderTexSize_ ≠ desiredSize then
        createPlaceholderTexture env r
      else (r, [])
    if !created.1.placeholderTexture_ then created
    else
      let iconW := created.1.placeholderTexSize_
      let iconH := created.1.placeholderTexSize_
      let iconX := (toInt32 cx - iconW).tdiv 2
      let iconY := (toInt32 cy - iconH).tdiv 2
      (created.1, created.2 ++ [IconCall.drawSprite iconX iconY iconW iconH])

/-- The icon size computed from a target size: `max(16, min(cx, cy) div 2)`. -/
def iconSizeFor (cx cy : Int) : Int := max 16 ((min cx cy).tdiv 2)

/-- The state of the scan after the indices `0 .. k-1`. -/
structure ScanInv (need : Int → Bool) (k : Int) (st : Int × List (Int × Int)) : Prop where
  start : st.1 = -1 ∨ (0 ≤ st.1 ∧ st.1 < k)
  runs : ∀ run ∈ st.2, 0 ≤ run.1 ∧ run.1 < run.2 ∧
    run.2 < (if st.1 ≥ 0 then st.1 else k) ∧ need run.2 = false ∧
    (∀ j, run.1 ≤ j → j < run.2 → need j = true) ∧ (run.1 = 0 ∨ need (run.1 - 1) = false)
  sorted : st.2.Pairwise (fun a b => a.2 < b.1)
  cover : ∀ j, 0 ≤ j → j < (if st.1 ≥ 0 then st.1 else k) → need j = true →
    ∃ run ∈ st.2, run.1 ≤ j ∧ j < run.2
  opened : st.1 ≥ 0 → (∀ j, st.1 ≤ j → j < k → need j = true) ∧
    (st.1 = 0 ∨ need (st.1 - 1) = false)
  closed : st.1 = -1 → (k = 0 ∨ need (k - 1) = false)

end LookingGlass

namespace LookingGlass

/-! ## Loops over integer intervals and two-dimensional vectors -/

theorem mem_intRange {lo hi x : Int} : x ∈ intRange lo hi ↔ lo ≤ x ∧ x < hi := by
  unfold intRange
  rw [List.mem_map]
  constructor
  · rintro ⟨k, hk, rfl⟩
    rw [List.mem_range] at hk
    omega
  · rintro ⟨h1, h2⟩
    refine ⟨(x - lo).toNat, ?_, ?_⟩
    · rw [List.mem_range]; omega
    · omega

theorem nodup_intRange (lo hi : Int) : (intRange lo hi).Nodup := by
  unfold intRange
  apply List.Nodup.map_on _ (List.nodup_range _)
  intro a _ b _ h
  omega

theorem length_intRange (lo hi : Int) : (intRange lo hi).length = (hi - lo).toNat := by
  unfold intRange
  rw [List.length_map, List.length_range]

/-- Entry `(r2, c2)` of a vector of vectors after the entry `(r, c)` was assigned. -/
theorem getD_modify_set {α : Type} (m : List (List α)) (d v : α) (r c r2 c2 : Nat)
    (hr : r2 < m.length) (hc : c2 < (m.getD r2 []).length) :
    ((m.modify (fun line => line.set c v) r).getD r2 []).getD c2 d =
      if r = r2 ∧ c = c2 then v else (m.getD r2 []).getD c2 d := by
  have hr2 : r2 < (m.modify (fun line => line.set c v) r).length := by simpa using hr
  rw [List.getD_eq_getElem _ _ hr2, List.getElem_modify]
  rw [List.getD_eq_getElem _ _ hr] at hc ⊢
  by_cases hrr : r = r2
  · subst hrr
    simp only [if_true, true_and]
    by_cases hcc : c = c2
    · subst hcc
      simp [hc]
    · simp [hcc, List.getElem?_set_ne hcc]
  · simp [hrr]

/-- Assigning an entry keeps the size of every line. -/
theorem fits_modify_set {α : Type} (m : List (List α)) (v : α) (r c r2 c2 : Nat)
    (hr : r2 < m.length) (hc : c2 < (m.getD r2 []).length) :
    r2 < (m.modify (fun line => line.set c v) r).length ∧
      c2 < ((m.modify (fun line => line.set c v) r).getD r2 []).length := by
  have hr2 : r2 < (m.modify (fun line => line.set c v) r).length := by simpa using hr
  refine ⟨hr2, ?_⟩
  rw [List.getD_eq_getElem _ _ hr2, List.getElem_modify]
  rw [List.getD_eq_getElem _ _ hr] at hc
  by_cases hrr : r = r2
  · subst hrr
    simpa using hc
  · simpa [hrr] using hc

/-- A pair of nested loops that assigns `v` at every `(r, c)` of `rs x cs`: the
entry `(r2, c2)` becomes `v` when the loops reach it and is unchanged otherwise. -/
theorem getD_nested_assign {α : Type} (upd : List (List α) → Int → Int → List (List α))
    (d v : α) (r2 c2 : Nat)
    (hupd : ∀ (m : List (List α)) (r c : Int), r2 < m.length → c2 < (m.getD r2 []).length →
      (r2 < (upd m r c).length ∧ c2 < ((upd m r c).getD r2 []).length) ∧
      ((upd m r c).getD r2 []).getD c2 d =
        if r = (r2 : Int) ∧ c = (c2 : Int) then v else (m.getD r2 []).getD c2 d)
    (rs cs : List Int) (m : List (List α)) (hr : r2 < m.length)
    (hc : c2 < (m.getD r2 []).length) :
    (r2 < (rs.foldl (fun m1 r => cs.foldl (fun m2 c => upd m2 r c) m1) m).length ∧
      c2 < ((rs.foldl (fun m1 r => cs.foldl (fun m2 c => upd m2 r c) m1) m).getD r2 []).length) ∧
    ((rs.foldl (fun m1 r => cs.foldl (fun m2 c => upd m2 r c) m1) m).getD r2 []).getD c2 d =
      if (r2 : Int) ∈ rs ∧ (c2 : Int) ∈ cs then v else (m.getD r2 []).getD c2 d := by
  have inner : ∀ (r : Int) (cs1 : List Int) (m1 : List (List α)), r2 < m1.length →
      c2 < (m1.getD r2 []).length →
      (r2 < (cs1.foldl (fun m2 c => upd m2 r c) m1).length ∧
        c2 < ((cs1.foldl (fun m2 c => upd m2 r c) m1).getD r2 []).length) ∧
      ((cs1.foldl (fun m2 c => upd m2 r c) m1).getD r2 []).getD c2 d =
        if r = (r2 : Int) ∧ (c2 : Int) ∈ cs1 then v else (m1.getD r2 []).getD c2 d := by
    intro r cs1
    induction cs1 with
    | nil => intro m1 h1 h2; exact ⟨⟨h1, h2⟩, by simp⟩
    | cons c cs1 ih =>
      intro m1 h1 h2
      obtain ⟨hf, hv⟩ := hupd m1 r c h1 h2
      obtain ⟨hf2, hv2⟩ := ih (upd m1 r c) hf.1 hf.2
      refine ⟨by simpa using hf2, ?_⟩
      simp only [List.foldl_cons, List.mem_cons]
      rw [hv2, hv]
      by_cases hrr : r = (r2 : Int)
      · by_cases hin : (c2 : Int) ∈ cs1
        · simp [hrr, hin]
        · by_cases hcc : c = (c2 : Int)
          · simp [hrr, hcc]
          · have hcc2 : ¬ (c2 : Int) = c := fun h => hcc h.symm
            simp [hrr, hin, hcc, hcc2]
      · simp [hrr]
  induction rs generalizing m with
  | nil => exact ⟨⟨hr, hc⟩, by simp⟩
  | cons r rs ih =>
    obtain ⟨hf, hv⟩ := inner r cs m hr hc
    obtain ⟨hf2, hv2⟩ := ih (cs.foldl (fun m2 c => upd m2 r c) m) hf.1 hf.2
    refine ⟨by simpa using hf2, ?_⟩
    simp only [List.foldl_cons, List.mem_cons]
    rw [hv2, hv]
    by_cases hin : (c2 : Int) ∈ cs
    · by_cases hrs : (r2 : Int) ∈ rs
      · simp [hin, hrs]
      · by_cases hrr : r = (r2 : Int)
        · simp [hin, hrr]
        · have hrr2 : ¬ (r2 : Int) = r := fun h => hrr h.symm
          simp [hin, hrs, hrr, hrr2]
    · simp [hin]

/-! ## The ownership map, entry by entry -/

theorem setOwner_entry (i : Int) (r2 c2 : Nat) (m : List (List Int)) (r c : Int)
    (hr : r2 < m.length) (hc : c2 < (m.getD r2 []).length) :
    (r2 < (setOwner m r c i).length ∧ c2 < ((setOwner m r c i).getD r2 []).length) ∧
    ((setOwner m r c i).getD r2 []).getD c2 (-1) =
      if r = (r2 : Int) ∧ c = (c2 : Int) then i else (m.getD r2 []).getD c2 (-1) := by
  unfold setOwner
  by_cases h : 0 ≤ r ∧ 0 ≤ c
  · rw [if_pos h]
    refine ⟨fits_modify_set m i r.toNat c.toNat r2 c2 hr hc, ?_⟩
    rw [getD_modify_set m (-1) i r.toNat c.toNat r2 c2 hr hc]
    have e : (r.toNat = r2 ∧ c.toNat = c2) ↔ (r = (r2 : Int) ∧ c = (c2 : Int)) := by omega
    simp only [e]
  · rw [if_neg h]
    refine ⟨⟨hr, hc⟩, ?_⟩
    have e : ¬ (r = (r2 : Int) ∧ c = (c2 : Int)) := by omega
    rw [if_neg e]

theorem markCell_entry (rows cols : Int) (i : Int) (cell : CellConfig) (r2 c2 : Nat)
    (m : List (List Int)) (hr : r2 < m.length) (hc : c2 < (m.getD r2 []).length)
    (hrows : (r2 : Int) < rows) (hcols : (c2 : Int) < cols) :
    (r2 < (markCell rows cols m i cell).length ∧
      c2 < ((markCell rows cols m i cell).getD r2 []).length) ∧
    ((markCell rows cols m i cell).getD r2 []).getD c2 (-1) =
      if inSpan cell r2 c2 then i else (m.getD r2 []).getD c2 (-1) := by
  have h := getD_nested_assign (fun m2 r c => setOwner m2 r c i) (-1) i r2 c2
    (fun m2 r c h1 h2 => setOwner_entry i r2 c2 m2 r c h1 h2)
    (intRange cell.row (min (cell.row + cell.rowSpan) rows))
    (intRange cell.col (min (cell.col + cell.colSpan) cols)) m hr hc
  refine ⟨h.1, ?_⟩
  have e : ((r2 : Int) ∈ intRange cell.row (min (cell.row + cell.rowSpan) rows) ∧
      (c2 : Int) ∈ intRange cell.col (min (cell.col + cell.colSpan) cols)) ↔
      inSpan cell r2 c2 := by
    rw [mem_intRange, mem_intRange]
    unfold inSpan
    omega
  unfold markCell
  rw [h.2]
  simp only [e]

theorem buildOwnership_append (rows cols : Int) (cells : List CellConfig) (x : CellConfig) :
    buildOwnership rows cols (cells ++ [x]) =
      markCell rows cols (buildOwnership rows cols cells) (cells.length : Int) x := by
  unfold buildOwnership
  rw [List.enum_append, List.foldl_append]
  rfl

/-- The entry of the rebuilt map at an in-range position: `-1` when no cell's span
contains the position, else the last cell of the list whose span contains it. -/
theorem buildOwnership_entry (rows cols : Int) (cells : List CellConfig) (r c : Int)
    (hr : 0 ≤ r ∧ r < rows) (hc : 0 ≤ c ∧ c < cols) :
    (r.toNat < (buildOwnership rows cols cells).length ∧
      c.toNat < ((buildOwnership rows cols cells).getD r.toNat []).length) ∧
    ((((buildOwnership rows cols cells).getD r.toNat []).getD c.toNat (-1) = -1 ∧
        ∀ (j : Nat) (hj : j < cells.length), ¬ inSpan (cells.get ⟨j, hj⟩) r c) ∨
      ∃ (i : Nat) (hi : i < cells.length),
        ((buildOwnership rows cols cells).getD r.toNat []).getD c.toNat (-1) = (i : Int) ∧
        inSpan (cells.get ⟨i, hi⟩) r c ∧
        ∀ (j : Nat) (hj : j < cells.length), i < j → ¬ inSpan (cells.get ⟨j, hj⟩) r c) := by
  induction cells using List.reverseRecOn with
  | nil =>
    have h1 : r.toNat < (List.replicate rows.toNat (List.replicate cols.toNat (-1 : Int))).length := by
      rw [List.length_replicate]; omega
    have h2 : (List.replicate rows.toNat (List.replicate cols.toNat (-1 : Int))).getD r.toNat [] =
        List.replicate cols.toNat (-1 : Int) := by
      rw [List.getD_eq_getElem _ _ h1, List.getElem_replicate]
    have h3 : c.toNat < (List.replicate cols.toNat (-1 : Int)).length := by
      rw [List.length_replicate]; omega
    have e : buildOwnership rows cols [] =
        List.replicate rows.toNat (List.replicate cols.toNat (-1 : Int)) := rfl
    rw [e, h2]
    refine ⟨⟨h1, h3⟩, Or.inl ⟨?_, ?_⟩⟩
    · rw [List.getD_eq_getElem _ _ h3, List.getElem_replicate]
    · intro j hj; simp at hj
  | append_singleton cells x ih =>
    obtain ⟨⟨f1, f2⟩, ih2⟩ := ih
    have hrn : ((r.toNat : Nat) : Int) = r := by omega
    have hcn : ((c.toNat : Nat) : Int) = c := by omega
    have hm := markCell_entry rows cols (cells.length : Int) x r.toNat c.toNat
      (buildOwnership rows cols cells) f1 f2 (by omega) (by omega)
    rw [hrn, hcn] at hm
    rw [buildOwnership_append]
    refine ⟨hm.1, ?_⟩
    rw [hm.2]
    by_cases hx : inSpan x r c
    · rw [if_pos hx]
      refine Or.inr ⟨cells.length, by simp, rfl, ?_, ?_⟩
      · simpa using hx
      · intro j hj hlt
        simp at hj
        omega
    · rw [if_neg hx]
      have key : ∀ (j : Nat) (hj : j < (cells ++ [x]).length) (hne : j < cells.length),
          (cells ++ [x]).get ⟨j, hj⟩ = cells.get ⟨j, hne⟩ := by
        intro j hj hne
        simp [List.getElem_append_left, hne]
      have last : ∀ (j : Nat) (hj : j < (cells ++ [x]).length), ¬ j < cells.length →
          (cells ++ [x]).get ⟨j, hj⟩ = x := by
        intro j hj hne
        have : j = cells.length := by simp at hj; omega
        subst this
        simp
      rcases ih2 with ⟨hv, hno⟩ | ⟨i, hi, hv, hin, hlater⟩
      · refine Or.inl ⟨hv, ?_⟩
        intro j hj
        by_cases hne : j < cells.length
        · rw [key j hj hne]; exact hno j hne
        · rw [last j hj hne]; exact hx
      · refine Or.inr ⟨i, by simp; omega, hv, ?_, ?_⟩
        · rw [key i _ hi]; exact hin
        · intro j hj hlt
          by_cases hne : j < cells.length
          · rw [key j hj hne]; exact hlater j hne hlt
          · rw [last j hj hne]; exact hx

theorem validLayout_of_check (rows cols : Int) (cells : List CellConfig)
    (h : validLayoutCheck rows cols cells = true) : ValidLayout rows cols cells := by
  unfold validLayoutCheck at h
  rw [Bool.and_eq_true, Bool.and_eq_true] at h
  obtain ⟨⟨h1, h2⟩, h3⟩ := h
  rw [List.all_eq_true] at h1 h2
  have h3b := of_decide_eq_true h3
  refine ⟨?_, ?_, ?_, ?_⟩
  · intro cell hc
    have := of_decide_eq_true (h1 cell hc)
    exact ⟨this.1, this.2.1⟩
  · intro cell hc
    have := of_decide_eq_true (h1 cell hc)
    exact ⟨this.2.2.1, this.2.2.2.1, this.2.2.2.2.1, this.2.2.2.2.2⟩
  · intro r c hr0 hr1 hc0 hc1
    have hr := h2 r (mem_intRange.mpr ⟨hr0, hr1⟩)
    rw [List.all_eq_true] at hr
    have hcc := hr c (mem_intRange.mpr ⟨hc0, hc1⟩)
    rw [List.any_eq_true] at hcc
    obtain ⟨cell, hmem, hin⟩ := hcc
    obtain ⟨n, hn⟩ := List.get_of_mem hmem
    exact ⟨n.1, n.2, by rw [hn]; exact of_decide_eq_true hin⟩
  · intro i j hi hj r c hri hrj
    rw [List.pairwise_iff_get] at h3b
    unfold inSpan at hri hrj
    rcases Nat.lt_trichotomy i j with hlt | heq | hgt
    · have := h3b ⟨i, hi⟩ ⟨j, hj⟩ hlt
      omega
    · exact heq
    · have := h3b ⟨j, hj⟩ ⟨i, hi⟩ hgt
      omega

/-! ## Owners in a widget whose map is in step with its cells -/

theorem ownerAt_outside (w : GridEditorWidget) (r c : Int)
    (h : r < 0 ∨ r ≥ w.rows_ ∨ c < 0 ∨ c ≥ w.cols_) : ownerAt w r c = -1 := by
  unfold ownerAt
  rw [if_pos h]

/-- In a widget whose stored map is the rebuilt one, the owner of an in-range
position is `-1` when no span contains it, else the last cell whose span contains it. -/
theorem ownerAt_synced (w : GridEditorWidget)
    (hs : w.ownership_ = buildOwnership w.rows_ w.cols_ w.cells_) (r c : Int)
    (hr : 0 ≤ r ∧ r < w.rows_) (hc : 0 ≤ c ∧ c < w.cols_) :
    (ownerAt w r c = -1 ∧
        ∀ (j : Nat) (hj : j < w.cells_.length), ¬ inSpan (w.cells_.get ⟨j, hj⟩) r c) ∨
      ∃ (i : Nat) (hi : i < w.cells_.length),
        ownerAt w r c = (i : Int) ∧ inSpan (w.cells_.get ⟨i, hi⟩) r c ∧
        ∀ (j : Nat) (hj : j < w.cells_.length), i < j → ¬ inSpan (w.cells_.get ⟨j, hj⟩) r c := by
  have hn : ¬ (r < 0 ∨ r ≥ w.rows_ ∨ c < 0 ∨ c ≥ w.cols_) := by omega
  unfold ownerAt
  rw [if_neg hn, hs]
  exact (buildOwnership_entry w.rows_ w.cols_ w.cells_ r c hr hc).2

/-- In a valid layout the owner of an in-range position is the one cell whose
span contains it. -/
theorem ownerAt_valid (w : GridEditorWidget)
    (hs : w.ownership_ = buildOwnership w.rows_ w.cols_ w.cells_)
    (hv : ValidLayout w.rows_ w.cols_ w.cells_) (r c : Int)
    (hr : 0 ≤ r ∧ r < w.rows_) (hc : 0 ≤ c ∧ c < w.cols_) :
    ∃ (i : Nat) (hi : i < w.cells_.length),
      ownerAt w r c = (i : Int) ∧ inSpan (w.cells_.get ⟨i, hi⟩) r c ∧
      ∀ (j : Nat) (hj : j < w.cells_.length), inSpan (w.cells_.get ⟨j, hj⟩) r c → j = i := by
  rcases ownerAt_synced w hs r c hr hc with ⟨_, hno⟩ | ⟨i, hi, hv1, hin, _⟩
  · obtain ⟨i, hi, hin⟩ := hv.covered r c hr.1 hr.2 hc.1 hc.2
    exact absurd hin (hno i hi)
  · exact ⟨i, hi, hv1, hin, fun j hj hjn => hv.disjoint j i hj hi r c hjn hin⟩

/-! ## C1 -/

/-- C1: in a valid grid layout, after `rebuildOwnership` the query `ownerAt (r, c)`
returns, for every in-range position, the index of the one cell whose span
contains the position, and never `-1`. -/
theorem C1_ownerAt_is_unique_cover (w : GridEditorWidget)
    (hv : ValidLayout w.rows_ w.cols_ w.cells_) (r c : Int)
    (hr0 : 0 ≤ r) (hr1 : r < w.rows_) (hc0 : 0 ≤ c) (hc1 : c < w.cols_) :
    ownerAt (rebuildOwnership w) r c ≠ -1 ∧
    ∃ (i : Nat) (hi : i < w.cells_.length),
      ownerAt (rebuildOwnership w) r c = (i : Int) ∧ inSpan (w.cells_.get ⟨i, hi⟩) r c ∧
      ∀ (j : Nat) (hj : j < w.cells_.length), inSpan (w.cells_.get ⟨j, hj⟩) r c → j = i := by
  have h := ownerAt_valid (rebuildOwnership w) rfl hv r c ⟨hr0, hr1⟩ ⟨hc0, hc1⟩
  obtain ⟨i, hi, hv1, hin, huniq⟩ := h
  refine ⟨?_, i, hi, hv1, hin, huniq⟩
  rw [hv1]
  omega

/-- C1 at a `2 x 2` grid holding a `1 x 2` cell, two `1 x 1` cells and nothing else:
position `(1, 1)`. -/
theorem C1_ownerAt_is_unique_cover_witness :
    ownerAt (rebuildOwnership
      { rows_ := 2, cols_ := 2,
        cells_ := [{ row := 0, col := 0, rowSpan := 1, colSpan := 2 },
                   { row := 1, col := 0 }, { row := 1, col := 1 }] }) 1 1 ≠ -1 ∧
    ∃ (i : Nat) (hi : i < 3),
      ownerAt (rebuildOwnership
        { rows_ := 2, cols_ := 2,
          cells_ := [{ row := 0, col := 0, rowSpan := 1, colSpan := 2 },
                     { row := 1, col := 0 }, { row := 1, col := 1 }] }) 1 1 = (i : Int) ∧
      inSpan ([({ row := 0, col := 0, rowSpan := 1, colSpan := 2 } : CellConfig),
                { row := 1, col := 0 }, { row := 1, col := 1 }].get ⟨i, hi⟩) 1 1 ∧
      ∀ (j : Nat) (hj : j < 3),
        inSpan ([({ row := 0, col := 0, rowSpan := 1, colSpan := 2 } : CellConfig),
                  { row := 1, col := 0 }, { row := 1, col := 1 }].get ⟨j, hj⟩) 1 1 → j = i :=
  C1_ownerAt_is_unique_cover
    { rows_ := 2, cols_ := 2,
      cells_ := [{ row := 0, col := 0, rowSpan := 1, colSpan := 2 },
                 { row := 1, col := 0 }, { row := 1, col := 1 }] }
    (validLayout_of_check _ _ _ (by decide)) 1 1 (by decide) (by decide) (by decide) (by decide)

/-! ## The bounding rectangle of a selection -/

theorem boundingRect_append (l : List QPoint) (p : QPoint) :
    boundingRect (l ++ [p]) =
      { minR := min (boundingRect l).minR p.y, maxR := max (boundingRect l).maxR p.y,
        minC := min (boundingRect l).minC p.x, maxC := max (boundingRect l).maxC p.x } := by
  unfold boundingRect
  rw [List.foldl_append]
  rfl

/-- The bounding-rectangle loop computes the bounding box of a non-empty selection
whose coordinates lie in `[0, INT_MAX]`. -/
theorem boundingRect_isBoundingBox (sel : List QPoint) (hne : sel ≠ [])
    (h : ∀ p ∈ sel, 0 ≤ p.y ∧ p.y ≤ INT_MAX ∧ 0 ≤ p.x ∧ p.x ≤ INT_MAX) :
    IsBoundingBox sel (boundingRect sel) := by
  induction sel using List.reverseRecOn with
  | nil => exact absurd rfl hne
  | append_singleton l p ih =>
    have hp := h p (by simp)
    rw [boundingRect_append]
    by_cases hl : l = []
    · subst hl
      have e : boundingRect [] = { minR := INT_MAX, maxR := 0, minC := INT_MAX, maxC := 0 } := rfl
      rw [e]
      refine ⟨?_, ⟨p, by simp, ?_⟩, ⟨p, by simp, ?_⟩, ⟨p, by simp, ?_⟩, ⟨p, by simp, ?_⟩⟩
      · intro q hq
        have : q = p := by simpa using hq
        subst this
        simp only
        omega
      all_goals (simp only; omega)
    · obtain ⟨hall, ⟨p1, hp1, e1⟩, ⟨p2, hp2, e2⟩, ⟨p3, hp3, e3⟩, ⟨p4, hp4, e4⟩⟩ :=
        ih hl (fun q hq => h q (by simp [hq]))
      refine ⟨?_, ?_, ?_, ?_, ?_⟩
      · intro q hq
        rcases List.mem_append.mp hq with hq1 | hq1
        · have := hall q hq1
          simp only
          omega
        · have : q = p := by simpa using hq1
          subst this
          simp only
          omega
      · by_cases hc : (boundingRect l).minR ≤ p.y
        · exact ⟨p1, by simp [hp1], by simp only; omega⟩
        · exact ⟨p, by simp, by simp only; omega⟩
      · by_cases hc : p.y ≤ (boundingRect l).maxR
        · exact ⟨p2, by simp [hp2], by simp only; omega⟩
        · exact ⟨p, by simp, by simp only; omega⟩
      · by_cases hc : (boundingRect l).minC ≤ p.x
        · exact ⟨p3, by simp [hp3], by simp only; omega⟩
        · exact ⟨p, by simp, by simp only; omega⟩
      · by_cases hc : p.x ≤ (boundingRect l).maxC
        · exact ⟨p4, by simp [hp4], by simp only; omega⟩
        · exact ⟨p, by simp, by simp only; omega⟩

theorem isBoundingBox_unique (sel : List QPoint) (b1 b2 : Bounds)
    (h1 : IsBoundingBox sel b1) (h2 : IsBoundingBox sel b2) : b1 = b2 := by
  obtain ⟨a1, ⟨p1, hp1, e1⟩, ⟨p2, hp2, e2⟩, ⟨p3, hp3, e3⟩, ⟨p4, hp4, e4⟩⟩ := h1
  obtain ⟨a2, ⟨q1, hq1, f1⟩, ⟨q2, hq2, f2⟩, ⟨q3, hq3, f3⟩, ⟨q4, hq4, f4⟩⟩ := h2
  have A1 := a1 q1 hq1; have A2 := a1 q2 hq2; have A3 := a1 q3 hq3; have A4 := a1 q4 hq4
  have B1 := a2 p1 hp1; have B2 := a2 p2 hp2; have B3 := a2 p3 hp3; have B4 := a2 p4 hp4
  cases b1; cases b2
  simp only [Bounds.mk.injEq] at *
  omega

theorem isBoundingBox_ordered (sel : List QPoint) (b : Bounds) (h : IsBoundingBox sel b) :
    b.minR ≤ b.maxR ∧ b.minC ≤ b.maxC := by
  obtain ⟨a1, ⟨p1, hp1, e1⟩, _, _, _⟩ := h
  have := a1 p1 hp1
  omega

/-- A selection without repetition that lies in a rectangle and has as many
positions as the rectangle contains every position of the rectangle. -/
theorem rect_subset_of_length (sel : List QPoint) (b : Bounds) (hnd : sel.Nodup)
    (hin : ∀ p ∈ sel, b.minR ≤ p.y ∧ p.y ≤ b.maxR ∧ b.minC ≤ p.x ∧ p.x ≤ b.maxC)
    (hord : b.minR ≤ b.maxR ∧ b.minC ≤ b.maxC)
    (hlen : (sel.length : Int) = (b.maxR - b.minR + 1) * (b.maxC - b.minC + 1))
    (r c : Int) (hr : b.minR ≤ r ∧ r ≤ b.maxR) (hc : b.minC ≤ c ∧ c ≤ b.maxC) :
    ({ x := c, y := r } : QPoint) ∈ sel := by
  let rect : List QPoint :=
    (List.product (intRange b.minR (b.maxR + 1)) (intRange b.minC (b.maxC + 1))).map
      (fun rc => ({ x := rc.2, y := rc.1 } : QPoint))
  have hmem : ∀ q : QPoint, q ∈ rect ↔
      (b.minR ≤ q.y ∧ q.y ≤ b.maxR ∧ b.minC ≤ q.x ∧ q.x ≤ b.maxC) := by
    intro q
    simp only [rect, List.mem_map, Prod.exists, List.pair_mem_product, mem_intRange]
    constructor
    · rintro ⟨a, d, ⟨⟨h1, h2⟩, h3, h4⟩, rfl⟩
      simp only
      omega
    · intro hq
      exact ⟨q.y, q.x, ⟨⟨by omega, by omega⟩, by omega, by omega⟩, rfl⟩
  have hsub : sel ⊆ rect := fun q hq => (hmem q).mpr (hin q hq)
  have hlenr : (rect.length : Int) = (b.maxR - b.minR + 1) * (b.maxC - b.minC + 1) := by
    have e : rect.length =
        (b.maxR + 1 - b.minR).toNat * (b.maxC + 1 - b.minC).toNat := by
      simp only [rect, List.length_map]
      exact (List.length_product _ _).trans (by rw [length_intRange, length_intRange])
    rw [e]
    push_cast
    rw [Int.toNat_of_nonneg (by omega), Int.toNat_of_nonneg (by omega)]
    ring
  have hle : rect.length ≤ sel.length := by
    have : (rect.length : Int) ≤ (sel.length : Int) := by rw [hlenr, hlen]
    exact_mod_cast this
  have hperm := (List.subperm_of_subset hnd hsub).perm_of_length_le hle
  exact hperm.mem_iff.mpr ((hmem _).mpr ⟨hr.1, hr.2, hc.1, hc.2⟩)

/-! ## The tests of `canMergeSelected` and `canResetSelected` -/

theorem contains_iff_mem (sel : List QPoint) (q : QPoint) : sel.contains q = true ↔ q ∈ sel := by
  simp

theorem rectSelected_iff (sel : List QPoint) (b : Bounds) :
    rectSelected sel b = true ↔
      ∀ r c : Int, b.minR ≤ r ∧ r ≤ b.maxR → b.minC ≤ c ∧ c ≤ b.maxC →
        ({ x := c, y := r } : QPoint) ∈ sel := by
  unfold rectSelected
  rw [List.all_eq_true]
  constructor
  · intro h r c hr hc
    have h1 := h r (mem_intRange.mpr (by omega))
    rw [List.all_eq_true] at h1
    exact (contains_iff_mem _ _).mp (h1 c (mem_intRange.mpr (by omega)))
  · intro h r hr
    rw [List.all_eq_true]
    intro c hc
    rw [mem_intRange] at hr hc
    exact (contains_iff_mem _ _).mpr (h r c (by omega) (by omega))

theorem mem_touchedCells (w : GridEditorWidget) (idx : Int) :
    idx ∈ touchedCells w ↔ 0 ≤ idx ∧ ∃ p ∈ w.selectedPositions_, ownerAt w p.y p.x = idx := by
  unfold touchedCells
  rw [List.mem_dedup, List.mem_filter, List.mem_map]
  constructor
  · rintro ⟨⟨p, hp, e⟩, h0⟩
    exact ⟨by simpa using h0, p, hp, e⟩
  · rintro ⟨h0, p, hp, e⟩
    exact ⟨⟨p, hp, e⟩, by simpa using h0⟩

/-- Every owner stored for a selected position is `-1` or an index of `cells_`. -/
theorem owner_index (w : GridEditorWidget) (hw : Consistent w) (p : QPoint)
    (hp : p ∈ w.selectedPositions_) (h0 : 0 ≤ ownerAt w p.y p.x) :
    ∃ (i : Nat) (hi : i < w.cells_.length), ownerAt w p.y p.x = (i : Int) ∧
      inSpan (w.cells_.get ⟨i, hi⟩) p.y p.x := by
  have hg := hw.inGrid p hp
  rcases ownerAt_synced w hw.synced p.y p.x ⟨hg.1, hg.2.1⟩ ⟨hg.2.2.1, hg.2.2.2⟩ with
    ⟨hv, _⟩ | ⟨i, hi, hv, hin, _⟩
  · omega
  · exact ⟨i, hi, hv, hin⟩

theorem touchedInside_iff (w : GridEditorWidget) (hw : Consistent w) :
    touchedInside w = true ↔ TouchedContained w := by
  unfold touchedInside TouchedContained Touched
  rw [List.all_eq_true]
  constructor
  · intro h i hi ⟨p, hp, e⟩ r c hin
    have h1 := h (i : Int) ((mem_touchedCells w i).mpr ⟨by omega, p, hp, e⟩)
    have eg : w.cells_.getD (i : Int).toNat {} = w.cells_.get ⟨i, hi⟩ := by
      have : (i : Int).toNat = i := by omega
      rw [this, List.getD_eq_getElem _ _ hi]
      rfl
    simp only [eg] at h1
    rw [List.all_eq_true] at h1
    unfold inSpan at hin
    have h2 := h1 r (mem_intRange.mpr ⟨hin.1, hin.2.1⟩)
    rw [List.all_eq_true] at h2
    exact (contains_iff_mem _ _).mp (h2 c (mem_intRange.mpr ⟨hin.2.2.1, hin.2.2.2⟩))
  · intro h idx hidx
    obtain ⟨h0, p, hp, e⟩ := (mem_touchedCells w idx).mp hidx
    obtain ⟨i, hi, ei, _⟩ := owner_index w hw p hp (by omega)
    have eidx : idx = (i : Int) := by omega
    subst eidx
    have eg : w.cells_.getD (i : Int).toNat {} = w.cells_.get ⟨i, hi⟩ := by
      have : (i : Int).toNat = i := by omega
      rw [this, List.getD_eq_getElem _ _ hi]
      rfl
    simp only [eg]
    rw [List.all_eq_true]
    intro r hr
    rw [List.all_eq_true]
    intro c hc
    rw [mem_intRange] at hr hc
    exact (contains_iff_mem _ _).mpr (h i hi ⟨p, hp, e⟩ r c ⟨hr.1, hr.2, hc.1, hc.2⟩)

theorem selection_int_range (w : GridEditorWidget) (hw : Consistent w) :
    ∀ p ∈ w.selectedPositions_, 0 ≤ p.y ∧ p.y ≤ INT_MAX ∧ 0 ≤ p.x ∧ p.x ≤ INT_MAX := by
  intro p hp
  have := hw.inGrid p hp
  have := hw.intRows
  have := hw.intCols
  omega

/-- The two rectangle tests of the source (size of the selection equal to the
area of the bounding rectangle, and every position of the bounding rectangle
selected) hold together exactly for a filled rectangle. -/
theorem rectTests_iff (w : GridEditorWidget) (hw : Consistent w)
    (hne : w.selectedPositions_ ≠ []) :
    ((w.selectedPositions_.length : Int) =
        ((boundingRect w.selectedPositions_).maxR - (boundingRect w.selectedPositions_).minR + 1) *
        ((boundingRect w.selectedPositions_).maxC - (boundingRect w.selectedPositions_).minC + 1) ∧
      rectSelected w.selectedPositions_ (boundingRect w.selectedPositions_) = true) ↔
    FilledRect w.selectedPositions_ := by
  have hb := boundingRect_isBoundingBox w.selectedPositions_ hne (selection_int_range w hw)
  constructor
  · rintro ⟨h1, _⟩
    exact ⟨boundingRect w.selectedPositions_, hb, h1⟩
  · rintro ⟨b, hbb, hlen⟩
    have e := isBoundingBox_unique _ _ _ hbb hb
    subst e
    refine ⟨hlen, ?_⟩
    rw [rectSelected_iff]
    intro r c hr hc
    exact rect_subset_of_length _ _ hw.nodup hb.1 (isBoundingBox_ordered _ _ hb) hlen r c hr hc

/-- What `canMergeSelected` decides. -/
theorem canMergeSelected_iff (w : GridEditorWidget) (hw : Consistent w) :
    canMergeSelected w = true ↔
      2 ≤ w.selectedPositions_.length ∧ FilledRect w.selectedPositions_ ∧ TouchedContained w := by
  unfold canMergeSelected
  by_cases h2 : w.selectedPositions_.length < 2
  · rw [if_pos h2]
    constructor
    · intro h; exact absurd h (by simp)
    · intro h; omega
  · rw [if_neg h2]
    have hne : w.selectedPositions_ ≠ [] := by
      intro e; rw [e] at h2; simp at h2
    have ht := rectTests_iff w hw hne
    have hi := touchedInside_iff w hw
    simp only []
    by_cases hlen : (w.selectedPositions_.length : Int) =
        ((boundingRect w.selectedPositions_).maxR - (boundingRect w.selectedPositions_).minR + 1) *
        ((boundingRect w.selectedPositions_).maxC - (boundingRect w.selectedPositions_).minC + 1)
    · rw [if_neg (not_not.mpr hlen)]
      by_cases hrect : rectSelected w.selectedPositions_ (boundingRect w.selectedPositions_) = true
      · have hf := ht.mp ⟨hlen, hrect⟩
        simp only [hrect, Bool.not_true, Bool.false_eq_true, if_false]
        rw [hi]
        constructor
        · intro h; exact ⟨by omega, hf, h⟩
        · intro h; exact h.2.2
      · have hnf : ¬ FilledRect w.selectedPositions_ := fun hf => hrect (ht.mpr hf).2
        simp only [hrect, Bool.not_false, if_true]
        constructor
        · intro h; exact absurd h (by simp)
        · intro h; exact absurd h.2.1 hnf
    · rw [if_pos hlen]
      have hnf : ¬ FilledRect w.selectedPositions_ := fun hf => hlen (ht.mpr hf).1
      constructor
      · intro h; exact absurd h (by simp)
      · intro h; exact absurd h.2.1 hnf

theorem consistent_stateOneCell : Consistent stateOneCell :=
  ⟨rfl, by decide, by decide, by decide, by decide⟩

theorem consistent_statePair : Consistent statePair :=
  ⟨rfl, by decide, by decide, by decide, by decide⟩

theorem consistent_stateMergedClick : Consistent stateMergedClick :=
  ⟨rfl, by decide, by decide, by decide, by decide⟩

theorem consistent_stateEll : Consistent stateEll :=
  ⟨rfl, by decide, by decide, by decide, by decide⟩

/-! ## C5 -/

/-- C5 as stated fails: a single selected `1 x 1` cell is a filled rectangle
that contains the whole span of the one cell it touches, and `canMergeSelected`
returns false for it. -/
theorem C5_single_cell_counterexample :
    Consistent stateOneCell ∧ FilledRect stateOneCell.selectedPositions_ ∧
    TouchedContained stateOneCell ∧
    ¬ (canMergeSelected stateOneCell = true ↔
        FilledRect stateOneCell.selectedPositions_ ∧ TouchedContained stateOneCell) := by
  have hf : FilledRect stateOneCell.selectedPositions_ :=
    ⟨{ minR := 0, maxR := 0, minC := 0, maxC := 0 }, by unfold IsBoundingBox; decide, by decide⟩
  have ht : TouchedContained stateOneCell :=
    (touchedInside_iff stateOneCell consistent_stateOneCell).mp (by decide)
  refine ⟨consistent_stateOneCell, hf, ht, ?_⟩
  intro h
  have hc : canMergeSelected stateOneCell = false := by decide
  rw [h.mpr ⟨hf, ht⟩] at hc
  exact absurd hc (by simp)

/-- C5, amended: `canMergeSelected` returns true if and only if the selection has
at least two positions, is a filled rectangle (its size equals
`(maxRow-minRow+1)*(maxCol-minCol+1)` of its bounding box) and every cell touched
by the selection has its entire span contained in the selection. -/
theorem C5_canMerge_iff_two_filled_contained (w : GridEditorWidget) (hw : Consistent w) :
    canMergeSelected w = true ↔
      2 ≤ w.selectedPositions_.length ∧ FilledRect w.selectedPositions_ ∧ TouchedContained w :=
  canMergeSelected_iff w hw

/-- C5 amended, at the `1 x 2` grid with both cells selected. -/
theorem C5_canMerge_iff_two_filled_contained_witness :
    Consistent statePair ∧
    (canMergeSelected statePair = true ↔
      2 ≤ statePair.selectedPositions_.length ∧ FilledRect statePair.selectedPositions_ ∧
        TouchedContained statePair) :=
  ⟨consistent_statePair, C5_canMerge_iff_two_filled_contained statePair consistent_statePair⟩

/-! ## C6 -/

/-- C6: `canMergeSelected` returns false for every selection that is not a filled
rectangle, and for every selection that contains some but not all positions of the
span of a cell of a valid layout. -/
theorem C6_canMerge_rejects_open_shapes (w : GridEditorWidget) (hw : Consistent w)
    (hv : ValidLayout w.rows_ w.cols_ w.cells_) :
    (¬ FilledRect w.selectedPositions_ → canMergeSelected w = false) ∧
    ((∃ (i : Nat) (hi : i < w.cells_.length),
        (∃ p ∈ w.selectedPositions_, inSpan (w.cells_.get ⟨i, hi⟩) p.y p.x) ∧
        (∃ r c : Int, inSpan (w.cells_.get ⟨i, hi⟩) r c ∧
          ({ x := c, y := r } : QPoint) ∉ w.selectedPositions_)) →
      canMergeSelected w = false) := by
  constructor
  · intro hnf
    by_contra hc
    rw [Bool.not_eq_false] at hc
    exact hnf ((canMergeSelected_iff w hw).mp hc).2.1
  · rintro ⟨i, hi, ⟨p, hp, hin⟩, r, c, hrc, hnot⟩
    by_contra hc
    rw [Bool.not_eq_false] at hc
    have ht := ((canMergeSelected_iff w hw).mp hc).2.2
    have hg := hw.inGrid p hp
    obtain ⟨k, hk, ek, _, huniq⟩ :=
      ownerAt_valid w hw.synced hv p.y p.x ⟨hg.1, hg.2.1⟩ ⟨hg.2.2.1, hg.2.2.2⟩
    have eik : i = k := huniq i hi hin
    subst eik
    exact hnot (ht i hi ⟨p, hp, ek⟩ r c hrc)

/-- C6 at the `2 x 2` grid with an L-shaped selection: the selection is not a
filled rectangle and `canMergeSelected` is false. -/
theorem C6_canMerge_rejects_open_shapes_witness :
    Consistent stateEll ∧ ValidLayout stateEll.rows_ stateEll.cols_ stateEll.cells_ ∧
    ¬ FilledRect stateEll.selectedPositions_ ∧ canMergeSelected stateEll = false := by
  have hv : ValidLayout stateEll.rows_ stateEll.cols_ stateEll.cells_ :=
    validLayout_of_check _ _ _ (by decide)
  have hnf : ¬ FilledRect stateEll.selectedPositions_ := by
    rintro ⟨b, hb, hlen⟩
    have hb2 : IsBoundingBox stateEll.selectedPositions_
        { minR := 0, maxR := 1, minC := 0, maxC := 1 } := by unfold IsBoundingBox; decide
    have e := isBoundingBox_unique _ _ _ hb hb2
    subst e
    revert hlen
    decide
  exact ⟨consistent_stateEll, hv, hnf,
    (C6_canMerge_rejects_open_shapes stateEll consistent_stateEll hv).1 hnf⟩

/-! ## C9 -/

/-- `selectedCellIndex` returns an index exactly for a non-empty selection whose
positions all have one and the same owning cell. -/
theorem selectedCellIndex_nonneg_iff (w : GridEditorWidget) :
    0 ≤ selectedCellIndex w ↔ w.selectedPositions_ ≠ [] ∧ SameOwner w := by
  unfold selectedCellIndex SameOwner
  cases hsel : w.selectedPositions_ with
  | nil => simp
  | cons first rest =>
    simp only [ne_eq, reduceCtorEq, not_false_eq_true, true_and]
    by_cases hall : ((first :: rest).all
        (fun p => decide (ownerAt w p.y p.x = ownerAt w first.y first.x))) = true
    · rw [if_pos hall]
      rw [List.all_eq_true] at hall
      constructor
      · intro h0
        refine ⟨(ownerAt w first.y first.x).toNat, fun p hp => ?_⟩
        have := of_decide_eq_true (hall p hp)
        omega
      · rintro ⟨i, hi⟩
        have := hi first (by simp)
        omega
    · rw [if_neg hall]
      constructor
      · intro h; omega
      · rintro ⟨i, hi⟩
        exfalso
        apply hall
        rw [List.all_eq_true]
        intro p hp
        have h1 := hi p hp
        have h2 := hi first (by simp)
        exact decide_eq_true (by omega)

/-- What `canResetSelected` decides. -/
theorem canResetSelected_iff (w : GridEditorWidget) (hw : Consistent w) :
    canResetSelected w = true ↔
      w.selectedPositions_ ≠ [] ∧
        (SameOwner w ∨ (FilledRect w.selectedPositions_ ∧ TouchedContained w)) := by
  unfold canResetSelected
  by_cases he : w.selectedPositions_ = []
  · simp [he]
  · have hemp : w.selectedPositions_.isEmpty = false := by
      cases h : w.selectedPositions_ with
      | nil => exact absurd h he
      | cons a l => rfl
    rw [hemp]
    simp only [Bool.false_eq_true, if_false]
    by_cases hidx : selectedCellIndex w ≥ 0
    · rw [if_pos hidx]
      have := (selectedCellIndex_nonneg_iff w).mp hidx
      exact ⟨fun _ => ⟨he, Or.inl this.2⟩, fun _ => rfl⟩
    · rw [if_neg hidx]
      have hns : ¬ SameOwner w := fun hs => hidx ((selectedCellIndex_nonneg_iff w).mpr ⟨he, hs⟩)
      have ht := rectTests_iff w hw he
      have hi := touchedInside_iff w hw
      by_cases hlen : (w.selectedPositions_.length : Int) =
          ((boundingRect w.selectedPositions_).maxR - (boundingRect w.selectedPositions_).minR + 1) *
          ((boundingRect w.selectedPositions_).maxC - (boundingRect w.selectedPositions_).minC + 1)
      · rw [if_neg (not_not.mpr hlen)]
        by_cases hrect : rectSelected w.selectedPositions_ (boundingRect w.selectedPositions_) = true
        · have hf := ht.mp ⟨hlen, hrect⟩
          simp only [hrect, Bool.not_true, Bool.false_eq_true, if_false]
          rw [hi]
          constructor
          · intro h; exact ⟨he, Or.inr ⟨hf, h⟩⟩
          · rintro ⟨_, h | h⟩
            · exact absurd h hns
            · exact h.2
        · have hnf : ¬ FilledRect w.selectedPositions_ := fun hf => hrect (ht.mpr hf).2
          simp only [hrect, Bool.not_false, if_true]
          constructor
          · intro h; exact absurd h (by simp)
          · rintro ⟨_, h | h⟩
            · exact absurd h hns
            · exact absurd h.1 hnf
      · rw [if_pos hlen]
        have hnf : ¬ FilledRect w.selectedPositions_ := fun hf => hlen (ht.mpr hf).1
        constructor
        · intro h; exact absurd h (by simp)
        · rintro ⟨_, h | h⟩
          · exact absurd h hns
          · exact absurd h.1 hnf

/-- C9 as stated fails: with one position of a merged `1 x 2` cell selected,
`canResetSelected` returns true although the selection is neither the complete
span of a cell nor a rectangle that contains the span of the cell it touches. -/
theorem C9_partial_cell_counterexample :
    Consistent stateMergedClick ∧ canResetSelected stateMergedClick = true ∧
    ¬ (stateMergedClick.selectedPositions_ ≠ [] ∧
        (SingleWholeCell stateMergedClick ∨
          (FilledRect stateMergedClick.selectedPositions_ ∧ TouchedContained stateMergedClick))) := by
  refine ⟨consistent_stateMergedClick, by decide, ?_⟩
  rintro ⟨_, h | h⟩
  · obtain ⟨i, hi, hq⟩ := h
    have hi0 : i = 0 := by
      have : i < 1 := hi
      omega
    subst hi0
    have hin : inSpan (stateMergedClick.cells_.get ⟨0, by decide⟩) 0 1 := by decide
    have h1 := (hq { x := 1, y := 0 }).mpr hin
    revert h1
    decide
  · have := (touchedInside_iff stateMergedClick consistent_stateMergedClick).mpr h.2
    revert this
    decide

/-- C9, amended: `canResetSelected` returns true exactly when the selection is
non-empty and either (a) every selected position is owned by one and the same
cell, whether or not the selection covers that cell's whole span, or (b) the
selection is a filled rectangle and contains the entire span of every cell it
touches. -/
theorem C9_canReset_iff_same_owner_or_rect (w : GridEditorWidget) (hw : Consistent w) :
    canResetSelected w = true ↔
      w.selectedPositions_ ≠ [] ∧
        (SameOwner w ∨ (FilledRect w.selectedPositions_ ∧ TouchedContained w)) :=
  canResetSelected_iff w hw

/-- C9 amended, at the merged `1 x 2` cell with one position selected. -/
theorem C9_canReset_iff_same_owner_or_rect_witness :
    Consistent stateMergedClick ∧
    (canResetSelected stateMergedClick = true ↔
      stateMergedClick.selectedPositions_ ≠ [] ∧
        (SameOwner stateMergedClick ∨
          (FilledRect stateMergedClick.selectedPositions_ ∧ TouchedContained stateMergedClick))) :=
  ⟨consistent_stateMergedClick,
    C9_canReset_iff_same_owner_or_rect stateMergedClick consistent_stateMergedClick⟩

/-! ## C8 -/

/-- C8: an invalid edit is rejected before any mutation. When `canMergeSelected`
(respectively `canResetSelected`) is false, `mergeSelected` (respectively
`resetSelected`) returns the state unchanged; the empty selection is such a case. -/
theorem C8_rejected_edit_changes_nothing (w : GridEditorWidget) :
    (canMergeSelected w = false → mergeSelected w = w) ∧
    (canResetSelected w = false → resetSelected w = w) ∧
    (w.selectedPositions_ = [] →
      canMergeSelected w = false ∧ canResetSelected w = false ∧
      mergeSelected w = w ∧ resetSelected w = w) := by
  have hm : canMergeSelected w = false → mergeSelected w = w := by
    intro h
    unfold mergeSelected
    simp [h]
  have hr : canResetSelected w = false → resetSelected w = w := by
    intro h
    unfold resetSelected
    simp [h]
  refine ⟨hm, hr, ?_⟩
  intro he
  have h1 : canMergeSelected w = false := by
    unfold canMergeSelected
    simp [he]
  have h2 : canResetSelected w = false := by
    unfold canResetSelected
    simp [he]
  exact ⟨h1, h2, hm h1, hr h2⟩

/-- C8 at the L-shaped selection (merge rejected) and at the freshly constructed
widget with its empty selection (merge and reset rejected). -/
theorem C8_rejected_edit_changes_nothing_witness :
    mergeSelected stateEll = stateEll ∧
    mergeSelected GridEditorWidget.init = GridEditorWidget.init ∧
    resetSelected GridEditorWidget.init = GridEditorWidget.init :=
  ⟨(C8_rejected_edit_changes_nothing stateEll).1 (by decide),
    ((C8_rejected_edit_changes_nothing GridEditorWidget.init).2.2 rfl).2.2.1,
    ((C8_rejected_edit_changes_nothing GridEditorWidget.init).2.2 rfl).2.2.2⟩

/-! ## Removing cells by descending index -/

theorem eraseIdx_map {α β : Type} (f : α → β) (l : List α) (k : Nat) :
    (l.map f).eraseIdx k = (l.eraseIdx k).map f := by
  induction l generalizing k with
  | nil => rfl
  | cons a l ih =>
    cases k with
    | zero => rfl
    | succ k => simp [List.eraseIdx, ih]

theorem foldl_eraseIdx_map {α β : Type} (f : α → β) (idxs : List Int) (l : List α) :
    idxs.foldl (fun cs idx => cs.eraseIdx idx.toNat) (l.map f) =
      (idxs.foldl (fun cs idx => cs.eraseIdx idx.toNat) l).map f := by
  induction idxs generalizing l with
  | nil => rfl
  | cons a rest ih =>
    simp only [List.foldl_cons]
    rw [eraseIdx_map, ih]

theorem filter_eraseIdx_of_removed {α : Type} (rm : α → Bool) (l : List α) (k : Nat)
    (hk : k < l.length) (h : rm (l.get ⟨k, hk⟩) = true) :
    (l.eraseIdx k).filter (fun x => !rm x) = l.filter (fun x => !rm x) := by
  have e : l = l.take k ++ l.get ⟨k, hk⟩ :: l.drop (k + 1) := by
    rw [List.get_eq_getElem, ← List.drop_eq_getElem_cons hk, List.take_append_drop]
  rw [List.eraseIdx_eq_take_drop_succ]
  conv_rhs => rw [e]
  rw [List.filter_append, List.filter_append, List.filter_cons]
  have h2 : rm l[k] = true := h
  simp [h2]

/-- Removing, in descending order, exactly the indices whose element is marked
leaves the unmarked elements in their order. -/
theorem foldl_eraseIdx_eq_filter {α : Type} (rm : α → Bool) (idxs : List Int)
    (hs : idxs.Pairwise (fun a b => a > b)) (h0 : ∀ x ∈ idxs, 0 ≤ x) (l : List α)
    (hmem : ∀ (i : Nat) (hi : i < l.length), ((i : Int) ∈ idxs ↔ rm (l.get ⟨i, hi⟩) = true)) :
    idxs.foldl (fun cs idx => cs.eraseIdx idx.toNat) l = l.filter (fun x => !rm x) := by
  induction idxs generalizing l with
  | nil =>
    simp only [List.foldl_nil]
    symm
    rw [List.filter_eq_self]
    intro a ha
    obtain ⟨n, hn⟩ := List.get_of_mem ha
    have := (hmem n.1 n.2).not.mp (by simp)
    rw [← hn]
    simpa using this
  | cons a rest ih =>
    rw [List.pairwise_cons] at hs
    obtain ⟨hlt, hrest⟩ := hs
    have ha0 := h0 a (by simp)
    simp only [List.foldl_cons]
    by_cases hk : a.toNat < l.length
    · have hrm : rm (l.get ⟨a.toNat, hk⟩) = true :=
        (hmem a.toNat hk).mp (by
          have : ((a.toNat : Nat) : Int) = a := by omega
          rw [this]; simp)
      rw [← filter_eraseIdx_of_removed rm l a.toNat hk hrm]
      apply ih hrest (fun x hx => h0 x (by simp [hx]))
      intro i hi
      have hlen : (l.eraseIdx a.toNat).length = l.length - 1 := List.length_eraseIdx_of_lt hk
      rw [List.get_eq_getElem, List.getElem_eraseIdx]
      by_cases hia : i < a.toNat
      · rw [dif_pos hia]
        have := hmem i (by omega)
        rw [List.get_eq_getElem] at this
        rw [← this]
        simp only [List.mem_cons]
        constructor
        · intro h; exact Or.inr h
        · rintro (h | h)
          · omega
          · exact h
      · rw [dif_neg hia]
        have := hmem (i + 1) (by omega)
        rw [List.get_eq_getElem] at this
        rw [← this]
        simp only [List.mem_cons]
        constructor
        · intro h
          have := hlt _ h
          omega
        · rintro (h | h)
          · omega
          · have := hlt _ h
            omega
    · rw [List.eraseIdx_of_length_le (by omega)]
      apply ih hrest (fun x hx => h0 x (by simp [hx]))
      intro i hi
      rw [← hmem i hi]
      simp only [List.mem_cons]
      constructor
      · intro h; exact Or.inr h
      · rintro (h | h)
        · omega
        · exact h

/-- The removal loop keeps exactly the cells whose index is not in `toRemove`,
in their order. -/
theorem removeCells_eq_filter (cells : List CellConfig) (toRemove : List Int)
    (hnd : toRemove.Nodup) (h0 : ∀ x ∈ toRemove, 0 ≤ x) :
    removeCells cells toRemove =
      (cells.enum.filter (fun ic => !decide ((ic.1 : Int) ∈ toRemove))).map Prod.snd := by
  unfold removeCells
  have hperm := List.perm_insertionSort (fun a b : Int => a ≥ b) toRemove
  have hsorted := List.sorted_insertionSort (fun a b : Int => a ≥ b) toRemove
  have hnd2 : (toRemove.insertionSort (fun a b : Int => a ≥ b)).Nodup := hperm.nodup_iff.mpr hnd
  have hpw : (toRemove.insertionSort (fun a b : Int => a ≥ b)).Pairwise (fun a b => a > b) := by
    have := List.Pairwise.and hsorted hnd2
    refine this.imp ?_
    intro a b hab
    have h1 : a ≥ b := hab.1
    have h2 : a ≠ b := hab.2
    omega
  have hmap : cells = cells.enum.map Prod.snd := (List.enum_map_snd cells).symm
  conv_lhs => rw [hmap]
  rw [foldl_eraseIdx_map]
  congr 1
  apply foldl_eraseIdx_eq_filter (fun ic : Nat × CellConfig => decide ((ic.1 : Int) ∈ toRemove))
    _ hpw (fun x hx => h0 x (hperm.mem_iff.mp hx))
  intro i hi
  rw [List.get_eq_getElem, List.getElem_enum]
  simp only [decide_eq_true_eq]
  exact hperm.mem_iff

theorem removeCells_touched (w : GridEditorWidget) :
    removeCells w.cells_ (touchedCells w) = untouchedCells w := by
  have hnd : (touchedCells w).Nodup := by
    unfold touchedCells
    exact List.nodup_dedup _
  rw [removeCells_eq_filter _ _ hnd (fun x hx => ((mem_touchedCells w x).mp hx).1)]
  unfold untouchedCells
  congr 1
  apply List.filter_congr
  intro ic _
  congr 1
  rw [Bool.eq_iff_iff, decide_eq_true_eq, mem_touchedCells, List.any_eq_true]
  constructor
  · rintro ⟨_, p, hp, e⟩
    exact ⟨p, hp, decide_eq_true e⟩
  · rintro ⟨p, hp, e⟩
    exact ⟨by omega, p, hp, of_decide_eq_true e⟩

/-! ## C7 -/

/-- In a widget whose map is in step with its cells, a position of the grid that
lies in the span of the last cell of the list is owned by that cell. -/
theorem ownerAt_last (w : GridEditorWidget)
    (hs : w.ownership_ = buildOwnership w.rows_ w.cols_ w.cells_)
    (l : List CellConfig) (x : CellConfig) (hcells : w.cells_ = l ++ [x]) (r c : Int)
    (hr : 0 ≤ r ∧ r < w.rows_) (hc : 0 ≤ c ∧ c < w.cols_) (hin : inSpan x r c) :
    ownerAt w r c = (l.length : Int) := by
  have hlen : w.cells_.length = l.length + 1 := by rw [hcells]; simp
  have hlast : ∀ (h : l.length < w.cells_.length), w.cells_.get ⟨l.length, h⟩ = x := by
    intro h
    simp [hcells]
  rcases ownerAt_synced w hs r c hr hc with ⟨_, hno⟩ | ⟨i, hi, hv, _, hlater⟩
  · exact absurd (by rw [hlast]; exact hin) (hno l.length (by omega))
  · by_cases hil : i = l.length
    · rw [hv, hil]
    · exact absurd (by rw [hlast]; exact hin) (hlater l.length (by omega) (by omega))

theorem mergeSelected_eq (w : GridEditorWidget) (hm : canMergeSelected w = true) :
    mergeSelected w =
      rebuildOwnership
        { w with
          cells_ := untouchedCells w ++
            [{ row := (boundingRect w.selectedPositions_).minR,
               col := (boundingRect w.selectedPositions_).minC,
               rowSpan := (boundingRect w.selectedPositions_).maxR -
                 (boundingRect w.selectedPositions_).minR + 1,
               colSpan := (boundingRect w.selectedPositions_).maxC -
                 (boundingRect w.selectedPositions_).minC + 1 }],
          selectedPositions_ := [] } := by
  unfold mergeSelected
  simp only [hm, Bool.not_true, Bool.false_eq_true, if_false]
  rw [removeCells_touched]

theorem selection_ne_nil_of_canMerge (w : GridEditorWidget) (hm : canMergeSelected w = true) :
    w.selectedPositions_ ≠ [] := by
  intro he
  unfold canMergeSelected at hm
  simp [he] at hm

/-- C7: when `canMergeSelected` holds, `mergeSelected` removes exactly the cells
that own a selected position, keeps every other cell unchanged and in order,
appends one new cell with `row = minRow`, `col = minCol`,
`rowSpan = maxRow - minRow + 1`, `colSpan = maxCol - minCol + 1` of the bounding
rectangle and default content, empties the selection and leaves the ownership
map rebuilt, with every position of the rectangle owned by the new cell. -/
theorem C7_merge_replaces_touched_by_one_cell (w : GridEditorWidget) (hw : Consistent w)
    (hm : canMergeSelected w = true) :
    ∃ b : Bounds, IsBoundingBox w.selectedPositions_ b ∧
      (mergeSelected w).cells_ = untouchedCells w ++
        [{ row := b.minR, col := b.minC, rowSpan := b.maxR - b.minR + 1,
           colSpan := b.maxC - b.minC + 1, widget := {} }] ∧
      (mergeSelected w).selectedPositions_ = [] ∧
      (mergeSelected w).rows_ = w.rows_ ∧ (mergeSelected w).cols_ = w.cols_ ∧
      (mergeSelected w).ownership_ =
        buildOwnership (mergeSelected w).rows_ (mergeSelected w).cols_ (mergeSelected w).cells_ ∧
      ∀ r c : Int, b.minR ≤ r ∧ r ≤ b.maxR → b.minC ≤ c ∧ c ≤ b.maxC →
        ownerAt (mergeSelected w) r c = ((untouchedCells w).length : Int) := by
  have hne := selection_ne_nil_of_canMerge w hm
  have hb := boundingRect_isBoundingBox w.selectedPositions_ hne (selection_int_range w hw)
  refine ⟨boundingRect w.selectedPositions_, hb, ?_⟩
  rw [mergeSelected_eq w hm]
  refine ⟨rfl, rfl, rfl, rfl, rfl, ?_⟩
  intro r c hr hc
  obtain ⟨hall, ⟨p1, hp1, e1⟩, ⟨p2, hp2, e2⟩, ⟨p3, hp3, e3⟩, ⟨p4, hp4, e4⟩⟩ := hb
  have g1 := hw.inGrid p1 hp1
  have g2 := hw.inGrid p2 hp2
  have g3 := hw.inGrid p3 hp3
  have g4 := hw.inGrid p4 hp4
  apply ownerAt_last _ rfl (untouchedCells w) _ rfl r c
  · show 0 ≤ r ∧ r < w.rows_
    omega
  · show 0 ≤ c ∧ c < w.cols_
    omega
  · unfold inSpan
    simp only
    omega

/-- C7 at the `1 x 2` grid with both `1 x 1` cells selected: the two cells are
replaced by one `1 x 2` cell. -/
theorem C7_merge_replaces_touched_by_one_cell_witness :
    Consistent statePair ∧ canMergeSelected statePair = true ∧
    (mergeSelected statePair).cells_ = [{ row := 0, col := 0, rowSpan := 1, colSpan := 2 }] ∧
    ∃ b : Bounds, IsBoundingBox statePair.selectedPositions_ b ∧
      (mergeSelected statePair).cells_ = untouchedCells statePair ++
        [{ row := b.minR, col := b.minC, rowSpan := b.maxR - b.minR + 1,
           colSpan := b.maxC - b.minC + 1, widget := {} }] ∧
      (mergeSelected statePair).selectedPositions_ = [] ∧
      (mergeSelected statePair).rows_ = statePair.rows_ ∧
      (mergeSelected statePair).cols_ = statePair.cols_ ∧
      (mergeSelected statePair).ownership_ =
        buildOwnership (mergeSelected statePair).rows_ (mergeSelected statePair).cols_
          (mergeSelected statePair).cells_ ∧
      ∀ r c : Int, b.minR ≤ r ∧ r ≤ b.maxR → b.minC ≤ c ∧ c ≤ b.maxC →
        ownerAt (mergeSelected statePair) r c = ((untouchedCells statePair).length : Int) :=
  ⟨consistent_statePair, by decide, by decide,
    C7_merge_replaces_touched_by_one_cell statePair consistent_statePair (by decide)⟩

/-! ## C10 -/

theorem selectedCellIndex_owner (w : GridEditorWidget) (h0 : 0 ≤ selectedCellIndex w) :
    ∀ p ∈ w.selectedPositions_, ownerAt w p.y p.x = selectedCellIndex w := by
  unfold selectedCellIndex at h0 ⊢
  cases hsel : w.selectedPositions_ with
  | nil => intro p hp; simp at hp
  | cons first rest =>
    rw [hsel] at h0
    simp only at h0 ⊢
    by_cases hall : ((first :: rest).all
        (fun p => decide (ownerAt w p.y p.x = ownerAt w first.y first.x))) = true
    · rw [if_pos hall]
      rw [List.all_eq_true] at hall
      intro p hp
      exact of_decide_eq_true (hall p hp)
    · rw [if_neg hall] at h0
      omega

/-- The test of the fast path of `resetSelected` holds exactly when the selection
is non-empty and lies in one `1 x 1` cell. -/
theorem fastPath_iff (w : GridEditorWidget) (hne : w.selectedPositions_ ≠ []) :
    (selectedCellIndex w ≥ 0 ∧ selectedCellIndex w < (w.cells_.length : Int) ∧
      (w.cells_.getD (selectedCellIndex w).toNat {}).rowSpan = 1 ∧
      (w.cells_.getD (selectedCellIndex w).toNat {}).colSpan = 1) ↔ SelectionIsUnitCell w := by
  unfold SelectionIsUnitCell
  constructor
  · rintro ⟨h0, hlt, h1, h2⟩
    have hi : (selectedCellIndex w).toNat < w.cells_.length := by omega
    have eg : w.cells_.getD (selectedCellIndex w).toNat {} =
        w.cells_.get ⟨(selectedCellIndex w).toNat, hi⟩ := by
      rw [List.getD_eq_getElem _ _ hi]
      rfl
    refine ⟨(selectedCellIndex w).toNat, hi, ?_, by rw [← eg]; exact h1, by rw [← eg]; exact h2⟩
    intro p hp
    rw [selectedCellIndex_owner w h0 p hp]
    omega
  · rintro ⟨i, hi, hown, h1, h2⟩
    have h0 : 0 ≤ selectedCellIndex w :=
      (selectedCellIndex_nonneg_iff w).mpr ⟨hne, i, hown⟩
    obtain ⟨p, hp⟩ := List.exists_mem_of_ne_nil _ hne
    have e : selectedCellIndex w = (i : Int) := by
      rw [← selectedCellIndex_owner w h0 p hp, hown p hp]
    have et : (selectedCellIndex w).toNat = i := by omega
    have eg : w.cells_.getD (selectedCellIndex w).toNat {} = w.cells_.get ⟨i, hi⟩ := by
      rw [et, List.getD_eq_getElem _ _ hi]
      rfl
    rw [eg]
    exact ⟨by omega, by omega, h1, h2⟩

theorem selection_ne_nil_of_canReset (w : GridEditorWidget) (hr : canResetSelected w = true) :
    w.selectedPositions_ ≠ [] := by
  intro he
  unfold canResetSelected at hr
  simp [he] at hr

theorem resetSelected_mass_eq (w : GridEditorWidget) (hr : canResetSelected w = true)
    (hn : ¬ SelectionIsUnitCell w) :
    resetSelected w =
      rebuildOwnership
        { w with
          cells_ := untouchedCells w ++
            w.selectedPositions_.map (fun p => ({ row := p.y, col := p.x } : CellConfig)),
          selectedPositions_ := [] } := by
  have hne := selection_ne_nil_of_canReset w hr
  have hfast := (fastPath_iff w hne).not.mpr hn
  unfold resetSelected
  simp only [hr, Bool.not_true, Bool.false_eq_true, if_false]
  rw [if_neg hfast, removeCells_touched]

/-- C10: when `canResetSelected` holds and the selection is not one `1 x 1` cell,
`resetSelected` removes every cell that owns a selected position, keeps every
other cell unchanged and in order, appends for each selected position one
`1 x 1` cell with default (None) content at that position, and empties the
selection. -/
theorem C10_mass_reset_fragments_selection (w : GridEditorWidget)
    (hr : canResetSelected w = true) (hn : ¬ SelectionIsUnitCell w) :
    (resetSelected w).cells_ = untouchedCells w ++
      w.selectedPositions_.map (fun p =>
        ({ row := p.y, col := p.x, rowSpan := 1, colSpan := 1,
           widget := { type := WidgetType.None } } : CellConfig)) ∧
    (resetSelected w).selectedPositions_ = [] ∧
    (resetSelected w).rows_ = w.rows_ ∧ (resetSelected w).cols_ = w.cols_ ∧
    (resetSelected w).ownership_ =
      buildOwnership (resetSelected w).rows_ (resetSelected w).cols_ (resetSelected w).cells_ := by
  rw [resetSelected_mass_eq w hr hn]
  exact ⟨rfl, rfl, rfl, rfl, rfl⟩

/-- C10 at the merged `1 x 2` cell with one position selected: the merged cell is
removed and one `1 x 1` cell is put at the selected position. -/
theorem C10_mass_reset_fragments_selection_witness :
    canResetSelected stateMergedClick = true ∧ ¬ SelectionIsUnitCell stateMergedClick ∧
    (resetSelected stateMergedClick).cells_ = [{ row := 0, col := 0, rowSpan := 1, colSpan := 1 }] ∧
    (resetSelected stateMergedClick).selectedPositions_ = [] := by
  have hn : ¬ SelectionIsUnitCell stateMergedClick := by
    rintro ⟨i, hi, _, _, h2⟩
    have hi0 : i = 0 := by
      have : i < 1 := hi
      omega
    subst hi0
    have h3 : (stateMergedClick.cells_.get ⟨0, by decide⟩).colSpan = 1 := h2
    revert h3
    decide
  have h := C10_mass_reset_fragments_selection stateMergedClick (by decide) hn
  exact ⟨by decide, hn, by decide, h.2.1⟩

/-! ## The tiling invariant on lists -/

/-- A layout is valid when its cells lie in the grid, every grid position is in
the span of a cell of the list, and the spans of the list are pairwise apart. -/
theorem validLayout_of_list (rows cols : Int) (cells : List CellConfig)
    (hin : ∀ cell ∈ cells, CellInGrid rows cols cell)
    (hcov : ∀ r c : Int, 0 ≤ r → r < rows → 0 ≤ c → c < cols → ∃ cell ∈ cells, inSpan cell r c)
    (hpw : cells.Pairwise SpansApart) : ValidLayout rows cols cells := by
  refine ⟨fun cell hc => ⟨(hin cell hc).1, (hin cell hc).2.1⟩,
    fun cell hc => ⟨(hin cell hc).2.2.1, (hin cell hc).2.2.2.1, (hin cell hc).2.2.2.2.1,
      (hin cell hc).2.2.2.2.2⟩, ?_, ?_⟩
  · intro r c h1 h2 h3 h4
    obtain ⟨cell, hmem, hs⟩ := hcov r c h1 h2 h3 h4
    obtain ⟨n, hn⟩ := List.get_of_mem hmem
    exact ⟨n.1, n.2, by rw [hn]; exact hs⟩
  · intro i j hi hj r c hri hrj
    rw [List.pairwise_iff_get] at hpw
    rcases Nat.lt_trichotomy i j with hlt | heq | hgt
    · exact absurd hrj (hpw ⟨i, hi⟩ ⟨j, hj⟩ hlt r c hri)
    · exact heq
    · exact absurd hri (hpw ⟨j, hj⟩ ⟨i, hi⟩ hgt r c hrj)

theorem ValidLayout.cellInGrid {rows cols : Int} {cells : List CellConfig}
    (hv : ValidLayout rows cols cells) : ∀ cell ∈ cells, CellInGrid rows cols cell := by
  intro cell hc
  have h1 := hv.spans cell hc
  have h2 := hv.inside cell hc
  exact ⟨h1.1, h1.2, h2.1, h2.2.1, h2.2.2.1, h2.2.2.2⟩

theorem ValidLayout.pairwise {rows cols : Int} {cells : List CellConfig}
    (hv : ValidLayout rows cols cells) : cells.Pairwise SpansApart := by
  rw [List.pairwise_iff_get]
  intro i j hlt r c hri hrj
  have := hv.disjoint i.1 j.1 i.2 j.2 r c hri hrj
  have h2 : i.1 < j.1 := hlt
  omega

theorem ValidLayout.cover {rows cols : Int} {cells : List CellConfig}
    (hv : ValidLayout rows cols cells) (r c : Int) (h1 : 0 ≤ r) (h2 : r < rows) (h3 : 0 ≤ c)
    (h4 : c < cols) : ∃ cell ∈ cells, inSpan cell r c := by
  obtain ⟨i, hi, hs⟩ := hv.covered r c h1 h2 h3 h4
  exact ⟨cells.get ⟨i, hi⟩, List.get_mem _ _ _, hs⟩

/-! ## The cells that survive a merge or a mass reset -/

theorem mem_untouchedCells (w : GridEditorWidget) (cell : CellConfig) :
    cell ∈ untouchedCells w ↔
      ∃ (i : Nat) (hi : i < w.cells_.length), w.cells_.get ⟨i, hi⟩ = cell ∧
        ∀ p ∈ w.selectedPositions_, ownerAt w p.y p.x ≠ (i : Int) := by
  unfold untouchedCells
  rw [List.mem_map]
  constructor
  · rintro ⟨⟨i, x⟩, hf, rfl⟩
    rw [List.mem_filter, List.mem_enum_iff_getElem?] at hf
    obtain ⟨hget, hany⟩ := hf
    simp only at hget hany
    obtain ⟨hi, e⟩ := List.getElem?_eq_some_iff.mp hget
    refine ⟨i, hi, e, ?_⟩
    intro p hp hown
    rw [Bool.not_eq_true_eq_eq_false, ← Bool.not_eq_true, List.any_eq_true] at hany
    exact hany ⟨p, hp, decide_eq_true hown⟩
  · rintro ⟨i, hi, rfl, hno⟩
    refine ⟨(i, w.cells_.get ⟨i, hi⟩), ?_, rfl⟩
    rw [List.mem_filter, List.mem_enum_iff_getElem?]
    refine ⟨?_, ?_⟩
    · simp only
      exact List.getElem?_eq_some_iff.mpr ⟨hi, rfl⟩
    · rw [Bool.not_eq_true_eq_eq_false, ← Bool.not_eq_true, List.any_eq_true]
      rintro ⟨p, hp, hd⟩
      exact hno p hp (of_decide_eq_true hd)

theorem untouchedCells_sublist (w : GridEditorWidget) :
    (untouchedCells w).Sublist w.cells_ := by
  unfold untouchedCells
  have h := (List.filter_sublist (w.cells_.enum)
    (p := fun ic => !(w.selectedPositions_.any fun p =>
      decide (ownerAt w p.y p.x = (ic.1 : Int))))).map Prod.snd
  rw [List.enum_map_snd] at h
  exact h

/-- In a valid layout the cells that own no selected position are the cells whose
span holds no selected position. -/
theorem mem_untouchedCells_valid (w : GridEditorWidget) (hw : Consistent w)
    (hv : ValidLayout w.rows_ w.cols_ w.cells_) (cell : CellConfig) :
    cell ∈ untouchedCells w ↔
      cell ∈ w.cells_ ∧ ∀ p ∈ w.selectedPositions_, ¬ inSpan cell p.y p.x := by
  rw [mem_untouchedCells]
  constructor
  · rintro ⟨i, hi, rfl, hno⟩
    refine ⟨List.get_mem _ _ _, ?_⟩
    intro p hp hin
    have hg := hw.inGrid p hp
    obtain ⟨k, hk, ek, _, huniq⟩ :=
      ownerAt_valid w hw.synced hv p.y p.x ⟨hg.1, hg.2.1⟩ ⟨hg.2.2.1, hg.2.2.2⟩
    have := huniq i hi hin
    subst this
    exact hno p hp ek
  · rintro ⟨hmem, hno⟩
    obtain ⟨n, hn⟩ := List.get_of_mem hmem
    refine ⟨n.1, n.2, hn, ?_⟩
    intro p hp hown
    have hg := hw.inGrid p hp
    obtain ⟨k, hk, ek, hink, _⟩ :=
      ownerAt_valid w hw.synced hv p.y p.x ⟨hg.1, hg.2.1⟩ ⟨hg.2.2.1, hg.2.2.2⟩
    have ekn : k = n.1 := by omega
    subst ekn
    apply hno p hp
    rw [← hn]
    exact hink

/-! ## C2 -/

/-- C2: `mergeSelected` maintains the tiling invariant. For a valid grid layout
and a selection of in-grid positions for which `canMergeSelected` is true, the
layout after `mergeSelected` again covers every position of the grid by exactly
one span, with no overlapping spans, all spans at least `1` and inside the grid. -/
theorem C2_merge_keeps_tiling (w : GridEditorWidget) (hw : Consistent w)
    (hv : ValidLayout w.rows_ w.cols_ w.cells_) (hm : canMergeSelected w = true) :
    ValidLayout (mergeSelected w).rows_ (mergeSelected w).cols_ (mergeSelected w).cells_ := by
  have hne := selection_ne_nil_of_canMerge w hm
  have hb := boundingRect_isBoundingBox w.selectedPositions_ hne (selection_int_range w hw)
  obtain ⟨_, ⟨b2, hb2, hlen⟩, htc⟩ := (canMergeSelected_iff w hw).mp hm
  have eb := isBoundingBox_unique _ _ _ hb2 hb
  subst eb
  have hord := isBoundingBox_ordered _ _ hb
  have hrect := rect_subset_of_length _ _ hw.nodup hb.1 hord hlen
  rw [mergeSelected_eq w hm]
  show ValidLayout w.rows_ w.cols_ (untouchedCells w ++ [_])
  obtain ⟨hall, ⟨p1, hp1, e1⟩, ⟨p2, hp2, e2⟩, ⟨p3, hp3, e3⟩, ⟨p4, hp4, e4⟩⟩ := hb
  have g1 := hw.inGrid p1 hp1
  have g2 := hw.inGrid p2 hp2
  have g3 := hw.inGrid p3 hp3
  have g4 := hw.inGrid p4 hp4
  apply validLayout_of_list
  · intro cell hc
    rcases List.mem_append.mp hc with h | h
    · exact hv.cellInGrid cell ((untouchedCells_sublist w).subset h)
    · have : cell = _ := List.mem_singleton.mp h
      subst this
      unfold CellInGrid
      simp only
      omega
  · intro r c h1 h2 h3 h4
    by_cases hbox : ((boundingRect w.selectedPositions_).minR ≤ r ∧
        r ≤ (boundingRect w.selectedPositions_).maxR) ∧
        ((boundingRect w.selectedPositions_).minC ≤ c ∧
        c ≤ (boundingRect w.selectedPositions_).maxC)
    · refine ⟨_, List.mem_append_right _ (List.mem_singleton.mpr rfl), ?_⟩
      unfold inSpan
      simp only
      omega
    · obtain ⟨i, hi, hs⟩ := hv.covered r c h1 h2 h3 h4
      refine ⟨w.cells_.get ⟨i, hi⟩, List.mem_append_left _ ?_, hs⟩
      rw [mem_untouchedCells_valid w hw hv]
      refine ⟨List.get_mem _ _ _, ?_⟩
      intro p hp hin
      have hg := hw.inGrid p hp
      obtain ⟨k, hk, ek, _, huniq⟩ :=
        ownerAt_valid w hw.synced hv p.y p.x ⟨hg.1, hg.2.1⟩ ⟨hg.2.2.1, hg.2.2.2⟩
      have := huniq i hi hin
      subst this
      have hsel := htc i hi ⟨p, hp, ek⟩ r c hs
      have := hall _ hsel
      simp only at this
      exact hbox (by omega)
  · rw [List.pairwise_append]
    refine ⟨hv.pairwise.sublist (untouchedCells_sublist w), List.pairwise_singleton _ _, ?_⟩
    intro a ha m hmm r c hra hrm
    have : m = _ := List.mem_singleton.mp hmm
    subst this
    unfold inSpan at hrm
    simp only at hrm
    have hsel := hrect r c (by omega) (by omega)
    exact ((mem_untouchedCells_valid w hw hv a).mp ha).2 _ hsel hra

/-- C2 at the `1 x 2` grid with both `1 x 1` cells selected. -/
theorem C2_merge_keeps_tiling_witness :
    Consistent statePair ∧ ValidLayout statePair.rows_ statePair.cols_ statePair.cells_ ∧
    canMergeSelected statePair = true ∧
    ValidLayout (mergeSelected statePair).rows_ (mergeSelected statePair).cols_
      (mergeSelected statePair).cells_ :=
  ⟨consistent_statePair, validLayout_of_check _ _ _ (by decide), by decide,
    C2_merge_keeps_tiling statePair consistent_statePair
      (validLayout_of_check _ _ _ (by decide)) (by decide)⟩

/-! ## C3 -/

/-- C3 fails on the code: in a valid `1 x 2` layout holding one merged cell, with
one position of that cell selected, `canResetSelected` is true and
`resetSelected` removes the merged cell but appends a `1 x 1` cell for the
selected position only; position `(0, 1)` is left without owner and the layout
is no longer a tiling. -/
theorem C3_reset_of_clicked_merged_cell_leaves_hole :
    Consistent stateMergedClick ∧
    ValidLayout stateMergedClick.rows_ stateMergedClick.cols_ stateMergedClick.cells_ ∧
    canResetSelected stateMergedClick = true ∧
    (resetSelected stateMergedClick).cells_ =
      [{ row := 0, col := 0, rowSpan := 1, colSpan := 1 }] ∧
    ownerAt (resetSelected stateMergedClick) 0 1 = -1 ∧
    ¬ ValidLayout (resetSelected stateMergedClick).rows_ (resetSelected stateMergedClick).cols_
        (resetSelected stateMergedClick).cells_ := by
  refine ⟨consistent_stateMergedClick, validLayout_of_check _ _ _ (by decide), by decide,
    by decide, by decide, ?_⟩
  intro hv
  have e : (resetSelected stateMergedClick).cells_ =
      [{ row := 0, col := 0, rowSpan := 1, colSpan := 1 }] := by decide
  obtain ⟨cell, hmem, hin⟩ := hv.cover 0 1 (by decide) (by decide) (by decide) (by decide)
  rw [e] at hmem
  have : cell = _ := List.mem_singleton.mp hmem
  subst this
  revert hin
  decide

/-! ## The resize, loop by loop -/

theorem foldl_nested_eq_product {α β γ : Type} (g : γ → α → β → γ) (rs : List α)
    (cs : List β) (init : γ) :
    rs.foldl (fun acc r => cs.foldl (fun acc2 c => g acc2 r c) acc) init =
      (List.product rs cs).foldl (fun acc rc => g acc rc.1 rc.2) init := by
  induction rs generalizing init with
  | nil => rfl
  | cons r rs ih =>
    have e : List.product (r :: rs) cs = cs.map (Prod.mk r) ++ List.product rs cs :=
      List.product_cons r rs cs
    rw [e, List.foldl_append, List.foldl_map, List.foldl_cons, ih]

theorem foldl_append_if {α β : Type} (cond : α → Bool) (mk : α → β) (l : List α)
    (init : List β) :
    l.foldl (fun acc x => if cond x = true then acc ++ [mk x] else acc) init =
      init ++ (l.filter cond).map mk := by
  induction l generalizing init with
  | nil => simp
  | cons x l ih =>
    rw [List.foldl_cons, ih]
    by_cases hx : cond x = true
    · simp [hx]
    · simp [hx]

theorem fillUnoccupied_eq (newRows newCols : Int) (occ : List (List Bool))
    (newCells : List CellConfig) :
    fillUnoccupied newRows newCols occ newCells =
      newCells ++
        ((List.product (intRange 0 newRows) (intRange 0 newCols)).filter
          (fun rc => !((occ.getD rc.1.toNat []).getD rc.2.toNat false))).map
          (fun rc => ({ row := rc.1, col := rc.2, rowSpan := 1, colSpan := 1 } : CellConfig)) := by
  unfold fillUnoccupied
  rw [foldl_nested_eq_product
    (fun (acc : List CellConfig) (r c : Int) =>
      if (!((occ.getD r.toNat []).getD c.toNat false)) = true then
        acc ++ [({ row := r, col := c, rowSpan := 1, colSpan := 1 } : CellConfig)]
      else acc)]
  exact foldl_append_if
    (fun rc : Int × Int => !((occ.getD rc.1.toNat []).getD rc.2.toNat false))
    (fun rc => ({ row := rc.1, col := rc.2, rowSpan := 1, colSpan := 1 } : CellConfig)) _ _

theorem setOccupied_entry (r2 c2 : Nat) (m : List (List Bool)) (r c : Int)
    (hr : r2 < m.length) (hc : c2 < (m.getD r2 []).length) :
    (r2 < (setOccupied m r c).length ∧ c2 < ((setOccupied m r c).getD r2 []).length) ∧
    ((setOccupied m r c).getD r2 []).getD c2 false =
      if r = (r2 : Int) ∧ c = (c2 : Int) then true else (m.getD r2 []).getD c2 false := by
  unfold setOccupied
  by_cases h : 0 ≤ r ∧ 0 ≤ c
  · rw [if_pos h]
    refine ⟨fits_modify_set m true r.toNat c.toNat r2 c2 hr hc, ?_⟩
    rw [getD_modify_set m false true r.toNat c.toNat r2 c2 hr hc]
    have e : (r.toNat = r2 ∧ c.toNat = c2) ↔ (r = (r2 : Int) ∧ c = (c2 : Int)) := by omega
    simp only [e]
  · rw [if_neg h]
    refine ⟨⟨hr, hc⟩, ?_⟩
    have e : ¬ (r = (r2 : Int) ∧ c = (c2 : Int)) := by omega
    rw [if_neg e]

theorem keepCell_fold_append (newRows newCols : Int) (l : List CellConfig) (x : CellConfig)
    (init : List CellConfig × List (List Bool)) :
    (l ++ [x]).foldl (keepCell newRows newCols) init =
      keepCell newRows newCols (l.foldl (keepCell newRows newCols) init) x := by
  rw [List.foldl_append]
  rfl

theorem keptCells_append (newRows newCols : Int) (l : List CellConfig) (x : CellConfig) :
    keptCells newRows newCols (l ++ [x]) =
      if x.row < newRows ∧ x.col < newCols then
        keptCells newRows newCols l ++ [clampCell newRows newCols x]
      else keptCells newRows newCols l := by
  unfold keptCells
  rw [List.filter_append]
  by_cases h : x.row < newRows ∧ x.col < newCols
  · rw [if_pos h]
    simp [List.filter_cons, h]
  · rw [if_neg h]
    simp [List.filter_cons, h]

theorem keepCell_pos (newRows newCols : Int) (acc : List CellConfig × List (List Bool))
    (x : CellConfig) (h : x.row < newRows ∧ x.col < newCols) :
    keepCell newRows newCols acc x =
      (acc.1 ++ [clampCell newRows newCols x],
        (intRange (clampCell newRows newCols x).row
          ((clampCell newRows newCols x).row + (clampCell newRows newCols x).rowSpan)).foldl
          (fun occ1 r =>
            (intRange (clampCell newRows newCols x).col
              ((clampCell newRows newCols x).col + (clampCell newRows newCols x).colSpan)).foldl
              (fun occ2 col => setOccupied occ2 r col) occ1)
          acc.2) := by
  unfold keepCell
  rw [if_pos h]

theorem keepCell_neg (newRows newCols : Int) (acc : List CellConfig × List (List Bool))
    (x : CellConfig) (h : ¬ (x.row < newRows ∧ x.col < newCols)) :
    keepCell newRows newCols acc x = acc := by
  unfold keepCell
  rw [if_neg h]

/-- The first loop of the resize collects the retained cells in `newCells`. -/
theorem keepCell_fold_fst (newRows newCols : Int) (cells : List CellConfig)
    (init : List CellConfig × List (List Bool)) :
    (cells.foldl (keepCell newRows newCols) init).1 =
      init.1 ++ keptCells newRows newCols cells := by
  induction cells using List.reverseRecOn with
  | nil => simp [keptCells]
  | append_singleton l y ih =>
    rw [keepCell_fold_append, keptCells_append]
    by_cases hy : y.row < newRows ∧ y.col < newCols
    · rw [keepCell_pos _ _ _ _ hy, if_pos hy]
      simp only [ih, List.append_assoc]
    · rw [keepCell_neg _ _ _ _ hy, if_neg hy]
      exact ih

/-- The first loop of the resize marks `occupied`: an in-range entry is true
exactly when a retained cell's span contains the position. -/
theorem keepCell_fold (newRows newCols : Int) (oldCells : List CellConfig) (r c : Int)
    (hr : 0 ≤ r ∧ r < newRows) (hc : 0 ≤ c ∧ c < newCols) :
    (r.toNat < (oldCells.foldl (keepCell newRows newCols)
        ([], List.replicate newRows.toNat (List.replicate newCols.toNat false))).2.length ∧
      c.toNat < (((oldCells.foldl (keepCell newRows newCols)
        ([], List.replicate newRows.toNat (List.replicate newCols.toNat false))).2).getD
          r.toNat []).length) ∧
    ((((oldCells.foldl (keepCell newRows newCols)
        ([], List.replicate newRows.toNat (List.replicate newCols.toNat false))).2).getD
          r.toNat []).getD c.toNat false = true ↔
      ∃ cell ∈ keptCells newRows newCols oldCells, inSpan cell r c) := by
  induction oldCells using List.reverseRecOn with
  | nil =>
    have h1 : r.toNat < (List.replicate newRows.toNat (List.replicate newCols.toNat false)).length := by
      rw [List.length_replicate]; omega
    have h2 : (List.replicate newRows.toNat (List.replicate newCols.toNat false)).getD r.toNat [] =
        List.replicate newCols.toNat false := by
      rw [List.getD_eq_getElem _ _ h1, List.getElem_replicate]
    have h3 : c.toNat < (List.replicate newCols.toNat false).length := by
      rw [List.length_replicate]; omega
    simp only [List.foldl_nil]
    rw [h2]
    refine ⟨⟨h1, h3⟩, ?_⟩
    rw [List.getD_eq_getElem _ _ h3, List.getElem_replicate]
    simp [keptCells]
  | append_singleton l x ih =>
    obtain ⟨⟨f1, f2⟩, ih3⟩ := ih
    rw [keepCell_fold_append, keptCells_append]
    by_cases hx : x.row < newRows ∧ x.col < newCols
    · rw [keepCell_pos _ _ _ _ hx, if_pos hx]
      have hrn : ((r.toNat : Nat) : Int) = r := by omega
      have hcn : ((c.toNat : Nat) : Int) = c := by omega
      have h := getD_nested_assign (fun m2 r1 c1 => setOccupied m2 r1 c1) false true
        r.toNat c.toNat
        (fun m2 r1 c1 h1 h2 => setOccupied_entry r.toNat c.toNat m2 r1 c1 h1 h2)
        (intRange (clampCell newRows newCols x).row
          ((clampCell newRows newCols x).row + (clampCell newRows newCols x).rowSpan))
        (intRange (clampCell newRows newCols x).col
          ((clampCell newRows newCols x).col + (clampCell newRows newCols x).colSpan))
        _ f1 f2
      rw [hrn, hcn] at h
      have e : (r ∈ intRange (clampCell newRows newCols x).row
          ((clampCell newRows newCols x).row + (clampCell newRows newCols x).rowSpan) ∧
          c ∈ intRange (clampCell newRows newCols x).col
          ((clampCell newRows newCols x).col + (clampCell newRows newCols x).colSpan)) ↔
          inSpan (clampCell newRows newCols x) r c := by
        rw [mem_intRange, mem_intRange]
        unfold inSpan
        omega
      simp only [e] at h
      refine ⟨h.1, ?_⟩
      simp only []
      rw [h.2]
      by_cases hin : inSpan (clampCell newRows newCols x) r c
      · rw [if_pos hin]
        simp only [true_iff]
        exact ⟨_, List.mem_append_right _ (List.mem_singleton.mpr rfl), hin⟩
      · rw [if_neg hin, ih3]
        constructor
        · rintro ⟨cell, hm, hs⟩
          exact ⟨cell, List.mem_append_left _ hm, hs⟩
        · rintro ⟨cell, hm, hs⟩
          rcases List.mem_append.mp hm with h1 | h1
          · exact ⟨cell, h1, hs⟩
          · have : cell = _ := List.mem_singleton.mp h1
            subst this
            exact absurd hs hin
    · rw [keepCell_neg _ _ _ _ hx, if_neg hx]
      exact ⟨⟨f1, f2⟩, ih3⟩

/-- The cell list that the resize builds: the retained cells, then the fresh
`1 x 1` cells of the positions that no retained cell covers. -/
theorem resizeCells_eq (newRows newCols : Int) (oldCells : List CellConfig) :
    resizeCells newRows newCols oldCells =
      keptCells newRows newCols oldCells ++
        freshCells newRows newCols (keptCells newRows newCols oldCells) := by
  unfold resizeCells
  simp only []
  rw [fillUnoccupied_eq, keepCell_fold_fst]
  simp only [List.nil_append]
  congr 1
  unfold freshCells
  congr 1
  apply List.filter_congr
  intro p hp
  have hp2 : p.1 ∈ intRange 0 newRows ∧ p.2 ∈ intRange 0 newCols := by
    have : (p.1, p.2) ∈ List.product (intRange 0 newRows) (intRange 0 newCols) := hp
    exact List.pair_mem_product.mp this
  rw [mem_intRange, mem_intRange] at hp2
  have h := (keepCell_fold newRows newCols oldCells p.1 p.2 hp2.1 hp2.2).2
  congr 1
  rw [Bool.eq_iff_iff, h, List.any_eq_true]
  constructor
  · rintro ⟨cell, hm, hs⟩
    exact ⟨cell, hm, decide_eq_true hs⟩
  · rintro ⟨cell, hm, hs⟩
    exact ⟨cell, hm, of_decide_eq_true hs⟩

/-! ## C4 -/

/-- The clamp keeps origin and content and cuts the spans to
`min rowSpan (newRows - row)`, `min colSpan (newCols - col)`. -/
theorem clampCell_eq (newRows newCols : Int) (x : CellConfig) :
    clampCell newRows newCols x =
      { x with rowSpan := min x.rowSpan (newRows - x.row),
               colSpan := min x.colSpan (newCols - x.col) } := by
  unfold clampCell
  cases x with
  | mk row col rowSpan colSpan widget =>
    by_cases h1 : row + rowSpan > newRows
    · by_cases h2 : col + colSpan > newCols
      · simp only [h1, h2, if_true, CellConfig.mk.injEq, true_and, and_true]
        constructor <;> omega
      · simp only [h1, h2, if_true, if_false, CellConfig.mk.injEq, true_and, and_true]
        constructor <;> omega
    · by_cases h2 : col + colSpan > newCols
      · simp only [h1, h2, if_true, if_false, CellConfig.mk.injEq, true_and, and_true]
        constructor <;> omega
      · simp only [h1, h2, if_false, CellConfig.mk.injEq, true_and, and_true]
        constructor <;> omega

theorem inSpan_of_clamp (newRows newCols : Int) (x : CellConfig) (r c : Int)
    (h : inSpan (clampCell newRows newCols x) r c) : inSpan x r c := by
  rw [clampCell_eq] at h
  unfold inSpan at h ⊢
  simp only at h
  omega

theorem mem_keptCells (newRows newCols : Int) (oldCells : List CellConfig) (cell : CellConfig) :
    cell ∈ keptCells newRows newCols oldCells ↔
      ∃ x ∈ oldCells, (x.row < newRows ∧ x.col < newCols) ∧ clampCell newRows newCols x = cell := by
  unfold keptCells
  rw [List.mem_map]
  constructor
  · rintro ⟨x, hx, e⟩
    rw [List.mem_filter] at hx
    exact ⟨x, hx.1, of_decide_eq_true hx.2, e⟩
  · rintro ⟨x, hx, hb, e⟩
    exact ⟨x, List.mem_filter.mpr ⟨hx, decide_eq_true hb⟩, e⟩

theorem mem_freshCells (newRows newCols : Int) (kept : List CellConfig) (cell : CellConfig) :
    cell ∈ freshCells newRows newCols kept ↔
      ∃ r c : Int, (0 ≤ r ∧ r < newRows) ∧ (0 ≤ c ∧ c < newCols) ∧
        (∀ k ∈ kept, ¬ inSpan k r c) ∧
        cell = { row := r, col := c, rowSpan := 1, colSpan := 1 } := by
  unfold freshCells
  rw [List.mem_map]
  constructor
  · rintro ⟨⟨r, c⟩, hrc, e⟩
    rw [List.mem_filter] at hrc
    obtain ⟨hp, hq⟩ := hrc
    have hp2 := List.pair_mem_product.mp hp
    rw [mem_intRange, mem_intRange] at hp2
    refine ⟨r, c, hp2.1, hp2.2, ?_, e.symm⟩
    intro k hk hin
    rw [Bool.not_eq_true_eq_eq_false, ← Bool.not_eq_true, List.any_eq_true] at hq
    exact hq ⟨k, hk, decide_eq_true hin⟩
  · rintro ⟨r, c, hr, hc, hno, e⟩
    refine ⟨(r, c), ?_, e.symm⟩
    rw [List.mem_filter]
    refine ⟨List.pair_mem_product.mpr ⟨mem_intRange.mpr hr, mem_intRange.mpr hc⟩, ?_⟩
    rw [Bool.not_eq_true_eq_eq_false, ← Bool.not_eq_true, List.any_eq_true]
    rintro ⟨k, hk, hd⟩
    exact hno k hk (of_decide_eq_true hd)

/-- The list built by the resize is a valid layout of the new grid. -/
theorem resizeCells_valid (rows cols : Int) (oldCells : List CellConfig)
    (hv : ValidLayout rows cols oldCells) (newRows newCols : Int) :
    ValidLayout newRows newCols (resizeCells newRows newCols oldCells) := by
  rw [resizeCells_eq]
  apply validLayout_of_list
  · intro cell hc
    rcases List.mem_append.mp hc with h | h
    · obtain ⟨x, hx, hb, e⟩ := (mem_keptCells _ _ _ _).mp h
      have hg := hv.cellInGrid x hx
      unfold CellInGrid at hg ⊢
      rw [← e, clampCell_eq]
      simp only
      omega
    · obtain ⟨r, c, hr, hcc, _, e⟩ := (mem_freshCells _ _ _ _).mp h
      subst e
      unfold CellInGrid
      simp only
      omega
  · intro r c h1 h2 h3 h4
    by_cases hk : ∃ k ∈ keptCells newRows newCols oldCells, inSpan k r c
    · obtain ⟨k, hkm, hin⟩ := hk
      exact ⟨k, List.mem_append_left _ hkm, hin⟩
    · refine ⟨{ row := r, col := c, rowSpan := 1, colSpan := 1 }, List.mem_append_right _ ?_, ?_⟩
      · rw [mem_freshCells]
        exact ⟨r, c, ⟨h1, h2⟩, ⟨h3, h4⟩, fun k hkm hin => hk ⟨k, hkm, hin⟩, rfl⟩
      · unfold inSpan
        simp only
        omega
  · rw [List.pairwise_append]
    refine ⟨?_, ?_, ?_⟩
    · unfold keptCells
      rw [List.pairwise_map]
      refine (hv.pairwise.filter _).imp ?_
      intro a b hab r c hra hrb
      exact hab r c (inSpan_of_clamp _ _ _ _ _ hra) (inSpan_of_clamp _ _ _ _ _ hrb)
    · unfold freshCells
      rw [List.pairwise_map]
      have hnd : (List.product (intRange 0 newRows) (intRange 0 newCols)).Nodup :=
        List.Nodup.product (nodup_intRange _ _) (nodup_intRange _ _)
      have hnd2 : ((List.product (intRange 0 newRows) (intRange 0 newCols)).filter
          (fun rc => !((keptCells newRows newCols oldCells).any fun cell =>
            decide (inSpan cell rc.1 rc.2)))).Pairwise (fun a b => a ≠ b) :=
        List.Pairwise.filter _ hnd
      refine hnd2.imp ?_
      intro a b hab r c hra hrb
      unfold inSpan at hra hrb
      simp only at hra hrb
      apply hab
      apply Prod.ext <;> omega
    · intro a ha b hb r c hra hrb
      obtain ⟨r2, c2, _, _, hno, e⟩ := (mem_freshCells _ _ _ _).mp hb
      subst e
      unfold inSpan at hrb
      simp only at hrb
      have e1 : r = r2 := by omega
      have e2 : c = c2 := by omega
      subst e1 e2
      exact hno a ha hra

/-- C4: resize guarantees the tiling invariant for the new dimensions. For a valid
grid layout and `newRows, newCols >= 1`, the cell list built by the resize covers
every position of `[0,newRows) x [0,newCols)` by exactly one span, with no
overlaps, all spans at least `1` and inside the new bounds; `onGridSizeChanged`
leaves the editor with the new dimensions and such a layout. -/
theorem C4_resize_builds_valid_tiling (w : GridEditorWidget)
    (hv : ValidLayout w.rows_ w.cols_ w.cells_) (newRows newCols : Int)
    (h1 : 1 ≤ newRows) (h2 : 1 ≤ newCols) :
    ValidLayout newRows newCols (resizeCells newRows newCols w.cells_) ∧
    (onGridSizeChanged w newRows newCols).rows_ = newRows ∧
    (onGridSizeChanged w newRows newCols).cols_ = newCols ∧
    ValidLayout newRows newCols (onGridSizeChanged w newRows newCols).cells_ := by
  have hres := resizeCells_valid w.rows_ w.cols_ w.cells_ hv newRows newCols
  refine ⟨hres, ?_⟩
  unfold onGridSizeChanged
  by_cases hsame : newRows = w.rows_ ∧ newCols = w.cols_
  · rw [if_pos hsame]
    obtain ⟨e1, e2⟩ := hsame
    subst e1 e2
    exact ⟨rfl, rfl, hv⟩
  · rw [if_neg hsame]
    refine ⟨?_, ?_, hres⟩
    · show max 1 newRows = newRows
      omega
    · show max 1 newCols = newCols
      omega

/-- C4 at a `2 x 2` grid holding one merged `2 x 2` cell, resized to `1 x 3`:
the cell is clamped to `1 x 2` and one fresh cell fills position `(0, 2)`. -/
theorem C4_resize_builds_valid_tiling_witness :
    ValidLayout 2 2 [{ row := 0, col := 0, rowSpan := 2, colSpan := 2 }] ∧
    resizeCells 1 3 [{ row := 0, col := 0, rowSpan := 2, colSpan := 2 }] =
      [{ row := 0, col := 0, rowSpan := 1, colSpan := 2 }, { row := 0, col := 2 }] ∧
    ValidLayout 1 3 (resizeCells 1 3 [{ row := 0, col := 0, rowSpan := 2, colSpan := 2 }]) :=
  ⟨validLayout_of_check _ _ _ (by decide), by decide,
    (C4_resize_builds_valid_tiling
      { rows_ := 2, cols_ := 2, cells_ := [{ row := 0, col := 0, rowSpan := 2, colSpan := 2 }] }
      (validLayout_of_check _ _ _ (by decide)) 1 3 (by decide) (by decide)).1⟩

/-! ## C15 -/

/-- Every owner reported by a map that is in step with the cells is `-1` or an
index of `cells_`. -/
theorem ownerAt_range (w : GridEditorWidget)
    (hs : w.ownership_ = buildOwnership w.rows_ w.cols_ w.cells_) (r c : Int) :
    ownerAt w r c = -1 ∨ (0 ≤ ownerAt w r c ∧ ownerAt w r c < (w.cells_.length : Int)) := by
  by_cases h : r < 0 ∨ r ≥ w.rows_ ∨ c < 0 ∨ c ≥ w.cols_
  · exact Or.inl (ownerAt_outside w r c h)
  · rcases ownerAt_synced w hs r c (by omega) (by omega) with ⟨hv, _⟩ | ⟨i, hi, hv, _, _⟩
    · exact Or.inl hv
    · right
      rw [hv]
      omega

/-- C15: `selectedCellIndex` returns an index `i >= 0` if and only if the selection
is non-empty and every selected position is owned by the same cell `i`; in every
other case (empty selection, positions with different owners, positions owned by
no cell) it returns `-1`. -/
theorem C15_selectedCellIndex_single_owner (w : GridEditorWidget)
    (hs : w.ownership_ = buildOwnership w.rows_ w.cols_ w.cells_) :
    (∀ i : Nat, selectedCellIndex w = (i : Int) ↔
      (w.selectedPositions_ ≠ [] ∧ ∀ p ∈ w.selectedPositions_, ownerAt w p.y p.x = (i : Int))) ∧
    ((¬ ∃ i : Nat, w.selectedPositions_ ≠ [] ∧
        ∀ p ∈ w.selectedPositions_, ownerAt w p.y p.x = (i : Int)) →
      selectedCellIndex w = -1) ∧
    (selectedCellIndex w = -1 ∨ 0 ≤ selectedCellIndex w) := by
  have hcases : selectedCellIndex w = -1 ∨ 0 ≤ selectedCellIndex w := by
    unfold selectedCellIndex
    cases hsel : w.selectedPositions_ with
    | nil => exact Or.inl rfl
    | cons first rest =>
      simp only
      by_cases hall : ((first :: rest).all
          (fun p => decide (ownerAt w p.y p.x = ownerAt w first.y first.x))) = true
      · rw [if_pos hall]
        have := ownerAt_range w hs first.y first.x
        omega
      · rw [if_neg hall]
        exact Or.inl rfl
  have hiff : ∀ i : Nat, selectedCellIndex w = (i : Int) ↔
      (w.selectedPositions_ ≠ [] ∧
        ∀ p ∈ w.selectedPositions_, ownerAt w p.y p.x = (i : Int)) := by
    intro i
    constructor
    · intro h
      have h0 : 0 ≤ selectedCellIndex w := by omega
      refine ⟨((selectedCellIndex_nonneg_iff w).mp h0).1, ?_⟩
      intro p hp
      rw [selectedCellIndex_owner w h0 p hp, h]
    · rintro ⟨hne, hown⟩
      have h0 : 0 ≤ selectedCellIndex w := (selectedCellIndex_nonneg_iff w).mpr ⟨hne, i, hown⟩
      obtain ⟨p, hp⟩ := List.exists_mem_of_ne_nil _ hne
      rw [← selectedCellIndex_owner w h0 p hp, hown p hp]
  refine ⟨hiff, ?_, hcases⟩
  intro hno
  rcases hcases with h | h
  · exact h
  · exfalso
    apply hno
    refine ⟨(selectedCellIndex w).toNat, ?_⟩
    have e : ((selectedCellIndex w).toNat : Int) = selectedCellIndex w := by omega
    rw [e]
    exact ⟨((selectedCellIndex_nonneg_iff w).mp h).1, selectedCellIndex_owner w h⟩

/-- C15 at the L-shaped selection of the `2 x 2` grid (three owners, result `-1`)
and at the clicked merged cell (one owner, result `0`). -/
theorem C15_selectedCellIndex_single_owner_witness :
    selectedCellIndex stateEll = -1 ∧ selectedCellIndex stateMergedClick = 0 := by
  refine ⟨?_, ?_⟩
  · apply (C15_selectedCellIndex_single_owner stateEll rfl).2.1
    rintro ⟨i, _, hown⟩
    have h1 := hown { x := 0, y := 0 } (by decide)
    have h2 := hown { x := 0, y := 1 } (by decide)
    have e1 : ownerAt stateEll 0 0 = 0 := by decide
    have e2 : ownerAt stateEll 1 0 = 2 := by decide
    simp only at h1 h2
    omega
  · exact ((C15_selectedCellIndex_single_owner stateMergedClick rfl).1 0).mpr
      ⟨by decide, by decide⟩

/-! ## The ownership map depends on the geometry only -/

theorem buildOwnership_geometry (rows cols : Int) (cells : List CellConfig) :
    buildOwnership rows cols cells =
      (cells.map cellGeometry).enum.foldl
        (fun own ig => markCell rows cols own (ig.1 : Int)
          { row := ig.2.1, col := ig.2.2.1, rowSpan := ig.2.2.2.1, colSpan := ig.2.2.2.2 })
        (List.replicate rows.toNat (List.replicate cols.toNat (-1 : Int))) := by
  unfold buildOwnership
  rw [List.enum_map, List.foldl_map]
  rfl

theorem buildOwnership_congr (rows cols : Int) (cells1 cells2 : List CellConfig)
    (h : cells1.map cellGeometry = cells2.map cellGeometry) :
    buildOwnership rows cols cells1 = buildOwnership rows cols cells2 := by
  rw [buildOwnership_geometry, buildOwnership_geometry, h]

theorem map_geometry_set (cells : List CellConfig) (i : Nat) (c : CellConfig)
    (h : ∀ hi : i < cells.length, cellGeometry c = cellGeometry (cells.get ⟨i, hi⟩)) :
    (cells.set i c).map cellGeometry = cells.map cellGeometry := by
  apply List.ext_getElem
  · simp
  · intro n h1 h2
    simp only [List.getElem_map, List.getElem_set]
    by_cases hin : i = n
    · subst hin
      simp only [if_true]
      exact h (by simpa using h2)
    · simp [hin]

/-- Replacing the content of a cell does not change the derived map. -/
theorem buildOwnership_set_widget (rows cols : Int) (cells : List CellConfig) (i : Nat)
    (widget : WidgetConfig) :
    buildOwnership rows cols (cells.set i { cells.getD i {} with widget := widget }) =
      buildOwnership rows cols cells := by
  apply buildOwnership_congr
  apply map_geometry_set
  intro hi
  rw [List.getD_eq_getElem _ _ hi]
  rfl

/-! ## The size of the ownership map -/

theorem setOwner_shape (R C : Nat) (own : List (List Int)) (r c i : Int)
    (h : own.length = R ∧ ∀ line ∈ own, line.length = C) :
    (setOwner own r c i).length = R ∧ ∀ line ∈ setOwner own r c i, line.length = C := by
  unfold setOwner
  by_cases hrc : 0 ≤ r ∧ 0 ≤ c
  · rw [if_pos hrc]
    refine ⟨by simpa using h.1, ?_⟩
    intro line hl
    obtain ⟨n, hn, e⟩ := List.getElem_of_mem hl
    rw [List.getElem_modify] at e
    have hn2 : n < own.length := by simpa using hn
    by_cases hrn : r.toNat = n
    · rw [if_pos hrn] at e
      rw [← e, List.length_set]
      exact h.2 _ (List.getElem_mem _)
    · rw [if_neg hrn] at e
      rw [← e]
      exact h.2 _ (List.getElem_mem _)
  · rw [if_neg hrc]
    exact h

theorem markCell_shape (rows cols : Int) (R C : Nat) (own : List (List Int)) (i : Int)
    (cell : CellConfig) (h : own.length = R ∧ ∀ line ∈ own, line.length = C) :
    (markCell rows cols own i cell).length = R ∧
      ∀ line ∈ markCell rows cols own i cell, line.length = C := by
  unfold markCell
  generalize intRange cell.row (min (cell.row + cell.rowSpan) rows) = rs
  generalize intRange cell.col (min (cell.col + cell.colSpan) cols) = cs
  induction rs generalizing own with
  | nil => exact h
  | cons r rs ih =>
    rw [List.foldl_cons]
    apply ih
    clear ih
    induction cs generalizing own with
    | nil => exact h
    | cons c cs ih2 =>
      rw [List.foldl_cons]
      exact ih2 _ (setOwner_shape R C own r c i h)

/-- The derived map has `rows` lines of `cols` entries. -/
theorem buildOwnership_shape (rows cols : Int) (cells : List CellConfig) :
    (buildOwnership rows cols cells).length = rows.toNat ∧
      ∀ line ∈ buildOwnership rows cols cells, line.length = cols.toNat := by
  induction cells using List.reverseRecOn with
  | nil =>
    have e : buildOwnership rows cols [] =
        List.replicate rows.toNat (List.replicate cols.toNat (-1 : Int)) := rfl
    rw [e]
    refine ⟨List.length_replicate _ _, ?_⟩
    intro line hl
    rw [List.eq_of_mem_replicate hl, List.length_replicate]
  | append_singleton l x ih =>
    rw [buildOwnership_append]
    exact markCell_shape rows cols _ _ _ _ x ih

/-! ## C16 -/

theorem inStep_setWidgetForSelected (w : GridEditorWidget) (h : InStep w)
    (widget : WidgetConfig) : InStep (setWidgetForSelected w widget) := by
  unfold setWidgetForSelected
  simp only []
  by_cases hc : selectedCellIndex w ≥ 0 ∧ selectedCellIndex w < (w.cells_.length : Int)
  · rw [if_pos hc]
    unfold InStep at h ⊢
    simp only []
    rw [buildOwnership_set_widget]
    exact h
  · rw [if_neg hc]
    exact h

theorem inStep_mergeSelected (w : GridEditorWidget) (h : InStep w) :
    InStep (mergeSelected w) := by
  unfold mergeSelected
  by_cases hc : canMergeSelected w = true
  · simp only [hc, Bool.not_true, Bool.false_eq_true, if_false]
    rfl
  · simp only [hc, Bool.not_false, if_true]
    exact h

theorem inStep_resetSelected (w : GridEditorWidget) (h : InStep w) :
    InStep (resetSelected w) := by
  unfold resetSelected
  by_cases hc : canResetSelected w = true
  · simp only [hc, Bool.not_true, Bool.false_eq_true, if_false]
    split
    · rfl
    · rfl
  · simp only [hc, Bool.not_false, if_true]
    exact h

/-- C16: the stored ownership map never drifts from the cell sequence. It is the
derived map after construction and after `setGrid`, it stays the derived map
under `setWidgetForSelected`, `mergeSelected`, `resetSelected` and
`clearSelection`, and a derived map has exactly `rows x cols` entries; `setGrid`
in addition stores `max(1,rows)`, `max(1,cols)` and empties the selection. -/
theorem C16_ownership_map_in_step :
    InStep GridEditorWidget.init ∧
    (∀ (w : GridEditorWidget) (rows cols : Int) (cells : List CellConfig),
      InStep (setGrid w rows cols cells) ∧
      (setGrid w rows cols cells).rows_ = max 1 rows ∧
      (setGrid w rows cols cells).cols_ = max 1 cols ∧
      (setGrid w rows cols cells).cells_ = cells ∧
      (setGrid w rows cols cells).selectedPositions_ = []) ∧
    (∀ w : GridEditorWidget, InStep w →
      (∀ widget : WidgetConfig, InStep (setWidgetForSelected w widget)) ∧
      InStep (mergeSelected w) ∧ InStep (resetSelected w) ∧ InStep (clearSelection w)) ∧
    (∀ w : GridEditorWidget, InStep w →
      w.ownership_.length = w.rows_.toNat ∧
      ∀ line ∈ w.ownership_, line.length = w.cols_.toNat) := by
  refine ⟨rfl, ?_, ?_, ?_⟩
  · intro w rows cols cells
    exact ⟨rfl, rfl, rfl, rfl, rfl⟩
  · intro w h
    exact ⟨inStep_setWidgetForSelected w h, inStep_mergeSelected w h,
      inStep_resetSelected w h, h⟩
  · intro w h
    unfold InStep at h
    rw [h]
    exact buildOwnership_shape _ _ _

/-- C16 at the clicked merged cell: the map stays the derived one under the four
operations and has `1 x 2` entries. -/
theorem C16_ownership_map_in_step_witness :
    InStep stateMergedClick ∧
    InStep (setWidgetForSelected stateMergedClick { type := WidgetType.Preview }) ∧
    InStep (mergeSelected stateMergedClick) ∧ InStep (resetSelected stateMergedClick) ∧
    InStep (clearSelection stateMergedClick) ∧
    stateMergedClick.ownership_.length = 1 ∧
    (∀ line ∈ stateMergedClick.ownership_, line.length = 2) :=
  ⟨rfl, (C16_ownership_map_in_step.2.2.1 stateMergedClick rfl).1 _,
    (C16_ownership_map_in_step.2.2.1 stateMergedClick rfl).2.1,
    (C16_ownership_map_in_step.2.2.1 stateMergedClick rfl).2.2.1,
    (C16_ownership_map_in_step.2.2.1 stateMergedClick rfl).2.2.2,
    (C16_ownership_map_in_step.2.2.2 stateMergedClick rfl).1,
    (C16_ownership_map_in_step.2.2.2 stateMergedClick rfl).2⟩

/-! ## C11 and C12: the fast path of the reset -/

theorem canResetSelected_of_unitCell (w : GridEditorWidget)
    (hne : w.selectedPositions_ ≠ []) (hu : SelectionIsUnitCell w) :
    canResetSelected w = true := by
  obtain ⟨i, _, hown, _, _⟩ := hu
  have h0 : selectedCellIndex w ≥ 0 := (selectedCellIndex_nonneg_iff w).mpr ⟨hne, i, hown⟩
  unfold canResetSelected
  have hemp : w.selectedPositions_.isEmpty = false := by
    cases h : w.selectedPositions_ with
    | nil => exact absurd h hne
    | cons a l => rfl
  rw [hemp]
  simp only [Bool.false_eq_true, if_false]
  rw [if_pos h0]

/-- On a selection that is one `1 x 1` cell the reset only replaces the content
of that cell. -/
theorem resetSelected_fast (w : GridEditorWidget) (hs : InStep w)
    (hne : w.selectedPositions_ ≠ []) (hu : SelectionIsUnitCell w) :
    resetSelected w =
      { w with cells_ := (w.cells_.set (selectedCellIndex w).toNat
          (clearWidget (w.cells_.getD (selectedCellIndex w).toNat {}))) } := by
  have hcan := canResetSelected_of_unitCell w hne hu
  have hfast := (fastPath_iff w hne).mpr hu
  unfold resetSelected
  simp only [hcan, Bool.not_true, Bool.false_eq_true, if_false]
  rw [if_pos hfast]
  unfold rebuildOwnership
  have e := buildOwnership_set_widget w.rows_ w.cols_ w.cells_ (selectedCellIndex w).toNat {}
  unfold InStep at hs
  show GridEditorWidget.mk _ _ _ _ _ = GridEditorWidget.mk _ _ _ _ _
  congr 1
  exact e.trans hs.symm

/-- C11: reset fast path. When the selection is exactly one `1 x 1` cell,
`resetSelected` changes only that cell's content, setting it to the default empty
content: the number and order of cells, every cell's row, col, rowSpan and
colSpan, the content of every other cell, rows, cols and the ownership map (and
the selection) are unchanged. -/
theorem C11_reset_fast_path_frame (w : GridEditorWidget) (hs : InStep w)
    (hne : w.selectedPositions_ ≠ []) (hu : SelectionIsUnitCell w) :
    ∃ (i : Nat) (hi : i < w.cells_.length),
      (∀ p ∈ w.selectedPositions_, ownerAt w p.y p.x = (i : Int)) ∧
      (resetSelected w).cells_ = w.cells_.set i (clearWidget (w.cells_.get ⟨i, hi⟩)) ∧
      (clearWidget (w.cells_.get ⟨i, hi⟩)).widget = { type := WidgetType.None } ∧
      cellGeometry (clearWidget (w.cells_.get ⟨i, hi⟩)) = cellGeometry (w.cells_.get ⟨i, hi⟩) ∧
      (resetSelected w).cells_.length = w.cells_.length ∧
      (resetSelected w).cells_.map cellGeometry = w.cells_.map cellGeometry ∧
      (∀ j : Nat, j ≠ i → (resetSelected w).cells_.get? j = w.cells_.get? j) ∧
      (resetSelected w).rows_ = w.rows_ ∧ (resetSelected w).cols_ = w.cols_ ∧
      (resetSelected w).ownership_ = w.ownership_ ∧
      (resetSelected w).selectedPositions_ = w.selectedPositions_ := by
  have hfast := (fastPath_iff w hne).mpr hu
  obtain ⟨h0, hlt, _, _⟩ := hfast
  have hi : (selectedCellIndex w).toNat < w.cells_.length := by omega
  have eg : w.cells_.getD (selectedCellIndex w).toNat {} =
      w.cells_.get ⟨(selectedCellIndex w).toNat, hi⟩ := by
    rw [List.getD_eq_getElem _ _ hi]
    rfl
  have hcells : (resetSelected w).cells_ = w.cells_.set (selectedCellIndex w).toNat
      (clearWidget (w.cells_.get ⟨(selectedCellIndex w).toNat, hi⟩)) := by
    rw [resetSelected_fast w hs hne hu, ← eg]
  refine ⟨(selectedCellIndex w).toNat, hi, ?_, hcells, rfl, rfl, ?_, ?_, ?_, ?_, ?_, ?_, ?_⟩
  · intro p hp
    rw [selectedCellIndex_owner w h0 p hp]
    omega
  · rw [hcells, List.length_set]
  · rw [hcells]
    apply map_geometry_set
    intro _
    rfl
  · intro j hj
    rw [hcells]
    simp only [List.get?_eq_getElem?]
    rw [List.getElem?_set_ne (fun h => hj h.symm)]
  · rw [resetSelected_fast w hs hne hu]
  · rw [resetSelected_fast w hs hne hu]
  · rw [resetSelected_fast w hs hne hu]
  · rw [resetSelected_fast w hs hne hu]

/-- C11 at a `1 x 1` grid whose one cell shows a scene, selected: the cell list
after the reset is the one default cell. -/
theorem C11_reset_fast_path_frame_witness :
    (resetSelected (rebuildOwnership
      { rows_ := 1, cols_ := 1,
        cells_ := [{ widget := { type := WidgetType.Scene, sceneName := "Intro" } }],
        selectedPositions_ := [{ x := 0, y := 0 }] })).cells_ = [{}] ∧
    (resetSelected (rebuildOwnership
      { rows_ := 1, cols_ := 1,
        cells_ := [{ widget := { type := WidgetType.Scene, sceneName := "Intro" } }],
        selectedPositions_ := [{ x := 0, y := 0 }] })).ownership_ = [[0]] := by
  obtain ⟨i, hi, _, h, _, _, _, _, _, _, _, ho, _⟩ := C11_reset_fast_path_frame
    (rebuildOwnership
      { rows_ := 1, cols_ := 1,
        cells_ := [{ widget := { type := WidgetType.Scene, sceneName := "Intro" } }],
        selectedPositions_ := [{ x := 0, y := 0 }] })
    rfl (by decide) ⟨0, by decide, by decide, by decide, by decide⟩
  refine ⟨?_, ho.trans (by decide)⟩
  have hi0 : i = 0 := by
    have : i < 1 := hi
    omega
  subst hi0
  rw [h]
  rfl

theorem clearWidget_idem (cell : CellConfig) : clearWidget (clearWidget cell) = clearWidget cell :=
  rfl

/-- C12: reset is idempotent on a single `1 x 1` cell. For every state whose
selection is exactly one `1 x 1` cell, applying `resetSelected` twice yields the
same state (cells, ownership map, selection, dimensions) as applying it once. -/
theorem C12_reset_idempotent_on_unit_cell (w : GridEditorWidget) (hs : InStep w)
    (hne : w.selectedPositions_ ≠ []) (hu : SelectionIsUnitCell w) :
    resetSelected (resetSelected w) = resetSelected w := by
  have hfast := (fastPath_iff w hne).mpr hu
  obtain ⟨h0, hlt, h1, h2⟩ := hfast
  have hi : (selectedCellIndex w).toNat < w.cells_.length := by omega
  have e1 := resetSelected_fast w hs hne hu
  have hs2 : InStep (resetSelected w) := inStep_resetSelected w hs
  have hne2 : (resetSelected w).selectedPositions_ ≠ [] := by rw [e1]; exact hne
  have hidx : selectedCellIndex (resetSelected w) = selectedCellIndex w := by rw [e1]; rfl
  have hcells : (resetSelected w).cells_ = w.cells_.set (selectedCellIndex w).toNat
      (clearWidget (w.cells_.getD (selectedCellIndex w).toNat {})) := by rw [e1]
  have hown : ∀ r c, ownerAt (resetSelected w) r c = ownerAt w r c := by
    intro r c
    rw [e1]
    rfl
  have hget : (resetSelected w).cells_.getD (selectedCellIndex w).toNat {} =
      clearWidget (w.cells_.getD (selectedCellIndex w).toNat {}) := by
    rw [hcells, List.getD_eq_getElem _ _ (by rw [List.length_set]; exact hi),
      List.getElem_set_self]
  have hu2 : SelectionIsUnitCell (resetSelected w) := by
    have hi2 : (selectedCellIndex w).toNat < (resetSelected w).cells_.length := by
      rw [hcells, List.length_set]; exact hi
    have eg2 : (resetSelected w).cells_.get ⟨(selectedCellIndex w).toNat, hi2⟩ =
        clearWidget (w.cells_.getD (selectedCellIndex w).toNat {}) := by
      rw [← hget, List.getD_eq_getElem _ _ hi2]
      rfl
    refine ⟨(selectedCellIndex w).toNat, hi2, ?_, ?_, ?_⟩
    · intro p hp
      have hp2 : p ∈ w.selectedPositions_ := by
        rw [e1] at hp
        exact hp
      rw [hown, selectedCellIndex_owner w h0 p hp2]
      omega
    · rw [eg2]
      exact h1
    · rw [eg2]
      exact h2
  have e2 := resetSelected_fast (resetSelected w) hs2 hne2 hu2
  rw [hidx, hget, clearWidget_idem, hcells, List.set_set] at e2
  rw [e2]
  conv_rhs => rw [e1]
  have r1 : (resetSelected w).rows_ = w.rows_ := by rw [e1]
  have r2 : (resetSelected w).cols_ = w.cols_ := by rw [e1]
  have r3 : (resetSelected w).ownership_ = w.ownership_ := by rw [e1]
  have r4 : (resetSelected w).selectedPositions_ = w.selectedPositions_ := by rw [e1]
  rw [r1, r2, r3, r4]

/-- C12 at the `1 x 1` grid with its one cell selected. -/
theorem C12_reset_idempotent_on_unit_cell_witness :
    resetSelected (resetSelected stateOneCell) = resetSelected stateOneCell :=
  C12_reset_idempotent_on_unit_cell stateOneCell rfl (by decide)
    ⟨0, by decide, by decide, by decide, by decide⟩

/-! ## C14 -/

theorem keptCells_eq_min (newRows newCols : Int) (oldCells : List CellConfig) :
    keptCells newRows newCols oldCells =
      (oldCells.filter (fun cell => decide (cell.row < newRows ∧ cell.col < newCols))).map
        (fun cell => ({ cell with rowSpan := min cell.rowSpan (newRows - cell.row),
                                  colSpan := min cell.colSpan (newCols - cell.col) } : CellConfig)) := by
  unfold keptCells
  apply List.map_congr_left
  intro cell _
  exact clampCell_eq newRows newCols cell

theorem nodup_freshCells (newRows newCols : Int) (kept : List CellConfig) :
    (freshCells newRows newCols kept).Nodup := by
  unfold freshCells
  apply List.Nodup.map
  · intro a b h
    simp only [CellConfig.mk.injEq] at h
    exact Prod.ext h.1 h.2.1
  · exact List.Nodup.filter _ (List.Nodup.product (nodup_intRange _ _) (nodup_intRange _ _))

/-- C14: the resize computes the new cell list as every old cell whose origin
satisfies `row < newRows` and `col < newCols`, in the old order, with origin and
content unchanged and spans clamped to `min(rowSpan, newRows-row)`,
`min(colSpan, newCols-col)`; cells with origin outside the new bounds are
dropped; then exactly one fresh `1 x 1` empty cell for each position not covered
by a retained cell. In particular no cell with origin row `>= 2` or col `>= 2`
survives a resize to `2 x 2`. -/
theorem C14_resize_cell_list (newRows newCols : Int) (oldCells : List CellConfig) :
    resizeCells newRows newCols oldCells =
      (oldCells.filter (fun cell => decide (cell.row < newRows ∧ cell.col < newCols))).map
        (fun cell => ({ cell with rowSpan := min cell.rowSpan (newRows - cell.row),
                                  colSpan := min cell.colSpan (newCols - cell.col) } : CellConfig))
      ++ freshCells newRows newCols (keptCells newRows newCols oldCells) ∧
    (∀ cell : CellConfig, cell ∈ freshCells newRows newCols (keptCells newRows newCols oldCells) ↔
      ∃ r c : Int, (0 ≤ r ∧ r < newRows) ∧ (0 ≤ c ∧ c < newCols) ∧
        (∀ k ∈ keptCells newRows newCols oldCells, ¬ inSpan k r c) ∧
        cell = { row := r, col := c, rowSpan := 1, colSpan := 1,
                 widget := { type := WidgetType.None } }) ∧
    (freshCells newRows newCols (keptCells newRows newCols oldCells)).Nodup ∧
    (∀ cell ∈ resizeCells newRows newCols oldCells, cell.row < newRows ∧ cell.col < newCols) ∧
    (∀ cell ∈ resizeCells 2 2 oldCells, ¬ (cell.row ≥ 2 ∨ cell.col ≥ 2)) ∧
    (∀ w : GridEditorWidget, ¬ (newRows = w.rows_ ∧ newCols = w.cols_) →
      (onGridSizeChanged w newRows newCols).cells_ = resizeCells newRows newCols w.cells_) := by
  have horigin : ∀ (nr nc : Int) (cells : List CellConfig),
      ∀ cell ∈ resizeCells nr nc cells, cell.row < nr ∧ cell.col < nc := by
    intro nr nc cells cell hc
    rw [resizeCells_eq] at hc
    rcases List.mem_append.mp hc with h | h
    · obtain ⟨x, _, hb, e⟩ := (mem_keptCells _ _ _ _).mp h
      rw [← e, clampCell_eq]
      exact hb
    · obtain ⟨r, c, hr, hcc, _, e⟩ := (mem_freshCells _ _ _ _).mp h
      subst e
      exact ⟨hr.2, hcc.2⟩
  refine ⟨?_, ?_, nodup_freshCells _ _ _, horigin newRows newCols oldCells, ?_, ?_⟩
  · rw [resizeCells_eq, keptCells_eq_min]
  · intro cell
    exact mem_freshCells _ _ _ _
  · intro cell hc
    have := horigin 2 2 oldCells cell hc
    omega
  · intro w hne
    unfold onGridSizeChanged
    rw [if_neg hne]
    rfl

/-- Instance of C14: a resize to `2 x 2` of four cells of a `4 x 4` grid keeps
the two cells with origin inside the new bounds, clamps their spans, drops the
two others and adds one fresh cell for the uncovered position `(1, 1)`. -/
theorem C14_resize_cell_list_witness :
    resizeCells 2 2 [{ row := 0, col := 0, rowSpan := 1, colSpan := 3 }, { row := 0, col := 3 },
        { row := 1, col := 0, rowSpan := 3, colSpan := 1 },
        { row := 2, col := 2, rowSpan := 2, colSpan := 2 }] =
      [{ row := 0, col := 0, rowSpan := 1, colSpan := 2 }, { row := 1, col := 0 },
        { row := 1, col := 1 }] :=
  (C14_resize_cell_list 2 2 [{ row := 0, col := 0, rowSpan := 1, colSpan := 3 },
    { row := 0, col := 3 }, { row := 1, col := 0, rowSpan := 3, colSpan := 1 },
    { row := 2, col := 2, rowSpan := 2, colSpan := 2 }]).1.trans (by decide)

/-! ## C13 -/

/-- In a widget whose last cell owns every selected position, the cells that own
no selected position are all cells but the last. -/
theorem untouchedCells_all_but_last (w : GridEditorWidget) (l : List CellConfig)
    (x : CellConfig) (hcells : w.cells_ = l ++ [x]) (hne : w.selectedPositions_ ≠ [])
    (hown : ∀ p ∈ w.selectedPositions_, ownerAt w p.y p.x = (l.length : Int)) :
    untouchedCells w = l := by
  unfold untouchedCells
  rw [hcells, List.enum_append, List.enumFrom_singleton, List.filter_append]
  have h1 : l.enum.filter (fun ic =>
      !(w.selectedPositions_.any fun p => decide (ownerAt w p.y p.x = (ic.1 : Int)))) = l.enum := by
    rw [List.filter_eq_self]
    intro ic hic
    have hlt := List.fst_lt_of_mem_enum hic
    rw [Bool.not_eq_true_eq_eq_false, ← Bool.not_eq_true, List.any_eq_true]
    rintro ⟨p, hp, hd⟩
    have := hown p hp
    have := of_decide_eq_true hd
    omega
  have h2 : [(l.length, x)].filter (fun ic =>
      !(w.selectedPositions_.any fun p => decide (ownerAt w p.y p.x = (ic.1 : Int)))) = [] := by
    obtain ⟨p, hp⟩ := List.exists_mem_of_ne_nil _ hne
    rw [List.filter_cons]
    have : (w.selectedPositions_.any fun p => decide (ownerAt w p.y p.x = (l.length : Int))) =
        true := by
      rw [List.any_eq_true]
      exact ⟨p, hp, decide_eq_true (hown p hp)⟩
    simp [this]
  rw [h1, h2, List.append_nil, List.enum_map_snd]

/-- C13: merge / resize / reset round trip. For a valid layout and a selection
`S` with `canMergeSelected` true, merging `S`, resizing to the unchanged
dimensions, selecting `S` again (in any iteration order) and calling
`resetSelected` yields the cells that lay outside `S` before the merge,
unchanged and in order, followed by one `1 x 1` empty cell per position of `S`;
the result is again a valid tiling. -/
theorem C13_merge_resize_reset_round_trip (w : GridEditorWidget) (hw : Consistent w)
    (hv : ValidLayout w.rows_ w.cols_ w.cells_) (hm : canMergeSelected w = true)
    (sel : List QPoint) (hperm : sel.Perm w.selectedPositions_) :
    (resetSelected (withSelection
        (onGridSizeChanged (mergeSelected w) w.rows_ w.cols_) sel)).cells_ =
      untouchedCells w ++
        sel.map (fun p => ({ row := p.y, col := p.x, rowSpan := 1, colSpan := 1,
                             widget := { type := WidgetType.None } } : CellConfig)) ∧
    (∀ cell : CellConfig, cell ∈ untouchedCells w ↔
      cell ∈ w.cells_ ∧ ∀ p ∈ w.selectedPositions_, ¬ inSpan cell p.y p.x) ∧
    (sel.map (fun p => ({ row := p.y, col := p.x, rowSpan := 1, colSpan := 1,
                          widget := { type := WidgetType.None } } : CellConfig))).length =
      w.selectedPositions_.length ∧
    (sel.map (fun p => ({ row := p.y, col := p.x, rowSpan := 1, colSpan := 1,
                          widget := { type := WidgetType.None } } : CellConfig))).Pairwise
      SpansApart ∧
    (resetSelected (withSelection
        (onGridSizeChanged (mergeSelected w) w.rows_ w.cols_) sel)).rows_ = w.rows_ ∧
    (resetSelected (withSelection
        (onGridSizeChanged (mergeSelected w) w.rows_ w.cols_) sel)).cols_ = w.cols_ ∧
    ValidLayout w.rows_ w.cols_
      (resetSelected (withSelection
        (onGridSizeChanged (mergeSelected w) w.rows_ w.cols_) sel)).cells_ := by
  have hne := selection_ne_nil_of_canMerge w hm
  have hb := boundingRect_isBoundingBox w.selectedPositions_ hne (selection_int_range w hw)
  obtain ⟨hlen2, ⟨b2, hb2, hlen⟩, htc⟩ := (canMergeSelected_iff w hw).mp hm
  have eb := isBoundingBox_unique _ _ _ hb2 hb
  subst eb
  have hord := isBoundingBox_ordered _ _ hb
  have hsne : sel ≠ [] := by
    intro e
    rw [e] at hperm
    exact hne (List.Perm.nil_eq hperm).symm
  have hnd : sel.Nodup := hperm.nodup_iff.mpr hw.nodup
  -- the state before the reset
  have e1 := mergeSelected_eq w hm
  have e2 : onGridSizeChanged (mergeSelected w) w.rows_ w.cols_ = mergeSelected w := by
    unfold onGridSizeChanged
    rw [if_pos]
    rw [e1]
    exact ⟨rfl, rfl⟩
  rw [e2]
  have hstep : InStep (withSelection (mergeSelected w) sel) := by
    rw [e1]
    rfl
  have hcells : (withSelection (mergeSelected w) sel).cells_ = untouchedCells w ++
      [{ row := (boundingRect w.selectedPositions_).minR,
         col := (boundingRect w.selectedPositions_).minC,
         rowSpan := (boundingRect w.selectedPositions_).maxR -
           (boundingRect w.selectedPositions_).minR + 1,
         colSpan := (boundingRect w.selectedPositions_).maxC -
           (boundingRect w.selectedPositions_).minC + 1 }] := by
    rw [e1]
    rfl
  have hrows : (withSelection (mergeSelected w) sel).rows_ = w.rows_ := by rw [e1]; rfl
  have hcols : (withSelection (mergeSelected w) sel).cols_ = w.cols_ := by rw [e1]; rfl
  have hsel : (withSelection (mergeSelected w) sel).selectedPositions_ = sel := rfl
  have hown : ∀ p ∈ sel, ownerAt (withSelection (mergeSelected w) sel) p.y p.x =
      ((untouchedCells w).length : Int) := by
    intro p hp
    have hp2 := hperm.mem_iff.mp hp
    have hg := hw.inGrid p hp2
    have hbox := hb.1 p hp2
    apply ownerAt_last _ hstep (untouchedCells w) _ hcells p.y p.x
    · rw [hrows]; exact ⟨hg.1, hg.2.1⟩
    · rw [hcols]; exact ⟨hg.2.2.1, hg.2.2.2⟩
    · unfold inSpan
      simp only
      omega
  have hcan : canResetSelected (withSelection (mergeSelected w) sel) = true := by
    unfold canResetSelected
    have hemp : (withSelection (mergeSelected w) sel).selectedPositions_.isEmpty = false := by
      rw [hsel]
      cases h : sel with
      | nil => exact absurd h hsne
      | cons a l => rfl
    rw [hemp]
    simp only [Bool.false_eq_true, if_false]
    rw [if_pos ((selectedCellIndex_nonneg_iff _).mpr ⟨hsne, (untouchedCells w).length, hown⟩)]
  have hnu : ¬ SelectionIsUnitCell (withSelection (mergeSelected w) sel) := by
    rintro ⟨i, hi, hown2, h1, h2⟩
    obtain ⟨p, hp⟩ := List.exists_mem_of_ne_nil _ hsne
    have hi2 : i = (untouchedCells w).length := by
      have a1 := hown p hp
      have a2 := hown2 p hp
      omega
    subst hi2
    have hcell : (withSelection (mergeSelected w) sel).cells_.get ⟨(untouchedCells w).length, hi⟩ =
        { row := (boundingRect w.selectedPositions_).minR,
          col := (boundingRect w.selectedPositions_).minC,
          rowSpan := (boundingRect w.selectedPositions_).maxR -
            (boundingRect w.selectedPositions_).minR + 1,
          colSpan := (boundingRect w.selectedPositions_).maxC -
            (boundingRect w.selectedPositions_).minC + 1 } := by
      simp [hcells]
    rw [hcell] at h1 h2
    simp only at h1 h2
    rw [h1, h2] at hlen
    have : (w.selectedPositions_.length : Int) = 1 := by simpa using hlen
    omega
  have hreset := resetSelected_mass_eq _ hcan hnu
  rw [untouchedCells_all_but_last _ (untouchedCells w) _ hcells hsne hown, hsel] at hreset
  have hU := mem_untouchedCells_valid w hw hv
  have hpw : (sel.map (fun p => ({ row := p.y, col := p.x } : CellConfig))).Pairwise
      SpansApart := by
    rw [List.pairwise_map]
    refine (hnd : sel.Pairwise (fun a b => a ≠ b)).imp ?_
    intro a b hab r c hra hrb
    unfold inSpan at hra hrb
    simp only at hra hrb
    apply hab
    cases a; cases b
    simp only [QPoint.mk.injEq]
    simp only at hra hrb
    omega
  refine ⟨by rw [hreset]; rfl, hU, by rw [List.length_map, hperm.length_eq], hpw,
    by rw [hreset]; exact hrows, by rw [hreset]; exact hcols, ?_⟩
  rw [hreset]
  show ValidLayout w.rows_ w.cols_ (untouchedCells w ++ sel.map _)
  apply validLayout_of_list
  · intro cell hc
    rcases List.mem_append.mp hc with h | h
    · exact hv.cellInGrid cell ((untouchedCells_sublist w).subset h)
    · obtain ⟨p, hp, e⟩ := List.mem_map.mp h
      have hg := hw.inGrid p (hperm.mem_iff.mp hp)
      subst e
      unfold CellInGrid
      simp only
      omega
  · intro r c h1 h2 h3 h4
    by_cases hin : ({ x := c, y := r } : QPoint) ∈ sel
    · refine ⟨_, List.mem_append_right _ (List.mem_map.mpr ⟨_, hin, rfl⟩), ?_⟩
      unfold inSpan
      simp only
      omega
    · obtain ⟨i, hi, hs⟩ := hv.covered r c h1 h2 h3 h4
      refine ⟨w.cells_.get ⟨i, hi⟩, List.mem_append_left _ ?_, hs⟩
      rw [hU]
      refine ⟨List.get_mem _ _ _, ?_⟩
      intro p hp hinp
      have hg := hw.inGrid p hp
      obtain ⟨k, hk, ek, _, huniq⟩ :=
        ownerAt_valid w hw.synced hv p.y p.x ⟨hg.1, hg.2.1⟩ ⟨hg.2.2.1, hg.2.2.2⟩
      have := huniq i hi hinp
      subst this
      exact hin (hperm.mem_iff.mpr (htc i hi ⟨p, hp, ek⟩ r c hs))
  · rw [List.pairwise_append]
    refine ⟨hv.pairwise.sublist (untouchedCells_sublist w), hpw, ?_⟩
    intro a ha m hmm r c hra hrm
    obtain ⟨p, hp, e⟩ := List.mem_map.mp hmm
    subst e
    unfold inSpan at hrm
    simp only at hrm
    have e1 : r = p.y := by omega
    have e2 : c = p.x := by omega
    subst e1 e2
    exact ((hU a).mp ha).2 p (hperm.mem_iff.mp hp) hra

/-- C13 at the `1 x 2` grid with both cells selected: after merge, resize to
`1 x 2` and reset of the same two positions the grid holds two `1 x 1` cells. -/
theorem C13_merge_resize_reset_round_trip_witness :
    Consistent statePair ∧ ValidLayout statePair.rows_ statePair.cols_ statePair.cells_ ∧
    canMergeSelected statePair = true ∧
    (resetSelected (withSelection
        (onGridSizeChanged (mergeSelected statePair) statePair.rows_ statePair.cols_)
        [{ x := 1, y := 0 }, { x := 0, y := 0 }])).cells_ =
      [{ row := 0, col := 1 }, { row := 0, col := 0 }] := by
  have h := (C13_merge_resize_reset_round_trip statePair consistent_statePair
    (validLayout_of_check _ _ _ (by decide)) (by decide)
    [{ x := 1, y := 0 }, { x := 0, y := 0 }] (by decide)).1
  exact ⟨consistent_statePair, validLayout_of_check _ _ _ (by decide), by decide,
    h.trans (by decide)⟩

/-! ## Rounding -/

theorem roundHalfEven_err (q : ℚ) : |(roundHalfEven q : ℚ) - q| ≤ 1 / 2 := by
  have h1 : (⌊q⌋ : ℚ) ≤ q := Int.floor_le q
  have h2 : q < (⌊q⌋ : ℚ) + 1 := Int.lt_floor_add_one q
  unfold roundHalfEven
  rw [abs_le]
  split_ifs with a b c
  · constructor <;> linarith
  · push_cast
    constructor <;> linarith
  · constructor <;> linarith
  · push_cast
    constructor <;> linarith

theorem roundHalfEven_intCast (n : ℤ) : roundHalfEven (n : ℚ) = n := by
  unfold roundHalfEven
  rw [Int.floor_intCast]
  simp

/-- A rational strictly within one half of an integer rounds to that integer. -/
theorem roundHalfEven_eq (q : ℚ) (m : ℤ) (h : |q - m| < 1 / 2) : roundHalfEven q = m := by
  rw [abs_lt] at h
  obtain ⟨h1, h2⟩ := h
  unfold roundHalfEven
  by_cases hm : (m : ℚ) ≤ q
  · have hf : ⌊q⌋ = m := by
      rw [Int.floor_eq_iff]
      constructor <;> linarith
    rw [hf, if_pos (by linarith)]
  · have hf : ⌊q⌋ = m - 1 := by
      rw [Int.floor_eq_iff]
      push_cast
      constructor <;> linarith
    rw [hf]
    push_cast
    rw [if_neg (by linarith), if_pos (by linarith)]
    ring

theorem roundHalfEven_nonneg (q : ℚ) (h : 0 ≤ q) : 0 ≤ roundHalfEven q := by
  have hf : 0 ≤ ⌊q⌋ := Int.floor_nonneg.mpr h
  unfold roundHalfEven
  split_ifs <;> omega

theorem stdRound_nonneg (q : ℚ) (h : 0 ≤ q) : 0 ≤ stdRound q := by
  unfold stdRound
  rw [if_pos h]
  exact Int.floor_nonneg.mpr (by linarith)

theorem fpRound_zero (p : ℕ) : fpRound p 0 = 0 := by
  unfold fpRound
  rw [if_pos rfl]

theorem fpRound_nonneg (p : ℕ) (q : ℚ) (h : 0 ≤ q) : 0 ≤ fpRound p q := by
  unfold fpRound
  split_ifs with h0
  · exact le_refl _
  · have hu : (0 : ℚ) < (2 : ℚ) ^ (Int.log 2 |q| - ((p : ℤ) - 1)) := zpow_pos (by norm_num) _
    apply mul_nonneg _ hu.le
    exact_mod_cast roundHalfEven_nonneg _ (div_nonneg h hu.le)

/-- The value of `fpRound` once the binade of the argument is known. -/
theorem fpRound_eval (p : ℕ) (q : ℚ) (e m : ℤ) (hq : 0 < q) (h1 : (2 : ℚ) ^ e ≤ q)
    (h2 : q < (2 : ℚ) ^ (e + 1))
    (hm : roundHalfEven (q / (2 : ℚ) ^ (e - ((p : ℤ) - 1))) = m) :
    fpRound p q = (m : ℚ) * (2 : ℚ) ^ (e - ((p : ℤ) - 1)) := by
  have hlog : Int.log 2 |q| = e := by
    rw [abs_of_pos hq]
    apply le_antisymm
    · have := (Int.lt_zpow_iff_log_lt (b := 2) (by norm_num) (x := e + 1) hq).mp
        (by exact_mod_cast h2)
      omega
    · exact (Int.zpow_le_iff_le_log (b := 2) (by norm_num) (x := e) hq).mp
        (by exact_mod_cast h1)
  unfold fpRound
  rw [if_neg hq.ne', hlog, hm]

/-- Rounding to `p` bits moves a positive number by at most the fraction `2^-p`
of itself. -/
theorem fpRound_err (p : ℕ) (q : ℚ) (hq : 0 < q) :
    |fpRound p q - q| ≤ q / (2 : ℚ) ^ p := by
  have hlog : ((2 : ℕ) : ℚ) ^ Int.log 2 q ≤ q := Int.zpow_log_le_self (by norm_num) hq
  have hlog2 : (2 : ℚ) ^ Int.log 2 q ≤ q := by exact_mod_cast hlog
  unfold fpRound
  rw [if_neg hq.ne', abs_of_pos hq]
  set u : ℚ := (2 : ℚ) ^ (Int.log 2 q - ((p : ℤ) - 1)) with hu
  have hupos : 0 < u := zpow_pos (by norm_num) _
  have herr := roundHalfEven_err (q / u)
  have e1 : (roundHalfEven (q / u) : ℚ) * u - q = ((roundHalfEven (q / u) : ℚ) - q / u) * u := by
    field_simp
  rw [e1, abs_mul, abs_of_pos hupos]
  have e2 : u = (2 : ℚ) ^ Int.log 2 q * 2 / (2 : ℚ) ^ p := by
    rw [hu, zpow_sub₀ (by norm_num), zpow_sub₀ (by norm_num), zpow_natCast, zpow_one]
    field_simp
  calc |(roundHalfEven (q / u) : ℚ) - q / u| * u ≤ 1 / 2 * u :=
        mul_le_mul_of_nonneg_right herr hupos.le
    _ = (2 : ℚ) ^ Int.log 2 q / (2 : ℚ) ^ p := by rw [e2]; field_simp
    _ ≤ q / (2 : ℚ) ^ p := by
        apply div_le_div_of_nonneg_right hlog2
        positivity

theorem fpRound_le (p : ℕ) (q : ℚ) (hq : 0 < q) :
    fpRound p q ≤ q * (1 + 1 / (2 : ℚ) ^ p) := by
  have h := (abs_le.mp (fpRound_err p q hq)).2
  have e : q * (1 + 1 / (2 : ℚ) ^ p) = q + q / (2 : ℚ) ^ p := by ring
  rw [e]
  linarith

theorem fpRound_ge (p : ℕ) (q : ℚ) (hq : 0 < q) :
    q * (1 - 1 / (2 : ℚ) ^ p) ≤ fpRound p q := by
  have h := (abs_le.mp (fpRound_err p q hq)).1
  have e : q * (1 - 1 / (2 : ℚ) ^ p) = q - q / (2 : ℚ) ^ p := by ring
  rw [e]
  linarith

theorem fpRound_pos (p : ℕ) (hp : 1 ≤ p) (q : ℚ) (hq : 0 < q) : 0 < fpRound p q := by
  have h := fpRound_ge p q hq
  have h2 : (1 : ℚ) / (2 : ℚ) ^ p ≤ 1 / 2 := by
    apply div_le_div_of_nonneg_left (by norm_num) (by norm_num)
    calc (2 : ℚ) = 2 ^ 1 := by norm_num
      _ ≤ 2 ^ p := pow_le_pow_right₀ (by norm_num) hp
  have h3 : 0 < q * (1 - 1 / (2 : ℚ) ^ p) := mul_pos hq (by linarith)
  linarith

/-- A natural number below `2^p` is a value of precision `p`: rounding keeps it. -/
theorem fpRound_natCast (p : ℕ) (n : ℕ) (hn : n < 2 ^ p) :
    fpRound p (n : ℚ) = n := by
  rcases Nat.eq_zero_or_pos n with h0 | hpos
  · subst h0
    simpa using fpRound_zero p
  have hq : (0 : ℚ) < n := by exact_mod_cast hpos
  have he0 : 0 ≤ Int.log 2 (n : ℚ) := by
    apply (Int.zpow_le_iff_le_log (b := 2) (by norm_num) (x := 0) hq).mp
    simp only [zpow_zero]
    exact_mod_cast hpos
  have he1 : Int.log 2 (n : ℚ) < p := by
    apply (Int.lt_zpow_iff_log_lt (b := 2) (by norm_num) (x := (p : ℤ)) hq).mp
    rw [zpow_natCast]
    exact_mod_cast hn
  obtain ⟨k, hk⟩ : ∃ k : ℕ, (k : ℤ) = (p : ℤ) - 1 - Int.log 2 (n : ℚ) :=
    ⟨((p : ℤ) - 1 - Int.log 2 (n : ℚ)).toNat, by omega⟩
  have hexp : Int.log 2 (n : ℚ) - ((p : ℤ) - 1) = -(k : ℤ) := by omega
  unfold fpRound
  rw [if_neg hq.ne', abs_of_pos hq, hexp, zpow_neg, zpow_natCast]
  have e : (n : ℚ) / ((2 : ℚ) ^ k)⁻¹ = ((n * 2 ^ k : ℕ) : ℤ) := by
    push_cast
    field_simp
  rw [e, roundHalfEven_intCast]
  push_cast
  field_simp

theorem fpRound_intCast (p : ℕ) (n : ℤ) (h0 : 0 ≤ n) (hn : n < 2 ^ p) :
    fpRound p (n : ℚ) = n := by
  obtain ⟨k, rfl⟩ := Int.eq_ofNat_of_zero_le h0
  have : k < 2 ^ p := by exact_mod_cast hn
  exact_mod_cast fpRound_natCast p k this

theorem toDouble_intCast (n : ℤ) (h0 : 0 ≤ n) (hn : n < 2 ^ 53) : toDouble (n : ℚ) = n :=
  fpRound_intCast 53 n h0 hn

theorem toFloat_intCast (n : ℤ) (h0 : 0 ≤ n) (hn : n < 2 ^ 24) : toFloat (n : ℚ) = n :=
  fpRound_intCast 24 n h0 hn

/-- The value of `toFloat` once the binade of the argument is known and the
scaled argument is strictly within one half of an integer. -/
theorem toFloat_eval (q : ℚ) (e m : ℤ) (hq : 0 < q) (h1 : (2 : ℚ) ^ e ≤ q)
    (h2 : q < (2 : ℚ) ^ (e + 1)) (hm : |q / (2 : ℚ) ^ (e - 23) - m| < 1 / 2) :
    toFloat q = (m : ℚ) * (2 : ℚ) ^ (e - 23) := by
  have := fpRound_eval 24 q e m hq h1 h2 (roundHalfEven_eq _ _ (by simpa using hm))
  simpa [toFloat] using this

theorem toDouble_eval (q : ℚ) (e m : ℤ) (hq : 0 < q) (h1 : (2 : ℚ) ^ e ≤ q)
    (h2 : q < (2 : ℚ) ^ (e + 1)) (hm : |q / (2 : ℚ) ^ (e - 52) - m| < 1 / 2) :
    toDouble q = (m : ℚ) * (2 : ℚ) ^ (e - 52) := by
  have := fpRound_eval 53 q e m hq h1 h2 (roundHalfEven_eq _ _ (by simpa using hm))
  simpa [toDouble] using this

theorem stdRound_eval (q : ℚ) (m : ℤ) (h0 : 0 ≤ q) (h1 : (m : ℚ) ≤ q + 1 / 2)
    (h2 : q + 1 / 2 < m + 1) : stdRound q = m := by
  unfold stdRound
  rw [if_pos h0, Int.floor_eq_iff]
  exact ⟨h1, h2⟩

/-! ## C18 -/

theorem getScale_1920_1080_400_400 :
    GetScaleAndCenterPos 1920 1080 400 400 =
      { x := 0, y := 87, scale := 13981013 / 67108864, scaledCX := 400, scaledCY := 225 } ∧
    ¬ (toDouble (toDouble 400 / toDouble 400) > toDouble (toDouble 1920 / toDouble 1080)) ∧
    toFloat (toFloat 400 / toFloat 1920) = 13981013 / 67108864 := by
  have d400 : toDouble (400 : ℚ) = 400 := by
    have := toDouble_intCast 400 (by norm_num) (by norm_num)
    exact_mod_cast this
  have d1920 : toDouble (1920 : ℚ) = 1920 := by
    have := toDouble_intCast 1920 (by norm_num) (by norm_num)
    exact_mod_cast this
  have d1080 : toDouble (1080 : ℚ) = 1080 := by
    have := toDouble_intCast 1080 (by norm_num) (by norm_num)
    exact_mod_cast this
  have d1 : toDouble (1 : ℚ) = 1 := by
    have := toDouble_intCast 1 (by norm_num) (by norm_num)
    exact_mod_cast this
  have f400 : toFloat (400 : ℚ) = 400 := by
    have := toFloat_intCast 400 (by norm_num) (by norm_num)
    exact_mod_cast this
  have f1920 : toFloat (1920 : ℚ) = 1920 := by
    have := toFloat_intCast 1920 (by norm_num) (by norm_num)
    exact_mod_cast this
  have hbase : (1 : ℚ) ≤ toDouble (1920 / 1080) := by
    have := fpRound_ge 53 (1920 / 1080 : ℚ) (by norm_num)
    have h2 : (1 : ℚ) ≤ 1920 / 1080 * (1 - 1 / 2 ^ 53) := by norm_num
    exact h2.trans this
  have hscale : toFloat (400 / 1920 : ℚ) = 13981013 / 67108864 := by
    rw [toFloat_eval (400 / 1920) (-3) 13981013 (by norm_num) (by norm_num) (by norm_num)
      (by rw [abs_lt]; constructor <;> norm_num)]
    norm_num
  have hprod : toDouble (1080 * (13981013 / 67108864) : ℚ) = 1887436755 / 8388608 := by
    rw [toDouble_eval (1080 * (13981013 / 67108864)) 7 7916483531243520 (by norm_num)
      (by norm_num) (by norm_num) (by rw [abs_lt]; constructor <;> norm_num)]
    norm_num
  have hround : stdRound (1887436755 / 8388608 : ℚ) = 225 :=
    stdRound_eval _ _ (by norm_num) (by norm_num) (by norm_num)
  have hcast : castToInt 225 = 225 := by decide
  have hwrap0 : wrapInt 0 = 0 := by decide
  have hwrap : wrapInt 175 = 175 := by decide
  refine ⟨?_, ?_, ?_⟩
  · unfold GetScaleAndCenterPos
    simp only [Int.cast_ofNat, d400, d1920, d1080, f400, f1920, div_self, ne_eq,
      OfNat.ofNat_ne_zero, not_false_eq_true, d1]
    rw [if_neg (not_lt.mpr hbase)]
    simp only [hscale, hprod, hround, hcast]
    norm_num [hwrap0, hwrap]
    decide
  · rw [d400, d1920, d1080, div_self (by norm_num), d1]
    exact not_lt.mpr hbase
  · rw [f400, f1920, hscale]

/-- C18: `GetScaleAndCenterPos` applied to content `1920 x 1080` in a `400 x 400`
box takes the width-constrained branch and returns the `float` quotient
`400 / 1920` as scale (the binary32 value `13981013 / 2^26`, within `2^-27` of
`400 / 1920`), `scaledCX = 400`, `scaledCY = 225`, `x = 0` and
`y = (400 - 225) div 2 = 87`. -/
theorem C18_fit_1920x1080_in_400x400 :
    ¬ (toDouble (toDouble 400 / toDouble 400) > toDouble (toDouble 1920 / toDouble 1080)) ∧
    (GetScaleAndCenterPos 1920 1080 400 400).scale = toFloat (toFloat 400 / toFloat 1920) ∧
    (GetScaleAndCenterPos 1920 1080 400 400).scale = 13981013 / 2 ^ 26 ∧
    |(GetScaleAndCenterPos 1920 1080 400 400).scale - 400 / 1920| ≤ 1 / 2 ^ 27 ∧
    (GetScaleAndCenterPos 1920 1080 400 400).scaledCX = 400 ∧
    (GetScaleAndCenterPos 1920 1080 400 400).scaledCY = 225 ∧
    (GetScaleAndCenterPos 1920 1080 400 400).x = 0 ∧
    (GetScaleAndCenterPos 1920 1080 400 400).y = (400 - 225) / 2 ∧
    (GetScaleAndCenterPos 1920 1080 400 400).y = 87 := by
  obtain ⟨hval, hbranch, hsc⟩ := getScale_1920_1080_400_400
  refine ⟨hbranch, ?_, ?_, ?_, ?_, ?_, ?_, ?_, ?_⟩
  · rw [hval, hsc]
  · rw [hval]; norm_num
  · rw [hval, abs_le]
    constructor <;> norm_num
  · rw [hval]
  · rw [hval]
  · rw [hval]
  · rw [hval]
    show (87 : Int) = (400 - 225) / 2
    decide
  · rw [hval]

theorem toInt_intCast (n : ℤ) (h0 : 0 ≤ n) : toInt (n : ℚ) = n := by
  unfold toInt
  rw [if_pos (by exact_mod_cast h0), Int.floor_intCast]

/-! ## C20 -/

theorem gridMetrics_7_2_4365218_8594020 :
    calculateGridMetrics 7 2 4365218 8594020 =
      { gridW := 4365216, gridH := 8594019, offsetX := 1, offsetY := 0,
        cellW := 2182608, cellH := 1227717 } := by
  have f32 : toFloat (32 : ℚ) = 32 := by
    have := toFloat_intCast 32 (by norm_num) (by norm_num)
    exact_mod_cast this
  have f63 : toFloat (63 : ℚ) = 63 := by
    have := toFloat_intCast 63 (by norm_num) (by norm_num)
    exact_mod_cast this
  have f2 : toFloat (2 : ℚ) = 2 := by
    have := toFloat_intCast 2 (by norm_num) (by norm_num)
    exact_mod_cast this
  have f7 : toFloat (7 : ℚ) = 7 := by
    have := toFloat_intCast 7 (by norm_num) (by norm_num)
    exact_mod_cast this
  have faW : toFloat (4365216 : ℚ) = 4365216 := by
    have := toFloat_intCast 4365216 (by norm_num) (by norm_num)
    exact_mod_cast this
  have faH : toFloat (8594018 : ℚ) = 8594018 := by
    have := toFloat_intCast 8594018 (by norm_num) (by norm_num)
    exact_mod_cast this
  have fgH : toFloat (8594019 : ℚ) = 8594019 := by
    have := toFloat_intCast 8594019 (by norm_num) (by norm_num)
    exact_mod_cast this
  have fcW : toFloat (2182608 : ℚ) = 2182608 := by
    have := toFloat_intCast 2182608 (by norm_num) (by norm_num)
    exact_mod_cast this
  have fcH : toFloat (1227717 : ℚ) = 1227717 := by
    have := toFloat_intCast 1227717 (by norm_num) (by norm_num)
    exact_mod_cast this
  have hg : toFloat (32 / 63 : ℚ) = 8521761 / 16777216 := by
    rw [toFloat_eval (32 / 63) (-1) 8521761 (by norm_num) (by norm_num) (by norm_num)
      (by rw [abs_lt]; constructor <;> norm_num)]
    norm_num
  have hA : toFloat (4365216 / 8594018 : ℚ) = 8521761 / 16777216 := by
    rw [toFloat_eval (4365216 / 8594018) (-1) 8521761 (by norm_num) (by norm_num)
      (by norm_num) (by rw [abs_lt]; constructor <;> norm_num)]
    norm_num
  have hy : toFloat (4365216 / (8521761 / 16777216) : ℚ) = 8594019 := by
    rw [toFloat_eval (4365216 / (8521761 / 16777216)) 23 8594019 (by norm_num)
      (by norm_num) (by norm_num) (by rw [abs_lt]; constructor <;> norm_num)]
    norm_num
  have i1 : toInt (8594019 : ℚ) = 8594019 := by
    have := toInt_intCast 8594019 (by norm_num)
    exact_mod_cast this
  have i2 : toInt (2182608 : ℚ) = 2182608 := by
    have := toInt_intCast 2182608 (by norm_num)
    exact_mod_cast this
  have i3 : toInt (1227717 : ℚ) = 1227717 := by
    have := toInt_intCast 1227717 (by norm_num)
    exact_mod_cast this
  have d1 : (4365216 / 2 : ℚ) = 2182608 := by norm_num
  have d2 : (8594019 / 7 : ℚ) = 1227717 := by norm_num
  unfold calculateGridMetrics
  simp only [Int.reduceMul, Int.reduceSub, Int.cast_ofNat, f32, f63, hg, faW, faH, hA,
    lt_self_iff_false, gt_iff_lt, if_false, hy, i1, f2, f7, d1, d2, fcW, fcH, i2, i3, fgH]
  have t1 : Int.tdiv 2 2 = 1 := by decide
  have t2 : Int.tdiv 1 2 = 0 := by decide
  rw [t1, t2]

theorem toFloat_nonneg (q : ℚ) (hq : 0 ≤ q) : 0 ≤ toFloat q := fpRound_nonneg 24 q hq

theorem toFloat_pos (q : ℚ) (hq : 0 < q) : 0 < toFloat q := fpRound_pos 24 (by norm_num) q hq

theorem toFloat_le (q : ℚ) (hq : 0 ≤ q) : toFloat q ≤ q * (1 + 1 / 2 ^ 24) := by
  rcases hq.eq_or_lt with h | h
  · rw [← h]
    simp [toFloat, fpRound_zero]
  · exact fpRound_le 24 q h

theorem toFloat_ge (q : ℚ) (hq : 0 ≤ q) : q * (1 - 1 / 2 ^ 24) ≤ toFloat q := by
  rcases hq.eq_or_lt with h | h
  · rw [← h]
    simp [toFloat, fpRound_zero]
  · exact fpRound_ge 24 q h

theorem toInt_le (q : ℚ) (hq : 0 ≤ q) : (toInt q : ℚ) ≤ q := by
  unfold toInt
  rw [if_pos hq]
  exact Int.floor_le q

theorem toInt_nonneg (q : ℚ) (hq : 0 ≤ q) : 0 ≤ toInt q := by
  unfold toInt
  rw [if_pos hq]
  exact Int.floor_nonneg.mpr hq

theorem toInt_le_of_lt (q : ℚ) (n : ℤ) (hq : 0 ≤ q) (h : q < n + 1) : toInt q ≤ n := by
  have h1 : ((toInt q : ℤ) : ℚ) < ((n + 1 : ℤ) : ℚ) := by
    push_cast
    exact lt_of_le_of_lt (toInt_le q hq) h
  have h2 : toInt q < n + 1 := by exact_mod_cast h1
  omega

/-- The second stage of `calculateGridMetrics`: the truncated `float` quotient
`G / count`, multiplied back by `count`, does not exceed `G`. -/
theorem cell_times_count_le (G c : Int) (hG0 : 0 ≤ G) (hG : G < 2 ^ 23) (hc : 1 ≤ c) :
    0 ≤ toInt (toFloat (toFloat (G : ℚ) / toFloat (c : ℚ))) ∧
    toInt (toFloat (toFloat (G : ℚ) / toFloat (c : ℚ))) * c ≤ G := by
  have hGq : toFloat (G : ℚ) = G := toFloat_intCast G hG0 (lt_trans hG (by norm_num))
  rw [hGq]
  have hcq : (1 : ℚ) ≤ c := by exact_mod_cast hc
  have hG0q : (0 : ℚ) ≤ G := by exact_mod_cast hG0
  have hc1 : (c : ℚ) * (1 - 1 / 2 ^ 24) ≤ toFloat (c : ℚ) := toFloat_ge _ (by linarith)
  have hcpos : 0 < toFloat (c : ℚ) := toFloat_pos _ (by linarith)
  have hq0 : 0 ≤ (G : ℚ) / toFloat (c : ℚ) := div_nonneg hG0q hcpos.le
  have hz0 : 0 ≤ toFloat ((G : ℚ) / toFloat (c : ℚ)) := toFloat_nonneg _ hq0
  have hz := toFloat_le _ hq0
  have hzc : toFloat ((G : ℚ) / toFloat (c : ℚ)) * toFloat (c : ℚ) ≤ G * (1 + 1 / 2 ^ 24) := by
    calc toFloat ((G : ℚ) / toFloat (c : ℚ)) * toFloat (c : ℚ)
        ≤ ((G : ℚ) / toFloat (c : ℚ) * (1 + 1 / 2 ^ 24)) * toFloat (c : ℚ) :=
          mul_le_mul_of_nonneg_right hz hcpos.le
      _ = G * (1 + 1 / 2 ^ 24) := by
          field_simp
          ring
  have hi := toInt_le _ hz0
  have hi0 := toInt_nonneg _ hz0
  have h1 : (toInt (toFloat ((G : ℚ) / toFloat (c : ℚ))) : ℚ) * ((c : ℚ) * (1 - 1 / 2 ^ 24)) ≤
      toFloat ((G : ℚ) / toFloat (c : ℚ)) * toFloat (c : ℚ) := by
    calc (toInt (toFloat ((G : ℚ) / toFloat (c : ℚ))) : ℚ) * ((c : ℚ) * (1 - 1 / 2 ^ 24))
        ≤ toFloat ((G : ℚ) / toFloat (c : ℚ)) * ((c : ℚ) * (1 - 1 / 2 ^ 24)) :=
          mul_le_mul_of_nonneg_right hi (mul_nonneg (by linarith) (by norm_num))
      _ ≤ toFloat ((G : ℚ) / toFloat (c : ℚ)) * toFloat (c : ℚ) :=
          mul_le_mul_of_nonneg_left hc1 hz0
  have hGb : (G : ℚ) ≤ 2 ^ 23 - 1 := by
    have : G ≤ 2 ^ 23 - 1 := by omega
    exact_mod_cast this
  have h2 : ((toInt (toFloat ((G : ℚ) / toFloat (c : ℚ))) * c : ℤ) : ℚ) < ((G + 1 : ℤ) : ℚ) := by
    push_cast
    norm_num at h1 hzc hGb ⊢
    linarith
  have h3 : toInt (toFloat ((G : ℚ) / toFloat (c : ℚ))) * c < G + 1 := by exact_mod_cast h2
  exact ⟨hi0, by omega⟩

/-- The first stage of `calculateGridMetrics`: whichever branch is taken, the
computed dimension is non-negative and does not exceed the available one. -/
theorem stage_one_le (aW aH : Int) (g : ℚ) (hg : 0 < g) (haW : 1 ≤ aW) (haH : 1 ≤ aH)
    (hW : aW < 2 ^ 23) (hH : aH < 2 ^ 23) :
    (toFloat (toFloat (aW : ℚ) / toFloat (aH : ℚ)) > g →
      0 ≤ toInt (toFloat (toFloat (aH : ℚ) * g)) ∧ toInt (toFloat (toFloat (aH : ℚ) * g)) ≤ aW) ∧
    (¬ toFloat (toFloat (aW : ℚ) / toFloat (aH : ℚ)) > g →
      0 ≤ toInt (toFloat (toFloat (aW : ℚ) / g)) ∧ toInt (toFloat (toFloat (aW : ℚ) / g)) ≤ aH) := by
  have hWq : toFloat (aW : ℚ) = aW := toFloat_intCast aW (by omega) (lt_trans hW (by norm_num))
  have hHq : toFloat (aH : ℚ) = aH := toFloat_intCast aH (by omega) (lt_trans hH (by norm_num))
  rw [hWq, hHq]
  have hW1 : (1 : ℚ) ≤ aW := by exact_mod_cast haW
  have hH1 : (1 : ℚ) ≤ aH := by exact_mod_cast haH
  have hWb : (aW : ℚ) ≤ 2 ^ 23 - 1 := by
    have : aW ≤ 2 ^ 23 - 1 := by omega
    exact_mod_cast this
  have hHb : (aH : ℚ) ≤ 2 ^ 23 - 1 := by
    have : aH ≤ 2 ^ 23 - 1 := by omega
    exact_mod_cast this
  have hq0 : (0 : ℚ) ≤ (aW : ℚ) / aH := div_nonneg (by linarith) (by linarith)
  have hAle := toFloat_le _ hq0
  have hAge := toFloat_ge _ hq0
  constructor
  · intro hA
    have hy0 : (0 : ℚ) ≤ (aH : ℚ) * g := mul_nonneg (by linarith) hg.le
    have hz0 := toFloat_nonneg _ hy0
    refine ⟨toInt_nonneg _ hz0, toInt_le_of_lt _ _ hz0 ?_⟩
    have hy := toFloat_le _ hy0
    -- g < (aW / aH) (1 + e), hence aH g < aW (1 + e)
    have h1 : g * aH < aW * (1 + 1 / 2 ^ 24) := by
      have : g < (aW : ℚ) / aH * (1 + 1 / 2 ^ 24) := lt_of_lt_of_le hA hAle
      calc g * aH < ((aW : ℚ) / aH * (1 + 1 / 2 ^ 24)) * aH :=
            mul_lt_mul_of_pos_right this (by linarith)
        _ = aW * (1 + 1 / 2 ^ 24) := by
            field_simp
            ring
    have h2 : toFloat ((aH : ℚ) * g) < aW * (1 + 1 / 2 ^ 24) * (1 + 1 / 2 ^ 24) := by
      calc toFloat ((aH : ℚ) * g) ≤ (aH : ℚ) * g * (1 + 1 / 2 ^ 24) := hy
        _ = g * aH * (1 + 1 / 2 ^ 24) := by ring
        _ < aW * (1 + 1 / 2 ^ 24) * (1 + 1 / 2 ^ 24) :=
            mul_lt_mul_of_pos_right h1 (by norm_num)
    norm_num at h2 hWb ⊢
    linarith
  · intro hA
    have hgA : (aW : ℚ) / aH * (1 - 1 / 2 ^ 24) ≤ g := le_trans hAge (not_lt.mp hA)
    have hy0 : (0 : ℚ) ≤ (aW : ℚ) / g := div_nonneg (by linarith) hg.le
    have hz0 := toFloat_nonneg _ hy0
    refine ⟨toInt_nonneg _ hz0, toInt_le_of_lt _ _ hz0 ?_⟩
    have hy := toFloat_le _ hy0
    -- y g <= aW (1 + e) and aW (1 - e) <= g aH
    have h1 : toFloat ((aW : ℚ) / g) * g ≤ aW * (1 + 1 / 2 ^ 24) := by
      calc toFloat ((aW : ℚ) / g) * g ≤ ((aW : ℚ) / g * (1 + 1 / 2 ^ 24)) * g :=
            mul_le_mul_of_nonneg_right hy hg.le
        _ = aW * (1 + 1 / 2 ^ 24) := by
            field_simp
            ring
    have h2 : (aW : ℚ) * (1 - 1 / 2 ^ 24) ≤ g * aH := by
      calc (aW : ℚ) * (1 - 1 / 2 ^ 24) = ((aW : ℚ) / aH * (1 - 1 / 2 ^ 24)) * aH := by
            field_simp
            ring
        _ ≤ g * aH := mul_le_mul_of_nonneg_right hgA (by linarith)
    -- y (1 - e) aW <= y g aH <= aW (1 + e) aH
    have h3 : toFloat ((aW : ℚ) / g) * ((aW : ℚ) * (1 - 1 / 2 ^ 24)) ≤
        (aW * (1 + 1 / 2 ^ 24)) * aH := by
      calc toFloat ((aW : ℚ) / g) * ((aW : ℚ) * (1 - 1 / 2 ^ 24))
          ≤ toFloat ((aW : ℚ) / g) * (g * aH) := mul_le_mul_of_nonneg_left h2 hz0
        _ = (toFloat ((aW : ℚ) / g) * g) * aH := by ring
        _ ≤ (aW * (1 + 1 / 2 ^ 24)) * aH := mul_le_mul_of_nonneg_right h1 (by linarith)
    have h4 : toFloat ((aW : ℚ) / g) * (1 - 1 / 2 ^ 24) ≤ (1 + 1 / 2 ^ 24) * aH := by
      have hp : (0 : ℚ) < aW := by linarith
      have e1 : toFloat ((aW : ℚ) / g) * ((aW : ℚ) * (1 - 1 / 2 ^ 24)) =
          (toFloat ((aW : ℚ) / g) * (1 - 1 / 2 ^ 24)) * aW := by ring
      have e2 : (aW * (1 + 1 / 2 ^ 24)) * (aH : ℚ) = ((1 + 1 / 2 ^ 24) * aH) * aW := by ring
      rw [e1, e2] at h3
      exact le_of_mul_le_mul_right h3 hp
    norm_num at h4 hHb ⊢
    linarith

/-- Counterexample for C20 as stated: for a `7 x 2` grid in a window of
`4365218 x 8594020` pixels (`rows, cols >= 1`, width and height `>= 3`) the
`float` steps of `calculateGridMetrics` give `gridH = 8594019`, which exceeds
`totalH - 2 = 8594018`. -/
theorem C20_large_window_counterexample :
    (1 : Int) ≤ 7 ∧ (1 : Int) ≤ 2 ∧ (3 : Int) ≤ 4365218 ∧ (3 : Int) ≤ 8594020 ∧
    (calculateGridMetrics 7 2 4365218 8594020).gridH = 8594019 ∧
    ¬ (calculateGridMetrics 7 2 4365218 8594020).gridH ≤ 8594020 - 2 := by
  have hval := gridMetrics_7_2_4365218_8594020
  refine ⟨by decide, by decide, by decide, by decide, ?_, ?_⟩
  · rw [hval]
  · rw [hval]
    show ¬ ((8594019 : Int) ≤ 8594020 - 2)
    decide

/-! ## C19 -/

theorem castToInt_of_range (z : Int) (h1 : INT_MIN ≤ z) (h2 : z ≤ INT_MAX) :
    castToInt z = z := by
  unfold castToInt
  rw [if_pos ⟨h1, h2⟩]

theorem wrapInt_of_range (z : Int) (h1 : INT_MIN ≤ z) (h2 : z ≤ INT_MAX) : wrapInt z = z := by
  unfold wrapInt
  unfold INT_MIN at h1
  unfold INT_MAX at h2
  omega

/-- A tie between two integers rounds to the even one; here the upper one. -/
theorem roundHalfEven_tie_up (q : ℚ) (m : ℤ) (hq : q = m - 1 / 2) (hm : m % 2 = 0) :
    roundHalfEven q = m := by
  have hf : ⌊q⌋ = m - 1 := by
    rw [Int.floor_eq_iff, hq]
    push_cast
    constructor <;> linarith
  unfold roundHalfEven
  rw [hf, hq]
  push_cast
  rw [if_neg (by norm_num), if_neg (by norm_num), if_neg (by omega)]
  omega

theorem stdRound_le_of_lt (q : ℚ) (z : Int) (h0 : 0 ≤ q) (h : q + 1 / 2 < z + 1) :
    stdRound q ≤ z := by
  unfold stdRound
  rw [if_pos h0]
  have : ⌊q + 1 / 2⌋ < z + 1 := by
    rw [Int.floor_lt]
    exact_mod_cast h
  omega

/-- Two positive quotients whose `double` values compare as `<=` compare the
same way as rationals up to one rounding on either side. -/
theorem aspect_le_cross (a b c d : Int) (ha : 0 < a) (hb : 0 < b) (hc : 0 < c) (hd : 0 < d)
    (h : toDouble ((a : ℚ) / b) ≤ toDouble ((c : ℚ) / d)) :
    (a : ℚ) * d * (1 - 1 / 2 ^ 53) ≤ c * b * (1 + 1 / 2 ^ 53) := by
  have haq : (0 : ℚ) < a := by exact_mod_cast ha
  have hbq : (0 : ℚ) < b := by exact_mod_cast hb
  have hcq : (0 : ℚ) < c := by exact_mod_cast hc
  have hdq : (0 : ℚ) < d := by exact_mod_cast hd
  have h1 : (a : ℚ) / b * (1 - 1 / 2 ^ 53) ≤ toDouble ((a : ℚ) / b) :=
    fpRound_ge 53 _ (div_pos haq hbq)
  have h2 : toDouble ((c : ℚ) / d) ≤ (c : ℚ) / d * (1 + 1 / 2 ^ 53) :=
    fpRound_le 53 _ (div_pos hcq hdq)
  have h3 : (a : ℚ) / b * (1 - 1 / 2 ^ 53) ≤ (c : ℚ) / d * (1 + 1 / 2 ^ 53) := by linarith
  have e1 : (a : ℚ) / b * (1 - 1 / 2 ^ 53) = (a * (1 - 1 / 2 ^ 53)) / b := by ring
  have e2 : (c : ℚ) / d * (1 + 1 / 2 ^ 53) = (c * (1 + 1 / 2 ^ 53)) / d := by ring
  rw [e1, e2, div_le_div_iff₀ hbq hdq] at h3
  linarith

/-- The rounded product `(double)p * scale` with `scale` the `float` quotient
`n / q`, when `p / q` is at most `m / n` up to one `double` rounding on either
side: the product stays below one and a half times `m`. -/
theorem scaled_product_le (p q n m : Int) (hp : 0 < p) (hq : 0 < q) (hn : 0 < n) (hm : 0 < m)
    (hp2 : p < 2 ^ 53)
    (h : (p : ℚ) * n * (1 - 1 / 2 ^ 53) ≤ m * q * (1 + 1 / 2 ^ 53)) :
    0 ≤ toDouble (toDouble p * toFloat (toFloat n / toFloat q)) ∧
    toDouble (toDouble p * toFloat (toFloat n / toFloat q)) ≤ 3 / 2 * m := by
  have hpq : (0 : ℚ) < p := by exact_mod_cast hp
  have hqq : (0 : ℚ) < q := by exact_mod_cast hq
  have hnq : (0 : ℚ) < n := by exact_mod_cast hn
  have hmq : (0 : ℚ) < m := by exact_mod_cast hm
  have fn_le : toFloat (n : ℚ) ≤ n * (1 + 1 / 2 ^ 24) := toFloat_le _ hnq.le
  have fq_ge : (q : ℚ) * (1 - 1 / 2 ^ 24) ≤ toFloat (q : ℚ) := toFloat_ge _ hqq.le
  have fq_pos : 0 < toFloat (q : ℚ) := toFloat_pos _ hqq
  have fn_pos : 0 < toFloat (n : ℚ) := toFloat_pos _ hnq
  have hquot : 0 < toFloat (n : ℚ) / toFloat (q : ℚ) := div_pos fn_pos fq_pos
  have s_pos : 0 < toFloat (toFloat (n : ℚ) / toFloat (q : ℚ)) := toFloat_pos _ hquot
  have s_le : toFloat (toFloat (n : ℚ) / toFloat (q : ℚ)) ≤
      toFloat (n : ℚ) / toFloat (q : ℚ) * (1 + 1 / 2 ^ 24) := toFloat_le _ hquot.le
  rw [toDouble_intCast p hp.le hp2]
  generalize toFloat (toFloat (n : ℚ) / toFloat (q : ℚ)) = s at s_pos s_le ⊢
  generalize toFloat (n : ℚ) = fn at fn_le fn_pos hquot s_le
  generalize toFloat (q : ℚ) = fq at fq_ge fq_pos hquot s_le
  have step1 : s * fq ≤ fn * (1 + 1 / 2 ^ 24) := by
    have := mul_le_mul_of_nonneg_right s_le fq_pos.le
    have e : fn / fq * (1 + 1 / 2 ^ 24) * fq = fn * (1 + 1 / 2 ^ 24) := by
      field_simp
      ring
    rw [e] at this
    exact this
  have step2 : s * ((q : ℚ) * (1 - 1 / 2 ^ 24)) ≤ s * fq :=
    mul_le_mul_of_nonneg_left fq_ge s_pos.le
  have step3 : s * (q : ℚ) * (1 - 1 / 2 ^ 24) ≤ n * (1 + 1 / 2 ^ 24) * (1 + 1 / 2 ^ 24) := by
    have := mul_le_mul_of_nonneg_right fn_le (show (0 : ℚ) ≤ 1 + 1 / 2 ^ 24 by norm_num)
    linarith
  have step4 : (p : ℚ) * (1 - 1 / 2 ^ 53) * (s * (q : ℚ) * (1 - 1 / 2 ^ 24)) ≤
      (p : ℚ) * (1 - 1 / 2 ^ 53) * (n * (1 + 1 / 2 ^ 24) * (1 + 1 / 2 ^ 24)) :=
    mul_le_mul_of_nonneg_left step3 (mul_nonneg hpq.le (by norm_num))
  have step5 : (p : ℚ) * n * (1 - 1 / 2 ^ 53) * ((1 + 1 / 2 ^ 24) * (1 + 1 / 2 ^ 24)) ≤
      m * q * (1 + 1 / 2 ^ 53) * ((1 + 1 / 2 ^ 24) * (1 + 1 / 2 ^ 24)) :=
    mul_le_mul_of_nonneg_right h (by norm_num)
  have step6 : ((p : ℚ) * s * ((1 - 1 / 2 ^ 53) * (1 - 1 / 2 ^ 24))) * q ≤
      ((m : ℚ) * ((1 + 1 / 2 ^ 53) * ((1 + 1 / 2 ^ 24) * (1 + 1 / 2 ^ 24)))) * q := by
    linarith
  have step7 := le_of_mul_le_mul_right step6 hqq
  have hps : 0 < (p : ℚ) * s := mul_pos hpq s_pos
  have hD : toDouble ((p : ℚ) * s) ≤ (p : ℚ) * s * (1 + 1 / 2 ^ 53) := fpRound_le 53 _ hps
  refine ⟨fpRound_nonneg _ _ hps.le, ?_⟩
  norm_num at step7 hD ⊢
  linarith

theorem getScale_height (baseCX baseCY windowCX windowCY : Int)
    (h : toDouble (toDouble windowCX / toDouble windowCY) >
      toDouble (toDouble baseCX / toDouble baseCY)) :
    GetScaleAndCenterPos baseCX baseCY windowCX windowCY =
      { x := (wrapInt (windowCX - (if castToInt (stdRound (toDouble (toDouble baseCX *
            toFloat (toFloat windowCY / toFloat baseCY)))) > windowCX then windowCX
            else castToInt (stdRound (toDouble (toDouble baseCX *
              toFloat (toFloat windowCY / toFloat baseCY))))))).tdiv 2,
        y := (wrapInt (windowCY - windowCY)).tdiv 2,
        scale := toFloat (toFloat windowCY / toFloat baseCY),
        scaledCX := (if castToInt (stdRound (toDouble (toDouble baseCX *
            toFloat (toFloat windowCY / toFloat baseCY)))) > windowCX then windowCX
            else castToInt (stdRound (toDouble (toDouble baseCX *
              toFloat (toFloat windowCY / toFloat baseCY))))),
        scaledCY := windowCY } := by
  unfold GetScaleAndCenterPos
  rw [if_pos h]

theorem getScale_width (baseCX baseCY windowCX windowCY : Int)
    (h : ¬ toDouble (toDouble windowCX / toDouble windowCY) >
      toDouble (toDouble baseCX / toDouble baseCY)) :
    GetScaleAndCenterPos baseCX baseCY windowCX windowCY =
      { x := (wrapInt (windowCX - windowCX)).tdiv 2,
        y := (wrapInt (windowCY - (if castToInt (stdRound (toDouble (toDouble baseCY *
            toFloat (toFloat windowCX / toFloat baseCX)))) > windowCY then windowCY
            else castToInt (stdRound (toDouble (toDouble baseCY *
              toFloat (toFloat windowCX / toFloat baseCX))))))).tdiv 2,
        scale := toFloat (toFloat windowCX / toFloat baseCX),
        scaledCX := windowCX,
        scaledCY := (if castToInt (stdRound (toDouble (toDouble baseCY *
            toFloat (toFloat windowCX / toFloat baseCX)))) > windowCY then windowCY
            else castToInt (stdRound (toDouble (toDouble baseCY *
              toFloat (toFloat windowCX / toFloat baseCX))))) } := by
  unfold GetScaleAndCenterPos
  rw [if_neg h]

theorem ite_gt_eq_min (a b : Int) : (if a > b then b else a) = min a b := by
  split_ifs with h
  · exact (min_eq_right (le_of_lt h)).symm
  · exact (min_eq_left (not_lt.mp h)).symm

/-- In the height-constrained branch, for a box of at most `2^30` pixels a side,
the rounded product fits an `int`: the conversion is exact, the subtraction
does not wrap, and the result is the clamped rounded product. -/
theorem getScale_height_inrange (baseCX baseCY windowCX windowCY : Int)
    (hbx : 0 < baseCX) (hby : 0 < baseCY) (hwx : 0 < windowCX) (hwy : 0 < windowCY)
    (hbxM : baseCX ≤ INT_MAX) (hbyM : baseCY ≤ INT_MAX) (hwxM : windowCX ≤ 2 ^ 30)
    (hwyM : windowCY ≤ 2 ^ 30)
    (h : toDouble (toDouble windowCX / toDouble windowCY) >
      toDouble (toDouble baseCX / toDouble baseCY)) :
    0 ≤ stdRound (toDouble (toDouble baseCX * toFloat (toFloat windowCY / toFloat baseCY))) ∧
    GetScaleAndCenterPos baseCX baseCY windowCX windowCY =
      { x := (windowCX - min (stdRound (toDouble (toDouble baseCX *
            toFloat (toFloat windowCY / toFloat baseCY)))) windowCX).tdiv 2,
        y := 0,
        scale := toFloat (toFloat windowCY / toFloat baseCY),
        scaledCX := min (stdRound (toDouble (toDouble baseCX *
            toFloat (toFloat windowCY / toFloat baseCY)))) windowCX,
        scaledCY := windowCY } := by
  unfold INT_MAX at hbxM hbyM
  have hbx2 : baseCX < 2 ^ 53 := by omega
  have hby2 : baseCY < 2 ^ 53 := by omega
  have hwx2 : windowCX < 2 ^ 53 := by omega
  have hwy2 : windowCY < 2 ^ 53 := by omega
  have hcmp := h
  rw [toDouble_intCast windowCX hwx.le hwx2, toDouble_intCast windowCY hwy.le hwy2,
    toDouble_intCast baseCX hbx.le hbx2, toDouble_intCast baseCY hby.le hby2] at hcmp
  have hcross := aspect_le_cross baseCX baseCY windowCX windowCY hbx hby hwx hwy hcmp.le
  obtain ⟨hD0, hD⟩ := scaled_product_le baseCX baseCY windowCY windowCX hbx hby hwy hwx hbx2
    hcross
  have hwq : (windowCX : ℚ) ≤ 2 ^ 30 := by exact_mod_cast hwxM
  have hr0 := stdRound_nonneg _ hD0
  have hr1 : stdRound (toDouble (toDouble baseCX *
      toFloat (toFloat windowCY / toFloat baseCY))) ≤ 1610612736 := by
    apply stdRound_le_of_lt _ _ hD0
    push_cast
    norm_num at hwq ⊢
    linarith
  refine ⟨hr0, ?_⟩
  rw [getScale_height _ _ _ _ h, castToInt_of_range _ (by unfold INT_MIN; omega)
    (by unfold INT_MAX; omega), ite_gt_eq_min, sub_self,
    wrapInt_of_range _ (by unfold INT_MIN; omega) (by unfold INT_MAX; omega),
    wrapInt_of_range 0 (by decide) (by decide), Int.zero_tdiv]

/-- In the width-constrained branch, for a box of at most `2^30` pixels a side,
the rounded product fits an `int`: the conversion is exact, the subtraction
does not wrap, and the result is the clamped rounded product. -/
theorem getScale_width_inrange (baseCX baseCY windowCX windowCY : Int)
    (hbx : 0 < baseCX) (hby : 0 < baseCY) (hwx : 0 < windowCX) (hwy : 0 < windowCY)
    (hbxM : baseCX ≤ INT_MAX) (hbyM : baseCY ≤ INT_MAX) (hwxM : windowCX ≤ 2 ^ 30)
    (hwyM : windowCY ≤ 2 ^ 30)
    (h : ¬ toDouble (toDouble windowCX / toDouble windowCY) >
      toDouble (toDouble baseCX / toDouble baseCY)) :
    0 ≤ stdRound (toDouble (toDouble baseCY * toFloat (toFloat windowCX / toFloat baseCX))) ∧
    GetScaleAndCenterPos baseCX baseCY windowCX windowCY =
      { x := 0,
        y := (windowCY - min (stdRound (toDouble (toDouble baseCY *
            toFloat (toFloat windowCX / toFloat baseCX)))) windowCY).tdiv 2,
        scale := toFloat (toFloat windowCX / toFloat baseCX),
        scaledCX := windowCX,
        scaledCY := min (stdRound (toDouble (toDouble baseCY *
            toFloat (toFloat windowCX / toFloat baseCX)))) windowCY } := by
  unfold INT_MAX at hbxM hbyM
  have hbx2 : baseCX < 2 ^ 53 := by omega
  have hby2 : baseCY < 2 ^ 53 := by omega
  have hwx2 : windowCX < 2 ^ 53 := by omega
  have hwy2 : windowCY < 2 ^ 53 := by omega
  have hcmp := not_lt.mp h
  rw [toDouble_intCast windowCX hwx.le hwx2, toDouble_intCast windowCY hwy.le hwy2,
    toDouble_intCast baseCX hbx.le hbx2, toDouble_intCast baseCY hby.le hby2] at hcmp
  have hcross := aspect_le_cross windowCX windowCY baseCX baseCY hwx hwy hbx hby hcmp
  obtain ⟨hD0, hD⟩ := scaled_product_le baseCY baseCX windowCX windowCY hby hbx hwx hwy hby2
    (by linarith)
  have hwq : (windowCY : ℚ) ≤ 2 ^ 30 := by exact_mod_cast hwyM
  have hr0 := stdRound_nonneg _ hD0
  have hr1 : stdRound (toDouble (toDouble baseCY *
      toFloat (toFloat windowCX / toFloat baseCX))) ≤ 1610612736 := by
    apply stdRound_le_of_lt _ _ hD0
    push_cast
    norm_num at hwq ⊢
    linarith
  refine ⟨hr0, ?_⟩
  rw [getScale_width _ _ _ _ h, castToInt_of_range _ (by unfold INT_MIN; omega)
    (by unfold INT_MAX; omega), ite_gt_eq_min, sub_self,
    wrapInt_of_range 0 (by decide) (by decide),
    wrapInt_of_range _ (by unfold INT_MIN; omega) (by unfold INT_MAX; omega), Int.zero_tdiv]

/-- Two quotients of integers below `2^24` that differ as rationals are far
enough apart for their `double` values to compare the same way. -/
theorem toDouble_lt_of_cross (x y u v : Int) (hx : 0 < x) (hy : 0 < y) (hu : 0 < u)
    (hv : 0 < v) (hx2 : x < 2 ^ 24) (hy2 : y < 2 ^ 24) (hu2 : u < 2 ^ 24) (hv2 : v < 2 ^ 24)
    (h : x * v < u * y) : toDouble ((x : ℚ) / y) < toDouble ((u : ℚ) / v) := by
  have hxq : (0 : ℚ) < x := by exact_mod_cast hx
  have hyq : (0 : ℚ) < y := by exact_mod_cast hy
  have huq : (0 : ℚ) < u := by exact_mod_cast hu
  have hvq : (0 : ℚ) < v := by exact_mod_cast hv
  have hxb : (x : ℚ) ≤ 2 ^ 24 := by exact_mod_cast hx2.le
  have hyb : (y : ℚ) ≤ 2 ^ 24 := by exact_mod_cast hy2.le
  have hub : (u : ℚ) ≤ 2 ^ 24 := by exact_mod_cast hu2.le
  have hvb : (v : ℚ) ≤ 2 ^ 24 := by exact_mod_cast hv2.le
  have hsep : (x : ℚ) * v + 1 ≤ u * y := by
    have : x * v + 1 ≤ u * y := by omega
    exact_mod_cast this
  have hxv : (x : ℚ) * v ≤ 2 ^ 24 * 2 ^ 24 := mul_le_mul hxb hvb hvq.le (by norm_num)
  have huy : (u : ℚ) * y ≤ 2 ^ 24 * 2 ^ 24 := mul_le_mul hub hyb hyq.le (by norm_num)
  have h1 : toDouble ((x : ℚ) / y) ≤ (x : ℚ) / y * (1 + 1 / 2 ^ 53) :=
    fpRound_le 53 _ (div_pos hxq hyq)
  have h2 : (u : ℚ) / v * (1 - 1 / 2 ^ 53) ≤ toDouble ((u : ℚ) / v) :=
    fpRound_ge 53 _ (div_pos huq hvq)
  have h3 : (x : ℚ) / y * (1 + 1 / 2 ^ 53) < (u : ℚ) / v * (1 - 1 / 2 ^ 53) := by
    have e1 : (x : ℚ) / y * (1 + 1 / 2 ^ 53) = (x * (1 + 1 / 2 ^ 53)) / y := by ring
    have e2 : (u : ℚ) / v * (1 - 1 / 2 ^ 53) = (u * (1 - 1 / 2 ^ 53)) / v := by ring
    rw [e1, e2, div_lt_div_iff₀ hyq hvq]
    norm_num at hxv huy ⊢
    nlinarith
  linarith

theorem toDouble_aspect_gt_iff (baseCX baseCY windowCX windowCY : Int)
    (hbx : 0 < baseCX) (hby : 0 < baseCY) (hwx : 0 < windowCX) (hwy : 0 < windowCY)
    (hbx2 : baseCX < 2 ^ 24) (hby2 : baseCY < 2 ^ 24) (hwx2 : windowCX < 2 ^ 24)
    (hwy2 : windowCY < 2 ^ 24) :
    toDouble (toDouble windowCX / toDouble windowCY) >
        toDouble (toDouble baseCX / toDouble baseCY) ↔
      (windowCX : ℚ) / windowCY > (baseCX : ℚ) / baseCY := by
  have big : (2 : Int) ^ 24 < 2 ^ 53 := by norm_num
  rw [toDouble_intCast windowCX hwx.le (lt_trans hwx2 big),
    toDouble_intCast windowCY hwy.le (lt_trans hwy2 big),
    toDouble_intCast baseCX hbx.le (lt_trans hbx2 big),
    toDouble_intCast baseCY hby.le (lt_trans hby2 big)]
  have hbyq : (0 : ℚ) < baseCY := by exact_mod_cast hby
  have hwyq : (0 : ℚ) < windowCY := by exact_mod_cast hwy
  have hcross : (windowCX : ℚ) / windowCY > (baseCX : ℚ) / baseCY ↔
      baseCX * windowCY < windowCX * baseCY := by
    rw [gt_iff_lt, div_lt_div_iff₀ hbyq hwyq]
    exact_mod_cast Iff.rfl
  rw [hcross]
  constructor
  · intro h
    by_contra hn
    rcases (not_lt.mp hn).eq_or_lt with he | hl
    · have heq : (windowCX : ℚ) / windowCY = (baseCX : ℚ) / baseCY := by
        rw [div_eq_div_iff hwyq.ne' hbyq.ne']
        exact_mod_cast he
      rw [heq] at h
      exact lt_irrefl _ h
    · have := toDouble_lt_of_cross windowCX windowCY baseCX baseCY hwx hwy hbx hby hwx2 hwy2
        hbx2 hby2 hl
      exact lt_asymm h this
  · intro h
    exact toDouble_lt_of_cross baseCX baseCY windowCX windowCY hbx hby hwx hwy hbx2 hby2
      hwx2 hwy2 h

/-- C19 (amended): for positive inputs below `2^24`, `GetScaleAndCenterPos`
chooses the binding constraint by the exact comparison of the aspects. If
`windowCX / windowCY > baseCX / baseCY` the height binds: the scale is the
`float` quotient `windowCY / baseCY`, `scaledCY = windowCY` and `scaledCX` is
`round(baseCX * scale)` clamped to `windowCX`. Otherwise, equal aspects
included, the width binds symmetrically. One scaled dimension equals the
box's, and the scale is the `float` nearest to
`min (windowCX / baseCX) (windowCY / baseCY)`, the largest scale that fits. -/
theorem C19_binding_constraint_by_aspect (baseCX baseCY windowCX windowCY : Int)
    (hbx : 0 < baseCX) (hby : 0 < baseCY) (hwx : 0 < windowCX) (hwy : 0 < windowCY)
    (hbx2 : baseCX < 2 ^ 24) (hby2 : baseCY < 2 ^ 24) (hwx2 : windowCX < 2 ^ 24)
    (hwy2 : windowCY < 2 ^ 24) :
    ((windowCX : ℚ) / windowCY > (baseCX : ℚ) / baseCY →
      (GetScaleAndCenterPos baseCX baseCY windowCX windowCY).scale = toFloat ((windowCY : ℚ) / baseCY) ∧
      (GetScaleAndCenterPos baseCX baseCY windowCX windowCY).scaledCY = windowCY ∧
      (GetScaleAndCenterPos baseCX baseCY windowCX windowCY).scaledCX =
        min (stdRound (toDouble ((baseCX : ℚ) * (GetScaleAndCenterPos baseCX baseCY windowCX windowCY).scale)))
          windowCX) ∧
    (¬ (windowCX : ℚ) / windowCY > (baseCX : ℚ) / baseCY →
      (GetScaleAndCenterPos baseCX baseCY windowCX windowCY).scale = toFloat ((windowCX : ℚ) / baseCX) ∧
      (GetScaleAndCenterPos baseCX baseCY windowCX windowCY).scaledCX = windowCX ∧
      (GetScaleAndCenterPos baseCX baseCY windowCX windowCY).scaledCY =
        min (stdRound (toDouble ((baseCY : ℚ) * (GetScaleAndCenterPos baseCX baseCY windowCX windowCY).scale)))
          windowCY) ∧
    ((GetScaleAndCenterPos baseCX baseCY windowCX windowCY).scaledCX = windowCX ∨
      (GetScaleAndCenterPos baseCX baseCY windowCX windowCY).scaledCY = windowCY) ∧
    (GetScaleAndCenterPos baseCX baseCY windowCX windowCY).scale =
      toFloat (min ((windowCX : ℚ) / baseCX) ((windowCY : ℚ) / baseCY)) ∧
    min ((windowCX : ℚ) / baseCX) ((windowCY : ℚ) / baseCY) * baseCX ≤ windowCX ∧
    min ((windowCX : ℚ) / baseCX) ((windowCY : ℚ) / baseCY) * baseCY ≤ windowCY ∧
    ∀ s : ℚ, s * baseCX ≤ windowCX → s * baseCY ≤ windowCY →
      s ≤ min ((windowCX : ℚ) / baseCX) ((windowCY : ℚ) / baseCY) := by
  have big : (2 : Int) ^ 24 < 2 ^ 53 := by norm_num
  have fwx := toFloat_intCast windowCX hwx.le hwx2
  have fwy := toFloat_intCast windowCY hwy.le hwy2
  have fbx := toFloat_intCast baseCX hbx.le hbx2
  have fby := toFloat_intCast baseCY hby.le hby2
  have dbx := toDouble_intCast baseCX hbx.le (lt_trans hbx2 big)
  have dby := toDouble_intCast baseCY hby.le (lt_trans hby2 big)
  have hbxq : (0 : ℚ) < baseCX := by exact_mod_cast hbx
  have hbyq : (0 : ℚ) < baseCY := by exact_mod_cast hby
  have hwxq : (0 : ℚ) < windowCX := by exact_mod_cast hwx
  have hwyq : (0 : ℚ) < windowCY := by exact_mod_cast hwy
  have hfit1 : min ((windowCX : ℚ) / baseCX) ((windowCY : ℚ) / baseCY) * baseCX ≤ windowCX := by
    calc min ((windowCX : ℚ) / baseCX) ((windowCY : ℚ) / baseCY) * baseCX
        ≤ (windowCX : ℚ) / baseCX * baseCX :=
          mul_le_mul_of_nonneg_right (min_le_left _ _) hbxq.le
      _ = windowCX := div_mul_cancel₀ _ hbxq.ne'
  have hfit2 : min ((windowCX : ℚ) / baseCX) ((windowCY : ℚ) / baseCY) * baseCY ≤ windowCY := by
    calc min ((windowCX : ℚ) / baseCX) ((windowCY : ℚ) / baseCY) * baseCY
        ≤ (windowCY : ℚ) / baseCY * baseCY :=
          mul_le_mul_of_nonneg_right (min_le_right _ _) hbyq.le
      _ = windowCY := div_mul_cancel₀ _ hbyq.ne'
  have hmax : ∀ s : ℚ, s * baseCX ≤ windowCX → s * baseCY ≤ windowCY →
      s ≤ min ((windowCX : ℚ) / baseCX) ((windowCY : ℚ) / baseCY) := by
    intro s h1 h2
    exact le_min ((le_div_iff₀ hbxq).mpr h1) ((le_div_iff₀ hbyq).mpr h2)
  by_cases hq : (windowCX : ℚ) / windowCY > (baseCX : ℚ) / baseCY
  · have hd := (toDouble_aspect_gt_iff baseCX baseCY windowCX windowCY hbx hby hwx hwy
      hbx2 hby2 hwx2 hwy2).mpr hq
    have hval := (getScale_height_inrange baseCX baseCY windowCX windowCY hbx hby hwx hwy
      (by unfold INT_MAX; omega) (by unfold INT_MAX; omega) (by omega) (by omega) hd).2
    rw [fwy, fby, dbx] at hval
    have hmin : min ((windowCX : ℚ) / baseCX) ((windowCY : ℚ) / baseCY) =
        (windowCY : ℚ) / baseCY := by
      apply min_eq_right
      rw [gt_iff_lt, div_lt_div_iff₀ hbyq hwyq] at hq
      rw [div_le_div_iff₀ hbyq hbxq]
      linarith
    rw [hval, hmin]
    exact ⟨fun _ => ⟨rfl, rfl, rfl⟩, fun hn => absurd hq hn, Or.inr rfl, rfl,
      hmin ▸ hfit1, hmin ▸ hfit2, hmin ▸ hmax⟩
  · have hd : ¬ toDouble (toDouble windowCX / toDouble windowCY) >
        toDouble (toDouble baseCX / toDouble baseCY) := fun h =>
      hq ((toDouble_aspect_gt_iff baseCX baseCY windowCX windowCY hbx hby hwx hwy
        hbx2 hby2 hwx2 hwy2).mp h)
    have hval := (getScale_width_inrange baseCX baseCY windowCX windowCY hbx hby hwx hwy
      (by unfold INT_MAX; omega) (by unfold INT_MAX; omega) (by omega) (by omega) hd).2
    rw [fwx, fbx, dby] at hval
    have hmin : min ((windowCX : ℚ) / baseCX) ((windowCY : ℚ) / baseCY) =
        (windowCX : ℚ) / baseCX := by
      apply min_eq_left
      rw [gt_iff_lt, div_lt_div_iff₀ hbyq hwyq, not_lt] at hq
      rw [div_le_div_iff₀ hbxq hbyq]
      linarith
    rw [hval, hmin]
    exact ⟨fun h => absurd h hq, fun _ => ⟨rfl, rfl, rfl⟩, Or.inl rfl, rfl,
      hmin ▸ hfit1, hmin ▸ hfit2, hmin ▸ hmax⟩

/-- Instance of C19 at content `1920 x 1080` in a `400 x 400` box. -/
theorem C19_binding_constraint_by_aspect_witness :
    (0 : Int) < 1920 ∧ (0 : Int) < 1080 ∧ (0 : Int) < 400 ∧ (1920 : Int) < 2 ^ 24 ∧
    (((400 : Int) : ℚ) / 400 > ((1920 : Int) : ℚ) / 1080 →
      (GetScaleAndCenterPos 1920 1080 400 400).scale = toFloat (((400 : Int) : ℚ) / 1080) ∧
      (GetScaleAndCenterPos 1920 1080 400 400).scaledCY = 400 ∧
      (GetScaleAndCenterPos 1920 1080 400 400).scaledCX =
        min (stdRound (toDouble (((1920 : Int) : ℚ) * (GetScaleAndCenterPos 1920 1080 400 400).scale)))
          400) ∧
    (¬ ((400 : Int) : ℚ) / 400 > ((1920 : Int) : ℚ) / 1080 →
      (GetScaleAndCenterPos 1920 1080 400 400).scale = toFloat (((400 : Int) : ℚ) / 1920) ∧
      (GetScaleAndCenterPos 1920 1080 400 400).scaledCX = 400 ∧
      (GetScaleAndCenterPos 1920 1080 400 400).scaledCY =
        min (stdRound (toDouble (((1080 : Int) : ℚ) * (GetScaleAndCenterPos 1920 1080 400 400).scale)))
          400) ∧
    ((GetScaleAndCenterPos 1920 1080 400 400).scaledCX = 400 ∨
      (GetScaleAndCenterPos 1920 1080 400 400).scaledCY = 400) ∧
    (GetScaleAndCenterPos 1920 1080 400 400).scale =
      toFloat (min (((400 : Int) : ℚ) / 1920) (((400 : Int) : ℚ) / 1080)) ∧
    min (((400 : Int) : ℚ) / 1920) (((400 : Int) : ℚ) / 1080) * ((1920 : Int) : ℚ) ≤ ((400 : Int) : ℚ) ∧
    min (((400 : Int) : ℚ) / 1920) (((400 : Int) : ℚ) / 1080) * ((1080 : Int) : ℚ) ≤ ((400 : Int) : ℚ) ∧
    ∀ s : ℚ, s * ((1920 : Int) : ℚ) ≤ ((400 : Int) : ℚ) → s * ((1080 : Int) : ℚ) ≤ ((400 : Int) : ℚ) →
      s ≤ min (((400 : Int) : ℚ) / 1920) (((400 : Int) : ℚ) / 1080) :=
  ⟨by decide, by decide, by decide, by decide,
    C19_binding_constraint_by_aspect 1920 1080 400 400 (by decide) (by decide) (by decide)
      (by decide) (by decide) (by decide) (by decide) (by decide)⟩

theorem getScale_large_input :
    GetScaleAndCenterPos 538679713 538679710 179559904 179559903 =
      { x := 0, y := 5, scale := 5592405 / 16777216, scaledCX := 179559904,
        scaledCY := 179559893 } := by
  have dwx : toDouble (179559904 : ℚ) = 179559904 := by
    have := toDouble_intCast 179559904 (by norm_num) (by norm_num)
    exact_mod_cast this
  have dwy : toDouble (179559903 : ℚ) = 179559903 := by
    have := toDouble_intCast 179559903 (by norm_num) (by norm_num)
    exact_mod_cast this
  have dbx : toDouble (538679713 : ℚ) = 538679713 := by
    have := toDouble_intCast 538679713 (by norm_num) (by norm_num)
    exact_mod_cast this
  have dby : toDouble (538679710 : ℚ) = 538679710 := by
    have := toDouble_intCast 538679710 (by norm_num) (by norm_num)
    exact_mod_cast this
  have hwa : toDouble (179559904 / 179559903 : ℚ) = 4503599652451817 / 4503599627370496 := by
    rw [toDouble_eval (179559904 / 179559903) 0 4503599652451817 (by norm_num) (by norm_num)
      (by norm_num) (by rw [abs_lt]; constructor <;> norm_num)]
    norm_num
  have hba : toDouble (538679713 / 538679710 : ℚ) = 4503599652451817 / 4503599627370496 := by
    rw [toDouble_eval (538679713 / 538679710) 0 4503599652451817 (by norm_num) (by norm_num)
      (by norm_num) (by rw [abs_lt]; constructor <;> norm_num)]
    norm_num
  have fwx : toFloat (179559904 : ℚ) = 179559904 := by
    rw [toFloat_eval 179559904 27 11222494 (by norm_num) (by norm_num) (by norm_num)
      (by rw [abs_lt]; constructor <;> norm_num)]
    norm_num
  have fbx : toFloat (538679713 : ℚ) = 538679744 := by
    rw [toFloat_eval 538679713 29 8416871 (by norm_num) (by norm_num) (by norm_num)
      (by rw [abs_lt]; constructor <;> norm_num)]
    norm_num
  have hscale : toFloat (179559904 / 538679744 : ℚ) = 5592405 / 16777216 := by
    rw [toFloat_eval (179559904 / 538679744) (-2) 11184810 (by norm_num) (by norm_num)
      (by norm_num) (by rw [abs_lt]; constructor <;> norm_num)]
    norm_num
  have hprod : toDouble (538679710 * (5592405 / 16777216) : ℚ) =
      1506257551801275 / 8388608 := by
    rw [toDouble_eval (538679710 * (5592405 / 16777216)) 27 6025030207205100 (by norm_num)
      (by norm_num) (by norm_num) (by rw [abs_lt]; constructor <;> norm_num)]
    norm_num
  have hround : stdRound (1506257551801275 / 8388608 : ℚ) = 179559893 :=
    stdRound_eval _ _ (by norm_num) (by norm_num) (by norm_num)
  have hcast : castToInt 179559893 = 179559893 := by decide
  have hwrap0 : wrapInt 0 = 0 := by decide
  have hwrap : wrapInt 10 = 10 := by decide
  unfold GetScaleAndCenterPos
  simp only [Int.cast_ofNat, dwx, dwy, dbx, dby, hwa, hba, lt_self_iff_false, gt_iff_lt,
    if_false, fwx, fbx, hscale, hprod, hround, hcast]
  norm_num [hwrap0, hwrap]
  decide

/-- Counterexample for C19 as stated: for content `538679713 x 538679710` in a
box of `179559904 x 179559903` the box is relatively wider
(`boxW / boxH > contentW / contentH`), but the two aspects round to the same
`double`, the width branch is taken and `scaledCY = 179559893`, not the box
height `179559903`. -/
theorem C19_large_input_counterexample :
    (0 : Int) < 538679713 ∧ (0 : Int) < 538679710 ∧ (0 : Int) < 179559904 ∧
    (0 : Int) < 179559903 ∧
    (179559904 : ℚ) / 179559903 > (538679713 : ℚ) / 538679710 ∧
    (GetScaleAndCenterPos 538679713 538679710 179559904 179559903).scaledCY = 179559893 ∧
    (GetScaleAndCenterPos 538679713 538679710 179559904 179559903).scaledCY ≠ 179559903 := by
  have hval := getScale_large_input
  refine ⟨by decide, by decide, by decide, by decide, by norm_num, ?_, ?_⟩
  · rw [hval]
  · rw [hval]
    show (179559893 : Int) ≠ 179559903
    decide

/-! ## C17 -/

theorem getScale_near_INT_MAX :
    GetScaleAndCenterPos 2147483454 1573685370 2147483591 1573685442 =
      { x := -28, y := 0, scale := 8388609 / 8388608, scaledCX := -2147483648,
        scaledCY := 1573685442 } ∧
    stdRound (toDouble (toDouble 2147483454 *
      toFloat (toFloat 1573685442 / toFloat 1573685370))) = 2147483710 := by
  have dwx : toDouble (2147483591 : ℚ) = 2147483591 := by
    have := toDouble_intCast 2147483591 (by norm_num) (by norm_num)
    exact_mod_cast this
  have dwy : toDouble (1573685442 : ℚ) = 1573685442 := by
    have := toDouble_intCast 1573685442 (by norm_num) (by norm_num)
    exact_mod_cast this
  have dbx : toDouble (2147483454 : ℚ) = 2147483454 := by
    have := toDouble_intCast 2147483454 (by norm_num) (by norm_num)
    exact_mod_cast this
  have dby : toDouble (1573685370 : ℚ) = 1573685370 := by
    have := toDouble_intCast 1573685370 (by norm_num) (by norm_num)
    exact_mod_cast this
  have hwa : toDouble (2147483591 / 1573685442 : ℚ) = 6145704879826838 / 4503599627370496 := by
    rw [toDouble_eval (2147483591 / 1573685442) 0 6145704879826838 (by norm_num) (by norm_num)
      (by norm_num) (by rw [abs_lt]; constructor <;> norm_num)]
    norm_num
  have hba : toDouble (2147483454 / 1573685370 : ℚ) = 6145704768939109 / 4503599627370496 := by
    rw [toDouble_eval (2147483454 / 1573685370) 0 6145704768939109 (by norm_num) (by norm_num)
      (by norm_num) (by rw [abs_lt]; constructor <;> norm_num)]
    norm_num
  have hgt : (6145704879826838 / 4503599627370496 : ℚ) >
      6145704768939109 / 4503599627370496 := by norm_num
  have fwy : toFloat (1573685442 : ℚ) = 1573685504 := by
    rw [toFloat_eval 1573685442 30 12294418 (by norm_num) (by norm_num) (by norm_num)
      (by rw [abs_lt]; constructor <;> norm_num)]
    norm_num
  have fby : toFloat (1573685370 : ℚ) = 1573685376 := by
    rw [toFloat_eval 1573685370 30 12294417 (by norm_num) (by norm_num) (by norm_num)
      (by rw [abs_lt]; constructor <;> norm_num)]
    norm_num
  have hscale : toFloat (1573685504 / 1573685376 : ℚ) = 8388609 / 8388608 := by
    rw [toFloat_eval (1573685504 / 1573685376) 0 8388609 (by norm_num) (by norm_num)
      (by norm_num) (by rw [abs_lt]; constructor <;> norm_num)]
    norm_num
  have hprod : toDouble (2147483454 * (8388609 / 8388608) : ℚ) =
      281474984837117 / 131072 := by
    have := fpRound_eval 53 (2147483454 * (8388609 / 8388608)) 31 4503599757393872
      (by norm_num) (by norm_num) (by norm_num)
      (roundHalfEven_tie_up _ _ (by norm_num) (by decide))
    unfold toDouble
    rw [this]
    norm_num
  have hround : stdRound (281474984837117 / 131072 : ℚ) = 2147483710 :=
    stdRound_eval _ _ (by norm_num) (by norm_num) (by norm_num)
  have hcast : castToInt 2147483710 = -2147483648 := by decide
  have hwrap0 : wrapInt 0 = 0 := by decide
  have hwrap : wrapInt 4294967239 = -57 := by decide
  refine ⟨?_, ?_⟩
  · unfold GetScaleAndCenterPos
    simp only [Int.cast_ofNat, dwx, dwy, dbx, dby, hwa, hba, hgt, if_true, fwy, fby, hscale,
      hprod, hround, hcast]
    norm_num [hwrap0, hwrap]
    decide
  · simp only [dbx, fwy, fby, hscale, hprod, hround]

/-- Counterexample for C17 as stated: for content `2147483454 x 1573685370` in
a box of `2147483591 x 1573685442` (four positive `int` values) the height
binds, the scale is the `float` `1 + 2^-23` and the rounded product
`2147483710` is larger than `INT_MAX`. The conversion to `int` yields `INT_MIN`
before the clamp is applied, the remainder `2147483591 - INT_MIN` wraps to `-57`,
and the offset is `x = -28`: negative, and not `(windowCX - scaledCX) div 2`. -/
theorem C17_near_INT_MAX_counterexample :
    (0 : Int) < 2147483454 ∧ (0 : Int) < 1573685370 ∧ (0 : Int) < 2147483591 ∧
    (0 : Int) < 1573685442 ∧
    (2147483454 : Int) ≤ INT_MAX ∧ (2147483591 : Int) ≤ INT_MAX ∧
    stdRound (toDouble (toDouble 2147483454 *
      toFloat (toFloat 1573685442 / toFloat 1573685370))) = 2147483710 ∧
    INT_MAX < 2147483710 ∧
    (GetScaleAndCenterPos 2147483454 1573685370 2147483591 1573685442).scaledCX = INT_MIN ∧
    (GetScaleAndCenterPos 2147483454 1573685370 2147483591 1573685442).x = -28 ∧
    ¬ 0 ≤ (GetScaleAndCenterPos 2147483454 1573685370 2147483591 1573685442).x ∧
    (GetScaleAndCenterPos 2147483454 1573685370 2147483591 1573685442).x ≠
      (2147483591 -
        (GetScaleAndCenterPos 2147483454 1573685370 2147483591 1573685442).scaledCX) / 2 := by
  obtain ⟨hval, hr⟩ := getScale_near_INT_MAX
  refine ⟨by decide, by decide, by decide, by decide, by decide, by decide, hr, by decide,
    ?_, ?_, ?_, ?_⟩
  · rw [hval]
    rfl
  · rw [hval]
  · rw [hval]
    show ¬ (0 : Int) ≤ -28
    decide
  · rw [hval]
    show (-28 : Int) ≠ (2147483591 - -2147483648) / 2
    decide

/-- C17 (amended): `GetScaleAndCenterPos` never produces a scaled dimension
exceeding the box, for every positive content size (any positive `int`) and
every box of positive width and height of at most `2^30`. Then
`0 <= scaledCX <= windowCX` and `0 <= scaledCY <= windowCY`, the offsets are
`(windowCX - scaledCX) div 2 >= 0` and `(windowCY - scaledCY) div 2 >= 0`, and
the viewport `[x, x + scaledCX) x [y, y + scaledCY)` lies inside the box. -/
theorem C17_fit_stays_inside_box (baseCX baseCY windowCX windowCY : Int)
    (hbx : 0 < baseCX) (hby : 0 < baseCY) (hwx : 0 < windowCX) (hwy : 0 < windowCY)
    (hbxM : baseCX ≤ INT_MAX) (hbyM : baseCY ≤ INT_MAX) (hwxM : windowCX ≤ 2 ^ 30)
    (hwyM : windowCY ≤ 2 ^ 30) :
    (GetScaleAndCenterPos baseCX baseCY windowCX windowCY).scaledCX ≤ windowCX ∧
    (GetScaleAndCenterPos baseCX baseCY windowCX windowCY).scaledCY ≤ windowCY ∧
    0 ≤ (GetScaleAndCenterPos baseCX baseCY windowCX windowCY).scaledCX ∧
    0 ≤ (GetScaleAndCenterPos baseCX baseCY windowCX windowCY).scaledCY ∧
    (GetScaleAndCenterPos baseCX baseCY windowCX windowCY).x =
      (windowCX - (GetScaleAndCenterPos baseCX baseCY windowCX windowCY).scaledCX) / 2 ∧
    (GetScaleAndCenterPos baseCX baseCY windowCX windowCY).y =
      (windowCY - (GetScaleAndCenterPos baseCX baseCY windowCX windowCY).scaledCY) / 2 ∧
    0 ≤ (GetScaleAndCenterPos baseCX baseCY windowCX windowCY).x ∧
    0 ≤ (GetScaleAndCenterPos baseCX baseCY windowCX windowCY).y ∧
    (GetScaleAndCenterPos baseCX baseCY windowCX windowCY).x +
      (GetScaleAndCenterPos baseCX baseCY windowCX windowCY).scaledCX ≤ windowCX ∧
    (GetScaleAndCenterPos baseCX baseCY windowCX windowCY).y +
      (GetScaleAndCenterPos baseCX baseCY windowCX windowCY).scaledCY ≤ windowCY := by
  by_cases h : toDouble (toDouble windowCX / toDouble windowCY) >
      toDouble (toDouble baseCX / toDouble baseCY)
  · obtain ⟨hr0, hval⟩ := getScale_height_inrange baseCX baseCY windowCX windowCY hbx hby hwx
      hwy hbxM hbyM hwxM hwyM h
    rw [hval]
    simp only []
    generalize stdRound (toDouble (toDouble baseCX *
      toFloat (toFloat windowCY / toFloat baseCY))) = r at hr0
    have e : (windowCX - min r windowCX).tdiv 2 = (windowCX - min r windowCX) / 2 :=
      Int.tdiv_eq_ediv (by omega) (by omega)
    rw [e]
    refine ⟨?_, ?_, ?_, ?_, ?_, ?_, ?_, ?_, ?_, ?_⟩ <;> omega
  · obtain ⟨hr0, hval⟩ := getScale_width_inrange baseCX baseCY windowCX windowCY hbx hby hwx
      hwy hbxM hbyM hwxM hwyM h
    rw [hval]
    simp only []
    generalize stdRound (toDouble (toDouble baseCY *
      toFloat (toFloat windowCX / toFloat baseCX))) = r at hr0
    have e : (windowCY - min r windowCY).tdiv 2 = (windowCY - min r windowCY) / 2 :=
      Int.tdiv_eq_ediv (by omega) (by omega)
    rw [e]
    refine ⟨?_, ?_, ?_, ?_, ?_, ?_, ?_, ?_, ?_, ?_⟩ <;> omega

/-- Instance of C17 at content `1920 x 1080` in a `400 x 400` box. -/
theorem C17_fit_stays_inside_box_witness :
    (0 : Int) < 1920 ∧ (0 : Int) < 1080 ∧ (0 : Int) < 400 ∧
    (1920 : Int) ≤ INT_MAX ∧ (1080 : Int) ≤ INT_MAX ∧ (400 : Int) ≤ 2 ^ 30 ∧
    (GetScaleAndCenterPos 1920 1080 400 400).scaledCX ≤ 400 ∧
    (GetScaleAndCenterPos 1920 1080 400 400).scaledCY ≤ 400 ∧
    0 ≤ (GetScaleAndCenterPos 1920 1080 400 400).scaledCX ∧
    0 ≤ (GetScaleAndCenterPos 1920 1080 400 400).scaledCY ∧
    (GetScaleAndCenterPos 1920 1080 400 400).x =
      (400 - (GetScaleAndCenterPos 1920 1080 400 400).scaledCX) / 2 ∧
    (GetScaleAndCenterPos 1920 1080 400 400).y =
      (400 - (GetScaleAndCenterPos 1920 1080 400 400).scaledCY) / 2 ∧
    0 ≤ (GetScaleAndCenterPos 1920 1080 400 400).x ∧
    0 ≤ (GetScaleAndCenterPos 1920 1080 400 400).y ∧
    (GetScaleAndCenterPos 1920 1080 400 400).x +
      (GetScaleAndCenterPos 1920 1080 400 400).scaledCX ≤ 400 ∧
    (GetScaleAndCenterPos 1920 1080 400 400).y +
      (GetScaleAndCenterPos 1920 1080 400 400).scaledCY ≤ 400 :=
  ⟨by decide, by decide, by decide, by decide, by decide, by decide,
    C17_fit_stays_inside_box 1920 1080 400 400 (by decide) (by decide) (by decide) (by decide)
      (by decide) (by decide) (by decide) (by decide)⟩

/-! ## C26 -/

/-- C26: `resolveLabelText` returns the empty string when the label is not
visible or the content type is `None`; otherwise the configured `labelText` when
it is non-empty; otherwise a default derived from the content type: the fixed
Preview / Program / Placeholder strings, the canvas name (or the fixed Canvas
string when the canvas name is empty) for `Canvas`, the scene name for `Scene`
and the source name for `Source`. -/
theorem C26_resolveLabelText_cases (LG_TEXT : String → String) (widget : WidgetConfig) :
    ((widget.labelVisible = false ∨ widget.type = WidgetType.None) →
      resolveLabelText LG_TEXT widget = "") ∧
    (widget.labelVisible = true → widget.type ≠ WidgetType.None → widget.labelText ≠ "" →
      resolveLabelText LG_TEXT widget = widget.labelText) ∧
    (widget.labelVisible = true → widget.labelText = "" →
      (widget.type = WidgetType.Preview →
        resolveLabelText LG_TEXT widget = LG_TEXT "Renderer.Preview") ∧
      (widget.type = WidgetType.Program →
        resolveLabelText LG_TEXT widget = LG_TEXT "Renderer.Program") ∧
      (widget.type = WidgetType.Placeholder →
        resolveLabelText LG_TEXT widget = LG_TEXT "Renderer.Placeholder") ∧
      (widget.type = WidgetType.Canvas → widget.canvasName ≠ "" →
        resolveLabelText LG_TEXT widget = widget.canvasName) ∧
      (widget.type = WidgetType.Canvas → widget.canvasName = "" →
        resolveLabelText LG_TEXT widget = LG_TEXT "Renderer.Canvas") ∧
      (widget.type = WidgetType.Scene →
        resolveLabelText LG_TEXT widget = widget.sceneName) ∧
      (widget.type = WidgetType.Source →
        resolveLabelText LG_TEXT widget = widget.sourceName)) := by
  refine ⟨?_, ?_, ?_⟩
  · rintro (h | h) <;> simp [resolveLabelText, h]
  · intro hv ht hl
    simp [resolveLabelText, hv, ht, hl]
  · intro hv hl
    refine ⟨?_, ?_, ?_, ?_, ?_, ?_, ?_⟩ <;> intro ht <;> simp [resolveLabelText, hv, hl, ht]
    · intro hc; simp [hc]
    · intro hc; simp [hc]

/-- Instance of C26: a visible `Scene` cell without label text is labelled with
its scene name, and a hidden label gives the empty string. -/
theorem C26_resolveLabelText_cases_witness :
    resolveLabelText (fun key => key)
      { type := WidgetType.Scene, sceneName := "Intro", labelVisible := true } = "Intro" ∧
    resolveLabelText (fun key => key)
      { type := WidgetType.Scene, sceneName := "Intro", labelVisible := false } = "" :=
  ⟨((C26_resolveLabelText_cases (fun key => key)
      { type := WidgetType.Scene, sceneName := "Intro", labelVisible := true }).2.2
      rfl rfl).2.2.2.2.2.1 rfl,
    (C26_resolveLabelText_cases (fun key => key)
      { type := WidgetType.Scene, sceneName := "Intro", labelVisible := false }).1
      (Or.inl rfl)⟩

/-! ## C30 -/

theorem inSpan_congr (a b : CellConfig) (h : cellGeometry a = cellGeometry b) (r c : Int) :
    inSpan a r c ↔ inSpan b r c := by
  unfold cellGeometry at h
  simp only [Prod.mk.injEq] at h
  unfold inSpan
  rw [h.1, h.2.1, h.2.2.1, h.2.2.2]

/-- Validity of a layout depends on the geometry of its cells only. -/
theorem validLayout_of_geometry (rows cols : Int) (cells cells' : List CellConfig)
    (hmap : cells.map cellGeometry = cells'.map cellGeometry)
    (hv : ValidLayout rows cols cells') : ValidLayout rows cols cells := by
  have hlen : cells.length = cells'.length := by
    have := congrArg List.length hmap
    simpa using this
  have hget : ∀ (i : Nat) (h : i < cells.length) (h' : i < cells'.length),
      cellGeometry (cells.get ⟨i, h⟩) = cellGeometry (cells'.get ⟨i, h'⟩) := by
    intro i h h'
    have e1 : (cells.map cellGeometry)[i]? = some (cellGeometry (cells.get ⟨i, h⟩)) := by
      simp [List.getElem?_map, List.getElem?_eq_getElem h]
    have e2 : (cells'.map cellGeometry)[i]? = some (cellGeometry (cells'.get ⟨i, h'⟩)) := by
      simp [List.getElem?_map, List.getElem?_eq_getElem h']
    rw [hmap, e2] at e1
    exact (Option.some.inj e1).symm
  have hmem : ∀ cell ∈ cells, ∃ cell' ∈ cells', cellGeometry cell = cellGeometry cell' := by
    intro cell hc
    obtain ⟨n, hn⟩ := List.get_of_mem hc
    refine ⟨cells'.get ⟨n.1, hlen ▸ n.2⟩, List.get_mem _ _ _, ?_⟩
    rw [← hn]
    exact hget n.1 n.2 (hlen ▸ n.2)
  refine ⟨?_, ?_, ?_, ?_⟩
  · intro cell hc
    obtain ⟨cell', hc', hg⟩ := hmem cell hc
    have := hv.spans cell' hc'
    unfold cellGeometry at hg
    simp only [Prod.mk.injEq] at hg
    rw [hg.2.2.1, hg.2.2.2]
    exact this
  · intro cell hc
    obtain ⟨cell', hc', hg⟩ := hmem cell hc
    have := hv.inside cell' hc'
    unfold cellGeometry at hg
    simp only [Prod.mk.injEq] at hg
    rw [hg.1, hg.2.1, hg.2.2.1, hg.2.2.2]
    exact this
  · intro r c h1 h2 h3 h4
    obtain ⟨i, hi, hs⟩ := hv.covered r c h1 h2 h3 h4
    exact ⟨i, hlen ▸ hi, (inSpan_congr _ _ (hget i (hlen ▸ hi) hi) r c).mpr hs⟩
  · intro i j hi hj r c h1 h2
    exact hv.disjoint i j (hlen ▸ hi) (hlen ▸ hj) r c
      ((inSpan_congr _ _ (hget i hi (hlen ▸ hi)) r c).mp h1)
      ((inSpan_congr _ _ (hget j hj (hlen ▸ hj)) r c).mp h2)

/-- One step of the loops of `defaultTemplate` after `k` positions: `sceneIdx` is
`min k n` and the appended cell holds the `k`-th scene or a placeholder. -/
theorem appendSceneCell_step (sceneNames : List String) (k : Nat) (l : List CellConfig)
    (r c : Int) :
    appendSceneCell sceneNames (min k sceneNames.length, l) r c =
      (min (k + 1) sceneNames.length,
        l ++ [{ row := r, col := c, widget := defaultSceneWidget sceneNames k }]) := by
  unfold appendSceneCell defaultSceneWidget
  by_cases h : k < sceneNames.length
  · have e1 : min k sceneNames.length = k := min_eq_left h.le
    have e2 : min (k + 1) sceneNames.length = k + 1 := min_eq_left h
    simp only [e1, e2, if_pos h]
  · have e1 : min k sceneNames.length = sceneNames.length := min_eq_right (not_lt.mp h)
    have e2 : min (k + 1) sceneNames.length = sceneNames.length :=
      min_eq_right (by omega)
    simp only [e1, e2, lt_self_iff_false, if_false, if_neg h]

theorem appendSceneCell_first (sceneNames : List String) (l : List CellConfig) (r c : Int) :
    appendSceneCell sceneNames (0, l) r c =
      (min 1 sceneNames.length,
        l ++ [{ row := r, col := c, widget := defaultSceneWidget sceneNames 0 }]) := by
  have h := appendSceneCell_step sceneNames 0 l r c
  rw [Nat.zero_min] at h
  exact h

/-- The cell list of the default template, written out. -/
theorem defaultTemplate_cells (LG_TEXT : String → String) (font20 : String)
    (sceneList : List (Option String)) :
    (defaultTemplate LG_TEXT font20 sceneList).cells =
      [{ row := 0, col := 0, rowSpan := 2, colSpan := 2,
         widget := { type := WidgetType.Preview,
                     labelText := LG_TEXT "DefaultTemplate.Preview",
                     labelVisible := true, labelFont := font20 } },
       { row := 0, col := 2, rowSpan := 2, colSpan := 2,
         widget := { type := WidgetType.Program,
                     labelText := LG_TEXT "DefaultTemplate.Program",
                     labelVisible := true, labelFont := font20 } },
       { row := 2, col := 0, widget := defaultSceneWidget (gatherSceneNames sceneList) 0 },
       { row := 2, col := 1, widget := defaultSceneWidget (gatherSceneNames sceneList) 1 },
       { row := 2, col := 2, widget := defaultSceneWidget (gatherSceneNames sceneList) 2 },
       { row := 2, col := 3, widget := defaultSceneWidget (gatherSceneNames sceneList) 3 },
       { row := 3, col := 0, widget := defaultSceneWidget (gatherSceneNames sceneList) 4 },
       { row := 3, col := 1, widget := defaultSceneWidget (gatherSceneNames sceneList) 5 },
       { row := 3, col := 2, widget := defaultSceneWidget (gatherSceneNames sceneList) 6 },
       { row := 3, col := 3, widget := defaultSceneWidget (gatherSceneNames sceneList) 7 }] := by
  have r1 : intRange 2 4 = [2, 3] := by decide
  have r2 : intRange 0 4 = [0, 1, 2, 3] := by decide
  unfold defaultTemplate
  simp only [r1, r2, List.foldl_cons, List.foldl_nil]
  rw [appendSceneCell_first]
  simp only [appendSceneCell_step, List.cons_append, List.nil_append]
theorem gatherSceneNames_length (sceneList : List (Option String))
    (h : ∀ s ∈ sceneList, s ≠ none) :
    (gatherSceneNames sceneList).length = sceneList.length := by
  unfold gatherSceneNames
  induction sceneList with
  | nil => rfl
  | cons a l ih =>
    cases a with
    | none => exact absurd rfl (h none (List.mem_cons_self _ _))
    | some s =>
      rw [List.filterMap_cons_some (by rfl), List.length_cons, List.length_cons,
        ih (fun s hs => h s (List.mem_cons_of_mem _ hs))]

/-- C30: the built-in default template is a valid layout whatever scenes exist.
`defaultTemplate` returns a `4 x 4` grid with exactly 10 cells: a `2 x 2` Preview
cell at `(0,0)`, a `2 x 2` Program cell at `(0,2)` and eight `1 x 1` cells filling
rows 2 and 3 in row-major order; the spans cover every position of the grid
exactly once; the first `min(8, number of scenes)` small cells are Scene cells
with the scene names in order, the remaining ones are Placeholder cells. -/
theorem C30_default_template_is_valid (LG_TEXT : String → String) (font20 : String)
    (sceneList : List (Option String)) :
    (defaultTemplate LG_TEXT font20 sceneList).gridRows = 4 ∧
    (defaultTemplate LG_TEXT font20 sceneList).gridCols = 4 ∧
    (defaultTemplate LG_TEXT font20 sceneList).cells.length = 10 ∧
    (∃ w0 : WidgetConfig, w0.type = WidgetType.Preview ∧
      (defaultTemplate LG_TEXT font20 sceneList).cells[0]? =
        some { row := 0, col := 0, rowSpan := 2, colSpan := 2, widget := w0 }) ∧
    (∃ w1 : WidgetConfig, w1.type = WidgetType.Program ∧
      (defaultTemplate LG_TEXT font20 sceneList).cells[1]? =
        some { row := 0, col := 2, rowSpan := 2, colSpan := 2, widget := w1 }) ∧
    (∀ k : Nat, k < 8 → ∃ wk : WidgetConfig,
      (defaultTemplate LG_TEXT font20 sceneList).cells[2 + k]? =
        some { row := 2 + (k / 4 : Nat), col := (k % 4 : Nat), rowSpan := 1, colSpan := 1,
               widget := wk } ∧
      (k < min 8 (gatherSceneNames sceneList).length →
        wk.type = WidgetType.Scene ∧
        wk.sceneName = (gatherSceneNames sceneList).getD k "") ∧
      (¬ k < min 8 (gatherSceneNames sceneList).length →
        wk.type = WidgetType.Placeholder)) ∧
    ((∀ s ∈ sceneList, s ≠ none) →
      (gatherSceneNames sceneList).length = sceneList.length) ∧
    ValidLayout 4 4 (defaultTemplate LG_TEXT font20 sceneList).cells := by
  have hcells := defaultTemplate_cells LG_TEXT font20 sceneList
  refine ⟨rfl, rfl, ?_, ?_, ?_, ?_, ?_, ?_⟩
  · rw [hcells]; rfl
  · rw [hcells]; exact ⟨_, rfl, rfl⟩
  · rw [hcells]; exact ⟨_, rfl, rfl⟩
  · intro k hk
    rw [hcells]
    refine ⟨defaultSceneWidget (gatherSceneNames sceneList) k, ?_, ?_, ?_⟩
    · interval_cases k <;> rfl
    · intro h
      have h2 : k < (gatherSceneNames sceneList).length := lt_of_lt_of_le h (min_le_right _ _)
      unfold defaultSceneWidget
      rw [if_pos h2]
      exact ⟨rfl, rfl⟩
    · intro h
      have h2 : ¬ k < (gatherSceneNames sceneList).length := fun h3 => h (lt_min hk h3)
      unfold defaultSceneWidget
      rw [if_neg h2]
  · exact gatherSceneNames_length sceneList
  · refine validLayout_of_geometry 4 4 _
      [{ row := 0, col := 0, rowSpan := 2, colSpan := 2 },
       { row := 0, col := 2, rowSpan := 2, colSpan := 2 },
       { row := 2, col := 0 }, { row := 2, col := 1 }, { row := 2, col := 2 },
       { row := 2, col := 3 }, { row := 3, col := 0 }, { row := 3, col := 1 },
       { row := 3, col := 2 }, { row := 3, col := 3 }] ?_
      (validLayout_of_check _ _ _ (by decide))
    rw [hcells]
    rfl

/-- Instance of C30 with two scenes: the first two small cells show them, the
third is a placeholder. -/
theorem C30_default_template_is_valid_witness :
    ((defaultTemplate (fun key => key) "" [some "A", some "B"]).cells.map
      (fun cell => (cell.row, cell.col, cell.widget.type, cell.widget.sceneName))).drop 2 =
      [(2, 0, WidgetType.Scene, "A"), (2, 1, WidgetType.Scene, "B"),
       (2, 2, WidgetType.Placeholder, ""), (2, 3, WidgetType.Placeholder, ""),
       (3, 0, WidgetType.Placeholder, ""), (3, 1, WidgetType.Placeholder, ""),
       (3, 2, WidgetType.Placeholder, ""), (3, 3, WidgetType.Placeholder, "")] ∧
    ValidLayout 4 4 (defaultTemplate (fun key => key) "" [some "A", some "B"]).cells :=
  ⟨by decide,
    (C30_default_template_is_valid (fun key => key) "" [some "A", some "B"]).2.2.2.2.2.2.2⟩

/-! ## C29 -/

theorem qBound_range (v hi : Int) (h : 0 ≤ hi) : 0 ≤ qBound 0 v hi ∧ qBound 0 v hi ≤ hi := by
  unfold qBound
  omega

theorem qBound_inside (v hi : Int) (h0 : 0 ≤ v) (h1 : v ≤ hi) : qBound 0 v hi = v := by
  unfold qBound
  omega

/-- The truncating quotient of a pixel coordinate inside the `k`-th stripe of
width `cell` is `k`. -/
theorem tdiv_stripe (p k cell : Int) (hk : 0 ≤ k) (hc : 0 < cell) (h1 : k * cell ≤ p)
    (h2 : p < (k + 1) * cell) : p.tdiv cell = k := by
  have hp : 0 ≤ p := le_trans (mul_nonneg hk hc.le) h1
  rw [Int.tdiv_eq_ediv hp hc.le]
  apply le_antisymm
  · have := (Int.ediv_lt_iff_lt_mul hc).mpr h2
    omega
  · exact (Int.le_ediv_iff_mul_le hc).mpr h1

/-- C29: in the grid editor the pixel-to-cell mapping inverts the cell-to-pixel
mapping. When `width div cols >= 5` and `height div rows >= 5`, every pixel of
`cellRect(row, col, 1, 1)` of an in-range `(row, col)` is mapped by
`gridPosFromPixel` to `(col, row)`; and for a widget with at least one row and
one column `gridPosFromPixel` returns, for every pixel, either `(-1,-1)` or a
position inside `[0,cols) x [0,rows)`. -/
theorem C29_gridPosFromPixel_inverts_cellRect (w : GridEditorWidget) (width height : Int) :
    (width.tdiv w.cols_ ≥ 5 → height.tdiv w.rows_ ≥ 5 →
      ∀ row col : Int, 0 ≤ row → row < w.rows_ → 0 ≤ col → col < w.cols_ →
        ∀ pixel : QPoint, (cellRect w width height row col 1 1).contains pixel →
          gridPosFromPixel w width height pixel = { x := col, y := row }) ∧
    (1 ≤ w.rows_ → 1 ≤ w.cols_ → ∀ pixel : QPoint,
      gridPosFromPixel w width height pixel = { x := -1, y := -1 } ∨
      ((0 ≤ (gridPosFromPixel w width height pixel).x ∧
          (gridPosFromPixel w width height pixel).x < w.cols_) ∧
        (0 ≤ (gridPosFromPixel w width height pixel).y ∧
          (gridPosFromPixel w width height pixel).y < w.rows_))) := by
  constructor
  · intro hW hH row col hr0 hr1 hc0 hc1 pixel hin
    unfold cellRect QRect.contains kPadding at hin
    simp only at hin
    obtain ⟨hx1, hx2, hy1, hy2⟩ := hin
    have hx : pixel.x.tdiv (width.tdiv w.cols_) = col :=
      tdiv_stripe _ _ _ hc0 (by omega) (by omega) (by
        have : (col + 1) * width.tdiv w.cols_ = col * width.tdiv w.cols_ + width.tdiv w.cols_ := by
          ring
        omega)
    have hy : pixel.y.tdiv (height.tdiv w.rows_) = row :=
      tdiv_stripe _ _ _ hr0 (by omega) (by omega) (by
        have : (row + 1) * height.tdiv w.rows_ = row * height.tdiv w.rows_ + height.tdiv w.rows_ := by
          ring
        omega)
    unfold gridPosFromPixel
    simp only
    rw [if_neg (by omega), hx, hy, qBound_inside col _ hc0 (by omega),
      qBound_inside row _ hr0 (by omega)]
  · intro hr hc pixel
    unfold gridPosFromPixel
    simp only
    split_ifs with h
    · exact Or.inl rfl
    · right
      have h1 := qBound_range (pixel.x.tdiv (width.tdiv w.cols_)) (w.cols_ - 1) (by omega)
      have h2 := qBound_range (pixel.y.tdiv (height.tdiv w.rows_)) (w.rows_ - 1) (by omega)
      simp only
      omega

/-- Instance of C29: in a `4 x 4` editor of `400 x 200` pixels the pixel
`(250, 60)` of the rectangle of row 1, column 2 is mapped back to `(2, 1)`, and
a pixel outside the widget is clamped into the grid. -/
theorem C29_gridPosFromPixel_inverts_cellRect_witness :
    (cellRect GridEditorWidget.init 400 200 1 2 1 1).contains { x := 250, y := 60 } ∧
    gridPosFromPixel GridEditorWidget.init 400 200 { x := 250, y := 60 } = { x := 2, y := 1 } ∧
    gridPosFromPixel GridEditorWidget.init 400 200 { x := -7, y := 900 } = { x := 0, y := 3 } :=
  ⟨by decide,
    (C29_gridPosFromPixel_inverts_cellRect GridEditorWidget.init 400 200).1 (by decide)
      (by decide) 1 2 (by decide) (by decide) (by decide) (by decide) { x := 250, y := 60 }
      (by decide),
    by decide⟩

/-! ## C21 -/

/-- For `rows, cols >= 1` and a window of `3 .. 2^23` pixels each way, the
cell sizes returned by `calculateGridMetrics` are non-negative integers, the grid
size is their exact multiple and stays inside the margin. -/
theorem gridMetrics_exact (gridRows gridCols totalW totalH : Int)
    (hr : 1 ≤ gridRows) (hc : 1 ≤ gridCols) (hW : 3 ≤ totalW) (hH : 3 ≤ totalH)
    (hWmax : totalW ≤ 2 ^ 23) (hHmax : totalH ≤ 2 ^ 23) :
    ∃ cw ch : Int, 0 ≤ cw ∧ 0 ≤ ch ∧
      (calculateGridMetrics gridRows gridCols totalW totalH).cellW = cw ∧
      (calculateGridMetrics gridRows gridCols totalW totalH).cellH = ch ∧
      (calculateGridMetrics gridRows gridCols totalW totalH).gridW = cw * gridCols ∧
      (calculateGridMetrics gridRows gridCols totalW totalH).gridH = ch * gridRows ∧
      (calculateGridMetrics gridRows gridCols totalW totalH).gridW % gridCols = 0 ∧
      (calculateGridMetrics gridRows gridCols totalW totalH).gridH % gridRows = 0 ∧
      (calculateGridMetrics gridRows gridCols totalW totalH).gridW ≤ totalW - 2 ∧
      (calculateGridMetrics gridRows gridCols totalW totalH).gridH ≤ totalH - 2 := by
  have hc16 : (0 : ℚ) < ((gridCols * 16 : Int) : ℚ) := by
    have : 0 < gridCols * 16 := by omega
    exact_mod_cast this
  have hr9 : (0 : ℚ) < ((gridRows * 9 : Int) : ℚ) := by
    have : 0 < gridRows * 9 := by omega
    exact_mod_cast this
  have hg : 0 < toFloat (toFloat ((gridCols * 16 : Int) : ℚ) / toFloat ((gridRows * 9 : Int) : ℚ)) :=
    toFloat_pos _ (div_pos (toFloat_pos _ hc16) (toFloat_pos _ hr9))
  obtain ⟨hs1, hs2⟩ := stage_one_le (totalW - 2) (totalH - 2) _ hg (by omega) (by omega)
    (by omega) (by omega)
  have hW0 : 0 ≤ (if toFloat (toFloat ((totalW - 2 : Int) : ℚ) / toFloat ((totalH - 2 : Int) : ℚ)) >
        toFloat (toFloat ((gridCols * 16 : Int) : ℚ) / toFloat ((gridRows * 9 : Int) : ℚ))
      then toInt (toFloat (toFloat ((totalH - 2 : Int) : ℚ) *
        toFloat (toFloat ((gridCols * 16 : Int) : ℚ) / toFloat ((gridRows * 9 : Int) : ℚ))))
      else totalW - 2) ∧
      (if toFloat (toFloat ((totalW - 2 : Int) : ℚ) / toFloat ((totalH - 2 : Int) : ℚ)) >
        toFloat (toFloat ((gridCols * 16 : Int) : ℚ) / toFloat ((gridRows * 9 : Int) : ℚ))
      then toInt (toFloat (toFloat ((totalH - 2 : Int) : ℚ) *
        toFloat (toFloat ((gridCols * 16 : Int) : ℚ) / toFloat ((gridRows * 9 : Int) : ℚ))))
      else totalW - 2) ≤ totalW - 2 := by
    split_ifs with hA
    · exact hs1 hA
    · omega
  have hH0 : 0 ≤ (if toFloat (toFloat ((totalW - 2 : Int) : ℚ) / toFloat ((totalH - 2 : Int) : ℚ)) >
        toFloat (toFloat ((gridCols * 16 : Int) : ℚ) / toFloat ((gridRows * 9 : Int) : ℚ))
      then totalH - 2
      else toInt (toFloat (toFloat ((totalW - 2 : Int) : ℚ) /
        toFloat (toFloat ((gridCols * 16 : Int) : ℚ) / toFloat ((gridRows * 9 : Int) : ℚ))))) ∧
      (if toFloat (toFloat ((totalW - 2 : Int) : ℚ) / toFloat ((totalH - 2 : Int) : ℚ)) >
        toFloat (toFloat ((gridCols * 16 : Int) : ℚ) / toFloat ((gridRows * 9 : Int) : ℚ))
      then totalH - 2
      else toInt (toFloat (toFloat ((totalW - 2 : Int) : ℚ) /
        toFloat (toFloat ((gridCols * 16 : Int) : ℚ) / toFloat ((gridRows * 9 : Int) : ℚ))))) ≤
        totalH - 2 := by
    split_ifs with hA
    · omega
    · exact hs2 hA
  obtain ⟨hcw0, hcw⟩ := cell_times_count_le _ gridCols hW0.1 (by omega) hc
  obtain ⟨hch0, hch⟩ := cell_times_count_le _ gridRows hH0.1 (by omega) hr
  refine ⟨_, _, hcw0, hch0, ?_, ?_, rfl, rfl, ?_, ?_, ?_, ?_⟩
  · refine toFloat_intCast _ hcw0 ?_
    have := le_mul_of_one_le_right hcw0 hc
    omega
  · refine toFloat_intCast _ hch0 ?_
    have := le_mul_of_one_le_right hch0 hr
    omega
  · exact Int.mul_emod_left _ _
  · exact Int.mul_emod_left _ _
  · exact le_trans hcw hW0.2
  · exact le_trans hch hH0.2


/-- Under the same bounds the integer cell sizes that `updateLayout` and
`paintEvent` obtain with `(int)cellW`, `(int)cellH` are the cell sizes of the
metrics, and the grid is their exact multiple. -/
theorem gridMetrics_int_cells (gridRows gridCols totalW totalH : Int)
    (hr : 1 ≤ gridRows) (hc : 1 ≤ gridCols) (hW : 3 ≤ totalW) (hH : 3 ≤ totalH)
    (hWmax : totalW ≤ 2 ^ 23) (hHmax : totalH ≤ 2 ^ 23) :
    0 ≤ toInt (calculateGridMetrics gridRows gridCols totalW totalH).cellW ∧
    0 ≤ toInt (calculateGridMetrics gridRows gridCols totalW totalH).cellH ∧
    (calculateGridMetrics gridRows gridCols totalW totalH).cellW =
      toInt (calculateGridMetrics gridRows gridCols totalW totalH).cellW ∧
    (calculateGridMetrics gridRows gridCols totalW totalH).cellH =
      toInt (calculateGridMetrics gridRows gridCols totalW totalH).cellH ∧
    (calculateGridMetrics gridRows gridCols totalW totalH).gridW =
      toInt (calculateGridMetrics gridRows gridCols totalW totalH).cellW * gridCols ∧
    (calculateGridMetrics gridRows gridCols totalW totalH).gridH =
      toInt (calculateGridMetrics gridRows gridCols totalW totalH).cellH * gridRows ∧
    (calculateGridMetrics gridRows gridCols totalW totalH).gridW ≤ totalW - 2 ∧
    (calculateGridMetrics gridRows gridCols totalW totalH).gridH ≤ totalH - 2 := by
  obtain ⟨cw, ch, h0, h1, e1, e2, e3, e4, _, _, b1, b2⟩ :=
    gridMetrics_exact gridRows gridCols totalW totalH hr hc hW hH hWmax hHmax
  have t1 : toInt (calculateGridMetrics gridRows gridCols totalW totalH).cellW = cw := by
    rw [e1]; exact toInt_intCast cw h0
  have t2 : toInt (calculateGridMetrics gridRows gridCols totalW totalH).cellH = ch := by
    rw [e2]; exact toInt_intCast ch h1
  rw [t1, t2]
  exact ⟨h0, h1, e1, e2, e3, e4, b1, b2⟩


/-- C20 (amended): for `rows, cols >= 1` whose `int` products `9 * rows` and
`16 * cols` of the grid aspect do not overflow (both at most `INT_MAX`, so the
32-bit products of the source are the exact ones) and a window with
`3 <= width, height <= 2^23`, `calculateGridMetrics` yields integer cell
sizes `cellW`, `cellH`, with `gridW = cellW * cols` and `gridH = cellH * rows`
exact multiples, `gridW <= totalW - 2` and `gridH <= totalH - 2`. -/
theorem C20_grid_is_exact_multiple_inside_margin (gridRows gridCols totalW totalH : Int)
    (hr : 1 ≤ gridRows) (hc : 1 ≤ gridCols) (hr9 : gridRows * 9 ≤ INT_MAX)
    (hc16 : gridCols * 16 ≤ INT_MAX) (hW : 3 ≤ totalW) (hH : 3 ≤ totalH)
    (hWmax : totalW ≤ 2 ^ 23) (hHmax : totalH ≤ 2 ^ 23) :
    wrapInt (gridRows * 9) = gridRows * 9 ∧ wrapInt (gridCols * 16) = gridCols * 16 ∧
    ∃ cw ch : Int, 0 ≤ cw ∧ 0 ≤ ch ∧
      (calculateGridMetrics gridRows gridCols totalW totalH).cellW = cw ∧
      (calculateGridMetrics gridRows gridCols totalW totalH).cellH = ch ∧
      (calculateGridMetrics gridRows gridCols totalW totalH).gridW = cw * gridCols ∧
      (calculateGridMetrics gridRows gridCols totalW totalH).gridH = ch * gridRows ∧
      (calculateGridMetrics gridRows gridCols totalW totalH).gridW % gridCols = 0 ∧
      (calculateGridMetrics gridRows gridCols totalW totalH).gridH % gridRows = 0 ∧
      (calculateGridMetrics gridRows gridCols totalW totalH).gridW ≤ totalW - 2 ∧
      (calculateGridMetrics gridRows gridCols totalW totalH).gridH ≤ totalH - 2 :=
  ⟨wrapInt_of_range _ (by unfold INT_MIN; omega) hr9,
    wrapInt_of_range _ (by unfold INT_MIN; omega) hc16,
    gridMetrics_exact gridRows gridCols totalW totalH hr hc hW hH hWmax hHmax⟩

/-- Instance of C20 for a `4 x 4` grid in a `1000 x 1000` window: `gridW` and
`gridH` are exact multiples of the integer cell sizes and at most `998`. -/
theorem C20_grid_is_exact_multiple_inside_margin_witness :
    (1 : Int) ≤ 4 ∧ (4 : Int) * 9 ≤ INT_MAX ∧ (4 : Int) * 16 ≤ INT_MAX ∧ (3 : Int) ≤ 1000 ∧
    (1000 : Int) ≤ 2 ^ 23 ∧
    wrapInt (4 * 9) = 4 * 9 ∧ wrapInt (4 * 16) = 4 * 16 ∧
    ∃ cw ch : Int, 0 ≤ cw ∧ 0 ≤ ch ∧
      (calculateGridMetrics 4 4 1000 1000).cellW = cw ∧
      (calculateGridMetrics 4 4 1000 1000).cellH = ch ∧
      (calculateGridMetrics 4 4 1000 1000).gridW = cw * 4 ∧
      (calculateGridMetrics 4 4 1000 1000).gridH = ch * 4 ∧
      (calculateGridMetrics 4 4 1000 1000).gridW % 4 = 0 ∧
      (calculateGridMetrics 4 4 1000 1000).gridH % 4 = 0 ∧
      (calculateGridMetrics 4 4 1000 1000).gridW ≤ 1000 - 2 ∧
      (calculateGridMetrics 4 4 1000 1000).gridH ≤ 1000 - 2 :=
  ⟨by decide, by decide, by decide, by decide, by decide,
    C20_grid_is_exact_multiple_inside_margin 4 4 1000 1000 (by decide) (by decide) (by decide)
      (by decide) (by decide) (by decide) (by decide) (by decide)⟩

theorem ite_lt_one_eq_max (a : Int) : (if a < 1 then 1 else a) = max 1 a := by
  split_ifs with h
  · exact (max_eq_left (by omega)).symm
  · exact (max_eq_right (by omega)).symm

theorem surfaceGeometry_eq (offsetX offsetY intCellW intCellH : Int) (cell : CellConfig) :
    surfaceGeometry offsetX offsetY intCellW intCellH cell =
      { x := offsetX + cell.col * intCellW + 1, y := offsetY + cell.row * intCellH + 1,
        w := max 1 (cell.colSpan * intCellW - 2 * 1),
        h := max 1 (cell.rowSpan * intCellH - 2 * 1) } := by
  unfold surfaceGeometry kBorder
  simp only [ite_lt_one_eq_max]

theorem updateLayout_surfaces (win : MultiviewWindow) (hr : 1 ≤ win.config_.gridRows)
    (hc : 1 ≤ win.config_.gridCols) :
    (updateLayout win).cellSurfaces_ =
      (List.zipWith (fun cell _ => surfaceGeometry
          (calculateGridMetrics win.config_.gridRows win.config_.gridCols win.width
            win.height).offsetX
          (calculateGridMetrics win.config_.gridRows win.config_.gridCols win.width
            win.height).offsetY
          (toInt (calculateGridMetrics win.config_.gridRows win.config_.gridCols win.width
            win.height).cellW)
          (toInt (calculateGridMetrics win.config_.gridRows win.config_.gridCols win.width
            win.height).cellH) cell)
        win.config_.cells win.cellSurfaces_) ++ win.cellSurfaces_.drop win.config_.cells.length := by
  unfold updateLayout
  rw [if_neg (by omega)]

theorem updateLayout_config (win : MultiviewWindow) : (updateLayout win).config_ = win.config_ := by
  unfold updateLayout
  split_ifs <;> rfl

/-- C21: `updateLayout` assigns every cell the pixel rectangle
`x = offsetX + col*cellW + border`, `y = offsetY + row*cellH + border`,
`w = max(1, colSpan*cellW - 2*border)`, `h = max(1, rowSpan*cellH - 2*border)`
with `border = 1` and the integer `cellW`, `cellH`, `offsetX`, `offsetY` produced
by `calculateGridMetrics`; the grid has at least one row and one column, and
cell `i` has a surface. For window sizes up to `2^23` the `float` cell sizes of
the metrics are these integers. -/
theorem C21_updateLayout_cell_rectangles (win : MultiviewWindow)
    (hr : 1 ≤ win.config_.gridRows) (hc : 1 ≤ win.config_.gridCols) :
    (∀ (i : Nat) (cell : CellConfig), win.config_.cells[i]? = some cell →
      i < win.cellSurfaces_.length →
      (updateLayout win).cellSurfaces_[i]? = some
        { x := (calculateGridMetrics win.config_.gridRows win.config_.gridCols win.width
              win.height).offsetX + cell.col *
              toInt (calculateGridMetrics win.config_.gridRows win.config_.gridCols win.width
                win.height).cellW + 1,
          y := (calculateGridMetrics win.config_.gridRows win.config_.gridCols win.width
              win.height).offsetY + cell.row *
              toInt (calculateGridMetrics win.config_.gridRows win.config_.gridCols win.width
                win.height).cellH + 1,
          w := max 1 (cell.colSpan *
              toInt (calculateGridMetrics win.config_.gridRows win.config_.gridCols win.width
                win.height).cellW - 2 * 1),
          h := max 1 (cell.rowSpan *
              toInt (calculateGridMetrics win.config_.gridRows win.config_.gridCols win.width
                win.height).cellH - 2 * 1) }) ∧
    (win.cellSurfaces_.length = win.config_.cells.length →
      (updateLayout win).cellSurfaces_.length = win.config_.cells.length) ∧
    (3 ≤ win.width → 3 ≤ win.height → win.width ≤ 2 ^ 23 → win.height ≤ 2 ^ 23 →
      (calculateGridMetrics win.config_.gridRows win.config_.gridCols win.width
          win.height).cellW =
        toInt (calculateGridMetrics win.config_.gridRows win.config_.gridCols win.width
          win.height).cellW ∧
      (calculateGridMetrics win.config_.gridRows win.config_.gridCols win.width
          win.height).cellH =
        toInt (calculateGridMetrics win.config_.gridRows win.config_.gridCols win.width
          win.height).cellH) := by
  refine ⟨?_, ?_, ?_⟩
  · intro i cell hcell hi
    have hlt : i < win.config_.cells.length := by
      by_contra hn
      rw [List.getElem?_eq_none (by omega)] at hcell
      exact Option.noConfusion hcell
    rw [updateLayout_surfaces win hr hc, List.getElem?_append_left (by
      rw [List.length_zipWith]; omega), List.getElem?_zipWith, hcell,
      List.getElem?_eq_getElem hi]
    simp only [Option.map_some', Option.bind_some, Option.some_bind, surfaceGeometry_eq]
  · intro hlen
    rw [updateLayout_surfaces win hr hc, List.length_append, List.length_zipWith,
      List.length_drop]
    omega
  · intro hW hH hW2 hH2
    have h := gridMetrics_int_cells win.config_.gridRows win.config_.gridCols win.width
      win.height hr hc hW hH hW2 hH2
    exact ⟨h.2.2.1, h.2.2.2.1⟩

/-- Instance of C21: the surface of the single `2 x 2` cell of `windowOneCell`. -/
theorem C21_updateLayout_cell_rectangles_witness :
    (1 : Int) ≤ 2 ∧
    (updateLayout windowOneCell).cellSurfaces_[0]? = some
      { x := (calculateGridMetrics 2 2 1000 600).offsetX +
          0 * toInt (calculateGridMetrics 2 2 1000 600).cellW + 1,
        y := (calculateGridMetrics 2 2 1000 600).offsetY +
          0 * toInt (calculateGridMetrics 2 2 1000 600).cellH + 1,
        w := max 1 (2 * toInt (calculateGridMetrics 2 2 1000 600).cellW - 2 * 1),
        h := max 1 (2 * toInt (calculateGridMetrics 2 2 1000 600).cellH - 2 * 1) } :=
  ⟨by decide,
    (C21_updateLayout_cell_rectangles windowOneCell (by decide) (by decide)).1 0
      { row := 0, col := 0, rowSpan := 2, colSpan := 2 } rfl (by decide)⟩

/-! ## C22 -/

/-- A pixel interval between two grid lines, in terms of the floored quotient. -/
theorem stripe_iff (p off cell k span : Int) (hc : 0 < cell) :
    (off + k * cell ≤ p ∧ p < off + k * cell + span * cell) ↔
      (k ≤ (p - off) / cell ∧ (p - off) / cell < k + span) := by
  rw [Int.le_ediv_iff_mul_le hc, Int.ediv_lt_iff_lt_mul hc]
  have e : (k + span) * cell = k * cell + span * cell := by ring
  rw [e]
  constructor <;> rintro ⟨h1, h2⟩ <;> constructor <;> omega

/-- A pixel lies in the slot of a cell exactly when its grid position lies in
the span of the cell. -/
theorem cellSlot_contains_iff (offsetX offsetY cellW cellH : Int) (hW : 0 < cellW)
    (hH : 0 < cellH) (cell : CellConfig) (pixel : QPoint) :
    (cellSlot offsetX offsetY cellW cellH cell).contains pixel ↔
      inSpan cell ((pixel.y - offsetY) / cellH) ((pixel.x - offsetX) / cellW) := by
  unfold cellSlot QRect.contains inSpan
  simp only
  have hx := stripe_iff pixel.x offsetX cellW cell.col cell.colSpan hW
  have hy := stripe_iff pixel.y offsetY cellH cell.row cell.rowSpan hH
  constructor
  · rintro ⟨a, b, c, d⟩
    exact ⟨(hy.mp ⟨c, d⟩).1, (hy.mp ⟨c, d⟩).2, (hx.mp ⟨a, b⟩).1, (hx.mp ⟨a, b⟩).2⟩
  · rintro ⟨a, b, c, d⟩
    exact ⟨(hx.mpr ⟨c, d⟩).1, (hx.mpr ⟨c, d⟩).2, (hy.mpr ⟨a, b⟩).1, (hy.mpr ⟨a, b⟩).2⟩

/-- The surface rectangle of a cell lies inside its slot when the cell is at
least `1 x 1` and the cell size at least `2`. -/
theorem surface_subset_slot (offsetX offsetY cellW cellH : Int) (hW : 2 ≤ cellW)
    (hH : 2 ≤ cellH) (cell : CellConfig) (h1 : 1 ≤ cell.rowSpan) (h2 : 1 ≤ cell.colSpan)
    (pixel : QPoint)
    (hin : (surfaceGeometry offsetX offsetY cellW cellH cell).contains pixel) :
    (cellSlot offsetX offsetY cellW cellH cell).contains pixel := by
  rw [surfaceGeometry_eq] at hin
  unfold QRect.contains at hin
  simp only at hin
  unfold cellSlot QRect.contains
  simp only
  have a : cellW ≤ cell.colSpan * cellW := le_mul_of_one_le_left (by omega) h2
  have b : cellH ≤ cell.rowSpan * cellH := le_mul_of_one_le_left (by omega) h1
  omega

/-- C22: cell rectangles tile without gaps or overlaps. For a valid grid layout
and integer `cellW, cellH >= 3`, every pixel of the grid area
`[offsetX, offsetX + cols*cellW) x [offsetY, offsetY + rows*cellH)` lies in the
slot of exactly one cell, every slot lies inside the grid area, and the
rectangles that `updateLayout` assigns to two distinct cells are disjoint, each
lying inside its own slot and so inside the grid area. -/
theorem C22_cell_rectangles_tile (rows cols : Int) (cells : List CellConfig)
    (hv : ValidLayout rows cols cells) (offsetX offsetY cellW cellH : Int)
    (hW : 3 ≤ cellW) (hH : 3 ≤ cellH) :
    (∀ pixel : QPoint,
      (QRect.mk offsetX offsetY (cols * cellW) (rows * cellH)).contains pixel →
      ∃ (i : Nat) (hi : i < cells.length),
        (cellSlot offsetX offsetY cellW cellH (cells.get ⟨i, hi⟩)).contains pixel ∧
        ∀ (j : Nat) (hj : j < cells.length),
          (cellSlot offsetX offsetY cellW cellH (cells.get ⟨j, hj⟩)).contains pixel → j = i) ∧
    (∀ cell ∈ cells, ∀ pixel : QPoint,
      (cellSlot offsetX offsetY cellW cellH cell).contains pixel →
      (QRect.mk offsetX offsetY (cols * cellW) (rows * cellH)).contains pixel) ∧
    (∀ (i j : Nat) (hi : i < cells.length) (hj : j < cells.length), i ≠ j →
      ∀ pixel : QPoint,
        ¬ ((surfaceGeometry offsetX offsetY cellW cellH (cells.get ⟨i, hi⟩)).contains pixel ∧
          (surfaceGeometry offsetX offsetY cellW cellH (cells.get ⟨j, hj⟩)).contains pixel)) ∧
    (∀ cell ∈ cells, ∀ pixel : QPoint,
      (surfaceGeometry offsetX offsetY cellW cellH cell).contains pixel →
      (cellSlot offsetX offsetY cellW cellH cell).contains pixel ∧
      (QRect.mk offsetX offsetY (cols * cellW) (rows * cellH)).contains pixel) := by
  have hW0 : 0 < cellW := by omega
  have hH0 : 0 < cellH := by omega
  have harea : ∀ pixel : QPoint,
      (QRect.mk offsetX offsetY (cols * cellW) (rows * cellH)).contains pixel ↔
        (0 ≤ (pixel.y - offsetY) / cellH ∧ (pixel.y - offsetY) / cellH < rows) ∧
        (0 ≤ (pixel.x - offsetX) / cellW ∧ (pixel.x - offsetX) / cellW < cols) := by
    intro pixel
    have hx := stripe_iff pixel.x offsetX cellW 0 cols hW0
    have hy := stripe_iff pixel.y offsetY cellH 0 rows hH0
    simp only [zero_mul, add_zero, zero_add] at hx hy
    unfold QRect.contains
    simp only
    rw [← hx, ← hy]
    constructor
    · rintro ⟨a, b, c, d⟩; exact ⟨⟨c, d⟩, ⟨a, b⟩⟩
    · rintro ⟨⟨c, d⟩, ⟨a, b⟩⟩; exact ⟨a, b, c, d⟩
  have hslotArea : ∀ cell ∈ cells, ∀ pixel : QPoint,
      (cellSlot offsetX offsetY cellW cellH cell).contains pixel →
      (QRect.mk offsetX offsetY (cols * cellW) (rows * cellH)).contains pixel := by
    intro cell hc pixel hin
    rw [cellSlot_contains_iff _ _ _ _ hW0 hH0] at hin
    rw [harea]
    have hi := hv.inside cell hc
    unfold inSpan at hin
    omega
  refine ⟨?_, hslotArea, ?_, ?_⟩
  · intro pixel hin
    rw [harea] at hin
    obtain ⟨i, hi, hs⟩ := hv.covered _ _ hin.1.1 hin.1.2 hin.2.1 hin.2.2
    refine ⟨i, hi, (cellSlot_contains_iff _ _ _ _ hW0 hH0 _ _).mpr hs, ?_⟩
    intro j hj hsj
    exact hv.disjoint j i hj hi _ _ ((cellSlot_contains_iff _ _ _ _ hW0 hH0 _ _).mp hsj) hs
  · intro i j hi hj hne pixel ⟨h1, h2⟩
    have s1 := surface_subset_slot offsetX offsetY cellW cellH (by omega) (by omega) _
      (hv.spans _ (List.get_mem _ _ _)).1 (hv.spans _ (List.get_mem _ _ _)).2 pixel h1
    have s2 := surface_subset_slot offsetX offsetY cellW cellH (by omega) (by omega) _
      (hv.spans _ (List.get_mem _ _ _)).1 (hv.spans _ (List.get_mem _ _ _)).2 pixel h2
    exact hne (hv.disjoint i j hi hj _ _ ((cellSlot_contains_iff _ _ _ _ hW0 hH0 _ _).mp s1)
      ((cellSlot_contains_iff _ _ _ _ hW0 hH0 _ _).mp s2))
  · intro cell hc pixel hin
    have s := surface_subset_slot offsetX offsetY cellW cellH (by omega) (by omega) cell
      (hv.spans cell hc).1 (hv.spans cell hc).2 pixel hin
    exact ⟨s, hslotArea cell hc pixel s⟩

/-- Instance of C22: in a `1 x 2` grid of two cells of `249 x 140` pixels at
offset `(2, 220)`, the pixel `(300, 300)` lies in the slot of exactly one cell
and the two surface rectangles do not share it. -/
theorem C22_cell_rectangles_tile_witness :
    ValidLayout 1 2 [{ row := 0, col := 0 }, { row := 0, col := 1 }] ∧
    (3 : Int) ≤ 249 ∧ (3 : Int) ≤ 140 ∧
    (∃ (i : Nat) (hi : i < [({ row := 0, col := 0 } : CellConfig), { row := 0, col := 1 }].length),
      (cellSlot 2 220 249 140
        ([({ row := 0, col := 0 } : CellConfig), { row := 0, col := 1 }].get ⟨i, hi⟩)).contains
          { x := 300, y := 300 } ∧
      ∀ (j : Nat) (hj : j < [({ row := 0, col := 0 } : CellConfig), { row := 0, col := 1 }].length),
        (cellSlot 2 220 249 140
          ([({ row := 0, col := 0 } : CellConfig), { row := 0, col := 1 }].get ⟨j, hj⟩)).contains
            { x := 300, y := 300 } → j = i) :=
  ⟨validLayout_of_check _ _ _ (by decide), by decide, by decide,
    (C22_cell_rectangles_tile 1 2 [{ row := 0, col := 0 }, { row := 0, col := 1 }]
      (validLayout_of_check _ _ _ (by decide)) 2 220 249 140 (by decide) (by decide)).1
      { x := 300, y := 300 } (by decide)⟩

/-! ## The scan of a boundary in `paintEvent` -/

theorem intRange_zero_succ (m : Nat) : intRange 0 ((m : Int) + 1) = intRange 0 m ++ [(m : Int)] := by
  unfold intRange
  have e1 : ((m : Int) + 1 - 0).toNat = m + 1 := by omega
  have e2 : ((m : Int) - 0).toNat = m := by omega
  rw [e1, e2, List.range_succ, List.map_append]
  simp

/-- The scan in pixel coordinates is the scan in indices, mapped to pixels. -/
theorem scanStep_fold_map (need : Int → Bool) (pos : Int → Int) (l : List Int)
    (s : Int) (segs : List (Int × Int)) :
    l.foldl (scanStep need pos) (s, segs.map (fun run => (pos run.1, pos run.2))) =
      ((l.foldl (scanStep need id) (s, segs)).1,
        (l.foldl (scanStep need id) (s, segs)).2.map (fun run => (pos run.1, pos run.2))) := by
  induction l generalizing s segs with
  | nil => rfl
  | cons k l ih =>
    rw [List.foldl_cons, List.foldl_cons]
    unfold scanStep
    by_cases h1 : need k = true ∧ s < 0
    · simp only [h1, and_self, if_true]
      exact ih k segs
    · by_cases h2 : need k = false ∧ s ≥ 0
      · simp only [if_neg h1, if_pos h2]
        have := ih (-1) (segs ++ [(s, k)])
        rw [List.map_append] at this
        exact this
      · simp only [if_neg h1, if_neg h2]
        exact ih s segs

theorem scanInv_step (need : Int → Bool) (k : Int) (hk : 0 ≤ k) (st : Int × List (Int × Int))
    (h : ScanInv need k st) : ScanInv need (k + 1) (scanStep need id st k) := by
  obtain ⟨s, segs⟩ := st
  obtain ⟨hstart, hruns, hsorted, hcover, hopened, hclosed⟩ := h
  simp only at hstart hruns hsorted hcover hopened hclosed
  unfold scanStep
  simp only [id]
  by_cases h1 : need k = true ∧ s < 0
  · rw [if_pos h1]
    have hs : s = -1 := by omega
    subst hs
    simp only [show ¬ ((-1 : Int) ≥ 0) by decide, if_false] at hruns hcover
    refine ⟨Or.inr ⟨hk, by omega⟩, ?_, hsorted, ?_, ?_, ?_⟩
    · intro run hr
      simp only [ge_iff_le, hk, if_true]
      exact hruns run hr
    · intro j hj0 hj1 hn
      simp only [ge_iff_le, hk, if_true] at hj1
      exact hcover j hj0 hj1 hn
    · intro _
      refine ⟨?_, ?_⟩
      · intro j hj1 hj2
        have : j = k := by omega
        rw [this]; exact h1.1
      · rcases hclosed rfl with h0 | h0
        · exact Or.inl h0
        · exact Or.inr h0
    · intro hc
      simp only at hc
      omega
  · rw [if_neg h1]
    by_cases h2 : need k = false ∧ s ≥ 0
    · rw [if_pos h2]
      have hs0 : 0 ≤ s ∧ s < k := by omega
      simp only [ge_iff_le, hs0.1, if_true] at hruns hcover
      have hop := hopened h2.2
      refine ⟨Or.inl rfl, ?_, ?_, ?_, ?_, ?_⟩
      · intro run hr
        simp only [show ¬ ((-1 : Int) ≥ 0) by decide, if_false]
        rcases List.mem_append.mp hr with hr | hr
        · have := hruns run hr
          exact ⟨this.1, this.2.1, by omega, this.2.2.2.1, this.2.2.2.2.1, this.2.2.2.2.2⟩
        · rw [List.mem_singleton] at hr
          subst hr
          exact ⟨hs0.1, hs0.2, by simp, h2.1, hop.1, hop.2⟩
      · rw [List.pairwise_append]
        refine ⟨hsorted, List.pairwise_singleton _ _, ?_⟩
        intro a ha b hb
        rw [List.mem_singleton] at hb
        subst hb
        exact (hruns a ha).2.2.1
      · intro j hj0 hj1 hn
        simp only [show ¬ ((-1 : Int) ≥ 0) by decide, if_false] at hj1
        have hjk : j ≠ k := by
          intro e
          rw [e, h2.1] at hn
          exact Bool.noConfusion hn
        by_cases hjs : j < s
        · obtain ⟨run, hr, hin⟩ := hcover j hj0 hjs hn
          exact ⟨run, List.mem_append_left _ hr, hin⟩
        · exact ⟨(s, k), List.mem_append_right _ (List.mem_singleton_self _), by
            simp only; omega⟩
      · intro hc
        simp only at hc
        omega
      · intro _
        right
        simp only [add_sub_cancel_right]
        exact h2.1
    · rw [if_neg h2]
      rcases hstart with hs | hs
      · subst hs
        simp only [show ¬ ((-1 : Int) ≥ 0) by decide, if_false] at hruns hcover ⊢
        have hnk : need k = false := by
          cases hb : need k with
          | false => rfl
          | true => exact absurd ⟨hb, by decide⟩ h1
        refine ⟨Or.inl rfl, ?_, hsorted, ?_, ?_, ?_⟩
        · intro run hr
          have := hruns run hr
          exact ⟨this.1, this.2.1, by omega, this.2.2.2.1, this.2.2.2.2.1, this.2.2.2.2.2⟩
        · intro j hj0 hj1 hn
          have hjk : j ≠ k := by
            intro e
            rw [e, hnk] at hn
            exact Bool.noConfusion hn
          exact hcover j hj0 (by omega) hn
        · intro hc
          simp only at hc
          omega
        · intro _
          right
          simp only [add_sub_cancel_right]
          exact hnk
      · have hnk : need k = true := by
          cases hb : need k with
          | true => rfl
          | false => exact absurd ⟨hb, hs.1⟩ h2
        simp only [ge_iff_le, hs.1, if_true] at hruns hcover ⊢
        have hop := hopened hs.1
        refine ⟨Or.inr ⟨hs.1, by omega⟩, ?_, hsorted, ?_, ?_, ?_⟩
        · intro run hr
          simp only [ge_iff_le, hs.1, if_true]
          exact hruns run hr
        · intro j hj0 hj1 hn
          simp only [ge_iff_le, hs.1, if_true] at hj1
          exact hcover j hj0 hj1 hn
        · intro _
          refine ⟨?_, hop.2⟩
          intro j hj1 hj2
          by_cases hjk : j = k
          · rw [hjk]; exact hnk
          · exact hop.1 j hj1 (by omega)
        · intro hc
          simp only at hc
          omega

theorem scanInv_fold (need : Int → Bool) (m : Nat) :
    ScanInv need m ((intRange 0 m).foldl (scanStep need id) (-1, [])) := by
  induction m with
  | zero =>
    have e : intRange 0 ((0 : Nat) : Int) = [] := by decide
    rw [e, List.foldl_nil]
    refine ⟨Or.inl rfl, ?_, List.Pairwise.nil, ?_, ?_, ?_⟩
    · intro run hr; exact absurd hr (List.not_mem_nil _)
    · intro j hj0 hj1
      simp only [show ¬ ((-1 : Int) ≥ 0) by decide, if_false] at hj1
      omega
    · intro h; simp only at h; omega
    · intro _; exact Or.inl rfl
  | succ m ih =>
    have e : ((m + 1 : Nat) : Int) = (m : Int) + 1 := by push_cast; rfl
    rw [e, intRange_zero_succ, List.foldl_append, List.foldl_cons, List.foldl_nil]
    exact scanInv_step need m (by omega) _ ih

/-- The segments of a scan, in index coordinates and ended at `n`, are the
maximal runs of the needed indices. -/
theorem scanSegments_maximalRuns (n : Int) (hn : 0 ≤ n) (need : Int → Bool) :
    MaximalRuns n need (scanSegments n need id n) := by
  obtain ⟨m, rfl⟩ := Int.eq_ofNat_of_zero_le hn
  have h := scanInv_fold need m
  unfold scanSegments
  simp only
  generalize (intRange 0 (m : Int)).foldl (scanStep need id) (-1, []) = st at h
  obtain ⟨s, segs⟩ := st
  obtain ⟨hstart, hruns, hsorted, hcover, hopened, hclosed⟩ := h
  simp only at hstart hruns hsorted hcover hopened hclosed ⊢
  by_cases hs : s ≥ 0
  · rw [if_pos hs]
    simp only [hs, if_true] at hruns hcover
    have hs2 : s < (m : Int) := by omega
    have hop := hopened hs
    simp only [id]
    refine ⟨?_, ?_, ?_⟩
    · intro run hr
      rcases List.mem_append.mp hr with hr | hr
      · have := hruns run hr
        exact ⟨this.1, this.2.1, by omega, this.2.2.2.2.1, this.2.2.2.2.2, Or.inr this.2.2.2.1⟩
      · rw [List.mem_singleton] at hr
        subst hr
        exact ⟨hs, hs2, le_refl _, hop.1, hop.2, Or.inl rfl⟩
    · rw [List.pairwise_append]
      refine ⟨hsorted, List.pairwise_singleton _ _, ?_⟩
      intro a ha b hb
      rw [List.mem_singleton] at hb
      subst hb
      exact (hruns a ha).2.2.1
    · intro j hj0 hj1 hn
      by_cases hjs : j < s
      · obtain ⟨run, hr, hin⟩ := hcover j hj0 hjs hn
        exact ⟨run, List.mem_append_left _ hr, hin⟩
      · exact ⟨(s, (m : Int)), List.mem_append_right _ (List.mem_singleton_self _), by
          simp only; omega⟩
  · rw [if_neg hs]
    simp only [hs, if_false] at hruns hcover
    refine ⟨?_, hsorted, hcover⟩
    intro run hr
    have := hruns run hr
    exact ⟨this.1, this.2.1, by omega, this.2.2.2.2.1, this.2.2.2.2.2, Or.inr this.2.2.2.1⟩

/-- The segments of a scan in pixel coordinates, when the last coordinate is
the pixel of boundary `n`, are the maximal runs mapped to pixels. -/
theorem scanSegments_eq_map (n : Int) (need : Int → Bool) (pos : Int → Int) :
    scanSegments n need pos (pos n) =
      (scanSegments n need id n).map (fun run => (pos run.1, pos run.2)) := by
  unfold scanSegments
  simp only
  have h := scanStep_fold_map need pos (intRange 0 n) (-1) []
  rw [List.map_nil] at h
  rw [h]
  simp only
  split_ifs with hs
  · rw [List.map_append]
    rfl
  · rfl
/-! ## C23 -/

/-- In a valid layout, two in-range positions in the span of one cell have the
same entry of the ownership map. -/
theorem ownerEntry_same_cell (rows cols : Int) (cells : List CellConfig)
    (hv : ValidLayout rows cols cells) (cell : CellConfig) (hc : cell ∈ cells)
    (r1 c1 r2 c2 : Int) (h1 : inSpan cell r1 c1) (h2 : inSpan cell r2 c2) :
    ownerEntry (buildOwnership rows cols cells) r1 c1 =
      ownerEntry (buildOwnership rows cols cells) r2 c2 := by
  obtain ⟨n, hn⟩ := List.get_of_mem hc
  have hin := hv.inside cell hc
  have key : ∀ r c : Int, inSpan cell r c →
      ownerEntry (buildOwnership rows cols cells) r c = (n.1 : Int) := by
    intro r c hs
    have hs' := hs
    unfold inSpan at hs'
    have hr : 0 ≤ r ∧ r < rows := by omega
    have hcc : 0 ≤ c ∧ c < cols := by omega
    unfold ownerEntry
    rcases (buildOwnership_entry rows cols cells r c hr hcc).2 with ⟨_, hno⟩ | ⟨i, hi, hval, hspan, _⟩
    · exact absurd (hn ▸ hs) (hno n.1 n.2)
    · rw [hval]
      have := hv.disjoint i n.1 hi n.2 r c hspan (hn ▸ hs)
      rw [this]
  rw [key r1 c1 h1, key r2 c2 h2]

theorem verticalLines_interior (win : MultiviewWindow) (own : List (List Int)) (c : Int)
    (h0 : 0 < c) (h1 : c < win.config_.gridCols)
    (hgh : win.gridHeight_ = win.config_.gridRows * toInt win.cellHeight_) :
    verticalLines win own c =
      (scanSegments win.config_.gridRows
        (fun row => decide (ownerEntry own row (c - 1) ≠ ownerEntry own row c)) id
        win.config_.gridRows).map
        (fun run =>
          { x1 := win.gridOffsetX_ + c * toInt win.cellWidth_,
            y1 := win.gridOffsetY_ + run.1 * toInt win.cellHeight_,
            x2 := win.gridOffsetX_ + c * toInt win.cellWidth_,
            y2 := win.gridOffsetY_ + run.2 * toInt win.cellHeight_ }) := by
  unfold verticalLines
  simp only
  rw [if_neg (by omega), hgh]
  have h := scanSegments_eq_map win.config_.gridRows
    (fun row => decide (ownerEntry own row (c - 1) ≠ ownerEntry own row c))
    (fun row => win.gridOffsetY_ + row * toInt win.cellHeight_)
  simp only at h
  rw [h, List.map_map]
  rfl

theorem horizontalLines_interior (win : MultiviewWindow) (own : List (List Int)) (r : Int)
    (h0 : 0 < r) (h1 : r < win.config_.gridRows)
    (hgw : win.gridWidth_ = win.config_.gridCols * toInt win.cellWidth_) :
    horizontalLines win own r =
      (scanSegments win.config_.gridCols
        (fun col => decide (ownerEntry own (r - 1) col ≠ ownerEntry own r col)) id
        win.config_.gridCols).map
        (fun run =>
          { x1 := win.gridOffsetX_ + run.1 * toInt win.cellWidth_,
            y1 := win.gridOffsetY_ + r * toInt win.cellHeight_,
            x2 := win.gridOffsetX_ + run.2 * toInt win.cellWidth_,
            y2 := win.gridOffsetY_ + r * toInt win.cellHeight_ }) := by
  unfold horizontalLines
  simp only
  rw [if_neg (by omega), hgw]
  have h := scanSegments_eq_map win.config_.gridCols
    (fun col => decide (ownerEntry own (r - 1) col ≠ ownerEntry own r col))
    (fun col => win.gridOffsetX_ + col * toInt win.cellWidth_)
  simp only at h
  rw [h, List.map_map]
  rfl

/-- A scan in which no index needs a line emits nothing. -/
theorem scanSegments_none (n : Int) (need : Int → Bool) (pos : Int → Int) (last : Int)
    (h : ∀ k, 0 ≤ k → k < n → need k = false) : scanSegments n need pos last = [] := by
  have key : ∀ l : List Int, (∀ k ∈ l, need k = false) →
      l.foldl (scanStep need pos) (-1, []) = (-1, []) := by
    intro l
    induction l with
    | nil => intro _; rfl
    | cons k l ih =>
      intro hl
      rw [List.foldl_cons]
      have hk := hl k (List.mem_cons_self _ _)
      have e : scanStep need pos (-1, []) k = (-1, []) := by
        unfold scanStep
        simp [hk]
      rw [e]
      exact ih (fun j hj => hl j (List.mem_cons_of_mem _ hj))
  unfold scanSegments
  simp only
  rw [key _ (fun k hk => h k (mem_intRange.mp hk).1 (mem_intRange.mp hk).2)]
  rfl

/-- In a valid layout every in-range position has an owner in the rebuilt map:
the index of a cell whose span contains the position. -/
theorem ownerEntry_covering (rows cols : Int) (cells : List CellConfig)
    (hv : ValidLayout rows cols cells) (r c : Int) (hr0 : 0 ≤ r) (hr1 : r < rows)
    (hc0 : 0 ≤ c) (hc1 : c < cols) :
    ∃ (i : Nat) (hi : i < cells.length),
      ownerEntry (buildOwnership rows cols cells) r c = (i : Int) ∧
      inSpan (cells.get ⟨i, hi⟩) r c := by
  unfold ownerEntry
  rcases (buildOwnership_entry rows cols cells r c ⟨hr0, hr1⟩ ⟨hc0, hc1⟩).2 with
    ⟨_, hno⟩ | ⟨i, hi, hval, hspan, _⟩
  · obtain ⟨j, hj, hs⟩ := hv.covered r c hr0 hr1 hc0 hc1
    exact absurd hs (hno j hj)
  · exact ⟨i, hi, hval, hspan⟩

/-- In a valid layout the entries of the ownership map at two in-range
positions differ exactly when no cell contains both positions. -/
theorem ownerEntry_ne_iff (rows cols : Int) (cells : List CellConfig)
    (hv : ValidLayout rows cols cells) (r1 c1 r2 c2 : Int)
    (h1 : 0 ≤ r1 ∧ r1 < rows ∧ 0 ≤ c1 ∧ c1 < cols)
    (h2 : 0 ≤ r2 ∧ r2 < rows ∧ 0 ≤ c2 ∧ c2 < cols) :
    ownerEntry (buildOwnership rows cols cells) r1 c1 ≠
        ownerEntry (buildOwnership rows cols cells) r2 c2 ↔
      sameCell cells r1 c1 r2 c2 = false := by
  obtain ⟨i, hi, hvi, hsi⟩ := ownerEntry_covering rows cols cells hv r1 c1 h1.1 h1.2.1 h1.2.2.1
    h1.2.2.2
  obtain ⟨j, hj, hvj, hsj⟩ := ownerEntry_covering rows cols cells hv r2 c2 h2.1 h2.2.1 h2.2.2.1
    h2.2.2.2
  constructor
  · intro hne
    by_contra hs
    rw [Bool.not_eq_false] at hs
    unfold sameCell at hs
    rw [List.any_eq_true] at hs
    obtain ⟨cell, hcell, hboth⟩ := hs
    have hb := of_decide_eq_true hboth
    exact hne (ownerEntry_same_cell rows cols cells hv cell hcell r1 c1 r2 c2 hb.1 hb.2)
  · intro hs heq
    rw [hvi, hvj] at heq
    have hij : i = j := by exact_mod_cast heq
    subst hij
    have : sameCell cells r1 c1 r2 c2 = true := by
      unfold sameCell
      rw [List.any_eq_true]
      exact ⟨cells.get ⟨i, hi⟩, List.get_mem _ _ _, decide_eq_true ⟨hsi, hsj⟩⟩
    rw [this] at hs
    exact Bool.noConfusion hs

theorem scanSegments_congr (n : Int) (need1 need2 : Int → Bool) (pos : Int → Int) (last : Int)
    (h : ∀ k, 0 ≤ k → k < n → need1 k = need2 k) :
    scanSegments n need1 pos last = scanSegments n need2 pos last := by
  have key : ∀ (l : List Int) (st : Int × List (Int × Int)), (∀ k ∈ l, need1 k = need2 k) →
      l.foldl (scanStep need1 pos) st = l.foldl (scanStep need2 pos) st := by
    intro l
    induction l with
    | nil => intro _ _; rfl
    | cons k l ih =>
      intro st hl
      rw [List.foldl_cons, List.foldl_cons]
      have e : scanStep need1 pos st k = scanStep need2 pos st k := by
        unfold scanStep
        rw [hl k (List.mem_cons_self _ _)]
      rw [e]
      exact ih _ (fun j hj => hl j (List.mem_cons_of_mem _ hj))
  unfold scanSegments
  simp only
  rw [key _ _ (fun k hk => h k (mem_intRange.mp hk).1 (mem_intRange.mp hk).2)]

theorem maximalRuns_congr (n : Int) (need1 need2 : Int → Bool) (runs : List (Int × Int))
    (h : ∀ k, 0 ≤ k → k < n → need1 k = need2 k) (hm : MaximalRuns n need1 runs) :
    MaximalRuns n need2 runs := by
  obtain ⟨hruns, hsorted, hcover⟩ := hm
  refine ⟨?_, hsorted, ?_⟩
  · intro run hrun
    obtain ⟨a0, a1, a2, a3, a4, a5⟩ := hruns run hrun
    refine ⟨a0, a1, a2, ?_, ?_, ?_⟩
    · intro k hk1 hk2
      rw [← h k (by omega) (by omega)]
      exact a3 k hk1 hk2
    · rcases a4 with a4 | a4
      · exact Or.inl a4
      · by_cases hz : run.1 = 0
        · exact Or.inl hz
        · right
          rw [← h (run.1 - 1) (by omega) (by omega)]
          exact a4
    · rcases a5 with a5 | a5
      · exact Or.inl a5
      · by_cases hz : run.2 = n
        · exact Or.inl hz
        · right
          rw [← h run.2 (by omega) (by omega)]
          exact a5
  · intro k hk0 hk1 hneed
    rw [← h k hk0 hk1] at hneed
    exact hcover k hk0 hk1 hneed

/-- The lines of a `2 x 2` window whose single cell spans all four positions:
the four outer edges only. -/
theorem paintEvent_one_cell (win : MultiviewWindow) (hr : win.config_.gridRows = 2)
    (hc : win.config_.gridCols = 2)
    (hcells : win.config_.cells = [{ row := 0, col := 0, rowSpan := 2, colSpan := 2 }]) :
    paintEvent win =
      [{ x1 := win.gridOffsetX_ + 0 * toInt win.cellWidth_, y1 := win.gridOffsetY_,
         x2 := win.gridOffsetX_ + 0 * toInt win.cellWidth_,
         y2 := win.gridOffsetY_ + win.gridHeight_ },
       { x1 := win.gridOffsetX_ + 2 * toInt win.cellWidth_, y1 := win.gridOffsetY_,
         x2 := win.gridOffsetX_ + 2 * toInt win.cellWidth_,
         y2 := win.gridOffsetY_ + win.gridHeight_ },
       { x1 := win.gridOffsetX_, y1 := win.gridOffsetY_ + 0 * toInt win.cellHeight_,
         x2 := win.gridOffsetX_ + win.gridWidth_,
         y2 := win.gridOffsetY_ + 0 * toInt win.cellHeight_ },
       { x1 := win.gridOffsetX_, y1 := win.gridOffsetY_ + 2 * toInt win.cellHeight_,
         x2 := win.gridOffsetX_ + win.gridWidth_,
         y2 := win.gridOffsetY_ + 2 * toInt win.cellHeight_ }] := by
  have hown : buildOwnership 2 2 [{ row := 0, col := 0, rowSpan := 2, colSpan := 2 }] =
      [[0, 0], [0, 0]] := by decide
  have r3 : intRange 0 (2 + 1) = [0, 1, 2] := by decide
  have hscanV : ∀ (pos : Int → Int) (last : Int),
      scanSegments 2 (fun row => decide (ownerEntry [[0, 0], [0, 0]] row (1 - 1) ≠
        ownerEntry [[(0 : Int), 0], [0, 0]] row 1)) pos last = [] := by
    intro pos last
    apply scanSegments_none
    intro k hk0 hk1
    have : k = 0 ∨ k = 1 := by omega
    rcases this with rfl | rfl <;> decide
  have hscanH : ∀ (pos : Int → Int) (last : Int),
      scanSegments 2 (fun col => decide (ownerEntry [[0, 0], [0, 0]] (1 - 1) col ≠
        ownerEntry [[(0 : Int), 0], [0, 0]] 1 col)) pos last = [] := by
    intro pos last
    apply scanSegments_none
    intro k hk0 hk1
    have : k = 0 ∨ k = 1 := by omega
    rcases this with rfl | rfl <;> decide
  unfold paintEvent
  rw [if_neg (by omega), hr, hc, hcells, hown, r3]
  unfold verticalLines horizontalLines
  simp only [List.map_cons, List.map_nil, hr, hc, hscanV, hscanH, List.flatten_cons,
    List.flatten_nil, List.append_nil, List.cons_append, List.nil_append, true_or, or_true,
    if_true, show ¬ ((1 : Int) = 0 ∨ (1 : Int) = 2) by decide, if_false]
/-- After `updateLayout` of a window of `3 .. 2^23` pixels each way the cached
grid size is the exact multiple of the integer cell size. -/
theorem updateLayout_grid_exact (win : MultiviewWindow) (hr : 1 ≤ win.config_.gridRows)
    (hc : 1 ≤ win.config_.gridCols) (hW : 3 ≤ win.width) (hH : 3 ≤ win.height)
    (hWmax : win.width ≤ 2 ^ 23) (hHmax : win.height ≤ 2 ^ 23) :
    (updateLayout win).gridHeight_ =
      (updateLayout win).config_.gridRows * toInt (updateLayout win).cellHeight_ ∧
    (updateLayout win).gridWidth_ =
      (updateLayout win).config_.gridCols * toInt (updateLayout win).cellWidth_ := by
  have h := gridMetrics_int_cells win.config_.gridRows win.config_.gridCols win.width
    win.height hr hc hW hH hWmax hHmax
  unfold updateLayout
  rw [if_neg (by omega)]
  simp only
  rw [h.2.2.2.2.2.1, h.2.2.2.2.1]
  exact ⟨mul_comm _ _, mul_comm _ _⟩

/-- C23: separator lines are drawn only where the owner differs. On each
interior vertical boundary `c` (`0 < c < cols`) the emitted segments are, in
pixels, the maximal runs of rows `r` with `ownership[r][c-1] != ownership[r][c]`,
one segment per run, and symmetrically for the interior horizontal boundaries;
the four outer edges are drawn in full; no segment covers a row (column) where
both sides of the boundary lie in one cell. In a valid layout the two entries of
the map differ exactly when the two positions lie in different cells, so the
segments on an interior boundary are the maximal runs of the rows (columns)
whose two neighbouring positions belong to different cells: every such row is
covered by a segment and no other row is. A `2 x 2` grid whose single cell spans
all four positions emits the four outer edges only. -/
theorem C23_separator_lines_follow_ownership (win : MultiviewWindow)
    (hr : 1 ≤ win.config_.gridRows) (hc : 1 ≤ win.config_.gridCols)
    (hgh : win.gridHeight_ = win.config_.gridRows * toInt win.cellHeight_)
    (hgw : win.gridWidth_ = win.config_.gridCols * toInt win.cellWidth_) :
    paintEvent win =
      ((intRange 0 (win.config_.gridCols + 1)).map (verticalLines win
        (buildOwnership win.config_.gridRows win.config_.gridCols win.config_.cells))).flatten ++
      ((intRange 0 (win.config_.gridRows + 1)).map (horizontalLines win
        (buildOwnership win.config_.gridRows win.config_.gridCols win.config_.cells))).flatten ∧
    (∀ c : Int, 0 < c → c < win.config_.gridCols → ∃ runs : List (Int × Int),
      MaximalRuns win.config_.gridRows
        (fun row => decide (ownerEntry (buildOwnership win.config_.gridRows win.config_.gridCols
            win.config_.cells) row (c - 1) ≠
          ownerEntry (buildOwnership win.config_.gridRows win.config_.gridCols
            win.config_.cells) row c)) runs ∧
      verticalLines win (buildOwnership win.config_.gridRows win.config_.gridCols
          win.config_.cells) c =
        runs.map (fun run =>
          { x1 := win.gridOffsetX_ + c * toInt win.cellWidth_,
            y1 := win.gridOffsetY_ + run.1 * toInt win.cellHeight_,
            x2 := win.gridOffsetX_ + c * toInt win.cellWidth_,
            y2 := win.gridOffsetY_ + run.2 * toInt win.cellHeight_ })) ∧
    (∀ r : Int, 0 < r → r < win.config_.gridRows → ∃ runs : List (Int × Int),
      MaximalRuns win.config_.gridCols
        (fun col => decide (ownerEntry (buildOwnership win.config_.gridRows win.config_.gridCols
            win.config_.cells) (r - 1) col ≠
          ownerEntry (buildOwnership win.config_.gridRows win.config_.gridCols
            win.config_.cells) r col)) runs ∧
      horizontalLines win (buildOwnership win.config_.gridRows win.config_.gridCols
          win.config_.cells) r =
        runs.map (fun run =>
          { x1 := win.gridOffsetX_ + run.1 * toInt win.cellWidth_,
            y1 := win.gridOffsetY_ + r * toInt win.cellHeight_,
            x2 := win.gridOffsetX_ + run.2 * toInt win.cellWidth_,
            y2 := win.gridOffsetY_ + r * toInt win.cellHeight_ })) ∧
    (∀ own : List (List Int),
      verticalLines win own 0 =
        [{ x1 := win.gridOffsetX_ + 0 * toInt win.cellWidth_, y1 := win.gridOffsetY_,
           x2 := win.gridOffsetX_ + 0 * toInt win.cellWidth_,
           y2 := win.gridOffsetY_ + win.gridHeight_ }] ∧
      verticalLines win own win.config_.gridCols =
        [{ x1 := win.gridOffsetX_ + win.config_.gridCols * toInt win.cellWidth_,
           y1 := win.gridOffsetY_,
           x2 := win.gridOffsetX_ + win.config_.gridCols * toInt win.cellWidth_,
           y2 := win.gridOffsetY_ + win.gridHeight_ }] ∧
      horizontalLines win own 0 =
        [{ x1 := win.gridOffsetX_, y1 := win.gridOffsetY_ + 0 * toInt win.cellHeight_,
           x2 := win.gridOffsetX_ + win.gridWidth_,
           y2 := win.gridOffsetY_ + 0 * toInt win.cellHeight_ }] ∧
      horizontalLines win own win.config_.gridRows =
        [{ x1 := win.gridOffsetX_,
           y1 := win.gridOffsetY_ + win.config_.gridRows * toInt win.cellHeight_,
           x2 := win.gridOffsetX_ + win.gridWidth_,
           y2 := win.gridOffsetY_ + win.config_.gridRows * toInt win.cellHeight_ }]) ∧
    (ValidLayout win.config_.gridRows win.config_.gridCols win.config_.cells →
      ∀ cell ∈ win.config_.cells, ∀ r c : Int,
        (inSpan cell r (c - 1) → inSpan cell r c →
          ∀ runs : List (Int × Int), MaximalRuns win.config_.gridRows
            (fun row => decide (ownerEntry (buildOwnership win.config_.gridRows
                win.config_.gridCols win.config_.cells) row (c - 1) ≠
              ownerEntry (buildOwnership win.config_.gridRows win.config_.gridCols
                win.config_.cells) row c)) runs →
            ∀ run ∈ runs, ¬ (run.1 ≤ r ∧ r < run.2)) ∧
        (inSpan cell (r - 1) c → inSpan cell r c →
          ∀ runs : List (Int × Int), MaximalRuns win.config_.gridCols
            (fun col => decide (ownerEntry (buildOwnership win.config_.gridRows
                win.config_.gridCols win.config_.cells) (r - 1) col ≠
              ownerEntry (buildOwnership win.config_.gridRows win.config_.gridCols
                win.config_.cells) r col)) runs →
            ∀ run ∈ runs, ¬ (run.1 ≤ c ∧ c < run.2))) ∧
    (ValidLayout win.config_.gridRows win.config_.gridCols win.config_.cells →
      (∀ r c : Int, 0 ≤ r → r < win.config_.gridRows → 0 < c → c < win.config_.gridCols →
        (ownerEntry (buildOwnership win.config_.gridRows win.config_.gridCols
              win.config_.cells) r (c - 1) ≠
            ownerEntry (buildOwnership win.config_.gridRows win.config_.gridCols
              win.config_.cells) r c ↔
          sameCell win.config_.cells r (c - 1) r c = false)) ∧
      (∀ r c : Int, 0 < r → r < win.config_.gridRows → 0 ≤ c → c < win.config_.gridCols →
        (ownerEntry (buildOwnership win.config_.gridRows win.config_.gridCols
              win.config_.cells) (r - 1) c ≠
            ownerEntry (buildOwnership win.config_.gridRows win.config_.gridCols
              win.config_.cells) r c ↔
          sameCell win.config_.cells (r - 1) c r c = false)) ∧
      (∀ c : Int, 0 < c → c < win.config_.gridCols →
        MaximalRuns win.config_.gridRows
          (fun row => !sameCell win.config_.cells row (c - 1) row c)
          (scanSegments win.config_.gridRows
            (fun row => !sameCell win.config_.cells row (c - 1) row c) id
            win.config_.gridRows) ∧
        verticalLines win (buildOwnership win.config_.gridRows win.config_.gridCols
            win.config_.cells) c =
          (scanSegments win.config_.gridRows
            (fun row => !sameCell win.config_.cells row (c - 1) row c) id
            win.config_.gridRows).map (fun run =>
            { x1 := win.gridOffsetX_ + c * toInt win.cellWidth_,
              y1 := win.gridOffsetY_ + run.1 * toInt win.cellHeight_,
              x2 := win.gridOffsetX_ + c * toInt win.cellWidth_,
              y2 := win.gridOffsetY_ + run.2 * toInt win.cellHeight_ }) ∧
        ∀ r : Int, 0 ≤ r → r < win.config_.gridRows →
          sameCell win.config_.cells r (c - 1) r c = false →
          ∃ line ∈ verticalLines win (buildOwnership win.config_.gridRows win.config_.gridCols
              win.config_.cells) c,
            line.x1 = win.gridOffsetX_ + c * toInt win.cellWidth_ ∧
            line.x2 = win.gridOffsetX_ + c * toInt win.cellWidth_ ∧
            ∃ s e : Int, s ≤ r ∧ r < e ∧
              line.y1 = win.gridOffsetY_ + s * toInt win.cellHeight_ ∧
              line.y2 = win.gridOffsetY_ + e * toInt win.cellHeight_) ∧
      (∀ r : Int, 0 < r → r < win.config_.gridRows →
        MaximalRuns win.config_.gridCols
          (fun col => !sameCell win.config_.cells (r - 1) col r col)
          (scanSegments win.config_.gridCols
            (fun col => !sameCell win.config_.cells (r - 1) col r col) id
            win.config_.gridCols) ∧
        horizontalLines win (buildOwnership win.config_.gridRows win.config_.gridCols
            win.config_.cells) r =
          (scanSegments win.config_.gridCols
            (fun col => !sameCell win.config_.cells (r - 1) col r col) id
            win.config_.gridCols).map (fun run =>
            { x1 := win.gridOffsetX_ + run.1 * toInt win.cellWidth_,
              y1 := win.gridOffsetY_ + r * toInt win.cellHeight_,
              x2 := win.gridOffsetX_ + run.2 * toInt win.cellWidth_,
              y2 := win.gridOffsetY_ + r * toInt win.cellHeight_ }) ∧
        ∀ c : Int, 0 ≤ c → c < win.config_.gridCols →
          sameCell win.config_.cells (r - 1) c r c = false →
          ∃ line ∈ horizontalLines win (buildOwnership win.config_.gridRows
              win.config_.gridCols win.config_.cells) r,
            line.y1 = win.gridOffsetY_ + r * toInt win.cellHeight_ ∧
            line.y2 = win.gridOffsetY_ + r * toInt win.cellHeight_ ∧
            ∃ s e : Int, s ≤ c ∧ c < e ∧
              line.x1 = win.gridOffsetX_ + s * toInt win.cellWidth_ ∧
              line.x2 = win.gridOffsetX_ + e * toInt win.cellWidth_)) ∧
    (win.config_.gridRows = 2 → win.config_.gridCols = 2 →
      win.config_.cells = [{ row := 0, col := 0, rowSpan := 2, colSpan := 2 }] →
      paintEvent win =
        [{ x1 := win.gridOffsetX_ + 0 * toInt win.cellWidth_, y1 := win.gridOffsetY_,
           x2 := win.gridOffsetX_ + 0 * toInt win.cellWidth_,
           y2 := win.gridOffsetY_ + win.gridHeight_ },
         { x1 := win.gridOffsetX_ + 2 * toInt win.cellWidth_, y1 := win.gridOffsetY_,
           x2 := win.gridOffsetX_ + 2 * toInt win.cellWidth_,
           y2 := win.gridOffsetY_ + win.gridHeight_ },
         { x1 := win.gridOffsetX_, y1 := win.gridOffsetY_ + 0 * toInt win.cellHeight_,
           x2 := win.gridOffsetX_ + win.gridWidth_,
           y2 := win.gridOffsetY_ + 0 * toInt win.cellHeight_ },
         { x1 := win.gridOffsetX_, y1 := win.gridOffsetY_ + 2 * toInt win.cellHeight_,
           x2 := win.gridOffsetX_ + win.gridWidth_,
           y2 := win.gridOffsetY_ + 2 * toInt win.cellHeight_ }]) := by
  refine ⟨?_, ?_, ?_, ?_, ?_, ?_, ?_⟩
  · unfold paintEvent
    rw [if_neg (by omega)]
  · intro c h0 h1
    exact ⟨_, scanSegments_maximalRuns _ (by omega) _, verticalLines_interior win _ c h0 h1 hgh⟩
  · intro r h0 h1
    exact ⟨_, scanSegments_maximalRuns _ (by omega) _, horizontalLines_interior win _ r h0 h1 hgw⟩
  · intro own
    refine ⟨?_, ?_, ?_, ?_⟩
    · unfold verticalLines
      simp only [true_or, if_true]
    · unfold verticalLines
      simp only [or_true, if_true]
    · unfold horizontalLines
      simp only [true_or, if_true]
    · unfold horizontalLines
      simp only [or_true, if_true]
  · intro hv cell hcell r c
    constructor
    · intro h1 h2 runs hruns run hrun ⟨ha, hb⟩
      have hneed := (hruns.1 run hrun).2.2.2.1 r ha hb
      have hsame := ownerEntry_same_cell _ _ _ hv cell hcell r (c - 1) r c h1 h2
      simp only [hsame, ne_eq, not_true_eq_false, decide_False] at hneed
      exact Bool.noConfusion hneed
    · intro h1 h2 runs hruns run hrun ⟨ha, hb⟩
      have hneed := (hruns.1 run hrun).2.2.2.1 c ha hb
      have hsame := ownerEntry_same_cell _ _ _ hv cell hcell (r - 1) c r c h1 h2
      simp only [hsame, ne_eq, not_true_eq_false, decide_False] at hneed
      exact Bool.noConfusion hneed
  · intro hv
    have hV : ∀ r c : Int, 0 ≤ r → r < win.config_.gridRows → 0 < c →
        c < win.config_.gridCols →
        (ownerEntry (buildOwnership win.config_.gridRows win.config_.gridCols
              win.config_.cells) r (c - 1) ≠
            ownerEntry (buildOwnership win.config_.gridRows win.config_.gridCols
              win.config_.cells) r c ↔
          sameCell win.config_.cells r (c - 1) r c = false) := by
      intro r c hr0 hr1 hc0 hc1
      exact ownerEntry_ne_iff _ _ _ hv r (c - 1) r c ⟨hr0, hr1, by omega, by omega⟩
        ⟨hr0, hr1, by omega, hc1⟩
    have hH : ∀ r c : Int, 0 < r → r < win.config_.gridRows → 0 ≤ c →
        c < win.config_.gridCols →
        (ownerEntry (buildOwnership win.config_.gridRows win.config_.gridCols
              win.config_.cells) (r - 1) c ≠
            ownerEntry (buildOwnership win.config_.gridRows win.config_.gridCols
              win.config_.cells) r c ↔
          sameCell win.config_.cells (r - 1) c r c = false) := by
      intro r c hr0 hr1 hc0 hc1
      exact ownerEntry_ne_iff _ _ _ hv (r - 1) c r c ⟨by omega, by omega, hc0, hc1⟩
        ⟨by omega, hr1, hc0, hc1⟩
    have hneedV : ∀ c : Int, 0 < c → c < win.config_.gridCols →
        ∀ k, 0 ≤ k → k < win.config_.gridRows →
        decide (ownerEntry (buildOwnership win.config_.gridRows win.config_.gridCols
              win.config_.cells) k (c - 1) ≠
            ownerEntry (buildOwnership win.config_.gridRows win.config_.gridCols
              win.config_.cells) k c) = !sameCell win.config_.cells k (c - 1) k c := by
      intro c hc0 hc1 k hk0 hk1
      have h := hV k c hk0 hk1 hc0 hc1
      cases hs : sameCell win.config_.cells k (c - 1) k c
      · exact decide_eq_true (h.mpr hs)
      · apply decide_eq_false
        intro hne
        have := h.mp hne
        rw [hs] at this
        exact Bool.noConfusion this
    have hneedH : ∀ r : Int, 0 < r → r < win.config_.gridRows →
        ∀ k, 0 ≤ k → k < win.config_.gridCols →
        decide (ownerEntry (buildOwnership win.config_.gridRows win.config_.gridCols
              win.config_.cells) (r - 1) k ≠
            ownerEntry (buildOwnership win.config_.gridRows win.config_.gridCols
              win.config_.cells) r k) = !sameCell win.config_.cells (r - 1) k r k := by
      intro r hr0 hr1 k hk0 hk1
      have h := hH r k hr0 hr1 hk0 hk1
      cases hs : sameCell win.config_.cells (r - 1) k r k
      · exact decide_eq_true (h.mpr hs)
      · apply decide_eq_false
        intro hne
        have := h.mp hne
        rw [hs] at this
        exact Bool.noConfusion this
    refine ⟨hV, hH, ?_, ?_⟩
    · intro c hc0 hc1
      have hcongr := scanSegments_congr win.config_.gridRows _ _ id win.config_.gridRows
        (hneedV c hc0 hc1)
      have hmax : MaximalRuns win.config_.gridRows
          (fun row => !sameCell win.config_.cells row (c - 1) row c)
          (scanSegments win.config_.gridRows
            (fun row => !sameCell win.config_.cells row (c - 1) row c) id
            win.config_.gridRows) := scanSegments_maximalRuns _ (by omega) _
      have hlines := verticalLines_interior win (buildOwnership win.config_.gridRows
        win.config_.gridCols win.config_.cells) c hc0 hc1 hgh
      rw [hcongr] at hlines
      refine ⟨hmax, hlines, ?_⟩
      intro r hr0 hr1 hs
      obtain ⟨run, hrun, hlo, hhi⟩ := hmax.2.2 r hr0 hr1 (by simp only [hs, Bool.not_false])
      rw [hlines]
      exact ⟨_, List.mem_map_of_mem _ hrun, rfl, rfl, run.1, run.2, hlo, hhi, rfl, rfl⟩
    · intro r hr0 hr1
      have hcongr := scanSegments_congr win.config_.gridCols _ _ id win.config_.gridCols
        (hneedH r hr0 hr1)
      have hmax : MaximalRuns win.config_.gridCols
          (fun col => !sameCell win.config_.cells (r - 1) col r col)
          (scanSegments win.config_.gridCols
            (fun col => !sameCell win.config_.cells (r - 1) col r col) id
            win.config_.gridCols) := scanSegments_maximalRuns _ (by omega) _
      have hlines := horizontalLines_interior win (buildOwnership win.config_.gridRows
        win.config_.gridCols win.config_.cells) r hr0 hr1 hgw
      rw [hcongr] at hlines
      refine ⟨hmax, hlines, ?_⟩
      intro c hc0 hc1 hs
      obtain ⟨run, hrun, hlo, hhi⟩ := hmax.2.2 c hc0 hc1 (by simp only [hs, Bool.not_false])
      rw [hlines]
      exact ⟨_, List.mem_map_of_mem _ hrun, rfl, rfl, run.1, run.2, hlo, hhi, rfl, rfl⟩
  · intro h2r h2c hcells
    exact paintEvent_one_cell win h2r h2c hcells

/-- Instances of C23. The window `windowOneCell`, whose single cell spans the
`2 x 2` grid, draws after `updateLayout` the four outer edges and nothing else.
The window `windowThreeCells` (the left column one cell, the right column two
cells) draws six lines: the left edge, the interior vertical boundary over both
rows, the right edge, the top edge, the interior horizontal boundary over the
right column only, and the bottom edge. -/
theorem C23_separator_lines_follow_ownership_witness :
    (1 : Int) ≤ 2 ∧ (3 : Int) ≤ 600 ∧ (1000 : Int) ≤ 2 ^ 23 ∧
    paintEvent (updateLayout windowOneCell) =
      [{ x1 := (updateLayout windowOneCell).gridOffsetX_ + 0 * toInt (updateLayout windowOneCell).cellWidth_,
         y1 := (updateLayout windowOneCell).gridOffsetY_,
         x2 := (updateLayout windowOneCell).gridOffsetX_ + 0 * toInt (updateLayout windowOneCell).cellWidth_,
         y2 := (updateLayout windowOneCell).gridOffsetY_ + (updateLayout windowOneCell).gridHeight_ },
       { x1 := (updateLayout windowOneCell).gridOffsetX_ + 2 * toInt (updateLayout windowOneCell).cellWidth_,
         y1 := (updateLayout windowOneCell).gridOffsetY_,
         x2 := (updateLayout windowOneCell).gridOffsetX_ + 2 * toInt (updateLayout windowOneCell).cellWidth_,
         y2 := (updateLayout windowOneCell).gridOffsetY_ + (updateLayout windowOneCell).gridHeight_ },
       { x1 := (updateLayout windowOneCell).gridOffsetX_,
         y1 := (updateLayout windowOneCell).gridOffsetY_ + 0 * toInt (updateLayout windowOneCell).cellHeight_,
         x2 := (updateLayout windowOneCell).gridOffsetX_ + (updateLayout windowOneCell).gridWidth_,
         y2 := (updateLayout windowOneCell).gridOffsetY_ + 0 * toInt (updateLayout windowOneCell).cellHeight_ },
       { x1 := (updateLayout windowOneCell).gridOffsetX_,
         y1 := (updateLayout windowOneCell).gridOffsetY_ + 2 * toInt (updateLayout windowOneCell).cellHeight_,
         x2 := (updateLayout windowOneCell).gridOffsetX_ + (updateLayout windowOneCell).gridWidth_,
         y2 := (updateLayout windowOneCell).gridOffsetY_ + 2 * toInt (updateLayout windowOneCell).cellHeight_ }] ∧
    paintEvent (updateLayout windowThreeCells) =
      [{ x1 := (updateLayout windowThreeCells).gridOffsetX_ + 0 * toInt (updateLayout windowThreeCells).cellWidth_,
         y1 := (updateLayout windowThreeCells).gridOffsetY_,
         x2 := (updateLayout windowThreeCells).gridOffsetX_ + 0 * toInt (updateLayout windowThreeCells).cellWidth_,
         y2 := (updateLayout windowThreeCells).gridOffsetY_ + (updateLayout windowThreeCells).gridHeight_ },
       { x1 := (updateLayout windowThreeCells).gridOffsetX_ + 1 * toInt (updateLayout windowThreeCells).cellWidth_,
         y1 := (updateLayout windowThreeCells).gridOffsetY_ + 0 * toInt (updateLayout windowThreeCells).cellHeight_,
         x2 := (updateLayout windowThreeCells).gridOffsetX_ + 1 * toInt (updateLayout windowThreeCells).cellWidth_,
         y2 := (updateLayout windowThreeCells).gridOffsetY_ + 2 * toInt (updateLayout windowThreeCells).cellHeight_ },
       { x1 := (updateLayout windowThreeCells).gridOffsetX_ + 2 * toInt (updateLayout windowThreeCells).cellWidth_,
         y1 := (updateLayout windowThreeCells).gridOffsetY_,
         x2 := (updateLayout windowThreeCells).gridOffsetX_ + 2 * toInt (updateLayout windowThreeCells).cellWidth_,
         y2 := (updateLayout windowThreeCells).gridOffsetY_ + (updateLayout windowThreeCells).gridHeight_ },
       { x1 := (updateLayout windowThreeCells).gridOffsetX_,
         y1 := (updateLayout windowThreeCells).gridOffsetY_ + 0 * toInt (updateLayout windowThreeCells).cellHeight_,
         x2 := (updateLayout windowThreeCells).gridOffsetX_ + (updateLayout windowThreeCells).gridWidth_,
         y2 := (updateLayout windowThreeCells).gridOffsetY_ + 0 * toInt (updateLayout windowThreeCells).cellHeight_ },
       { x1 := (updateLayout windowThreeCells).gridOffsetX_ + 1 * toInt (updateLayout windowThreeCells).cellWidth_,
         y1 := (updateLayout windowThreeCells).gridOffsetY_ + 1 * toInt (updateLayout windowThreeCells).cellHeight_,
         x2 := (updateLayout windowThreeCells).gridOffsetX_ + 2 * toInt (updateLayout windowThreeCells).cellWidth_,
         y2 := (updateLayout windowThreeCells).gridOffsetY_ + 1 * toInt (updateLayout windowThreeCells).cellHeight_ },
       { x1 := (updateLayout windowThreeCells).gridOffsetX_,
         y1 := (updateLayout windowThreeCells).gridOffsetY_ + 2 * toInt (updateLayout windowThreeCells).cellHeight_,
         x2 := (updateLayout windowThreeCells).gridOffsetX_ + (updateLayout windowThreeCells).gridWidth_,
         y2 := (updateLayout windowThreeCells).gridOffsetY_ + 2 * toInt (updateLayout windowThreeCells).cellHeight_ }] := by
  have one := (C23_separator_lines_follow_ownership (updateLayout windowOneCell)
      (by rw [updateLayout_config]; decide) (by rw [updateLayout_config]; decide)
      (updateLayout_grid_exact windowOneCell (by decide) (by decide) (by decide) (by decide)
        (by decide) (by decide)).1
      (updateLayout_grid_exact windowOneCell (by decide) (by decide) (by decide) (by decide)
        (by decide) (by decide)).2).2.2.2.2.2.2
      (by rw [updateLayout_config]; rfl) (by rw [updateLayout_config]; rfl)
      (by rw [updateLayout_config]; rfl)
  have er : (updateLayout windowThreeCells).config_.gridRows = 2 := by
    rw [updateLayout_config]; rfl
  have ec : (updateLayout windowThreeCells).config_.gridCols = 2 := by
    rw [updateLayout_config]; rfl
  have ecells : (updateLayout windowThreeCells).config_.cells =
      [{ row := 0, col := 0, rowSpan := 2, colSpan := 1 },
       { row := 0, col := 1, rowSpan := 1, colSpan := 1 },
       { row := 1, col := 1, rowSpan := 1, colSpan := 1 }] := by
    rw [updateLayout_config]; rfl
  have hex := updateLayout_grid_exact windowThreeCells (by decide) (by decide) (by decide)
    (by decide) (by decide) (by decide)
  obtain ⟨hpaint, -, -, hedges, -, hnew, -⟩ :=
    C23_separator_lines_follow_ownership (updateLayout windowThreeCells)
      (by rw [er]; decide) (by rw [ec]; decide) hex.1 hex.2
  have hv : ValidLayout (updateLayout windowThreeCells).config_.gridRows
      (updateLayout windowThreeCells).config_.gridCols
      (updateLayout windowThreeCells).config_.cells := by
    rw [er, ec, ecells]
    exact validLayout_of_check _ _ _ (by decide)
  obtain ⟨-, -, hV, hH⟩ := hnew hv
  have hV1 := (hV 1 (by decide) (by rw [ec]; decide)).2.1
  have hH1 := (hH 1 (by decide) (by rw [er]; decide)).2.1
  have hE := hedges (buildOwnership 2 2
    [{ row := 0, col := 0, rowSpan := 2, colSpan := 1 },
     { row := 0, col := 1, rowSpan := 1, colSpan := 1 },
     { row := 1, col := 1, rowSpan := 1, colSpan := 1 }])
  have sV : scanSegments 2 (fun row => !sameCell
      [{ row := 0, col := 0, rowSpan := 2, colSpan := 1 },
       { row := 0, col := 1, rowSpan := 1, colSpan := 1 },
       { row := 1, col := 1, rowSpan := 1, colSpan := 1 }] row (1 - 1) row 1) id 2 =
      [(0, 2)] := by decide
  have sH : scanSegments 2 (fun col => !sameCell
      [{ row := 0, col := 0, rowSpan := 2, colSpan := 1 },
       { row := 0, col := 1, rowSpan := 1, colSpan := 1 },
       { row := 1, col := 1, rowSpan := 1, colSpan := 1 }] (1 - 1) col 1 col) id 2 =
      [(1, 2)] := by decide
  have r3 : intRange 0 (2 + 1) = [0, 1, 2] := by decide
  rw [er, ec, ecells, sV] at hV1
  rw [er, ec, ecells, sH] at hH1
  rw [er, ec] at hE
  refine ⟨by decide, by decide, by decide, one, ?_⟩
  rw [hpaint, er, ec, ecells, r3]
  simp only [List.map_cons, List.map_nil, List.flatten_cons, List.flatten_nil, List.append_nil,
    hE.1, hE.2.1, hE.2.2.1, hE.2.2.2, hV1, hH1, List.cons_append, List.nil_append]

/-! ## C24 -/

/-- Counterexample for C24 as stated: a `Canvas` cell naming a canvas that is
not found draws the main output texture as a fallback. -/
theorem C24_missing_canvas_counterexample :
    obsNothingFound.canvasByName "Stage" = none ∧
    render obsNothingFound { type := WidgetType.Canvas, canvasName := "Stage" } 1280 720 =
      [DrawCall.fit 1920 1080 1280 720, DrawCall.mainTexture, DrawCall.label 1280 720] ∧
    DrawCall.mainTexture.isContent = true := by
  refine ⟨rfl, by decide, rfl⟩

/-- C24 (amended): a failed lookup of a scene or a source renders nothing. On a
tick with `cx, cy > 0` a `Scene` or `Source` cell whose named entity is not
found draws no content: the tick consists of the label overlay only. A `Canvas`
cell whose named canvas is not found falls back to the main output texture,
fitted to the cell, provided the video info is available with a non-zero base
size, and then attempts the label. -/
theorem C24_failed_lookup_of_scene_or_source (obs : ObsState) (widget : WidgetConfig)
    (cx cy : UInt32Val) (hcx : cx ≠ 0) (hcy : cy ≠ 0) :
    (widget.type = WidgetType.Scene → obs.sourceByName widget.sceneName = none →
      render obs widget cx cy = [DrawCall.label cx cy]) ∧
    (widget.type = WidgetType.Source → obs.sourceByName widget.sourceName = none →
      render obs widget cx cy = [DrawCall.label cx cy]) ∧
    (widget.type = WidgetType.Canvas → widget.canvasName ≠ "" →
      obs.canvasByName widget.canvasName = none →
      (∀ ovi, obs.videoInfo = some ovi → ovi.base_width ≠ 0 → ovi.base_height ≠ 0 →
        render obs widget cx cy =
          [DrawCall.fit (toInt32 ovi.base_width) (toInt32 ovi.base_height) (toInt32 cx)
            (toInt32 cy), DrawCall.mainTexture, DrawCall.label cx cy]) ∧
      (obs.videoInfo = none → render obs widget cx cy = [DrawCall.label cx cy]) ∧
      (∀ ovi, obs.videoInfo = some ovi → (ovi.base_width = 0 ∨ ovi.base_height = 0) →
        render obs widget cx cy = [DrawCall.label cx cy])) := by
  have hc : ¬ (cx = 0 ∨ cy = 0) := by
    rintro (h | h)
    · exact hcx h
    · exact hcy h
  refine ⟨?_, ?_, ?_⟩
  · intro ht hl
    unfold render
    rw [if_neg hc, ht]
    simp only [hl, ite_self, List.nil_append]
  · intro ht hl
    unfold render
    rw [if_neg hc, ht]
    simp only [hl, ite_self, List.nil_append]
  · intro ht hn hl
    unfold render
    rw [if_neg hc, ht]
    unfold renderCanvas
    simp only [hn, ne_eq, not_false_eq_true, if_true, hl]
    refine ⟨?_, ?_, ?_⟩
    · intro ovi hv hw hh
      simp only [hv, hw, hh, or_self, if_false, List.cons_append, List.nil_append]
    · intro hv
      simp only [hv, List.nil_append]
    · intro ovi hv hz
      simp only [hv, hz, if_true, List.nil_append]

/-- Instance of C24: a `Scene` cell whose scene is not found draws the label
overlay only. -/
theorem C24_failed_lookup_of_scene_or_source_witness :
    (1280 : UInt32Val) ≠ 0 ∧ (720 : UInt32Val) ≠ 0 ∧
    obsNothingFound.sourceByName "Intro" = none ∧
    render obsNothingFound { type := WidgetType.Scene, sceneName := "Intro" } 1280 720 =
      [DrawCall.label 1280 720] :=
  ⟨by decide, by decide, rfl,
    (C24_failed_lookup_of_scene_or_source obsNothingFound
      { type := WidgetType.Scene, sceneName := "Intro" } 1280 720 (by decide) (by decide)).1
      rfl rfl⟩

/-! ## C27 -/

theorem toInt32_ne_zero (n : UInt32Val) (h : n ≠ 0) : toInt32 n ≠ 0 := by
  have h1 : n.val ≠ 0 := fun e => h (Fin.ext e)
  have h2 := n.isLt
  unfold toInt32
  split_ifs <;> omega

theorem renderSource_fit (source : ObsSource) (cx cy : UInt32Val) (hcx : cx ≠ 0) (hcy : cy ≠ 0)
    (call : DrawCall) (hin : call ∈ renderSource source cx cy) (a b c d : Int)
    (he : call = DrawCall.fit a b c d) : a ≠ 0 ∧ b ≠ 0 ∧ c ≠ 0 ∧ d ≠ 0 := by
  unfold renderSource at hin
  split_ifs at hin with hz
  · exact absurd hin (List.not_mem_nil _)
  · rw [not_or] at hz
    subst he
    simp only [List.mem_cons, DrawCall.fit.injEq, List.mem_singleton, List.not_mem_nil,
      or_false, reduceCtorEq] at hin
    obtain ⟨rfl, rfl, rfl, rfl⟩ := hin
    exact ⟨toInt32_ne_zero _ hz.1, toInt32_ne_zero _ hz.2, toInt32_ne_zero _ hcx,
      toInt32_ne_zero _ hcy⟩

theorem renderPreviewProgram_fit (obs : ObsState) (cx cy : UInt32Val) (isProgram : Bool)
    (hcx : cx ≠ 0) (hcy : cy ≠ 0)
    (call : DrawCall) (hin : call ∈ renderPreviewProgram obs cx cy isProgram) (a b c d : Int)
    (he : call = DrawCall.fit a b c d) : a ≠ 0 ∧ b ≠ 0 ∧ c ≠ 0 ∧ d ≠ 0 := by
  unfold renderPreviewProgram at hin
  subst he
  cases hv : obs.videoInfo with
  | none => rw [hv] at hin; exact absurd hin (List.not_mem_nil _)
  | some ovi =>
    rw [hv] at hin
    simp only at hin
    split_ifs at hin with hz h2
    · exact absurd hin (List.not_mem_nil _)
    · rw [not_or] at hz
      simp only [List.mem_cons, DrawCall.fit.injEq, List.mem_singleton, List.not_mem_nil,
        or_false, reduceCtorEq] at hin
      obtain ⟨rfl, rfl, rfl, rfl⟩ := hin
      exact ⟨toInt32_ne_zero _ hz.1, toInt32_ne_zero _ hz.2, toInt32_ne_zero _ hcx,
        toInt32_ne_zero _ hcy⟩
    · rw [not_or] at hz
      cases hp : obs.currentPreviewScene with
      | none =>
        rw [hp] at hin
        simp only [List.mem_cons, DrawCall.fit.injEq, List.not_mem_nil, or_false] at hin
        obtain ⟨rfl, rfl, rfl, rfl⟩ := hin
        exact ⟨toInt32_ne_zero _ hz.1, toInt32_ne_zero _ hz.2, toInt32_ne_zero _ hcx,
          toInt32_ne_zero _ hcy⟩
      | some s =>
        rw [hp] at hin
        simp only [List.mem_cons, DrawCall.fit.injEq, List.mem_singleton, List.not_mem_nil,
          or_false, reduceCtorEq] at hin
        obtain ⟨rfl, rfl, rfl, rfl⟩ := hin
        exact ⟨toInt32_ne_zero _ hz.1, toInt32_ne_zero _ hz.2, toInt32_ne_zero _ hcx,
          toInt32_ne_zero _ hcy⟩
theorem renderCanvas_fit (obs : ObsState) (widget : WidgetConfig) (cx cy : UInt32Val)
    (hcx : cx ≠ 0) (hcy : cy ≠ 0)
    (call : DrawCall) (hin : call ∈ renderCanvas obs widget cx cy) (a b c d : Int)
    (he : call = DrawCall.fit a b c d) : a ≠ 0 ∧ b ≠ 0 ∧ c ≠ 0 ∧ d ≠ 0 := by
  have key : ∀ (ovi : ObsVideoInfo) (tail : DrawCall), tail ≠ DrawCall.fit a b c d →
      DrawCall.fit a b c d ∈
        (if ovi.base_width = 0 ∨ ovi.base_height = 0 then []
         else [DrawCall.fit (toInt32 ovi.base_width) (toInt32 ovi.base_height) (toInt32 cx)
            (toInt32 cy), tail]) →
      a ≠ 0 ∧ b ≠ 0 ∧ c ≠ 0 ∧ d ≠ 0 := by
    intro ovi tail ht hm
    split_ifs at hm with hz
    · exact absurd hm (List.not_mem_nil _)
    · rw [not_or] at hz
      rcases List.mem_cons.mp hm with h | h
      · simp only [DrawCall.fit.injEq] at h
        obtain ⟨rfl, rfl, rfl, rfl⟩ := h
        exact ⟨toInt32_ne_zero _ hz.1, toInt32_ne_zero _ hz.2, toInt32_ne_zero _ hcx,
          toInt32_ne_zero _ hcy⟩
      · rw [List.mem_singleton] at h
        exact absurd h.symm ht
  unfold renderCanvas at hin
  subst he
  simp only at hin
  split at hin
  · split at hin
    · exact absurd hin (List.not_mem_nil _)
    · exact key _ DrawCall.mainTexture (fun h => DrawCall.noConfusion h) hin
  · split at hin
    · exact absurd hin (List.not_mem_nil _)
    · exact key _ (DrawCall.canvasTexture _) (fun h => DrawCall.noConfusion h) hin

/-- C27: degenerate geometry never reaches the fit computation. On every
rendering path every call of `GetScaleAndCenterPos` made by `render` has four
non-zero arguments, so none of its divisions sees a zero denominator: a tick
with `cx = 0` or `cy = 0` makes no call at all, and `renderSource`,
`renderPreviewProgram` and `renderCanvas` make no call and draw nothing when
the native width or height of the content is zero. -/
theorem C27_fit_never_sees_zero (obs : ObsState) (widget : WidgetConfig) (cx cy : UInt32Val) :
    (∀ call ∈ render obs widget cx cy, ∀ a b c d : Int, call = DrawCall.fit a b c d →
      a ≠ 0 ∧ b ≠ 0 ∧ c ≠ 0 ∧ d ≠ 0) ∧
    ((cx = 0 ∨ cy = 0) → render obs widget cx cy = []) ∧
    (∀ source : ObsSource, (source.width = 0 ∨ source.height = 0) →
      renderSource source cx cy = []) ∧
    (∀ (ovi : ObsVideoInfo) (isProgram : Bool), obs.videoInfo = some ovi →
      (ovi.base_width = 0 ∨ ovi.base_height = 0) →
      renderPreviewProgram obs cx cy isProgram = []) ∧
    (∀ (cv : ObsCanvas) (ovi : ObsVideoInfo),
      (if widget.canvasName ≠ "" then obs.canvasByName widget.canvasName else obs.mainCanvas) =
        some cv →
      cv.videoInfo = some ovi → (ovi.base_width = 0 ∨ ovi.base_height = 0) →
      renderCanvas obs widget cx cy = []) ∧
    (∀ ovi : ObsVideoInfo,
      (if widget.canvasName ≠ "" then obs.canvasByName widget.canvasName else obs.mainCanvas) =
        none →
      obs.videoInfo = some ovi → (ovi.base_width = 0 ∨ ovi.base_height = 0) →
      renderCanvas obs widget cx cy = []) := by
  refine ⟨?_, ?_, ?_, ?_, ?_, ?_⟩
  · intro call hin a b c d he
    have hlabel : call ≠ DrawCall.label cx cy := by
      rw [he]; exact fun h => DrawCall.noConfusion h
    have hopt : ∀ o : Option ObsSource, cx ≠ 0 → cy ≠ 0 →
        call ∈ (match o with
          | some src => renderSource src cx cy
          | none => []) → a ≠ 0 ∧ b ≠ 0 ∧ c ≠ 0 ∧ d ≠ 0 := by
      intro o h1 h2 hm
      cases o with
      | none => exact absurd hm (List.not_mem_nil _)
      | some src => exact renderSource_fit src cx cy h1 h2 call hm a b c d he
    unfold render at hin
    by_cases hz : cx = 0 ∨ cy = 0
    · rw [if_pos hz] at hin
      exact absurd hin (List.not_mem_nil _)
    · rw [if_neg hz] at hin
      rw [not_or] at hz
      cases ht : widget.type <;> rw [ht] at hin <;> simp only at hin
      · exact absurd hin (List.not_mem_nil _)
      · rcases List.mem_append.mp hin with h | h
        · exact renderPreviewProgram_fit obs cx cy false hz.1 hz.2 call h a b c d he
        · exact absurd (List.mem_singleton.mp h) hlabel
      · rcases List.mem_append.mp hin with h | h
        · exact renderPreviewProgram_fit obs cx cy true hz.1 hz.2 call h a b c d he
        · exact absurd (List.mem_singleton.mp h) hlabel
      · rcases List.mem_append.mp hin with h | h
        · exact renderCanvas_fit obs widget cx cy hz.1 hz.2 call h a b c d he
        · exact absurd (List.mem_singleton.mp h) hlabel
      · rcases List.mem_append.mp hin with h | h
        · exact hopt _ hz.1 hz.2 h
        · exact absurd (List.mem_singleton.mp h) hlabel
      · rcases List.mem_append.mp hin with h | h
        · exact hopt _ hz.1 hz.2 h
        · exact absurd (List.mem_singleton.mp h) hlabel
      · subst he
        simp only [List.mem_cons, List.mem_singleton, List.not_mem_nil, or_false,
          reduceCtorEq] at hin
  · intro hz
    unfold render
    rw [if_pos hz]
  · intro source hz
    unfold renderSource
    rw [if_pos hz]
  · intro ovi isProgram hv hz
    unfold renderPreviewProgram
    rw [hv]
    simp only [hz, if_true]
  · intro cv ovi hcv hv hz
    unfold renderCanvas
    simp only [hcv, hv, hz, if_true]
  · intro ovi hcv hv hz
    unfold renderCanvas
    simp only [hcv, hv, hz, if_true]

/-- Instance of C27: a tick of width zero draws nothing and makes no call, and a
source of height zero is skipped. -/
theorem C27_fit_never_sees_zero_witness :
    render obsNothingFound { type := WidgetType.Program } 0 720 = [] ∧
    renderSource { name := "Cam", width := 1920, height := 0 } 1280 720 = [] :=
  ⟨(C27_fit_never_sees_zero obsNothingFound { type := WidgetType.Program } 0 720).2.1
      (Or.inl rfl),
    (C27_fit_never_sees_zero obsNothingFound { type := WidgetType.Program } 1280 720).2.2.1
      { name := "Cam", width := 1920, height := 0 } (Or.inr rfl)⟩

/-! ## C25 -/

theorem ite_lt_sixteen (a : Int) : (if a < 16 then 16 else a) = max 16 a := by
  split_ifs with h
  · exact (max_eq_left (by omega)).symm
  · exact (max_eq_right (by omega)).symm

/-- A tick that finds the texture of the desired size draws it and creates nothing. -/
theorem renderPlaceholderIcon_hit (env : IconEnv) (r : CellRenderer) (cx cy : UInt32Val)
    (hpath : r.placeholderSvgPath_ ≠ "") (ht : r.placeholderTexture_ = true)
    (hs : r.placeholderTexSize_ = iconSizeFor (toInt32 cx) (toInt32 cy)) :
    renderPlaceholderIcon env r cx cy =
      (r, [IconCall.drawSprite
        ((toInt32 cx - iconSizeFor (toInt32 cx) (toInt32 cy)).tdiv 2)
        ((toInt32 cy - iconSizeFor (toInt32 cx) (toInt32 cy)).tdiv 2)
        (iconSizeFor (toInt32 cx) (toInt32 cy)) (iconSizeFor (toInt32 cx) (toInt32 cy))]) := by
  unfold renderPlaceholderIcon
  rw [if_neg hpath]
  simp only [ite_lt_sixteen]
  unfold iconSizeFor at hs ⊢
  simp only [ht, hs, Bool.not_true, Bool.false_eq_true, ne_eq, not_true_eq_false, or_self,
    if_false, List.nil_append]

/-- A tick without a texture of the desired size creates one from the size of
the surface, and draws it. -/
theorem renderPlaceholderIcon_miss (env : IconEnv) (r : CellRenderer) (cx cy : UInt32Val)
    (hpath : r.placeholderSvgPath_ ≠ "") (hvalid : env.svgIsValid = true)
    (hcreate : env.textureCreated = true)
    (hsurf : r.surface_ = some (toInt32 cx, toInt32 cy))
    (hm : r.placeholderTexture_ = false ∨
      r.placeholderTexSize_ ≠ iconSizeFor (toInt32 cx) (toInt32 cy)) :
    renderPlaceholderIcon env r cx cy =
      ({ r with placeholderTexture_ := true,
                placeholderTexSize_ := iconSizeFor (toInt32 cx) (toInt32 cy) },
        (if r.placeholderTexture_ then [IconCall.textureDestroy] else []) ++
          [IconCall.textureCreate (iconSizeFor (toInt32 cx) (toInt32 cy)),
           IconCall.drawSprite
            ((toInt32 cx - iconSizeFor (toInt32 cx) (toInt32 cy)).tdiv 2)
            ((toInt32 cy - iconSizeFor (toInt32 cx) (toInt32 cy)).tdiv 2)
            (iconSizeFor (toInt32 cx) (toInt32 cy))
            (iconSizeFor (toInt32 cx) (toInt32 cy))]) := by
  have hcond : (!r.placeholderTexture_) = true ∨
      r.placeholderTexSize_ ≠ max 16 ((min (toInt32 cx) (toInt32 cy)).tdiv 2) := by
    rcases hm with h | h
    · left; rw [h]; rfl
    · right; exact h
  unfold renderPlaceholderIcon
  rw [if_neg hpath]
  simp only [ite_lt_sixteen]
  rw [if_pos hcond]
  unfold createPlaceholderTexture iconSizeFor
  cases htex : r.placeholderTexture_ <;>
    simp [hpath, hvalid, hcreate, hsurf, ite_lt_sixteen]

/-- Counterexample for C25 as stated: the texture is created at the size
computed from the surface widget, not from the tick. With a surface of
`100 x 100` a tick of `200 x 200` draws the icon at size `50`, not at
`s = max(16, min(200, 200) div 2) = 100`, and the next tick with the same
`(cx, cy)` destroys and creates the texture again. -/
theorem C25_surface_size_counterexample :
    iconSizeFor (toInt32 200) (toInt32 200) = 100 ∧
    renderPlaceholderIcon { svgIsValid := true, textureCreated := true }
        { surface_ := some (100, 100), placeholderSvgPath_ := "looking-glass.svg" } 200 200 =
      ({ surface_ := some (100, 100), placeholderSvgPath_ := "looking-glass.svg",
         placeholderTexture_ := true, placeholderTexSize_ := 50 },
        [IconCall.textureCreate 50, IconCall.drawSprite 75 75 50 50]) ∧
    renderPlaceholderIcon { svgIsValid := true, textureCreated := true }
        { surface_ := some (100, 100), placeholderSvgPath_ := "looking-glass.svg",
          placeholderTexture_ := true, placeholderTexSize_ := 50 } 200 200 =
      ({ surface_ := some (100, 100), placeholderSvgPath_ := "looking-glass.svg",
         placeholderTexture_ := true, placeholderTexSize_ := 50 },
        [IconCall.textureDestroy, IconCall.textureCreate 50,
         IconCall.drawSprite 75 75 50 50]) := by
  refine ⟨by decide, by decide, by decide⟩

/-- C25 (amended): for Placeholder content with an available icon asset, a render tick
with target size `(cx, cy)`, the size of the cell surface, draws the icon at
size `s = max(16, min(cx,cy) div 2)` centered at
`((cx-s) div 2, (cy-s) div 2)`; the icon texture is regenerated exactly on the
ticks where no texture exists yet or the cached size differs from `s`; a
following tick with the same `(cx, cy)` regenerates nothing. -/
theorem C25_placeholder_icon_cached (env : IconEnv) (r : CellRenderer) (cx cy : UInt32Val)
    (hpath : r.placeholderSvgPath_ ≠ "") (hvalid : env.svgIsValid = true)
    (hcreate : env.textureCreated = true)
    (hsurf : r.surface_ = some (toInt32 cx, toInt32 cy)) :
    (r.placeholderTexture_ = true →
      r.placeholderTexSize_ = iconSizeFor (toInt32 cx) (toInt32 cy) →
      renderPlaceholderIcon env r cx cy =
        (r, [IconCall.drawSprite
          ((toInt32 cx - iconSizeFor (toInt32 cx) (toInt32 cy)).tdiv 2)
          ((toInt32 cy - iconSizeFor (toInt32 cx) (toInt32 cy)).tdiv 2)
          (iconSizeFor (toInt32 cx) (toInt32 cy))
          (iconSizeFor (toInt32 cx) (toInt32 cy))])) ∧
    ((r.placeholderTexture_ = false ∨
        r.placeholderTexSize_ ≠ iconSizeFor (toInt32 cx) (toInt32 cy)) →
      renderPlaceholderIcon env r cx cy =
        ({ r with placeholderTexture_ := true,
                  placeholderTexSize_ := iconSizeFor (toInt32 cx) (toInt32 cy) },
          (if r.placeholderTexture_ then [IconCall.textureDestroy] else []) ++
            [IconCall.textureCreate (iconSizeFor (toInt32 cx) (toInt32 cy)),
             IconCall.drawSprite
              ((toInt32 cx - iconSizeFor (toInt32 cx) (toInt32 cy)).tdiv 2)
              ((toInt32 cy - iconSizeFor (toInt32 cx) (toInt32 cy)).tdiv 2)
              (iconSizeFor (toInt32 cx) (toInt32 cy))
              (iconSizeFor (toInt32 cx) (toInt32 cy))])) ∧
    renderPlaceholderIcon env (renderPlaceholderIcon env r cx cy).1 cx cy =
      ((renderPlaceholderIcon env r cx cy).1,
        [IconCall.drawSprite
          ((toInt32 cx - iconSizeFor (toInt32 cx) (toInt32 cy)).tdiv 2)
          ((toInt32 cy - iconSizeFor (toInt32 cx) (toInt32 cy)).tdiv 2)
          (iconSizeFor (toInt32 cx) (toInt32 cy))
          (iconSizeFor (toInt32 cx) (toInt32 cy))]) := by
  refine ⟨fun ht hs => renderPlaceholderIcon_hit env r cx cy hpath ht hs,
    fun hm => renderPlaceholderIcon_miss env r cx cy hpath hvalid hcreate hsurf hm, ?_⟩
  by_cases hhit : r.placeholderTexture_ = true ∧
      r.placeholderTexSize_ = iconSizeFor (toInt32 cx) (toInt32 cy)
  · rw [renderPlaceholderIcon_hit env r cx cy hpath hhit.1 hhit.2]
    exact renderPlaceholderIcon_hit env r cx cy hpath hhit.1 hhit.2
  · have hm : r.placeholderTexture_ = false ∨
        r.placeholderTexSize_ ≠ iconSizeFor (toInt32 cx) (toInt32 cy) := by
      cases htex : r.placeholderTexture_ with
      | false => exact Or.inl rfl
      | true => exact Or.inr (fun h => hhit ⟨htex, h⟩)
    rw [renderPlaceholderIcon_miss env r cx cy hpath hvalid hcreate hsurf hm]
    exact renderPlaceholderIcon_hit env _ cx cy hpath rfl rfl

/-- Instance of C25: the first tick of a `200 x 120` cell creates a `60 x 60`
icon and draws it at `(70, 30)`; the second tick only draws. -/
theorem C25_placeholder_icon_cached_witness :
    renderPlaceholderIcon { svgIsValid := true, textureCreated := true }
        { surface_ := some (200, 120), placeholderSvgPath_ := "looking-glass.svg" } 200 120 =
      ({ surface_ := some (200, 120), placeholderSvgPath_ := "looking-glass.svg",
         placeholderTexture_ := true, placeholderTexSize_ := 60 },
        [IconCall.textureCreate 60, IconCall.drawSprite 70 30 60 60]) ∧
    renderPlaceholderIcon { svgIsValid := true, textureCreated := true }
        (renderPlaceholderIcon { svgIsValid := true, textureCreated := true }
          { surface_ := some (200, 120), placeholderSvgPath_ := "looking-glass.svg" }
          200 120).1 200 120 =
      ((renderPlaceholderIcon { svgIsValid := true, textureCreated := true }
          { surface_ := some (200, 120), placeholderSvgPath_ := "looking-glass.svg" }
          200 120).1,
        [IconCall.drawSprite 70 30 60 60]) :=
  ⟨by decide,
    (C25_placeholder_icon_cached { svgIsValid := true, textureCreated := true }
      { surface_ := some (200, 120), placeholderSvgPath_ := "looking-glass.svg" } 200 120
      (by decide) rfl rfl rfl).2.2⟩

/-! ## Rounding does not cross an integer -/

theorem roundHalfEven_ge_int (x : ℚ) (m : ℤ) (h : (m : ℚ) ≤ x) : m ≤ roundHalfEven x := by
  have hf : m ≤ ⌊x⌋ := Int.le_floor.mpr h
  unfold roundHalfEven
  split_ifs <;> omega

/-- Rounding to `p` bits does not go below an integer `k < 2^p` that the
argument reaches. -/
theorem fpRound_ge_int (p : ℕ) (q : ℚ) (k : ℤ) (hk0 : 0 ≤ k) (hk : (k : ℚ) ≤ q)
    (hk2 : k < 2 ^ p) : (k : ℚ) ≤ fpRound p q := by
  have hk0q : (0 : ℚ) ≤ k := by exact_mod_cast hk0
  rcases (le_trans hk0q hk).eq_or_lt with h0 | hq
  · rw [← h0, fpRound_zero]
    rw [← h0] at hk
    exact hk
  · by_cases hlt : q < (2 : ℚ) ^ p
    · have hlog : Int.log 2 q < (p : ℤ) :=
        (Int.lt_zpow_iff_log_lt (b := 2) (by norm_num) hq).mp (by exact_mod_cast hlt)
      obtain ⟨j, hj⟩ : ∃ j : ℕ, (p : ℤ) - 1 - Int.log 2 q = j :=
        Int.eq_ofNat_of_zero_le (by omega)
      have he : Int.log 2 q - ((p : ℤ) - 1) = -(j : ℤ) := by omega
      unfold fpRound
      rw [if_neg hq.ne', abs_of_pos hq, he, zpow_neg, zpow_natCast]
      have hpos : (0 : ℚ) < (2 : ℚ) ^ j := by positivity
      have hM : (((k * 2 ^ j : ℤ)) : ℚ) ≤ q / ((2 : ℚ) ^ j)⁻¹ := by
        push_cast
        rw [div_inv_eq_mul]
        exact mul_le_mul_of_nonneg_right hk hpos.le
      have hr := roundHalfEven_ge_int _ _ hM
      have hr2 : ((k * 2 ^ j : ℤ) : ℚ) ≤ (roundHalfEven (q / ((2 : ℚ) ^ j)⁻¹) : ℚ) := by
        exact_mod_cast hr
      calc (k : ℚ) = ((k * 2 ^ j : ℤ) : ℚ) * ((2 : ℚ) ^ j)⁻¹ := by
            push_cast
            field_simp
        _ ≤ (roundHalfEven (q / ((2 : ℚ) ^ j)⁻¹) : ℚ) * ((2 : ℚ) ^ j)⁻¹ :=
            mul_le_mul_of_nonneg_right hr2 (inv_nonneg.mpr hpos.le)
    · have hge := fpRound_ge p q hq
      have hp : (0 : ℚ) < (2 : ℚ) ^ p := by positivity
      have hk3 : (k : ℚ) ≤ (2 : ℚ) ^ p - 1 := by
        have : k ≤ 2 ^ p - 1 := Int.le_sub_one_of_lt hk2
        exact_mod_cast this
      have h1 : (2 : ℚ) ^ p * (1 - 1 / (2 : ℚ) ^ p) = (2 : ℚ) ^ p - 1 := by
        field_simp
      have h2 : (0 : ℚ) ≤ 1 - 1 / (2 : ℚ) ^ p := by
        rw [sub_nonneg, div_le_one hp]
        exact one_le_pow₀ (by norm_num)
      calc (k : ℚ) ≤ (2 : ℚ) ^ p - 1 := hk3
        _ = (2 : ℚ) ^ p * (1 - 1 / (2 : ℚ) ^ p) := h1.symm
        _ ≤ q * (1 - 1 / (2 : ℚ) ^ p) := mul_le_mul_of_nonneg_right (not_lt.mp hlt) h2
        _ ≤ fpRound p q := hge

theorem toInt_floor (q : ℚ) (hq : 0 ≤ q) : toInt q = ⌊q⌋ := by
  unfold toInt
  rw [if_pos hq]

/-- The second stage of `calculateGridMetrics` is the integer division: the
truncated `float` quotient of `G` by `count` is `G / count`. -/
theorem cell_eq_ediv (G c : Int) (hG0 : 0 ≤ G) (hG : G < 2 ^ 23) (hc : 1 ≤ c)
    (hc2 : c < 2 ^ 24) :
    toInt (toFloat (toFloat (G : ℚ) / toFloat (c : ℚ))) = G / c := by
  obtain ⟨h0, hle⟩ := cell_times_count_le G c hG0 hG hc
  have hcpos : (0 : ℤ) < c := by omega
  apply le_antisymm
  · exact (Int.le_ediv_iff_mul_le hcpos).mpr hle
  · have hGq : toFloat (G : ℚ) = G := toFloat_intCast G hG0 (lt_trans hG (by norm_num))
    have hcq : toFloat (c : ℚ) = c := toFloat_intCast c (by omega) hc2
    rw [hGq, hcq]
    have hk0 : 0 ≤ G / c := Int.ediv_nonneg hG0 hcpos.le
    have hkle : G / c * c ≤ G := Int.ediv_mul_le G hcpos.ne'
    have hcposq : (0 : ℚ) < c := by exact_mod_cast hcpos
    have hkq : ((G / c : ℤ) : ℚ) ≤ (G : ℚ) / c := by
      rw [le_div_iff₀ hcposq]
      exact_mod_cast hkle
    have hk2 : G / c < 2 ^ 24 := by
      have : G / c ≤ G := Int.ediv_le_self c hG0
      omega
    have hfl := fpRound_ge_int 24 ((G : ℚ) / c) (G / c) hk0 hkq hk2
    have hnn : (0 : ℚ) ≤ toFloat ((G : ℚ) / c) :=
      toFloat_nonneg _ (div_nonneg (by exact_mod_cast hG0) hcposq.le)
    rw [toInt_floor _ hnn]
    exact Int.le_floor.mpr hfl
/-! ## The aspect of the integer cell size -/

/-- Width binds, upper bound: `lo` and `hi` are the factors `1 - 2^-24` and
`1 + 2^-24` of the rounding steps. -/
theorem aspect_chain_width_upper (cW cH c r aW y g lo hi : ℚ) (hc : 0 < c) (hr : 0 < r)
    (hy0 : 0 ≤ y) (hlo : 0 < lo) (hhi : 0 < hi)
    (g1 : g * (9 * r) ≤ 16 * c * hi) (y2 : aW * lo ≤ y * g) (a : c * cW ≤ aW)
    (hy : y < r * (cH + 1)) : 9 * cW * lo < 16 * (cH + 1) * hi := by
  have key : (9 * cW * lo) * (r * c) < (16 * (cH + 1) * hi) * (r * c) :=
    calc (9 * cW * lo) * (r * c) = 9 * r * ((c * cW) * lo) := by ring
      _ ≤ 9 * r * (aW * lo) :=
          mul_le_mul_of_nonneg_left (mul_le_mul_of_nonneg_right a hlo.le) (by positivity)
      _ ≤ 9 * r * (y * g) := mul_le_mul_of_nonneg_left y2 (by positivity)
      _ = y * (g * (9 * r)) := by ring
      _ ≤ y * (16 * c * hi) := mul_le_mul_of_nonneg_left g1 hy0
      _ < (r * (cH + 1)) * (16 * c * hi) := mul_lt_mul_of_pos_right hy (by positivity)
      _ = (16 * (cH + 1) * hi) * (r * c) := by ring
  exact lt_of_mul_lt_mul_right key (by positivity)

theorem aspect_chain_width_lower (cW cH c r aW y g lo hi : ℚ) (hc : 0 < c) (hr : 0 < r)
    (hy0 : 0 ≤ y) (hlo : 0 < lo) (hhi : 0 < hi)
    (g2 : 16 * c * lo ≤ g * (9 * r)) (y1 : y * g ≤ aW * hi) (b : r * cH ≤ y)
    (a : aW < c * (cW + 1)) : 16 * cH * lo < 9 * (cW + 1) * hi := by
  have key : (16 * cH * lo) * (r * c) < (9 * (cW + 1) * hi) * (r * c) :=
    calc (16 * cH * lo) * (r * c) = (r * cH) * (16 * c * lo) := by ring
      _ ≤ y * (16 * c * lo) := mul_le_mul_of_nonneg_right b (by positivity)
      _ ≤ y * (g * (9 * r)) := mul_le_mul_of_nonneg_left g2 hy0
      _ = 9 * r * (y * g) := by ring
      _ ≤ 9 * r * (aW * hi) := mul_le_mul_of_nonneg_left y1 (by positivity)
      _ < 9 * r * (c * (cW + 1) * hi) :=
          mul_lt_mul_of_pos_left (mul_lt_mul_of_pos_right a hhi) (by positivity)
      _ = (9 * (cW + 1) * hi) * (r * c) := by ring
  exact lt_of_mul_lt_mul_right key (by positivity)

theorem aspect_chain_height_upper (cW cH c r aH y g hi : ℚ) (hc : 0 < c) (hr : 0 < r)
    (haH : 0 ≤ aH) (hhi : 0 < hi)
    (g1 : g * (9 * r) ≤ 16 * c * hi) (y1 : y ≤ aH * g * hi) (a : c * cW ≤ y)
    (b : aH < r * (cH + 1)) : 9 * cW < 16 * (cH + 1) * hi * hi := by
  have key : (9 * cW) * (r * c) < (16 * (cH + 1) * hi * hi) * (r * c) :=
    calc (9 * cW) * (r * c) = 9 * r * (c * cW) := by ring
      _ ≤ 9 * r * y := mul_le_mul_of_nonneg_left a (by positivity)
      _ ≤ 9 * r * (aH * g * hi) := mul_le_mul_of_nonneg_left y1 (by positivity)
      _ = (aH * hi) * (g * (9 * r)) := by ring
      _ ≤ (aH * hi) * (16 * c * hi) := mul_le_mul_of_nonneg_left g1 (by positivity)
      _ < (r * (cH + 1) * hi) * (16 * c * hi) :=
          mul_lt_mul_of_pos_right (mul_lt_mul_of_pos_right b hhi) (by positivity)
      _ = (16 * (cH + 1) * hi * hi) * (r * c) := by ring
  exact lt_of_mul_lt_mul_right key (by positivity)

theorem aspect_chain_height_lower (cW cH c r aH y g lo : ℚ) (hc : 0 < c) (hr : 0 < r)
    (haH : 0 ≤ aH) (hlo : 0 < lo)
    (g2 : 16 * c * lo ≤ g * (9 * r)) (y2 : aH * g * lo ≤ y) (b : r * cH ≤ aH)
    (a : y < c * (cW + 1)) : 16 * cH * lo * lo < 9 * (cW + 1) := by
  have key : (16 * cH * lo * lo) * (r * c) < (9 * (cW + 1)) * (r * c) :=
    calc (16 * cH * lo * lo) * (r * c) = (16 * c * lo) * ((r * cH) * lo) := by ring
      _ ≤ (16 * c * lo) * (aH * lo) :=
          mul_le_mul_of_nonneg_left (mul_le_mul_of_nonneg_right b hlo.le) (by positivity)
      _ ≤ (g * (9 * r)) * (aH * lo) := mul_le_mul_of_nonneg_right g2 (by positivity)
      _ = 9 * r * (aH * g * lo) := by ring
      _ ≤ 9 * r * y := mul_le_mul_of_nonneg_left y2 (by positivity)
      _ < 9 * r * (c * (cW + 1)) := mul_lt_mul_of_pos_left a (by positivity)
      _ = (9 * (cW + 1)) * (r * c) := by ring
  exact lt_of_mul_lt_mul_right key (by positivity)

theorem toInt_lt_add_one (q : ℚ) (hq : 0 ≤ q) : q < (toInt q : ℚ) + 1 := by
  rw [toInt_floor q hq]
  exact Int.lt_floor_add_one q

/-- The `float` aspect of the grid, `gridAspect`, is within one rounding of
`16 cols / (9 rows)`. -/
theorem gridAspect_bounds (rows cols : Int) (hr : 1 ≤ rows) (hc : 1 ≤ cols)
    (hr9 : rows * 9 < 2 ^ 24) (hc16 : cols * 16 < 2 ^ 24) :
    0 < toFloat (toFloat ((cols * 16 : Int) : ℚ) / toFloat ((rows * 9 : Int) : ℚ)) ∧
    toFloat (toFloat ((cols * 16 : Int) : ℚ) / toFloat ((rows * 9 : Int) : ℚ)) * (9 * (rows : ℚ)) ≤
      16 * (cols : ℚ) * (1 + 1 / 2 ^ 24) ∧
    16 * (cols : ℚ) * (1 - 1 / 2 ^ 24) ≤
      toFloat (toFloat ((cols * 16 : Int) : ℚ) / toFloat ((rows * 9 : Int) : ℚ)) *
        (9 * (rows : ℚ)) := by
  have e1 : toFloat ((cols * 16 : Int) : ℚ) = ((cols * 16 : Int) : ℚ) :=
    toFloat_intCast _ (by omega) hc16
  have e2 : toFloat ((rows * 9 : Int) : ℚ) = ((rows * 9 : Int) : ℚ) :=
    toFloat_intCast _ (by omega) hr9
  rw [e1, e2]
  have hrq : (0 : ℚ) < rows := by exact_mod_cast (by omega : (0 : Int) < rows)
  have hcq : (0 : ℚ) < cols := by exact_mod_cast (by omega : (0 : Int) < cols)
  push_cast
  have hq0 : (0 : ℚ) < (cols : ℚ) * 16 / ((rows : ℚ) * 9) := by positivity
  have hle := toFloat_le _ hq0.le
  have hge := toFloat_ge _ hq0.le
  have hr9q : (0 : ℚ) < 9 * (rows : ℚ) := by positivity
  have ecancel : (cols : ℚ) * 16 / ((rows : ℚ) * 9) * (9 * (rows : ℚ)) = 16 * (cols : ℚ) := by
    field_simp
    ring
  refine ⟨toFloat_pos _ hq0, ?_, ?_⟩
  · calc toFloat ((cols : ℚ) * 16 / ((rows : ℚ) * 9)) * (9 * (rows : ℚ))
        ≤ ((cols : ℚ) * 16 / ((rows : ℚ) * 9) * (1 + 1 / 2 ^ 24)) * (9 * (rows : ℚ)) :=
          mul_le_mul_of_nonneg_right hle hr9q.le
      _ = ((cols : ℚ) * 16 / ((rows : ℚ) * 9) * (9 * (rows : ℚ))) * (1 + 1 / 2 ^ 24) := by ring
      _ = 16 * (cols : ℚ) * (1 + 1 / 2 ^ 24) := by rw [ecancel]
  · calc 16 * (cols : ℚ) * (1 - 1 / 2 ^ 24)
        = ((cols : ℚ) * 16 / ((rows : ℚ) * 9) * (9 * (rows : ℚ))) * (1 - 1 / 2 ^ 24) := by
          rw [ecancel]
      _ = ((cols : ℚ) * 16 / ((rows : ℚ) * 9) * (1 - 1 / 2 ^ 24)) * (9 * (rows : ℚ)) := by ring
      _ ≤ toFloat ((cols : ℚ) * 16 / ((rows : ℚ) * 9)) * (9 * (rows : ℚ)) :=
          mul_le_mul_of_nonneg_right hge hr9q.le

/-- Integer division by a positive count, as two bounds over the rationals. -/
theorem ediv_bounds (G c : Int) (hc : 0 < c) :
    (c : ℚ) * ((G / c : Int) : ℚ) ≤ G ∧ (G : ℚ) + 1 ≤ (c : ℚ) * (((G / c : Int) : ℚ) + 1) := by
  have h1 : c * (G / c) ≤ G := Int.mul_ediv_self_le hc.ne'
  have h2 : G < c * (G / c) + c := Int.lt_mul_ediv_self_add hc
  constructor
  · exact_mod_cast h1
  · have : G + 1 ≤ c * (G / c + 1) := by
      rw [mul_add, mul_one]
      omega
    exact_mod_cast this

/-- Height binds: the cell sizes `W0 / cols` and `aH / rows`, with `W0` the
truncated `float` product `aH * gridAspect`, are in the ratio `16 : 9` up to the
integer truncations. -/
theorem aspect_band_height (rows cols aH : Int) (g : ℚ) (hr : 1 ≤ rows) (hc : 1 ≤ cols)
    (haH : 1 ≤ aH) (hH : aH ≤ 2 ^ 16) (hg : 0 < g)
    (g1 : g * (9 * (rows : ℚ)) ≤ 16 * (cols : ℚ) * (1 + 1 / 2 ^ 24))
    (g2 : 16 * (cols : ℚ) * (1 - 1 / 2 ^ 24) ≤ g * (9 * (rows : ℚ))) :
    -9 ≤ 9 * (toInt (toFloat (toFloat (aH : ℚ) * g)) / cols) - 16 * (aH / rows) ∧
    9 * (toInt (toFloat (toFloat (aH : ℚ) * g)) / cols) - 16 * (aH / rows) ≤ 16 := by
  have hHq : toFloat (aH : ℚ) = aH :=
    toFloat_intCast aH (by omega) (lt_of_le_of_lt hH (by norm_num))
  rw [hHq]
  have hrq : (0 : ℚ) < rows := by exact_mod_cast (by omega : (0 : Int) < rows)
  have hcq : (0 : ℚ) < cols := by exact_mod_cast (by omega : (0 : Int) < cols)
  have haHq : (0 : ℚ) ≤ aH := by exact_mod_cast (by omega : (0 : Int) ≤ aH)
  have hq0 : (0 : ℚ) ≤ (aH : ℚ) * g := mul_nonneg haHq hg.le
  have hy0 := toFloat_nonneg _ hq0
  have y1 := toFloat_le _ hq0
  have y2 := toFloat_ge _ hq0
  have hfl := toInt_le _ hy0
  have hlt := toInt_lt_add_one _ hy0
  obtain ⟨a1, a2⟩ := ediv_bounds (toInt (toFloat ((aH : ℚ) * g))) cols (by omega)
  obtain ⟨b1, b2⟩ := ediv_bounds aH rows (by omega)
  have hcH0 : 0 ≤ aH / rows := Int.ediv_nonneg (by omega) (by omega)
  have hcHle : aH / rows ≤ aH := Int.ediv_le_self rows (by omega)
  have hcHq : ((aH / rows : Int) : ℚ) ≤ 2 ^ 16 := by
    have : aH / rows ≤ 2 ^ 16 := le_trans hcHle hH
    exact_mod_cast this
  have hcH0q : (0 : ℚ) ≤ ((aH / rows : Int) : ℚ) := by exact_mod_cast hcH0
  have hU := aspect_chain_height_upper
    ((toInt (toFloat ((aH : ℚ) * g)) / cols : Int) : ℚ) ((aH / rows : Int) : ℚ) cols rows aH
    (toFloat ((aH : ℚ) * g)) g (1 + 1 / 2 ^ 24) hcq hrq haHq (by norm_num) g1 y1
    (le_trans a1 hfl) (by linarith)
  have hL := aspect_chain_height_lower
    ((toInt (toFloat ((aH : ℚ) * g)) / cols : Int) : ℚ) ((aH / rows : Int) : ℚ) cols rows aH
    (toFloat ((aH : ℚ) * g)) g (1 - 1 / 2 ^ 24) hcq hrq haHq (by norm_num) g2 y2 b1
    (by linarith)
  have hU2 : (((9 * (toInt (toFloat ((aH : ℚ) * g)) / cols) - 16 * (aH / rows) : Int)) : ℚ) <
      ((17 : Int) : ℚ) := by
    push_cast
    norm_num at hU ⊢
    linarith
  have hL2 : (((-10 : Int)) : ℚ) <
      (((9 * (toInt (toFloat ((aH : ℚ) * g)) / cols) - 16 * (aH / rows) : Int)) : ℚ) := by
    push_cast
    norm_num at hL ⊢
    linarith
  have hU3 : 9 * (toInt (toFloat ((aH : ℚ) * g)) / cols) - 16 * (aH / rows) < 17 := by
    exact_mod_cast hU2
  have hL3 : -10 < 9 * (toInt (toFloat ((aH : ℚ) * g)) / cols) - 16 * (aH / rows) := by
    exact_mod_cast hL2
  omega

/-- Width binds: the cell sizes `aW / cols` and `H0 / rows`, with `H0` the
truncated `float` quotient `aW / gridAspect`. -/
theorem aspect_band_width (rows cols aW : Int) (g : ℚ) (hr : 1 ≤ rows) (hc : 1 ≤ cols)
    (haW : 1 ≤ aW) (hW : aW ≤ 2 ^ 16) (hg : 0 < g)
    (hH0 : toInt (toFloat (toFloat (aW : ℚ) / g)) ≤ 2 ^ 16)
    (g1 : g * (9 * (rows : ℚ)) ≤ 16 * (cols : ℚ) * (1 + 1 / 2 ^ 24))
    (g2 : 16 * (cols : ℚ) * (1 - 1 / 2 ^ 24) ≤ g * (9 * (rows : ℚ))) :
    -9 ≤ 9 * (aW / cols) - 16 * (toInt (toFloat (toFloat (aW : ℚ) / g)) / rows) ∧
    9 * (aW / cols) - 16 * (toInt (toFloat (toFloat (aW : ℚ) / g)) / rows) ≤ 16 := by
  have hWq : toFloat (aW : ℚ) = aW :=
    toFloat_intCast aW (by omega) (lt_of_le_of_lt hW (by norm_num))
  rw [hWq] at hH0 ⊢
  have hrq : (0 : ℚ) < rows := by exact_mod_cast (by omega : (0 : Int) < rows)
  have hcq : (0 : ℚ) < cols := by exact_mod_cast (by omega : (0 : Int) < cols)
  have haWq : (0 : ℚ) ≤ aW := by exact_mod_cast (by omega : (0 : Int) ≤ aW)
  have hq0 : (0 : ℚ) ≤ (aW : ℚ) / g := div_nonneg haWq hg.le
  have hy0 := toFloat_nonneg _ hq0
  have y1 : toFloat ((aW : ℚ) / g) * g ≤ aW * (1 + 1 / 2 ^ 24) := by
    calc toFloat ((aW : ℚ) / g) * g ≤ ((aW : ℚ) / g * (1 + 1 / 2 ^ 24)) * g :=
          mul_le_mul_of_nonneg_right (toFloat_le _ hq0) hg.le
      _ = aW * (1 + 1 / 2 ^ 24) := by
          field_simp
          ring
  have y2 : (aW : ℚ) * (1 - 1 / 2 ^ 24) ≤ toFloat ((aW : ℚ) / g) * g := by
    calc (aW : ℚ) * (1 - 1 / 2 ^ 24) = ((aW : ℚ) / g * (1 - 1 / 2 ^ 24)) * g := by
          field_simp
          ring
      _ ≤ toFloat ((aW : ℚ) / g) * g := mul_le_mul_of_nonneg_right (toFloat_ge _ hq0) hg.le
  have hfl := toInt_le _ hy0
  have hlt := toInt_lt_add_one _ hy0
  have hH00 := toInt_nonneg _ hy0
  obtain ⟨a1, a2⟩ := ediv_bounds aW cols (by omega)
  obtain ⟨b1, b2⟩ := ediv_bounds (toInt (toFloat ((aW : ℚ) / g))) rows (by omega)
  have hcW0 : 0 ≤ aW / cols := Int.ediv_nonneg (by omega) (by omega)
  have hcWle : aW / cols ≤ aW := Int.ediv_le_self cols (by omega)
  have hcWq : ((aW / cols : Int) : ℚ) ≤ 2 ^ 16 := by
    have : aW / cols ≤ 2 ^ 16 := le_trans hcWle hW
    exact_mod_cast this
  have hcW0q : (0 : ℚ) ≤ ((aW / cols : Int) : ℚ) := by exact_mod_cast hcW0
  have hcH0 : 0 ≤ toInt (toFloat ((aW : ℚ) / g)) / rows := Int.ediv_nonneg hH00 (by omega)
  have hcHle : toInt (toFloat ((aW : ℚ) / g)) / rows ≤ toInt (toFloat ((aW : ℚ) / g)) :=
    Int.ediv_le_self rows hH00
  have hcHq : ((toInt (toFloat ((aW : ℚ) / g)) / rows : Int) : ℚ) ≤ 2 ^ 16 := by
    have : toInt (toFloat ((aW : ℚ) / g)) / rows ≤ 2 ^ 16 := le_trans hcHle hH0
    exact_mod_cast this
  have hcH0q : (0 : ℚ) ≤ ((toInt (toFloat ((aW : ℚ) / g)) / rows : Int) : ℚ) := by
    exact_mod_cast hcH0
  have hU := aspect_chain_width_upper
    ((aW / cols : Int) : ℚ) ((toInt (toFloat ((aW : ℚ) / g)) / rows : Int) : ℚ) cols rows aW
    (toFloat ((aW : ℚ) / g)) g (1 - 1 / 2 ^ 24) (1 + 1 / 2 ^ 24) hcq hrq hy0 (by norm_num)
    (by norm_num) g1 y2 a1 (by linarith)
  have hL := aspect_chain_width_lower
    ((aW / cols : Int) : ℚ) ((toInt (toFloat ((aW : ℚ) / g)) / rows : Int) : ℚ) cols rows aW
    (toFloat ((aW : ℚ) / g)) g (1 - 1 / 2 ^ 24) (1 + 1 / 2 ^ 24) hcq hrq hy0 (by norm_num)
    (by norm_num) g2 y1 (le_trans b1 hfl) (by linarith)
  have hU2 : (((9 * (aW / cols) - 16 * (toInt (toFloat ((aW : ℚ) / g)) / rows) : Int)) : ℚ) <
      ((17 : Int) : ℚ) := by
    push_cast
    norm_num at hU ⊢
    linarith
  have hL2 : (((-10 : Int)) : ℚ) <
      (((9 * (aW / cols) - 16 * (toInt (toFloat ((aW : ℚ) / g)) / rows) : Int)) : ℚ) := by
    push_cast
    norm_num at hL ⊢
    linarith
  have hU3 : 9 * (aW / cols) - 16 * (toInt (toFloat ((aW : ℚ) / g)) / rows) < 17 := by
    exact_mod_cast hU2
  have hL3 : -10 < 9 * (aW / cols) - 16 * (toInt (toFloat ((aW : ℚ) / g)) / rows) := by
    exact_mod_cast hL2
  omega
/-! ## C28 -/

theorem toInt_eval (q : ℚ) (m : ℤ) (h0 : 0 ≤ q) (h1 : (m : ℚ) ≤ q) (h2 : q < m + 1) :
    toInt q = m := by
  rw [toInt_floor q h0, Int.floor_eq_iff]
  exact ⟨h1, h2⟩

theorem gridMetrics_4_4_1000_1000 :
    calculateGridMetrics 4 4 1000 1000 =
      { gridW := 996, gridH := 560, offsetX := 2, offsetY := 220, cellW := 249, cellH := 140 } := by
  have f64 : toFloat (64 : ℚ) = 64 := by
    have := toFloat_intCast 64 (by norm_num) (by norm_num)
    exact_mod_cast this
  have f36 : toFloat (36 : ℚ) = 36 := by
    have := toFloat_intCast 36 (by norm_num) (by norm_num)
    exact_mod_cast this
  have f4 : toFloat (4 : ℚ) = 4 := by
    have := toFloat_intCast 4 (by norm_num) (by norm_num)
    exact_mod_cast this
  have f1 : toFloat (1 : ℚ) = 1 := by
    have := toFloat_intCast 1 (by norm_num) (by norm_num)
    exact_mod_cast this
  have f998 : toFloat (998 : ℚ) = 998 := by
    have := toFloat_intCast 998 (by norm_num) (by norm_num)
    exact_mod_cast this
  have f561 : toFloat (561 : ℚ) = 561 := by
    have := toFloat_intCast 561 (by norm_num) (by norm_num)
    exact_mod_cast this
  have f249 : toFloat (249 : ℚ) = 249 := by
    have := toFloat_intCast 249 (by norm_num) (by norm_num)
    exact_mod_cast this
  have f140 : toFloat (140 : ℚ) = 140 := by
    have := toFloat_intCast 140 (by norm_num) (by norm_num)
    exact_mod_cast this
  have hg : toFloat (64 / 36 : ℚ) = 14913081 / 8388608 := by
    rw [toFloat_eval (64 / 36) 0 14913081 (by norm_num) (by norm_num) (by norm_num)
      (by rw [abs_lt]; constructor <;> norm_num)]
    norm_num
  have hcond : ¬ ((1 : ℚ) > 14913081 / 8388608) := by norm_num
  have hy : toFloat (998 / (14913081 / 8388608) : ℚ) = 4491 / 8 := by
    rw [toFloat_eval (998 / (14913081 / 8388608)) 9 9197568 (by norm_num) (by norm_num)
      (by norm_num) (by rw [abs_lt]; constructor <;> norm_num)]
    norm_num
  have i1 : toInt (4491 / 8 : ℚ) = 561 :=
    toInt_eval _ _ (by norm_num) (by norm_num) (by norm_num)
  have hcw : toFloat (998 / 4 : ℚ) = 499 / 2 := by
    rw [toFloat_eval (998 / 4) 7 16351232 (by norm_num) (by norm_num) (by norm_num)
      (by rw [abs_lt]; constructor <;> norm_num)]
    norm_num
  have i2 : toInt (499 / 2 : ℚ) = 249 :=
    toInt_eval _ _ (by norm_num) (by norm_num) (by norm_num)
  have hch : toFloat (561 / 4 : ℚ) = 561 / 4 := by
    rw [toFloat_eval (561 / 4) 7 9191424 (by norm_num) (by norm_num) (by norm_num)
      (by rw [abs_lt]; constructor <;> norm_num)]
    norm_num
  have i3 : toInt (561 / 4 : ℚ) = 140 :=
    toInt_eval _ _ (by norm_num) (by norm_num) (by norm_num)
  unfold calculateGridMetrics
  simp only [Int.reduceMul, Int.reduceSub, Int.cast_ofNat, f64, f36, hg, f998, div_self, ne_eq,
    OfNat.ofNat_ne_zero, not_false_eq_true, f1, hcond, if_false, hy, i1, f4, hcw, i2, f561,
    hch, i3, f249, f140]
  have t1 : Int.tdiv 4 2 = 2 := by decide
  have t2 : Int.tdiv 440 2 = 220 := by decide
  rw [t1, t2]

/-- Counterexample for C28 as stated: for a `4 x 4` grid in a `1000 x 1000`
window the integer cell size is `249 x 140`, and `9 * 249 = 2241` is not
`16 * 140 = 2240`. -/
theorem C28_aspect_counterexample :
    (calculateGridMetrics 4 4 1000 1000).cellW = 249 ∧
    (calculateGridMetrics 4 4 1000 1000).cellH = 140 ∧
    (9 : Int) * 249 ≠ 16 * 140 := by
  have hval := gridMetrics_4_4_1000_1000
  refine ⟨?_, ?_, by decide⟩
  · rw [hval]
  · rw [hval]

/-- The integer cell sizes after the second stage, for a grid of `G0 x G1`
pixels: the integer quotients by the counts. -/
theorem cell_roundtrip (G c : Int) (hG0 : 0 ≤ G) (hG : G < 2 ^ 23) (hc : 1 ≤ c)
    (hc2 : c < 2 ^ 24) :
    toInt (toFloat ((toInt (toFloat (toFloat (G : ℚ) / toFloat (c : ℚ))) : Int) : ℚ)) = G / c := by
  rw [cell_eq_ediv G c hG0 hG hc hc2]
  have h0 : 0 ≤ G / c := Int.ediv_nonneg hG0 (by omega)
  have h1 : G / c < 2 ^ 24 := by
    have : G / c ≤ G := Int.ediv_le_self c hG0
    omega
  rw [toFloat_intCast _ h0 h1]
  exact toInt_intCast _ h0

/-- C28 (amended): `calculateGridMetrics` picks an integer cell size whose aspect
is `16 : 9` up to the integer truncations. For `rows, cols >= 1` with
`9 rows, 16 cols < 2^24` and a window of `3 .. 2^16` pixels each way, the cell
sizes are integers with `-9 <= 9*cellW - 16*cellH <= 16`. -/
theorem C28_cell_aspect_within_truncation (gridRows gridCols totalW totalH : Int)
    (hr : 1 ≤ gridRows) (hc : 1 ≤ gridCols) (hr9 : gridRows * 9 < 2 ^ 24)
    (hc16 : gridCols * 16 < 2 ^ 24) (hW : 3 ≤ totalW) (hH : 3 ≤ totalH)
    (hWmax : totalW ≤ 2 ^ 16) (hHmax : totalH ≤ 2 ^ 16) :
    (calculateGridMetrics gridRows gridCols totalW totalH).cellW =
      toInt (calculateGridMetrics gridRows gridCols totalW totalH).cellW ∧
    (calculateGridMetrics gridRows gridCols totalW totalH).cellH =
      toInt (calculateGridMetrics gridRows gridCols totalW totalH).cellH ∧
    -9 ≤ 9 * toInt (calculateGridMetrics gridRows gridCols totalW totalH).cellW -
      16 * toInt (calculateGridMetrics gridRows gridCols totalW totalH).cellH ∧
    9 * toInt (calculateGridMetrics gridRows gridCols totalW totalH).cellW -
      16 * toInt (calculateGridMetrics gridRows gridCols totalW totalH).cellH ≤ 16 := by
  have hint := gridMetrics_int_cells gridRows gridCols totalW totalH hr hc hW hH
    (le_trans hWmax (by norm_num)) (le_trans hHmax (by norm_num))
  obtain ⟨hg, g1, g2⟩ := gridAspect_bounds gridRows gridCols hr hc hr9 hc16
  obtain ⟨hs1, hs2⟩ := stage_one_le (totalW - 2) (totalH - 2) _ hg (by omega) (by omega)
    (by omega) (by omega)
  refine ⟨hint.2.2.1, hint.2.2.2.1, ?_⟩
  by_cases hA : toFloat (toFloat ((totalW - 2 : Int) : ℚ) / toFloat ((totalH - 2 : Int) : ℚ)) >
      toFloat (toFloat ((gridCols * 16 : Int) : ℚ) / toFloat ((gridRows * 9 : Int) : ℚ))
  · have hb := hs1 hA
    have e1 : toInt (calculateGridMetrics gridRows gridCols totalW totalH).cellW =
        toInt (toFloat (toFloat ((totalH - 2 : Int) : ℚ) *
          toFloat (toFloat ((gridCols * 16 : Int) : ℚ) / toFloat ((gridRows * 9 : Int) : ℚ)))) /
          gridCols := by
      unfold calculateGridMetrics
      simp only [if_pos hA]
      exact cell_roundtrip _ gridCols hb.1 (by omega) hc (by omega)
    have e2 : toInt (calculateGridMetrics gridRows gridCols totalW totalH).cellH =
        (totalH - 2) / gridRows := by
      unfold calculateGridMetrics
      simp only [if_pos hA]
      exact cell_roundtrip _ gridRows (by omega) (by omega) hr (by omega)
    rw [e1, e2]
    exact aspect_band_height gridRows gridCols (totalH - 2) _ hr hc (by omega) (by omega) hg g1 g2
  · have hb := hs2 hA
    have e1 : toInt (calculateGridMetrics gridRows gridCols totalW totalH).cellW =
        (totalW - 2) / gridCols := by
      unfold calculateGridMetrics
      simp only [if_neg hA]
      exact cell_roundtrip _ gridCols (by omega) (by omega) hc (by omega)
    have e2 : toInt (calculateGridMetrics gridRows gridCols totalW totalH).cellH =
        toInt (toFloat (toFloat ((totalW - 2 : Int) : ℚ) /
          toFloat (toFloat ((gridCols * 16 : Int) : ℚ) / toFloat ((gridRows * 9 : Int) : ℚ)))) /
          gridRows := by
      unfold calculateGridMetrics
      simp only [if_neg hA]
      exact cell_roundtrip _ gridRows hb.1 (by omega) hr (by omega)
    rw [e1, e2]
    exact aspect_band_width gridRows gridCols (totalW - 2) _ hr hc (by omega) (by omega) hg
      (by omega) g1 g2

/-- Instance of C28 for a `4 x 4` grid in a `1000 x 1000` window. -/
theorem C28_cell_aspect_within_truncation_witness :
    (1 : Int) ≤ 4 ∧ (4 : Int) * 16 < 2 ^ 24 ∧ (3 : Int) ≤ 1000 ∧ (1000 : Int) ≤ 2 ^ 16 ∧
    (calculateGridMetrics 4 4 1000 1000).cellW =
      toInt (calculateGridMetrics 4 4 1000 1000).cellW ∧
    (calculateGridMetrics 4 4 1000 1000).cellH =
      toInt (calculateGridMetrics 4 4 1000 1000).cellH ∧
    -9 ≤ 9 * toInt (calculateGridMetrics 4 4 1000 1000).cellW -
      16 * toInt (calculateGridMetrics 4 4 1000 1000).cellH ∧
    9 * toInt (calculateGridMetrics 4 4 1000 1000).cellW -
      16 * toInt (calculateGridMetrics 4 4 1000 1000).cellH ≤ 16 :=
  ⟨by decide, by decide, by decide, by decide,
    C28_cell_aspect_within_truncation 4 4 1000 1000 (by decide) (by decide) (by decide)
      (by decide) (by decide) (by decide) (by decide) (by decide)⟩

end LookingGlass
